import Mathlib

/-!
Position-indexed syntax-tree locator of `godef`

A shallow embedding of `go/ast/ast.go` (node kinds with their `Pos`/`End`
span derivations) and of `find.go` (`unroll`, `findNode`, `findNodeHelper`).

Conventions of the embedding.

* A Go pointer or interface value is an `Option`: `none` is `nil`.  An
  interface value is never a typed nil pointer.
* A Go slice is a `List`; its elements, being pointers or interface values,
  are `Option`s as well.
* A run-time panic (nil dereference, index out of range) and the two
  `log.Fatalf` exits are the `error` results of `Except Failure`.
* Positions are Go `int`s, 64 bits wide: the type `int` holds the integers
  of `[-2^63, 2^63)`, and its sum is the exact sum wrapped around modulo
  `2^64` (`wrap`), so that `p + 1` at the greatest `int` is the least `int`,
  as in the code.
* `len(s)` of a Go string is its length in bytes: `String.utf8ByteSize`.
* Fields that only carry name-resolution data (`Ident.Obj`, `File.Scope`,
  `File.Imports`, `File.Unresolved`, `Package.Scope`, `Package.Imports`) are
  left out: no span derivation and no search reads them.
-/

namespace GoDef

/-! ## Positions and tokens -/

/-- The value an `int` operation yields when its exact result is `x`: Go's
`int` is 64 bits wide, and its arithmetic wraps around modulo `2^64` into
`[-2^63, 2^63)`. -/
def wrap (x : Int) : Int :=
  (9223372036854775808 + x) % 18446744073709551616 - 9223372036854775808

/-- Go's predeclared type `int`, 64 bits wide: an integer of `[-2^63, 2^63)`. -/
structure int where
  toInt : Int
  inRange : -9223372036854775808 ≤ toInt ∧ toInt ≤ 9223372036854775807

/-- The conversion of an integer to `int`, wrapping around. -/
def int.ofInt (x : Int) : int :=
  ⟨wrap x, by unfold wrap; omega⟩

instance : DecidableEq int := fun a b =>
  decidable_of_iff (a.toInt = b.toInt)
    ⟨fun h => by cases a; cases b; cases h; rfl, fun h => by rw [h]⟩

instance : Repr int := ⟨fun a n => reprPrec a.toInt n⟩

instance (n : Nat) : OfNat int n := ⟨int.ofInt n⟩

instance : NatCast int := ⟨fun n => int.ofInt n⟩

/-- The sum of two `int`s wraps around. -/
instance : Add int := ⟨fun a b => int.ofInt (a.toInt + b.toInt)⟩

instance : Neg int := ⟨fun a => int.ofInt (-a.toInt)⟩

/-- The order of `int` is the order of the values. -/
instance : LinearOrder int :=
  LinearOrder.lift' int.toInt (fun a b h => by cases a; cases b; cases h; rfl)

/-- The greatest `int`, `math.MaxInt`. -/
def MaxInt : int := 9223372036854775807

/-- The least `int`, `math.MinInt`. -/
def MinInt : int := -9223372036854775808

namespace token

/-- Modelled from the spec: the `token` package is not among the sources.
A position is an offset into one logical source buffer, of the type
`type Pos int`. -/
abbrev Pos := int

/-- Adding the width `n` of a token to its position `p` does not wrap around:
the end of the token is an `int`. -/
def Pos.Fits (p : Pos) (n : Nat) : Bool := decide (p.toInt + (n : Int) ≤ 9223372036854775807)

/-- Modelled from the spec: the distinguished invalid/absent position (the
zero value of `token.Pos`). -/
def NoPos : Pos := 0

/-- Modelled from the spec: a position is valid when it is not the sentinel. -/
def Pos.IsValid (p : Pos) : Bool := p != NoPos

/-- Modelled from the spec: the `token` package is not among the sources.
A token is represented by the text its `String` method returns, which is all
the span derivations read of it. -/
structure Token where
  text : String
deriving DecidableEq, Repr

/-- The text of a token (`Token.String` of the source). -/
def Token.String (t : Token) : String := t.text

end token

/-- The abnormal exits of the code: the two run-time panics of the span
derivations, and the two `log.Fatalf` exits of `find.go`. -/
inductive Failure where
  /-- A method call or field access through a nil pointer or nil interface. -/
  | nilDeref
  /-- Indexing a slice outside its bounds. -/
  | indexOutOfRange
  /-- The exit `log.Fatalf("node type %T not handled", node)` of `findNodeHelper`. -/
  | notHandled
  /-- The exit `log.Fatalf("expr is %T, not identifier", node)` of `unroll`. -/
  | notIdentifier
deriving DecidableEq, Repr

/-- A method call through a possibly nil pointer: nil panics. -/
def deref {α β : Type} (x : Option α) (f : α → Except Failure β) : Except Failure β :=
  match x with
  | none => .error .nilDeref
  | some a => f a

/-! ## Node kinds -/

/-- A single comment. -/
structure Comment where
  Slash : token.Pos
  Text : String
deriving DecidableEq, Repr

/-- A sequence of comments. -/
structure CommentGroup where
  List : List (Option Comment)
deriving DecidableEq, Repr

/-- An identifier. -/
structure Ident where
  NamePos : token.Pos
  Name : String
deriving DecidableEq, Repr

/-- A literal of basic type. -/
structure BasicLit where
  ValuePos : token.Pos
  Kind : token.Token
  Value : String
deriving DecidableEq, Repr

/-- The direction of a channel type. -/
abbrev ChanDir := int

set_option maxHeartbeats 4000000 in
mutual

/-- Expression and type nodes (the Go interface `Expr`). -/
inductive Expr where
  | BadExpr (From To : token.Pos)
  | Ident (id : Ident)
  | Ellipsis (Ellipsis : token.Pos) (Elt : Option Expr)
  | BasicLit (lit : BasicLit)
  | FuncLit (Typ : Option FuncType) (Body : Option BlockStmt)
  | CompositeLit (Typ : Option Expr) (Lbrace : token.Pos) (Elts : List (Option Expr))
      (Rbrace : token.Pos)
  | ParenExpr (Lparen : token.Pos) (X : Option Expr) (Rparen : token.Pos)
  | SelectorExpr (X : Option Expr) (Sel : Option Ident)
  | IndexExpr (X : Option Expr) (Lbrack : token.Pos) (Index : Option Expr) (Rbrack : token.Pos)
  | SliceExpr (X : Option Expr) (Lbrack : token.Pos) (Low High Max : Option Expr)
      (Slice3 : Bool) (Rbrack : token.Pos)
  | TypeAssertExpr (X : Option Expr) (Typ : Option Expr)
  | CallExpr (call : CallExpr)
  | StarExpr (Star : token.Pos) (X : Option Expr)
  | UnaryExpr (OpPos : token.Pos) (Op : token.Token) (X : Option Expr)
  | BinaryExpr (X : Option Expr) (OpPos : token.Pos) (Op : token.Token) (Y : Option Expr)
  | KeyValueExpr (Key : Option Expr) (Colon : token.Pos) (Value : Option Expr)
  | ArrayType (Lbrack : token.Pos) (Len : Option Expr) (Elt : Option Expr)
  | StructType (Struct : token.Pos) (Fields : Option FieldList) (Incomplete : Bool)
  | FuncType (ft : FuncType)
  | InterfaceType (Interface : token.Pos) (Methods : Option FieldList) (Incomplete : Bool)
  | MapType (Map : token.Pos) (Key : Option Expr) (Value : Option Expr)
  | ChanType (Begin : token.Pos) (Dir : ChanDir) (Value : Option Expr)

/-- The struct `CallExpr`: an expression followed by an argument list. -/
inductive CallExpr where
  | mk (Fun : Option Expr) (Lparen : token.Pos) (Args : List (Option Expr))
      (Ellipsis : token.Pos) (Rparen : token.Pos)

/-- The struct `FuncType`: a function signature. -/
inductive FuncType where
  | mk (Func : token.Pos) (Params : Option FieldList) (Results : Option FieldList)

/-- The struct `FieldList`: a list of fields, enclosed by parentheses or braces. -/
inductive FieldList where
  | mk (Opening : token.Pos) (Lst : List (Option Field)) (Closing : token.Pos)

/-- The struct `Field`: a field, method or parameter declaration. -/
inductive Field where
  | mk (Doc : Option CommentGroup) (Names : List (Option Ident)) (Typ : Option Expr)
      (Tag : Option BasicLit) (Comment : Option CommentGroup)

/-- The struct `BlockStmt`: a braced statement list. -/
inductive BlockStmt where
  | mk (Lbrace : token.Pos) (Lst : List (Option Stmt)) (Rbrace : token.Pos)

/-- Statement nodes (the Go interface `Stmt`). -/
inductive Stmt where
  | BadStmt (From To : token.Pos)
  | DeclStmt (Decl : Option Decl)
  | EmptyStmt (Semicolon : token.Pos)
  | LabeledStmt (Label : Option Ident) (Colon : token.Pos) (Stmt : Option Stmt)
  | ExprStmt (X : Option Expr)
  | SendStmt (Chan : Option Expr) (Arrow : token.Pos) (Value : Option Expr)
  | IncDecStmt (X : Option Expr) (TokPos : token.Pos) (Tok : token.Token)
  | AssignStmt (Lhs : List (Option Expr)) (TokPos : token.Pos) (Tok : token.Token)
      (Rhs : List (Option Expr))
  | GoStmt (Go : token.Pos) (Call : Option CallExpr)
  | DeferStmt (Defer : token.Pos) (Call : Option CallExpr)
  | ReturnStmt (Return : token.Pos) (Results : List (Option Expr))
  | BranchStmt (TokPos : token.Pos) (Tok : token.Token) (Label : Option Ident)
  | BlockStmt (block : BlockStmt)
  | IfStmt (If : token.Pos) (Init : Option Stmt) (Cond : Option Expr) (Body : Option BlockStmt)
      (Else : Option Stmt)
  | CaseClause (Case : token.Pos) (Lst : List (Option Expr)) (Colon : token.Pos)
      (Body : List (Option Stmt))
  | SwitchStmt (Switch : token.Pos) (Init : Option Stmt) (Tag : Option Expr)
      (Body : Option BlockStmt)
  | TypeSwitchStmt (Switch : token.Pos) (Init : Option Stmt) (Assign : Option Stmt)
      (Body : Option BlockStmt)
  | CommClause (Case : token.Pos) (Comm : Option Stmt) (Colon : token.Pos)
      (Body : List (Option Stmt))
  | SelectStmt (Select : token.Pos) (Body : Option BlockStmt)
  | ForStmt (For : token.Pos) (Init : Option Stmt) (Cond : Option Expr) (Post : Option Stmt)
      (Body : Option BlockStmt)
  | RangeStmt (For : token.Pos) (Key : Option Expr) (Value : Option Expr) (TokPos : token.Pos)
      (Tok : token.Token) (X : Option Expr) (Body : Option BlockStmt)

/-- Import, value and type specs (the Go interface `Spec`). -/
inductive Spec where
  | ImportSpec (Doc : Option CommentGroup) (Name : Option Ident) (Path : Option BasicLit)
      (Comment : Option CommentGroup)
  | ValueSpec (Doc : Option CommentGroup) (Names : List (Option Ident)) (Typ : Option Expr)
      (Values : List (Option Expr)) (Comment : Option CommentGroup)
  | TypeSpec (Doc : Option CommentGroup) (Name : Option Ident) (Assign : token.Pos)
      (Typ : Option Expr) (Comment : Option CommentGroup)

/-- Declaration nodes (the Go interface `Decl`). -/
inductive Decl where
  | BadDecl (From To : token.Pos)
  | GenDecl (Doc : Option CommentGroup) (TokPos : token.Pos) (Tok : token.Token)
      (Lparen : token.Pos) (Specs : List (Option Spec)) (Rparen : token.Pos)
  | FuncDecl (Doc : Option CommentGroup) (Recv : Option FieldList) (Name : Option Ident)
      (Typ : Option FuncType) (Body : Option BlockStmt)

end

/-- A Go source file. -/
structure File where
  Doc : Option CommentGroup
  Package : token.Pos
  Name : Option Ident
  Decls : List (Option Decl)
  Comments : List (Option CommentGroup)

/-- A set of source files building a Go package. -/
structure Package where
  Name : String
  Files : List (String × Option File)

/-- A non-nil value of the Go interface `Node`: a pointer to a node of one of
the concrete kinds.  `*Ident`, `*BasicLit`, `*CallExpr` and `*FuncType` are
the `Expr` nodes of that kind, `*BlockStmt` is the `Stmt` node of that kind. -/
inductive Node where
  | Comment (c : Comment)
  | CommentGroup (g : CommentGroup)
  | Field (f : Field)
  | FieldList (l : FieldList)
  | Expr (e : Expr)
  | Stmt (s : Stmt)
  | Spec (s : Spec)
  | Decl (d : Decl)
  | File (f : File)
  | Package (p : Package)

/-! ## Spans: `Pos` and `End`

For a node kind `T`, `T.Pos` and `T.End` are the methods of the source on a
non-nil receiver; `T.PosOf` and `T.EndOf` are the method calls `x.Pos()` and
`x.End()` on a possibly nil `x`. -/

/-- The method `(c *Comment) Pos`. -/
def Comment.Pos (c : Comment) : token.Pos := c.Slash

/-- The method `(c *Comment) End`. -/
def Comment.End (c : Comment) : token.Pos := c.Slash + (c.Text.utf8ByteSize : token.Pos)

/-- The method `(g *CommentGroup) Pos`: `g.List[0].Pos()`. -/
def CommentGroup.Pos (g : CommentGroup) : Except Failure token.Pos :=
  match g.List with
  | [] => .error .indexOutOfRange
  | c :: _ => deref c (fun c => .ok c.Pos)

/-- The method `(g *CommentGroup) End`: `g.List[len(g.List)-1].End()`. -/
def CommentGroup.End (g : CommentGroup) : Except Failure token.Pos :=
  match g.List.getLast? with
  | none => .error .indexOutOfRange
  | some c => deref c (fun c => .ok c.End)

/-- The method `(x *Ident) Pos`. -/
def Ident.Pos (x : Ident) : token.Pos := x.NamePos

/-- The method `(x *Ident) End`. -/
def Ident.End (x : Ident) : token.Pos := x.NamePos + (x.Name.utf8ByteSize : token.Pos)

/-- The call `x.Pos()` on an `x` of type `*Ident`. -/
def Ident.PosOf (x : Option Ident) : Except Failure token.Pos := deref x (fun i => .ok i.Pos)

/-- The call `x.End()` on an `x` of type `*Ident`. -/
def Ident.EndOf (x : Option Ident) : Except Failure token.Pos := deref x (fun i => .ok i.End)

/-- The method `(x *BasicLit) Pos`. -/
def BasicLit.Pos (x : BasicLit) : token.Pos := x.ValuePos

/-- The method `(x *BasicLit) End`. -/
def BasicLit.End (x : BasicLit) : token.Pos := x.ValuePos + (x.Value.utf8ByteSize : token.Pos)

/-- The call `x.Pos()` on an `x` of type `*BasicLit`. -/
def BasicLit.PosOf (x : Option BasicLit) : Except Failure token.Pos :=
  deref x (fun b => .ok b.Pos)

/-- The call `x.End()` on an `x` of type `*BasicLit`. -/
def BasicLit.EndOf (x : Option BasicLit) : Except Failure token.Pos :=
  deref x (fun b => .ok b.End)

mutual

/-- The `Pos` methods of the expression and type nodes. -/
def Expr.Pos : Expr → Except Failure token.Pos
  | .BadExpr From _ => .ok From
  | .Ident x => .ok x.Pos
  | .Ellipsis p _ => .ok p
  | .BasicLit x => .ok x.Pos
  | .FuncLit Typ _ => FuncType.PosOf Typ
  | .CompositeLit Typ Lbrace _ _ =>
    match Typ with
    | some t => Expr.Pos t
    | none => .ok Lbrace
  | .ParenExpr Lparen _ _ => .ok Lparen
  | .SelectorExpr X _ => Expr.PosOf X
  | .IndexExpr X _ _ _ => Expr.PosOf X
  | .SliceExpr X _ _ _ _ _ _ => Expr.PosOf X
  | .TypeAssertExpr X _ => Expr.PosOf X
  | .CallExpr c => CallExpr.Pos c
  | .StarExpr Star _ => .ok Star
  | .UnaryExpr OpPos _ _ => .ok OpPos
  | .BinaryExpr X _ _ _ => Expr.PosOf X
  | .KeyValueExpr Key _ _ => Expr.PosOf Key
  | .ArrayType Lbrack _ _ => .ok Lbrack
  | .StructType Struct _ _ => .ok Struct
  | .FuncType ft => FuncType.Pos ft
  | .InterfaceType Interface _ _ => .ok Interface
  | .MapType Map _ _ => .ok Map
  | .ChanType Begin _ _ => .ok Begin

/-- The call `x.Pos()` on an `x` of interface type `Expr`. -/
def Expr.PosOf : Option Expr → Except Failure token.Pos
  | none => .error .nilDeref
  | some e => Expr.Pos e

/-- The method `(x *CallExpr) Pos`. -/
def CallExpr.Pos : CallExpr → Except Failure token.Pos
  | .mk Fun _ _ _ _ => Expr.PosOf Fun

/-- The method `(x *FuncType) Pos`. -/
def FuncType.Pos : FuncType → Except Failure token.Pos
  | .mk Func _ _ => .ok Func

/-- The call `x.Pos()` on an `x` of type `*FuncType`. -/
def FuncType.PosOf : Option FuncType → Except Failure token.Pos
  | none => .error .nilDeref
  | some t => FuncType.Pos t

end

/-- The call `x.Pos()` on an `x` of type `*CallExpr`. -/
def CallExpr.PosOf (x : Option CallExpr) : Except Failure token.Pos := deref x CallExpr.Pos

/-- The method `(f *Field) Pos`. -/
def Field.Pos : Field → Except Failure token.Pos
  | .mk _ Names Typ _ _ =>
    match Names with
    | n :: _ => Ident.PosOf n
    | [] => Expr.PosOf Typ

/-- The call `x.Pos()` on an `x` of type `*Field`. -/
def Field.PosOf (x : Option Field) : Except Failure token.Pos := deref x Field.Pos

/-- The method `(f *FieldList) Pos`. -/
def FieldList.Pos : FieldList → Except Failure token.Pos
  | .mk Opening Lst _ =>
    if Opening.IsValid then .ok Opening
    else
      match Lst with
      | f :: _ => Field.PosOf f
      | [] => .ok token.NoPos

/-- The call `x.Pos()` on an `x` of type `*FieldList`. -/
def FieldList.PosOf (x : Option FieldList) : Except Failure token.Pos := deref x FieldList.Pos

/-- The method `(s *BlockStmt) Pos`. -/
def BlockStmt.Pos : BlockStmt → Except Failure token.Pos
  | .mk Lbrace _ _ => .ok Lbrace

/-- The call `x.Pos()` on an `x` of type `*BlockStmt`. -/
def BlockStmt.PosOf (x : Option BlockStmt) : Except Failure token.Pos := deref x BlockStmt.Pos

/-- The `Pos` methods of the spec nodes. -/
def Spec.Pos : Spec → Except Failure token.Pos
  | .ImportSpec _ Name Path _ =>
    match Name with
    | some n => .ok n.Pos
    | none => BasicLit.PosOf Path
  | .ValueSpec _ Names _ _ _ =>
    match Names with
    | [] => .error .indexOutOfRange
    | n :: _ => Ident.PosOf n
  | .TypeSpec _ Name _ _ _ => Ident.PosOf Name

/-- The call `x.Pos()` on an `x` of interface type `Spec`. -/
def Spec.PosOf (x : Option Spec) : Except Failure token.Pos := deref x Spec.Pos

/-- The `Pos` methods of the declaration nodes. -/
def Decl.Pos : Decl → Except Failure token.Pos
  | .BadDecl From _ => .ok From
  | .GenDecl _ TokPos _ _ _ _ => .ok TokPos
  | .FuncDecl _ _ _ Typ _ => FuncType.PosOf Typ

/-- The call `x.Pos()` on an `x` of interface type `Decl`. -/
def Decl.PosOf (x : Option Decl) : Except Failure token.Pos := deref x Decl.Pos

/-- The `Pos` methods of the statement nodes. -/
def Stmt.Pos : Stmt → Except Failure token.Pos
  | .BadStmt From _ => .ok From
  | .DeclStmt d => Decl.PosOf d
  | .EmptyStmt Semicolon => .ok Semicolon
  | .LabeledStmt Label _ _ => Ident.PosOf Label
  | .ExprStmt X => Expr.PosOf X
  | .SendStmt Chan _ _ => Expr.PosOf Chan
  | .IncDecStmt X _ _ => Expr.PosOf X
  | .AssignStmt Lhs _ _ _ =>
    match Lhs with
    | [] => .error .indexOutOfRange
    | e :: _ => Expr.PosOf e
  | .GoStmt Go _ => .ok Go
  | .DeferStmt Defer _ => .ok Defer
  | .ReturnStmt Return _ => .ok Return
  | .BranchStmt TokPos _ _ => .ok TokPos
  | .BlockStmt b => BlockStmt.Pos b
  | .IfStmt If _ _ _ _ => .ok If
  | .CaseClause Case _ _ _ => .ok Case
  | .SwitchStmt Switch _ _ _ => .ok Switch
  | .TypeSwitchStmt Switch _ _ _ => .ok Switch
  | .CommClause Case _ _ _ => .ok Case
  | .SelectStmt Select _ => .ok Select
  | .ForStmt For _ _ _ _ => .ok For
  | .RangeStmt For _ _ _ _ _ _ => .ok For

/-- The call `x.Pos()` on an `x` of interface type `Stmt`. -/
def Stmt.PosOf (x : Option Stmt) : Except Failure token.Pos := deref x Stmt.Pos

/-- The method `(f *File) Pos`. -/
def File.Pos (f : File) : token.Pos := f.Package

/-- The method `(p *Package) Pos`. -/
def Package.Pos (_p : Package) : token.Pos := token.NoPos

/-- The element `xs[len(xs)-1]` of a slice: indexing an empty slice panics. -/
def lastElem {α : Type} (xs : List α) : Except Failure α :=
  match xs.getLast? with
  | none => .error .indexOutOfRange
  | some x => .ok x

/-- The method `(x *CallExpr) End`. -/
def CallExpr.End : CallExpr → Except Failure token.Pos
  | .mk _ _ _ _ Rparen => .ok (Rparen + 1)

/-- The call `x.End()` on an `x` of type `*CallExpr`. -/
def CallExpr.EndOf (x : Option CallExpr) : Except Failure token.Pos := deref x CallExpr.End

/-- The method `(s *BlockStmt) End`. -/
def BlockStmt.End : BlockStmt → Except Failure token.Pos
  | .mk _ _ Rbrace => .ok (Rbrace + 1)

/-- The call `x.End()` on an `x` of type `*BlockStmt`. -/
def BlockStmt.EndOf (x : Option BlockStmt) : Except Failure token.Pos := deref x BlockStmt.End

mutual

/-- The `End` methods of the expression and type nodes. -/
def Expr.End : Expr → Except Failure token.Pos
  | .BadExpr _ To => .ok To
  | .Ident x => .ok x.End
  | .Ellipsis p Elt =>
    match Elt with
    | some e => Expr.End e
    | none => .ok (p + 3)
  | .BasicLit x => .ok x.End
  | .FuncLit _ Body => BlockStmt.EndOf Body
  | .CompositeLit _ _ _ Rbrace => .ok (Rbrace + 1)
  | .ParenExpr _ _ Rparen => .ok (Rparen + 1)
  | .SelectorExpr _ Sel => Ident.EndOf Sel
  | .IndexExpr _ _ _ Rbrack => .ok (Rbrack + 1)
  | .SliceExpr _ _ _ _ _ _ Rbrack => .ok (Rbrack + 1)
  | .TypeAssertExpr X Typ =>
    match Typ with
    | some t => Expr.End t
    | none => Expr.EndOf X
  | .CallExpr c => CallExpr.End c
  | .StarExpr _ X => Expr.EndOf X
  | .UnaryExpr _ _ X => Expr.EndOf X
  | .BinaryExpr _ _ _ Y => Expr.EndOf Y
  | .KeyValueExpr _ _ Value => Expr.EndOf Value
  | .ArrayType _ _ Elt => Expr.EndOf Elt
  | .StructType _ Fields _ => FieldList.EndOf Fields
  | .FuncType ft => FuncType.End ft
  | .InterfaceType _ Methods _ => FieldList.EndOf Methods
  | .MapType _ _ Value => Expr.EndOf Value
  | .ChanType _ _ Value => Expr.EndOf Value

/-- The call `x.End()` on an `x` of interface type `Expr`. -/
def Expr.EndOf : Option Expr → Except Failure token.Pos
  | none => .error .nilDeref
  | some e => Expr.End e

/-- The method `(x *FuncType) End`. -/
def FuncType.End : FuncType → Except Failure token.Pos
  | .mk _ Params Results =>
    match Results with
    | some r => FieldList.End r
    | none => FieldList.EndOf Params

/-- The method `(f *FieldList) End`. -/
def FieldList.End : FieldList → Except Failure token.Pos
  | .mk _ Lst Closing =>
    if Closing.IsValid then .ok (Closing + 1)
    else
      match Lst with
      | [] => .ok token.NoPos
      | _ :: _ => Field.EndLast Lst

/-- The call `x.End()` on an `x` of type `*FieldList`. -/
def FieldList.EndOf : Option FieldList → Except Failure token.Pos
  | none => .error .nilDeref
  | some l => FieldList.End l

/-- The method `(f *Field) End`. -/
def Field.End : Field → Except Failure token.Pos
  | .mk _ _ Typ Tag _ =>
    match Tag with
    | some t => .ok t.End
    | none => Expr.EndOf Typ

/-- The call `x.End()` on an `x` of type `*Field`. -/
def Field.EndOf : Option Field → Except Failure token.Pos
  | none => .error .nilDeref
  | some f => Field.End f

/-- The call `fs[len(fs)-1].End()` on a slice of fields. -/
def Field.EndLast : List (Option Field) → Except Failure token.Pos
  | [] => .error .indexOutOfRange
  | f :: fs =>
    match fs with
    | [] => Field.EndOf f
    | _ :: _ => Field.EndLast fs

end

/-- The call `x.End()` on an `x` of type `*FuncType`. -/
def FuncType.EndOf (x : Option FuncType) : Except Failure token.Pos := deref x FuncType.End

/-- The call `es[len(es)-1].End()` on a slice of expressions. -/
def Expr.EndLast (es : List (Option Expr)) : Except Failure token.Pos :=
  (lastElem es).bind Expr.EndOf

/-- The `End` methods of the spec nodes. -/
def Spec.End : Spec → Except Failure token.Pos
  | .ImportSpec _ _ Path _ => BasicLit.EndOf Path
  | .ValueSpec _ Names Typ Values _ =>
    match Values with
    | _ :: _ => Expr.EndLast Values
    | [] =>
      match Typ with
      | some t => Expr.End t
      | none => (lastElem Names).bind Ident.EndOf
  | .TypeSpec _ _ _ Typ _ => Expr.EndOf Typ

/-- The call `x.End()` on an `x` of interface type `Spec`. -/
def Spec.EndOf (x : Option Spec) : Except Failure token.Pos := deref x Spec.End

/-- The `End` methods of the declaration nodes. -/
def Decl.End : Decl → Except Failure token.Pos
  | .BadDecl _ To => .ok To
  | .GenDecl _ _ _ _ Specs Rparen =>
    if Rparen.IsValid then .ok (Rparen + 1)
    else
      match Specs with
      | [] => .error .indexOutOfRange
      | s :: _ => Spec.EndOf s
  | .FuncDecl _ _ _ Typ Body =>
    match Body with
    | some b => BlockStmt.End b
    | none => FuncType.EndOf Typ

/-- The call `x.End()` on an `x` of interface type `Decl`. -/
def Decl.EndOf (x : Option Decl) : Except Failure token.Pos := deref x Decl.End

mutual

/-- The `End` methods of the statement nodes. -/
def Stmt.End : Stmt → Except Failure token.Pos
  | .BadStmt _ To => .ok To
  | .DeclStmt d => Decl.EndOf d
  | .EmptyStmt Semicolon => .ok (Semicolon + 1)
  | .LabeledStmt _ _ s => Stmt.EndOf s
  | .ExprStmt X => Expr.EndOf X
  | .SendStmt _ _ Value => Expr.EndOf Value
  | .IncDecStmt _ TokPos _ => .ok (TokPos + 2)
  | .AssignStmt _ _ _ Rhs => Expr.EndLast Rhs
  | .GoStmt _ Call => CallExpr.EndOf Call
  | .DeferStmt _ Call => CallExpr.EndOf Call
  | .ReturnStmt Return Results =>
    match Results with
    | _ :: _ => Expr.EndLast Results
    | [] => .ok (Return + 6)
  | .BranchStmt TokPos Tok Label =>
    match Label with
    | some l => .ok l.End
    | none => .ok (TokPos + (Tok.String.utf8ByteSize : token.Pos))
  | .BlockStmt b => BlockStmt.End b
  | .IfStmt _ _ _ Body Else =>
    match Else with
    | some e => Stmt.End e
    | none => BlockStmt.EndOf Body
  | .CaseClause _ _ Colon Body =>
    match Body with
    | _ :: _ => Stmt.EndLast Body
    | [] => .ok (Colon + 1)
  | .SwitchStmt _ _ _ Body => BlockStmt.EndOf Body
  | .TypeSwitchStmt _ _ _ Body => BlockStmt.EndOf Body
  | .CommClause _ _ Colon Body =>
    match Body with
    | _ :: _ => Stmt.EndLast Body
    | [] => .ok (Colon + 1)
  | .SelectStmt _ Body => BlockStmt.EndOf Body
  | .ForStmt _ _ _ _ Body => BlockStmt.EndOf Body
  | .RangeStmt _ _ _ _ _ _ Body => BlockStmt.EndOf Body

/-- The call `x.End()` on an `x` of interface type `Stmt`. -/
def Stmt.EndOf : Option Stmt → Except Failure token.Pos
  | none => .error .nilDeref
  | some s => Stmt.End s

/-- The call `ss[len(ss)-1].End()` on a slice of statements. -/
def Stmt.EndLast : List (Option Stmt) → Except Failure token.Pos
  | [] => .error .indexOutOfRange
  | s :: ss =>
    match ss with
    | [] => Stmt.EndOf s
    | _ :: _ => Stmt.EndLast ss

end

/-- The method `(f *File) End`. -/
def File.End (f : File) : Except Failure token.Pos :=
  match f.Decls with
  | _ :: _ => (lastElem f.Decls).bind Decl.EndOf
  | [] => Ident.EndOf f.Name

/-- The method `(p *Package) End`. -/
def Package.End (_p : Package) : token.Pos := token.NoPos

/-- The method `Pos` called through the interface `Node`, on a non-nil node. -/
def Node.Pos : Node → Except Failure token.Pos
  | .Comment c => .ok c.Pos
  | .CommentGroup g => g.Pos
  | .Field f => f.Pos
  | .FieldList l => l.Pos
  | .Expr e => e.Pos
  | .Stmt s => s.Pos
  | .Spec s => s.Pos
  | .Decl d => d.Pos
  | .File f => .ok f.Pos
  | .Package p => .ok p.Pos

/-- The method `End` called through the interface `Node`, on a non-nil node. -/
def Node.End : Node → Except Failure token.Pos
  | .Comment c => .ok c.End
  | .CommentGroup g => g.End
  | .Field f => f.End
  | .FieldList l => l.End
  | .Expr e => e.End
  | .Stmt s => s.End
  | .Spec s => s.End
  | .Decl d => d.End
  | .File f => f.End
  | .Package p => .ok p.End

/-! ## The locator of `find.go`

`findNodeHelper` takes a value of the interface `Node`.  Its embedding is one
function per static type of the argument (`findNodeHelperExpr` for an
argument of type `Expr`, and so on), each made of the three parts of the
source: the nil test, the span test, and the case of the type switch for the
node kind (`Expr.findCase` and so on). -/

/-- The result of a search: a matching node, or nil for no match. -/
abbrev Result := Except Failure (Option Node)

/-- The statement sequence `if n := a; n != nil { return n }` followed by
`return b`: `b` is not evaluated when `a` is a match or does not return. -/
def orElse (a : Result) (b : Result) : Result :=
  match a with
  | .ok none => b
  | r => r

/-- The span test `if node.Pos() > pos || node.End() <= pos { return nil }`
followed by `body`. -/
def spanGuard (p e : Except Failure token.Pos) (pos : token.Pos) (body : Result) : Result :=
  match p with
  | .error f => .error f
  | .ok p =>
    if p > pos then .ok none
    else
      match e with
      | .error f => .error f
      | .ok e => if e ≤ pos then .ok none else body

/-- The case `*ast.Ident` of the type switch. -/
def Ident.findCase (node : Ident) (pos : token.Pos) : Result :=
  if node.Pos ≤ pos && pos < node.End then .ok (some (.Expr (.Ident node))) else .ok none

/-- The function `findNodeHelper` on an argument of type `*Ident`. -/
def findNodeHelperIdent (node : Option Ident) (pos : token.Pos) : Result :=
  match node with
  | none => .ok none
  | some i => spanGuard (.ok i.Pos) (.ok i.End) pos (i.findCase pos)

/-- The loop `for _, id := range ids { if n := findNodeHelper(id, pos); n != nil { return n } }`
followed by `return nil`. -/
def findNodeHelperIdents (ids : List (Option Ident)) (pos : token.Pos) : Result :=
  match ids with
  | [] => .ok none
  | i :: is => orElse (findNodeHelperIdent i pos) (findNodeHelperIdents is pos)

/-- The case `*ast.SelectorExpr` of the type switch. -/
def selectorCase (X : Option Expr) (Sel : Option Ident) (pos : token.Pos) : Result :=
  match Expr.PosOf X with
  | .error f => .error f
  | .ok p =>
    if p ≤ pos then
      match Ident.EndOf Sel with
      | .error f => .error f
      | .ok e => if pos < e then .ok (some (.Expr (.SelectorExpr X Sel))) else .ok none
    else .ok none

set_option maxHeartbeats 4000000 in
mutual

/-- The function `findNodeHelper` on an argument of interface type `Expr`. -/
def findNodeHelperExpr : Option Expr → token.Pos → Result
  | none, _ => .ok none
  | some e, pos => spanGuard (Expr.Pos e) (Expr.End e) pos (Expr.findCase e pos)

/-- The cases of the type switch for the expression and type nodes. -/
def Expr.findCase : Expr → token.Pos → Result
  | .BadExpr _ _, _ => .error .notHandled
  | .Ident node, pos => node.findCase pos
  | .Ellipsis _ Elt, pos => findNodeHelperExpr Elt pos
  | .BasicLit _, _ => .ok none
  | .FuncLit Typ Body, pos =>
    orElse (findNodeHelperFuncType Typ pos) (findNodeHelperBlockStmt Body pos)
  | .CompositeLit Typ _ Elts _, pos =>
    orElse (findNodeHelperExpr Typ pos) (findNodeHelperExprs Elts pos)
  | .ParenExpr _ X _, pos => findNodeHelperExpr X pos
  | .SelectorExpr X Sel, pos => selectorCase X Sel pos
  | .IndexExpr X _ Index _, pos =>
    orElse (findNodeHelperExpr X pos) (findNodeHelperExpr Index pos)
  | .SliceExpr X _ Low High Max _ _, pos =>
    orElse (findNodeHelperExpr X pos)
      (orElse (findNodeHelperExpr Low pos)
        (orElse (findNodeHelperExpr High pos) (findNodeHelperExpr Max pos)))
  | .TypeAssertExpr X Typ, pos =>
    orElse (findNodeHelperExpr X pos) (findNodeHelperExpr Typ pos)
  | .CallExpr c, pos => CallExpr.findCase c pos
  | .StarExpr _ X, pos => findNodeHelperExpr X pos
  | .UnaryExpr _ _ X, pos => findNodeHelperExpr X pos
  | .BinaryExpr X _ _ Y, pos =>
    orElse (findNodeHelperExpr X pos) (findNodeHelperExpr Y pos)
  | .KeyValueExpr Key _ Value, pos =>
    orElse (findNodeHelperExpr Key pos) (findNodeHelperExpr Value pos)
  | .ArrayType _ Len Elt, pos =>
    orElse (findNodeHelperExpr Len pos) (findNodeHelperExpr Elt pos)
  | .StructType _ Fields _, pos => findNodeHelperFieldList Fields pos
  | .FuncType ft, pos => FuncType.findCase ft pos
  | .InterfaceType _ Methods _, pos => findNodeHelperFieldList Methods pos
  | .MapType _ Key Value, pos =>
    orElse (findNodeHelperExpr Key pos) (findNodeHelperExpr Value pos)
  | .ChanType _ _ Value, pos => findNodeHelperExpr Value pos

/-- The loop `for _, e := range es { if n := findNodeHelper(e, pos); n != nil { return n } }`
followed by `return nil`. -/
def findNodeHelperExprs : List (Option Expr) → token.Pos → Result
  | [], _ => .ok none
  | e :: es, pos => orElse (findNodeHelperExpr e pos) (findNodeHelperExprs es pos)

/-- The function `findNodeHelper` on an argument of type `*CallExpr`. -/
def findNodeHelperCallExpr : Option CallExpr → token.Pos → Result
  | none, _ => .ok none
  | some c, pos => spanGuard (CallExpr.Pos c) (CallExpr.End c) pos (CallExpr.findCase c pos)

/-- The case `*ast.CallExpr` of the type switch. -/
def CallExpr.findCase : CallExpr → token.Pos → Result
  | .mk Fun _ Args _ _, pos =>
    orElse (findNodeHelperExpr Fun pos) (findNodeHelperExprs Args pos)

/-- The function `findNodeHelper` on an argument of type `*FuncType`. -/
def findNodeHelperFuncType : Option FuncType → token.Pos → Result
  | none, _ => .ok none
  | some t, pos => spanGuard (FuncType.Pos t) (FuncType.End t) pos (FuncType.findCase t pos)

/-- The case `*ast.FuncType` of the type switch. -/
def FuncType.findCase : FuncType → token.Pos → Result
  | .mk _ Params Results, pos =>
    orElse (findNodeHelperFieldList Params pos) (findNodeHelperFieldList Results pos)

/-- The function `findNodeHelper` on an argument of type `*FieldList`. -/
def findNodeHelperFieldList : Option FieldList → token.Pos → Result
  | none, _ => .ok none
  | some l, pos => spanGuard (FieldList.Pos l) (FieldList.End l) pos (FieldList.findCase l pos)

/-- The case `*ast.FieldList` of the type switch. -/
def FieldList.findCase : FieldList → token.Pos → Result
  | .mk _ Lst _, pos => findNodeHelperFields Lst pos

/-- The loop `for _, f := range fs { if n := findNodeHelper(f, pos); n != nil { return n } }`
followed by `return nil`. -/
def findNodeHelperFields : List (Option Field) → token.Pos → Result
  | [], _ => .ok none
  | f :: fs, pos => orElse (findNodeHelperField f pos) (findNodeHelperFields fs pos)

/-- The function `findNodeHelper` on an argument of type `*Field`. -/
def findNodeHelperField : Option Field → token.Pos → Result
  | none, _ => .ok none
  | some f, pos => spanGuard (Field.Pos f) (Field.End f) pos (Field.findCase f pos)

/-- The case `*ast.Field` of the type switch. -/
def Field.findCase : Field → token.Pos → Result
  | .mk _ Names Typ _ _, pos =>
    orElse (findNodeHelperIdents Names pos) (findNodeHelperExpr Typ pos)

/-- The function `findNodeHelper` on an argument of type `*BlockStmt`. -/
def findNodeHelperBlockStmt : Option BlockStmt → token.Pos → Result
  | none, _ => .ok none
  | some b, pos => spanGuard (BlockStmt.Pos b) (BlockStmt.End b) pos (BlockStmt.findCase b pos)

/-- The case `*ast.BlockStmt` of the type switch. -/
def BlockStmt.findCase : BlockStmt → token.Pos → Result
  | .mk _ Lst _, pos => findNodeHelperStmts Lst pos

/-- The function `findNodeHelper` on an argument of interface type `Stmt`. -/
def findNodeHelperStmt : Option Stmt → token.Pos → Result
  | none, _ => .ok none
  | some s, pos => spanGuard (Stmt.Pos s) (Stmt.End s) pos (Stmt.findCase s pos)

/-- The cases of the type switch for the statement nodes. -/
def Stmt.findCase : Stmt → token.Pos → Result
  | .BadStmt _ _, _ => .error .notHandled
  | .DeclStmt d, pos => findNodeHelperDecl d pos
  | .EmptyStmt _, _ => .error .notHandled
  | .LabeledStmt Label _ s, pos =>
    orElse (findNodeHelperIdent Label pos) (findNodeHelperStmt s pos)
  | .ExprStmt X, pos => findNodeHelperExpr X pos
  | .SendStmt Chan _ Value, pos =>
    orElse (findNodeHelperExpr Chan pos) (findNodeHelperExpr Value pos)
  | .IncDecStmt X _ _, pos => findNodeHelperExpr X pos
  | .AssignStmt Lhs _ _ Rhs, pos =>
    orElse (findNodeHelperExprs Lhs pos) (findNodeHelperExprs Rhs pos)
  | .GoStmt _ Call, pos => findNodeHelperCallExpr Call pos
  | .DeferStmt _ Call, pos => findNodeHelperCallExpr Call pos
  | .ReturnStmt _ Results, pos => findNodeHelperExprs Results pos
  | .BranchStmt _ _ Label, pos => findNodeHelperIdent Label pos
  | .BlockStmt b, pos => BlockStmt.findCase b pos
  | .IfStmt _ Init Cond Body Else, pos =>
    orElse (findNodeHelperStmt Init pos)
      (orElse (findNodeHelperExpr Cond pos)
        (orElse (findNodeHelperBlockStmt Body pos) (findNodeHelperStmt Else pos)))
  | .CaseClause _ Lst _ Body, pos =>
    orElse (findNodeHelperExprs Lst pos) (findNodeHelperStmts Body pos)
  | .SwitchStmt _ Init Tag Body, pos =>
    orElse (findNodeHelperStmt Init pos)
      (orElse (findNodeHelperExpr Tag pos) (findNodeHelperBlockStmt Body pos))
  | .TypeSwitchStmt _ Init Assign Body, pos =>
    orElse (findNodeHelperStmt Init pos)
      (orElse (findNodeHelperStmt Assign pos) (findNodeHelperBlockStmt Body pos))
  | .CommClause _ Comm _ Body, pos =>
    orElse (findNodeHelperStmt Comm pos) (findNodeHelperStmts Body pos)
  | .SelectStmt _ Body, pos => findNodeHelperBlockStmt Body pos
  | .ForStmt _ Init Cond Post Body, pos =>
    orElse (findNodeHelperStmt Init pos)
      (orElse (findNodeHelperExpr Cond pos)
        (orElse (findNodeHelperStmt Post pos) (findNodeHelperBlockStmt Body pos)))
  | .RangeStmt _ Key Value _ _ X Body, pos =>
    orElse (findNodeHelperExpr Key pos)
      (orElse (findNodeHelperExpr Value pos)
        (orElse (findNodeHelperExpr X pos) (findNodeHelperBlockStmt Body pos)))

/-- The loop `for _, s := range ss { if n := findNodeHelper(s, pos); n != nil { return n } }`
followed by `return nil`. -/
def findNodeHelperStmts : List (Option Stmt) → token.Pos → Result
  | [], _ => .ok none
  | s :: ss, pos => orElse (findNodeHelperStmt s pos) (findNodeHelperStmts ss pos)

/-- The function `findNodeHelper` on an argument of interface type `Decl`. -/
def findNodeHelperDecl : Option Decl → token.Pos → Result
  | none, _ => .ok none
  | some d, pos => spanGuard (Decl.Pos d) (Decl.End d) pos (Decl.findCase d pos)

/-- The cases of the type switch for the declaration nodes: `*ast.BadDecl` has
no case, the case `*ast.GenDecl` has an empty body, and both leave the switch
for the final `log.Fatalf`. -/
def Decl.findCase : Decl → token.Pos → Result
  | .BadDecl _ _, _ => .error .notHandled
  | .GenDecl _ _ _ _ _ _, _ => .error .notHandled
  | .FuncDecl _ Recv _ Typ Body, pos =>
    orElse (findNodeHelperFieldList Recv pos)
      (orElse (findNodeHelperFuncType Typ pos) (findNodeHelperBlockStmt Body pos))

end

/-- The loop of the case `*ast.File` over `node.Decls`, followed by `return nil`. -/
def findNodeHelperDecls (ds : List (Option Decl)) (pos : token.Pos) : Result :=
  match ds with
  | [] => .ok none
  | d :: ds => orElse (findNodeHelperDecl d pos) (findNodeHelperDecls ds pos)

/-- The case `*ast.File` of the type switch. -/
def File.findCase (node : File) (pos : token.Pos) : Result :=
  findNodeHelperDecls node.Decls pos

/-- The type switch of `findNodeHelper` on a non-nil node: the kinds without a
case (comments, specs, packages, and the bad and empty placeholders) reach the
final `log.Fatalf`. -/
def Node.findCase : Node → token.Pos → Result
  | .Comment _, _ => .error .notHandled
  | .CommentGroup _, _ => .error .notHandled
  | .Field f, pos => f.findCase pos
  | .FieldList l, pos => l.findCase pos
  | .Expr e, pos => e.findCase pos
  | .Stmt s, pos => s.findCase pos
  | .Spec _, _ => .error .notHandled
  | .Decl d, pos => d.findCase pos
  | .File f, pos => f.findCase pos
  | .Package _, _ => .error .notHandled

/-- The function `findNodeHelper`: nil test, span test, type switch. -/
def findNodeHelper (node : Option Node) (pos : token.Pos) : Result :=
  match node with
  | none => .ok none
  | some n => spanGuard n.Pos n.End pos (n.findCase pos)

/-- The function `findNode`: the offset is added to the position of the file.
The call `f.Pos()` on a nil file panics. -/
def findNode (f : Option File) (pos : int) : Result :=
  match f with
  | none => .error .nilDeref
  | some file => findNodeHelper (some (.File file)) (pos + file.Pos)

/-! ## The chain unroller of `find.go` -/

mutual

/-- The type switch of `unroll` on a non-nil expression node. -/
def unrollExpr : Expr → Except Failure (List (Option Ident))
  | .Ident node => .ok [some node]
  | .SelectorExpr X Sel =>
    match unrollOf X with
    | .error f => .error f
    | .ok idents => .ok (idents ++ [Sel])
  | _ => .error .notIdentifier

/-- The call `unroll(x)` on an `x` of interface type `Expr`: a nil `x` takes
the default case. -/
def unrollOf : Option Expr → Except Failure (List (Option Ident))
  | none => .error .notIdentifier
  | some e => unrollExpr e

end

/-- The function `unroll`: every node that is not an expression takes the
default case, as nil does. -/
def unroll (node : Option Node) : Except Failure (List (Option Ident)) :=
  match node with
  | some (.Expr e) => unrollExpr e
  | _ => .error .notIdentifier

/-! ## Selector chains -/

/-- The left-nested selector chain `i0.i1. ... .ik` over the identifiers
`i0` and `is = [i1, ..., ik]`; for an empty `is` it is the bare identifier. -/
def selectorChain (i0 : Ident) (is : List Ident) : Expr :=
  is.foldl (fun acc i => Expr.SelectorExpr (some acc) (some i)) (Expr.Ident i0)

mutual

/-- The value reached from an expression by following the left operand `X`
through nested selector nodes: the first one that is not a selector node (nil
when a selector has no left operand). -/
def Expr.chainEnd : Expr → Option Expr
  | .SelectorExpr X _ => chainEndOf X
  | .BadExpr a b => some (.BadExpr a b)
  | .Ident a => some (.Ident a)
  | .Ellipsis a b => some (.Ellipsis a b)
  | .BasicLit a => some (.BasicLit a)
  | .FuncLit a b => some (.FuncLit a b)
  | .CompositeLit a b c d => some (.CompositeLit a b c d)
  | .ParenExpr a b c => some (.ParenExpr a b c)
  | .IndexExpr a b c d => some (.IndexExpr a b c d)
  | .SliceExpr a b c d e f g => some (.SliceExpr a b c d e f g)
  | .TypeAssertExpr a b => some (.TypeAssertExpr a b)
  | .CallExpr a => some (.CallExpr a)
  | .StarExpr a b => some (.StarExpr a b)
  | .UnaryExpr a b c => some (.UnaryExpr a b c)
  | .BinaryExpr a b c d => some (.BinaryExpr a b c d)
  | .KeyValueExpr a b c => some (.KeyValueExpr a b c)
  | .ArrayType a b c => some (.ArrayType a b c)
  | .StructType a b c => some (.StructType a b c)
  | .FuncType a => some (.FuncType a)
  | .InterfaceType a b c => some (.InterfaceType a b c)
  | .MapType a b c => some (.MapType a b c)
  | .ChanType a b c => some (.ChanType a b c)

/-- The same from a possibly nil expression. -/
def chainEndOf : Option Expr → Option Expr
  | none => none
  | some e => Expr.chainEnd e

end

mutual

/-- The number of selector nodes passed on the way to `Expr.chainEnd`. -/
def Expr.chainDepth : Expr → Nat
  | .SelectorExpr X _ => chainDepthOf X + 1
  | _ => 0

/-- The same from a possibly nil expression. -/
def chainDepthOf : Option Expr → Nat
  | none => 0
  | some e => Expr.chainDepth e

end

/-- The value reached from a node by following the left operand `X` through
nested selector nodes. -/
def Node.chainEnd : Option Node → Option Node
  | some (.Expr e) => (Expr.chainEnd e).map Node.Expr
  | n => n

/-- The number of selector nodes passed on the way to `Node.chainEnd`. -/
def Node.chainDepth : Option Node → Nat
  | some (.Expr e) => Expr.chainDepth e
  | _ => 0

/-- A node value is an identifier node. -/
def Node.isIdent : Option Node → Bool
  | some (.Expr (.Ident _)) => true
  | _ => false

/-- A node value is a selector node. -/
def Node.isSelector : Option Node → Bool
  | some (.Expr (.SelectorExpr _ _)) => true
  | _ => false

/-! ## Span containment -/

/-- The half-open span `[Pos, End)` of a node is defined and contains `pos`. -/
def Node.InSpan (r : Node) (pos : token.Pos) : Prop :=
  ∃ p e : token.Pos, r.Pos = .ok p ∧ r.End = .ok e ∧ p ≤ pos ∧ pos < e

/-- Every match a search result carries has `pos` in its span. -/
def MatchInSpan (pos : token.Pos) (res : Result) : Prop :=
  ∀ r : Node, res = .ok (some r) → r.InSpan pos

/-- Every match a search result carries satisfies `Q`. -/
def MatchSatisfies (Q : Node → Prop) (res : Result) : Prop :=
  ∀ r : Node, res = .ok (some r) → Q r

/-! ## Counting fields, and the visitor of `godef.go` -/

/-- The field `Names` of a field. -/
def Field.Names : Field → List (Option Ident)
  | .mk _ Names _ _ _ => Names

/-- The loop of `NumFields` over `f.List`, with the running count `n`: reading
`g.Names` of a nil field panics. -/
def FieldList.numFieldsLoop : List (Option Field) → int → Except Failure int
  | [], n => .ok n
  | none :: _, _ => .error .nilDeref
  | some g :: gs, n =>
    FieldList.numFieldsLoop gs (n + (if g.Names.length = 0 then 1 else (g.Names.length : int)))

/-- The method `(f *FieldList) NumFields`, on a possibly nil receiver. -/
def FieldList.NumFields : Option FieldList → Except Failure int
  | none => .ok 0
  | some (.mk _ Lst _) => FieldList.numFieldsLoop Lst 0

/-- The struct `visitor` of `godef.go`. -/
structure visitor where
  pos : token.Pos
  id : Option Ident
deriving DecidableEq, Repr

/-- The method `(v *visitor) Visit`: the state of the visitor after the call,
and the visitor returned (nil, or the receiver itself in its new state). -/
def visitor.Visit (v : visitor) (n : Option Node) : visitor × Option visitor :=
  match n with
  | some (.Expr (.Ident id)) =>
    if id.Pos ≤ v.pos && v.pos < id.End then ({ v with id := some id }, none) else (v, some v)
  | _ => (v, some v)

/-! ## Spans of statements in a block -/

/-- The span of a statement is defined. -/
def Stmt.spanDefined (s : Option Stmt) : Prop :=
  ∃ p e : token.Pos, Stmt.PosOf s = .ok p ∧ Stmt.EndOf s = .ok e

/-- The span of a statement is defined and contains `pos`. -/
def Stmt.spanContains (s : Option Stmt) (pos : token.Pos) : Prop :=
  ∃ p e : token.Pos, Stmt.PosOf s = .ok p ∧ Stmt.EndOf s = .ok e ∧ p ≤ pos ∧ pos < e

/-- The spans of two statements have no position in common. -/
def Stmt.spansDisjoint (s t : Option Stmt) : Prop :=
  ∀ x : token.Pos, ¬ (Stmt.spanContains s x ∧ Stmt.spanContains t x)

/-! ## The part of a tree a search can reach -/

/-- Every match a search result carries is one of the nodes of `S`. -/
def MatchAmong (S : List Node) (res : Result) : Prop :=
  ∀ r : Node, res = .ok (some r) → r ∈ S

/-- The nodes a search on an identifier can reach: the identifier itself. -/
def searchedIdent : Option Ident → List Node
  | none => []
  | some i => [Node.Expr (.Ident i)]

/-- The nodes a search on a slice of identifiers can reach. -/
def searchedIdents : List (Option Ident) → List Node
  | [] => []
  | i :: is => List.append (searchedIdent i) (searchedIdents is)

set_option maxHeartbeats 4000000 in
mutual

/-- The nodes a search on an expression can reach: the nodes themselves and what lies
below them through the child fields the type switch searches. -/
def searchedExpr : Option Expr → List Node
  | none => []
  | some e => Node.Expr e :: Expr.searchedBelow e

/-- The nodes reached from the child fields that the case of an expression searches. -/
def Expr.searchedBelow : Expr → List Node
  | .BadExpr _ _ => []
  | .Ident _ => []
  | .Ellipsis _ Elt => searchedExpr Elt
  | .BasicLit _ => []
  | .FuncLit Typ Body =>
    List.append (searchedFuncType Typ) (searchedBlockStmt Body)
  | .CompositeLit Typ _ Elts _ =>
    List.append (searchedExpr Typ) (searchedExprs Elts)
  | .ParenExpr _ X _ => searchedExpr X
  | .SelectorExpr _ _ => []
  | .IndexExpr X _ Index _ =>
    List.append (searchedExpr X) (searchedExpr Index)
  | .SliceExpr X _ Low High Max _ _ =>
    List.append (searchedExpr X)
      (List.append (searchedExpr Low)
        (List.append (searchedExpr High) (searchedExpr Max)))
  | .TypeAssertExpr X Typ =>
    List.append (searchedExpr X) (searchedExpr Typ)
  | .CallExpr c => CallExpr.searchedBelow c
  | .StarExpr _ X => searchedExpr X
  | .UnaryExpr _ _ X => searchedExpr X
  | .BinaryExpr X _ _ Y =>
    List.append (searchedExpr X) (searchedExpr Y)
  | .KeyValueExpr Key _ Value =>
    List.append (searchedExpr Key) (searchedExpr Value)
  | .ArrayType _ Len Elt =>
    List.append (searchedExpr Len) (searchedExpr Elt)
  | .StructType _ Fields _ => searchedFieldList Fields
  | .FuncType ft => FuncType.searchedBelow ft
  | .InterfaceType _ Methods _ => searchedFieldList Methods
  | .MapType _ Key Value =>
    List.append (searchedExpr Key) (searchedExpr Value)
  | .ChanType _ _ Value => searchedExpr Value

/-- The nodes a search on a slice of expressions can reach: the nodes themselves and what lies
below them through the child fields the type switch searches. -/
def searchedExprs : List (Option Expr) → List Node
  | [] => []
  | e :: es => List.append (searchedExpr e) (searchedExprs es)

/-- The nodes a search on a call can reach: the nodes themselves and what lies
below them through the child fields the type switch searches. -/
def searchedCallExpr : Option CallExpr → List Node
  | none => []
  | some c => Node.Expr (.CallExpr c) :: CallExpr.searchedBelow c

/-- The nodes reached from the child fields that the case of a call searches. -/
def CallExpr.searchedBelow : CallExpr → List Node
  | .mk Fun _ Args _ _ =>
    List.append (searchedExpr Fun) (searchedExprs Args)

/-- The nodes a search on a function type can reach: the nodes themselves and what lies
below them through the child fields the type switch searches. -/
def searchedFuncType : Option FuncType → List Node
  | none => []
  | some t => Node.Expr (.FuncType t) :: FuncType.searchedBelow t

/-- The nodes reached from the child fields that the case of a function type searches. -/
def FuncType.searchedBelow : FuncType → List Node
  | .mk _ Params Results =>
    List.append (searchedFieldList Params) (searchedFieldList Results)

/-- The nodes a search on a field list can reach: the nodes themselves and what lies
below them through the child fields the type switch searches. -/
def searchedFieldList : Option FieldList → List Node
  | none => []
  | some l => Node.FieldList l :: FieldList.searchedBelow l

/-- The nodes reached from the child fields that the case of a field list searches. -/
def FieldList.searchedBelow : FieldList → List Node
  | .mk _ Lst _ => searchedFields Lst

/-- The nodes a search on a slice of fields can reach: the nodes themselves and what lies
below them through the child fields the type switch searches. -/
def searchedFields : List (Option Field) → List Node
  | [] => []
  | f :: fs => List.append (searchedField f) (searchedFields fs)

/-- The nodes a search on a field can reach: the nodes themselves and what lies
below them through the child fields the type switch searches. -/
def searchedField : Option Field → List Node
  | none => []
  | some f => Node.Field f :: Field.searchedBelow f

/-- The nodes reached from the child fields that the case of a field searches. -/
def Field.searchedBelow : Field → List Node
  | .mk _ Names Typ _ _ =>
    List.append (searchedIdents Names) (searchedExpr Typ)

/-- The nodes a search on a block can reach: the nodes themselves and what lies
below them through the child fields the type switch searches. -/
def searchedBlockStmt : Option BlockStmt → List Node
  | none => []
  | some b => Node.Stmt (.BlockStmt b) :: BlockStmt.searchedBelow b

/-- The nodes reached from the child fields that the case of a block searches. -/
def BlockStmt.searchedBelow : BlockStmt → List Node
  | .mk _ Lst _ => searchedStmts Lst

/-- The nodes a search on a statement can reach: the nodes themselves and what lies
below them through the child fields the type switch searches. -/
def searchedStmt : Option Stmt → List Node
  | none => []
  | some s => Node.Stmt s :: Stmt.searchedBelow s

/-- The nodes reached from the child fields that the case of a statement searches. -/
def Stmt.searchedBelow : Stmt → List Node
  | .BadStmt _ _ => []
  | .DeclStmt d => searchedDecl d
  | .EmptyStmt _ => []
  | .LabeledStmt Label _ s =>
    List.append (searchedIdent Label) (searchedStmt s)
  | .ExprStmt X => searchedExpr X
  | .SendStmt Chan _ Value =>
    List.append (searchedExpr Chan) (searchedExpr Value)
  | .IncDecStmt X _ _ => searchedExpr X
  | .AssignStmt Lhs _ _ Rhs =>
    List.append (searchedExprs Lhs) (searchedExprs Rhs)
  | .GoStmt _ Call => searchedCallExpr Call
  | .DeferStmt _ Call => searchedCallExpr Call
  | .ReturnStmt _ Results => searchedExprs Results
  | .BranchStmt _ _ Label => searchedIdent Label
  | .BlockStmt b => BlockStmt.searchedBelow b
  | .IfStmt _ Init Cond Body Else =>
    List.append (searchedStmt Init)
      (List.append (searchedExpr Cond)
        (List.append (searchedBlockStmt Body) (searchedStmt Else)))
  | .CaseClause _ Lst _ Body =>
    List.append (searchedExprs Lst) (searchedStmts Body)
  | .SwitchStmt _ Init Tag Body =>
    List.append (searchedStmt Init)
      (List.append (searchedExpr Tag) (searchedBlockStmt Body))
  | .TypeSwitchStmt _ Init Assign Body =>
    List.append (searchedStmt Init)
      (List.append (searchedStmt Assign) (searchedBlockStmt Body))
  | .CommClause _ Comm _ Body =>
    List.append (searchedStmt Comm) (searchedStmts Body)
  | .SelectStmt _ Body => searchedBlockStmt Body
  | .ForStmt _ Init Cond Post Body =>
    List.append (searchedStmt Init)
      (List.append (searchedExpr Cond)
        (List.append (searchedStmt Post) (searchedBlockStmt Body)))
  | .RangeStmt _ Key Value _ _ X Body =>
    List.append (searchedExpr Key)
      (List.append (searchedExpr Value)
        (List.append (searchedExpr X) (searchedBlockStmt Body)))

/-- The nodes a search on a slice of statements can reach: the nodes themselves and what lies
below them through the child fields the type switch searches. -/
def searchedStmts : List (Option Stmt) → List Node
  | [] => []
  | s :: ss => List.append (searchedStmt s) (searchedStmts ss)

/-- The nodes a search on a declaration can reach: the nodes themselves and what lies
below them through the child fields the type switch searches. -/
def searchedDecl : Option Decl → List Node
  | none => []
  | some d => Node.Decl d :: Decl.searchedBelow d

/-- The nodes reached from the child fields that the case of a declaration searches. -/
def Decl.searchedBelow : Decl → List Node
  | .BadDecl _ _ => []
  | .GenDecl _ _ _ _ _ _ => []
  | .FuncDecl _ Recv _ Typ Body =>
    List.append (searchedFieldList Recv)
      (List.append (searchedFuncType Typ) (searchedBlockStmt Body))

end

/-- The nodes a search on a slice of declarations can reach. -/
def searchedDecls : List (Option Decl) → List Node
  | [] => []
  | d :: ds => List.append (searchedDecl d) (searchedDecls ds)

/-- The nodes reached from the child fields that the type switch searches on a
node: none for the kinds without a case. -/
def Node.searchedBelow : Node → List Node
  | .Comment _ => []
  | .CommentGroup _ => []
  | .Field f => f.searchedBelow
  | .FieldList l => l.searchedBelow
  | .Expr e => e.searchedBelow
  | .Stmt s => s.searchedBelow
  | .Spec _ => []
  | .Decl d => d.searchedBelow
  | .File f => searchedDecls f.Decls
  | .Package _ => []

/-- The nodes a search on a node can reach: the node itself and its
descendants through the child fields the type switch searches. -/
def Node.searched : Option Node → List Node
  | none => []
  | some n => n :: n.searchedBelow

/-! ## Nesting depth -/

/-- The nesting depth of an identifier. -/
def nestingIdent : Option Ident → Nat
  | none => 0
  | some _ => 1

/-- The nesting depth of a slice of identifiers. -/
def nestingIdents : List (Option Ident) → Nat
  | [] => 0
  | i :: is => max (nestingIdent i) (nestingIdents is)

set_option maxHeartbeats 4000000 in
mutual

/-- The nesting depth of an expression, along the child fields the type switch searches. -/
def nestingExpr : Option Expr → Nat
  | none => 0
  | some e => Expr.nestingBelow e + 1

/-- The greatest nesting depth among the child fields that the case of an expression
searches. -/
def Expr.nestingBelow : Expr → Nat
  | .BadExpr _ _ => 0
  | .Ident _ => 0
  | .Ellipsis _ Elt => nestingExpr Elt
  | .BasicLit _ => 0
  | .FuncLit Typ Body =>
    max (nestingFuncType Typ) (nestingBlockStmt Body)
  | .CompositeLit Typ _ Elts _ =>
    max (nestingExpr Typ) (nestingExprs Elts)
  | .ParenExpr _ X _ => nestingExpr X
  | .SelectorExpr _ _ => 0
  | .IndexExpr X _ Index _ =>
    max (nestingExpr X) (nestingExpr Index)
  | .SliceExpr X _ Low High Max _ _ =>
    max (nestingExpr X)
      (max (nestingExpr Low)
        (max (nestingExpr High) (nestingExpr Max)))
  | .TypeAssertExpr X Typ =>
    max (nestingExpr X) (nestingExpr Typ)
  | .CallExpr c => CallExpr.nestingBelow c
  | .StarExpr _ X => nestingExpr X
  | .UnaryExpr _ _ X => nestingExpr X
  | .BinaryExpr X _ _ Y =>
    max (nestingExpr X) (nestingExpr Y)
  | .KeyValueExpr Key _ Value =>
    max (nestingExpr Key) (nestingExpr Value)
  | .ArrayType _ Len Elt =>
    max (nestingExpr Len) (nestingExpr Elt)
  | .StructType _ Fields _ => nestingFieldList Fields
  | .FuncType ft => FuncType.nestingBelow ft
  | .InterfaceType _ Methods _ => nestingFieldList Methods
  | .MapType _ Key Value =>
    max (nestingExpr Key) (nestingExpr Value)
  | .ChanType _ _ Value => nestingExpr Value

/-- The nesting depth of a slice of expressions, along the child fields the type switch searches. -/
def nestingExprs : List (Option Expr) → Nat
  | [] => 0
  | e :: es => max (nestingExpr e) (nestingExprs es)

/-- The nesting depth of a call, along the child fields the type switch searches. -/
def nestingCallExpr : Option CallExpr → Nat
  | none => 0
  | some c => CallExpr.nestingBelow c + 1

/-- The greatest nesting depth among the child fields that the case of a call
searches. -/
def CallExpr.nestingBelow : CallExpr → Nat
  | .mk Fun _ Args _ _ =>
    max (nestingExpr Fun) (nestingExprs Args)

/-- The nesting depth of a function type, along the child fields the type switch searches. -/
def nestingFuncType : Option FuncType → Nat
  | none => 0
  | some t => FuncType.nestingBelow t + 1

/-- The greatest nesting depth among the child fields that the case of a function type
searches. -/
def FuncType.nestingBelow : FuncType → Nat
  | .mk _ Params Results =>
    max (nestingFieldList Params) (nestingFieldList Results)

/-- The nesting depth of a field list, along the child fields the type switch searches. -/
def nestingFieldList : Option FieldList → Nat
  | none => 0
  | some l => FieldList.nestingBelow l + 1

/-- The greatest nesting depth among the child fields that the case of a field list
searches. -/
def FieldList.nestingBelow : FieldList → Nat
  | .mk _ Lst _ => nestingFields Lst

/-- The nesting depth of a slice of fields, along the child fields the type switch searches. -/
def nestingFields : List (Option Field) → Nat
  | [] => 0
  | f :: fs => max (nestingField f) (nestingFields fs)

/-- The nesting depth of a field, along the child fields the type switch searches. -/
def nestingField : Option Field → Nat
  | none => 0
  | some f => Field.nestingBelow f + 1

/-- The greatest nesting depth among the child fields that the case of a field
searches. -/
def Field.nestingBelow : Field → Nat
  | .mk _ Names Typ _ _ =>
    max (nestingIdents Names) (nestingExpr Typ)

/-- The nesting depth of a block, along the child fields the type switch searches. -/
def nestingBlockStmt : Option BlockStmt → Nat
  | none => 0
  | some b => BlockStmt.nestingBelow b + 1

/-- The greatest nesting depth among the child fields that the case of a block
searches. -/
def BlockStmt.nestingBelow : BlockStmt → Nat
  | .mk _ Lst _ => nestingStmts Lst

/-- The nesting depth of a statement, along the child fields the type switch searches. -/
def nestingStmt : Option Stmt → Nat
  | none => 0
  | some s => Stmt.nestingBelow s + 1

/-- The greatest nesting depth among the child fields that the case of a statement
searches. -/
def Stmt.nestingBelow : Stmt → Nat
  | .BadStmt _ _ => 0
  | .DeclStmt d => nestingDecl d
  | .EmptyStmt _ => 0
  | .LabeledStmt Label _ s =>
    max (nestingIdent Label) (nestingStmt s)
  | .ExprStmt X => nestingExpr X
  | .SendStmt Chan _ Value =>
    max (nestingExpr Chan) (nestingExpr Value)
  | .IncDecStmt X _ _ => nestingExpr X
  | .AssignStmt Lhs _ _ Rhs =>
    max (nestingExprs Lhs) (nestingExprs Rhs)
  | .GoStmt _ Call => nestingCallExpr Call
  | .DeferStmt _ Call => nestingCallExpr Call
  | .ReturnStmt _ Results => nestingExprs Results
  | .BranchStmt _ _ Label => nestingIdent Label
  | .BlockStmt b => BlockStmt.nestingBelow b
  | .IfStmt _ Init Cond Body Else =>
    max (nestingStmt Init)
      (max (nestingExpr Cond)
        (max (nestingBlockStmt Body) (nestingStmt Else)))
  | .CaseClause _ Lst _ Body =>
    max (nestingExprs Lst) (nestingStmts Body)
  | .SwitchStmt _ Init Tag Body =>
    max (nestingStmt Init)
      (max (nestingExpr Tag) (nestingBlockStmt Body))
  | .TypeSwitchStmt _ Init Assign Body =>
    max (nestingStmt Init)
      (max (nestingStmt Assign) (nestingBlockStmt Body))
  | .CommClause _ Comm _ Body =>
    max (nestingStmt Comm) (nestingStmts Body)
  | .SelectStmt _ Body => nestingBlockStmt Body
  | .ForStmt _ Init Cond Post Body =>
    max (nestingStmt Init)
      (max (nestingExpr Cond)
        (max (nestingStmt Post) (nestingBlockStmt Body)))
  | .RangeStmt _ Key Value _ _ X Body =>
    max (nestingExpr Key)
      (max (nestingExpr Value)
        (max (nestingExpr X) (nestingBlockStmt Body)))

/-- The nesting depth of a slice of statements, along the child fields the type switch searches. -/
def nestingStmts : List (Option Stmt) → Nat
  | [] => 0
  | s :: ss => max (nestingStmt s) (nestingStmts ss)

/-- The nesting depth of a declaration, along the child fields the type switch searches. -/
def nestingDecl : Option Decl → Nat
  | none => 0
  | some d => Decl.nestingBelow d + 1

/-- The greatest nesting depth among the child fields that the case of a declaration
searches. -/
def Decl.nestingBelow : Decl → Nat
  | .BadDecl _ _ => 0
  | .GenDecl _ _ _ _ _ _ => 0
  | .FuncDecl _ Recv _ Typ Body =>
    max (nestingFieldList Recv)
      (max (nestingFuncType Typ) (nestingBlockStmt Body))

end

/-- The nesting depth of a slice of declarations. -/
def nestingDecls : List (Option Decl) → Nat
  | [] => 0
  | d :: ds => max (nestingDecl d) (nestingDecls ds)

/-- The greatest nesting depth among the child fields that the type switch
searches on a node. -/
def Node.nestingBelow : Node → Nat
  | .Comment _ => 0
  | .CommentGroup _ => 0
  | .Field f => f.nestingBelow
  | .FieldList l => l.nestingBelow
  | .Expr e => e.nestingBelow
  | .Stmt s => s.nestingBelow
  | .Spec _ => 0
  | .Decl d => d.nestingBelow
  | .File f => nestingDecls f.Decls
  | .Package _ => 0

/-- The nesting depth of a tree along the child fields the type switch
searches: 0 for nil, and one more than the deepest searched child for a node. -/
def Node.nesting : Option Node → Nat
  | none => 0
  | some n => n.nestingBelow + 1

/-! ## Well-formed trees

The layout of a node lists, in source order, the token positions the node
stores and the spans of the children its own span is derived from.  A tree is
well formed when, at every node, the parts of the layout are present and
follow one another in source order, and the lists the span derivations index
are not empty.

Well-formedness is not code of the program: it is the assumption under which
the specification states the span invariants, and the definitions of this
section follow its wording.  A stored token position counts as the span
`[p, p)`, so that source order only asks each part to start at or after the end
of the part before it. -/

/-- A span: a start position and an end position. -/
abbrev Span := token.Pos × token.Pos

/-- A part of the layout of a node: a stored token position, or a child. -/
inductive Part where
  | tok (p : token.Pos)
  | node (c : Option Node)

/-- The span of a part: a token position stands for itself, a child for its
derived span; a missing child, or one whose span panics, has none. -/
def Part.span : Part → Option Span
  | .tok p => some (p, p)
  | .node none => none
  | .node (some n) =>
    match n.Pos, n.End with
    | .ok p, .ok e => some (p, e)
    | _, _ => none

/-- The child a part holds. -/
def Part.child : Part → Option Node
  | .tok _ => none
  | .node c => c

/-- A required child. -/
def Part.req (c : Option Node) : List Part := [.node c]

/-- An optional child: no part when it is absent. -/
def Part.opt (c : Option Node) : List Part :=
  match c with
  | none => []
  | some n => [.node (some n)]

/-- The elements of a slice. -/
def Part.many (cs : List (Option Node)) : List Part := cs.map Part.node

/-- A token position that is stored only when the token is there. -/
def Part.tokIf (p : token.Pos) : List Part := if p.IsValid then [.tok p] else []

/-- An expression as a node. -/
def Expr.node (x : Option Expr) : Option Node := x.map Node.Expr

/-- An identifier as a node. -/
def Ident.node (x : Option Ident) : Option Node := x.map (fun i => Node.Expr (.Ident i))

/-- A basic literal as a node. -/
def BasicLit.node (x : Option BasicLit) : Option Node := x.map (fun b => Node.Expr (.BasicLit b))

/-- A function type as a node. -/
def FuncType.node (x : Option FuncType) : Option Node := x.map (fun t => Node.Expr (.FuncType t))

/-- A call as a node. -/
def CallExpr.node (x : Option CallExpr) : Option Node := x.map (fun c => Node.Expr (.CallExpr c))

/-- A block as a node. -/
def BlockStmt.node (x : Option BlockStmt) : Option Node :=
  x.map (fun b => Node.Stmt (.BlockStmt b))

/-- A field list as a node. -/
def FieldList.node (x : Option FieldList) : Option Node := x.map Node.FieldList

/-- A field as a node. -/
def Field.node (x : Option Field) : Option Node := x.map Node.Field

/-- A statement as a node. -/
def Stmt.node (x : Option Stmt) : Option Node := x.map Node.Stmt

/-- A declaration as a node. -/
def Decl.node (x : Option Decl) : Option Node := x.map Node.Decl

/-- A spec as a node. -/
def Spec.node (x : Option Spec) : Option Node := x.map Node.Spec

/-- A comment as a node. -/
def Comment.node (x : Option Comment) : Option Node := x.map Node.Comment

/-- A comment group as a node. -/
def CommentGroup.node (x : Option CommentGroup) : Option Node := x.map Node.CommentGroup

/-- A file as a node. -/
def File.node (x : Option File) : Option Node := x.map Node.File

/-- The layout of a call: `Fun ( Args ... )`. -/
def CallExpr.layout : CallExpr → List Part
  | .mk Fun Lparen Args Ellipsis Rparen =>
    Part.req (Expr.node Fun) ++ [.tok Lparen] ++ Part.many (Args.map Expr.node) ++
      Part.tokIf Ellipsis ++ [.tok Rparen]

/-- The layout of a function type: `func Params Results`. -/
def FuncType.layout : FuncType → List Part
  | .mk Func Params Results =>
    [.tok Func] ++ Part.req (FieldList.node Params) ++ Part.opt (FieldList.node Results)

/-- The layout of a field list: the fields between the delimiters, each
delimiter counting when it is valid. -/
def FieldList.layout : FieldList → List Part
  | .mk Opening Lst Closing =>
    Part.tokIf Opening ++ Part.many (Lst.map Field.node) ++ Part.tokIf Closing

/-- The layout of a field: `Names Type Tag`. -/
def Field.layout : Field → List Part
  | .mk _ Names Typ Tag _ =>
    Part.many (Names.map Ident.node) ++ Part.req (Expr.node Typ) ++ Part.opt (BasicLit.node Tag)

/-- The layout of a block: `{ List }`. -/
def BlockStmt.layout : BlockStmt → List Part
  | .mk Lbrace Lst Rbrace => [.tok Lbrace] ++ Part.many (Lst.map Stmt.node) ++ [.tok Rbrace]

/-- The layout of the expression and type nodes. -/
def Expr.layout : Expr → List Part
  | .BadExpr From To => [.tok From, .tok To]
  | .Ident x => [.tok x.NamePos]
  | .Ellipsis p Elt => [.tok p] ++ Part.opt (Expr.node Elt)
  | .BasicLit x => [.tok x.ValuePos]
  | .FuncLit Typ Body => Part.req (FuncType.node Typ) ++ Part.req (BlockStmt.node Body)
  | .CompositeLit Typ Lbrace Elts Rbrace =>
    Part.opt (Expr.node Typ) ++ [.tok Lbrace] ++ Part.many (Elts.map Expr.node) ++ [.tok Rbrace]
  | .ParenExpr Lparen X Rparen => [.tok Lparen] ++ Part.req (Expr.node X) ++ [.tok Rparen]
  | .SelectorExpr X Sel => Part.req (Expr.node X) ++ Part.req (Ident.node Sel)
  | .IndexExpr X Lbrack Index Rbrack =>
    Part.req (Expr.node X) ++ [.tok Lbrack] ++ Part.req (Expr.node Index) ++ [.tok Rbrack]
  | .SliceExpr X Lbrack Low High Max _ Rbrack =>
    Part.req (Expr.node X) ++ [.tok Lbrack] ++ Part.opt (Expr.node Low) ++
      Part.opt (Expr.node High) ++ Part.opt (Expr.node Max) ++ [.tok Rbrack]
  | .TypeAssertExpr X Typ => Part.req (Expr.node X) ++ Part.opt (Expr.node Typ)
  | .CallExpr c => c.layout
  | .StarExpr Star X => [.tok Star] ++ Part.req (Expr.node X)
  | .UnaryExpr OpPos _ X => [.tok OpPos] ++ Part.req (Expr.node X)
  | .BinaryExpr X OpPos _ Y => Part.req (Expr.node X) ++ [.tok OpPos] ++ Part.req (Expr.node Y)
  | .KeyValueExpr Key Colon Value =>
    Part.req (Expr.node Key) ++ [.tok Colon] ++ Part.req (Expr.node Value)
  | .ArrayType Lbrack Len Elt =>
    [.tok Lbrack] ++ Part.opt (Expr.node Len) ++ Part.req (Expr.node Elt)
  | .StructType Struct Fields _ => [.tok Struct] ++ Part.req (FieldList.node Fields)
  | .FuncType ft => ft.layout
  | .InterfaceType Interface Methods _ => [.tok Interface] ++ Part.req (FieldList.node Methods)
  | .MapType Map Key Value =>
    [.tok Map] ++ Part.req (Expr.node Key) ++ Part.req (Expr.node Value)
  | .ChanType Begin _ Value => [.tok Begin] ++ Part.req (Expr.node Value)

/-- The layout of the statement nodes. -/
def Stmt.layout : Stmt → List Part
  | .BadStmt From To => [.tok From, .tok To]
  | .DeclStmt d => Part.req (Decl.node d)
  | .EmptyStmt Semicolon => [.tok Semicolon]
  | .LabeledStmt Label Colon s =>
    Part.req (Ident.node Label) ++ [.tok Colon] ++ Part.req (Stmt.node s)
  | .ExprStmt X => Part.req (Expr.node X)
  | .SendStmt Chan Arrow Value =>
    Part.req (Expr.node Chan) ++ [.tok Arrow] ++ Part.req (Expr.node Value)
  | .IncDecStmt X TokPos _ => Part.req (Expr.node X) ++ [.tok TokPos]
  | .AssignStmt Lhs TokPos _ Rhs =>
    Part.many (Lhs.map Expr.node) ++ [.tok TokPos] ++ Part.many (Rhs.map Expr.node)
  | .GoStmt Go Call => [.tok Go] ++ Part.req (CallExpr.node Call)
  | .DeferStmt Defer Call => [.tok Defer] ++ Part.req (CallExpr.node Call)
  | .ReturnStmt Return Results => [.tok Return] ++ Part.many (Results.map Expr.node)
  | .BranchStmt TokPos _ Label => [.tok TokPos] ++ Part.opt (Ident.node Label)
  | .BlockStmt b => b.layout
  | .IfStmt If Init Cond Body Else =>
    [.tok If] ++ Part.opt (Stmt.node Init) ++ Part.req (Expr.node Cond) ++
      Part.req (BlockStmt.node Body) ++ Part.opt (Stmt.node Else)
  | .CaseClause Case Lst Colon Body =>
    [.tok Case] ++ Part.many (Lst.map Expr.node) ++ [.tok Colon] ++
      Part.many (Body.map Stmt.node)
  | .SwitchStmt Switch Init Tag Body =>
    [.tok Switch] ++ Part.opt (Stmt.node Init) ++ Part.opt (Expr.node Tag) ++
      Part.req (BlockStmt.node Body)
  | .TypeSwitchStmt Switch Init Assign Body =>
    [.tok Switch] ++ Part.opt (Stmt.node Init) ++ Part.req (Stmt.node Assign) ++
      Part.req (BlockStmt.node Body)
  | .CommClause Case Comm Colon Body =>
    [.tok Case] ++ Part.opt (Stmt.node Comm) ++ [.tok Colon] ++ Part.many (Body.map Stmt.node)
  | .SelectStmt Select Body => [.tok Select] ++ Part.req (BlockStmt.node Body)
  | .ForStmt For Init Cond Post Body =>
    [.tok For] ++ Part.opt (Stmt.node Init) ++ Part.opt (Expr.node Cond) ++
      Part.opt (Stmt.node Post) ++ Part.req (BlockStmt.node Body)
  | .RangeStmt For Key Value TokPos _ X Body =>
    [.tok For] ++ Part.opt (Expr.node Key) ++ Part.opt (Expr.node Value) ++
      Part.tokIf TokPos ++ Part.req (Expr.node X) ++ Part.req (BlockStmt.node Body)

/-- The layout of the spec nodes. -/
def Spec.layout : Spec → List Part
  | .ImportSpec _ Name Path _ => Part.opt (Ident.node Name) ++ Part.req (BasicLit.node Path)
  | .ValueSpec _ Names Typ Values _ =>
    Part.many (Names.map Ident.node) ++ Part.opt (Expr.node Typ) ++
      Part.many (Values.map Expr.node)
  | .TypeSpec _ Name Assign Typ _ =>
    Part.req (Ident.node Name) ++ Part.tokIf Assign ++ Part.req (Expr.node Typ)

/-- The layout of the declaration nodes.  A generic declaration without a
closing parenthesis holds one spec; a function declaration reads
`func Recv Name Params Results Body`, the keyword, the parameters and the
results being those of its type. -/
def Decl.layout : Decl → List Part
  | .BadDecl From To => [.tok From, .tok To]
  | .GenDecl _ TokPos _ Lparen Specs Rparen =>
    if Rparen.IsValid then
      [.tok TokPos] ++ Part.tokIf Lparen ++ Part.many (Specs.map Spec.node) ++ [.tok Rparen]
    else
      [.tok TokPos] ++ Part.tokIf Lparen ++ Part.many ((Specs.take 1).map Spec.node)
  | .FuncDecl _ Recv Name Typ Body =>
    match Typ with
    | none =>
      Part.opt (FieldList.node Recv) ++ Part.req (Ident.node Name) ++ Part.req none ++
        Part.opt (BlockStmt.node Body)
    | some (.mk Func Params Results) =>
      [.tok Func] ++ Part.opt (FieldList.node Recv) ++ Part.req (Ident.node Name) ++
        Part.req (FieldList.node Params) ++ Part.opt (FieldList.node Results) ++
        Part.opt (BlockStmt.node Body)

/-- The layout of a node. -/
def Node.layout : Node → List Part
  | .Comment c => [.tok c.Slash]
  | .CommentGroup g => Part.many (g.List.map Comment.node)
  | .Field f => f.layout
  | .FieldList l => l.layout
  | .Expr e => e.layout
  | .Stmt s => s.layout
  | .Spec s => s.layout
  | .Decl d => d.layout
  | .File f => [.tok f.Package] ++ Part.req (Ident.node f.Name) ++ Part.many (f.Decls.map Decl.node)
  | .Package _ => [.tok token.NoPos]

/-- The children that come before the layout of a node in the source: its
documentation. -/
def Node.before : Node → List Part
  | .Field (.mk Doc _ _ _ _) => Part.opt (CommentGroup.node Doc)
  | .Spec (.ImportSpec Doc _ _ _) => Part.opt (CommentGroup.node Doc)
  | .Spec (.ValueSpec Doc _ _ _ _) => Part.opt (CommentGroup.node Doc)
  | .Spec (.TypeSpec Doc _ _ _ _) => Part.opt (CommentGroup.node Doc)
  | .Decl (.GenDecl Doc _ _ _ _ _) => Part.opt (CommentGroup.node Doc)
  | .Decl (.FuncDecl Doc _ _ _ _) => Part.opt (CommentGroup.node Doc)
  | .File f => Part.opt (CommentGroup.node f.Doc)
  | _ => []

/-- The children that come after the layout of a node in the source: its line
comments. -/
def Node.after : Node → List Part
  | .Field (.mk _ _ _ _ cmt) => Part.opt (CommentGroup.node cmt)
  | .Spec (.ImportSpec _ _ _ cmt) => Part.opt (CommentGroup.node cmt)
  | .Spec (.ValueSpec _ _ _ _ cmt) => Part.opt (CommentGroup.node cmt)
  | .Spec (.TypeSpec _ _ _ _ cmt) => Part.opt (CommentGroup.node cmt)
  | _ => []

/-- The children of a node that have no place in its layout but lie within
its span: the type of a function declaration, whose parts the layout of the
declaration lists one by one. -/
def Node.inner : Node → List Node
  | .Decl (.FuncDecl _ _ _ (some t) _) => [.Expr (.FuncType t)]
  | _ => []

/-- The children of a node that have no place in its layout and no part in
its span: the comments of a file, the files of a package, and the specs after
the first of a generic declaration without a closing parenthesis. -/
def Node.strays : Node → List Node
  | .File f => f.Comments.filterMap CommentGroup.node
  | .Package p => p.Files.filterMap (fun nf => File.node nf.2)
  | .Decl (.GenDecl _ _ _ _ Specs Rparen) =>
    if Rparen.IsValid then [] else (Specs.drop 1).filterMap Spec.node
  | _ => []

/-- The children whose spans the span of the node is derived to cover. -/
def Node.spanChildren (n : Node) : List Node :=
  n.layout.filterMap Part.child ++ n.inner

/-- The direct children of a node: every node held by one of its fields. -/
def Node.children (n : Node) : List Node :=
  n.before.filterMap Part.child ++ n.spanChildren ++ n.after.filterMap Part.child ++ n.strays

/-- The lists that the span derivations index are not empty: both sides of an
assignment, the names of a value spec, the specs of a generic declaration
without a closing parenthesis, the comments of a comment group. -/
def Node.requiredLists : Node → Bool
  | .Stmt (.AssignStmt Lhs _ _ Rhs) => !Lhs.isEmpty && !Rhs.isEmpty
  | .Spec (.ValueSpec _ Names _ _ _) => !Names.isEmpty
  | .Decl (.GenDecl _ _ _ _ Specs Rparen) => Rparen.IsValid || !Specs.isEmpty
  | .CommentGroup g => !g.List.isEmpty
  | _ => true

/-- The spans of a list of parts, when all of them have one. -/
def Part.spans : List Part → Option (List Span)
  | [] => some []
  | p :: ps =>
    match p.span, Part.spans ps with
    | some s, some ss => some (s :: ss)
    | _, _ => none

/-- Each span ends where the next one starts, or before. -/
def Span.inOrder : List Span → Bool
  | [] => true
  | [_] => true
  | a :: b :: rest => decide (a.2 ≤ b.1) && Span.inOrder (b :: rest)

/-- A node is well formed in itself: its required lists are not empty, and the
parts of its documentation, its layout and its line comments are all present
and in source order. -/
def Node.localWF (n : Node) : Bool :=
  n.requiredLists &&
    match Part.spans (n.before ++ n.layout ++ n.after) with
    | none => false
    | some ss => Span.inOrder ss

/-- The additions of the `End` methods of the expression and type nodes do not
wrap around: the position of the token that ends the node, plus the width the
method adds, is an `int`. -/
def Expr.endFits : Expr → Bool
  | .Ident x => x.NamePos.Fits x.Name.utf8ByteSize
  | .Ellipsis p none => p.Fits 3
  | .BasicLit x => x.ValuePos.Fits x.Value.utf8ByteSize
  | .CompositeLit _ _ _ Rbrace => Rbrace.Fits 1
  | .ParenExpr _ _ Rparen => Rparen.Fits 1
  | .IndexExpr _ _ _ Rbrack => Rbrack.Fits 1
  | .SliceExpr _ _ _ _ _ _ Rbrack => Rbrack.Fits 1
  | .CallExpr (.mk _ _ _ _ Rparen) => Rparen.Fits 1
  | _ => true

/-- The additions of the `End` methods of the statement nodes do not wrap
around. -/
def Stmt.endFits : Stmt → Bool
  | .EmptyStmt Semicolon => Semicolon.Fits 1
  | .IncDecStmt _ TokPos _ => TokPos.Fits 2
  | .ReturnStmt Return [] => Return.Fits 6
  | .BranchStmt TokPos Tok none => TokPos.Fits Tok.String.utf8ByteSize
  | .BlockStmt (.mk _ _ Rbrace) => Rbrace.Fits 1
  | .CaseClause _ _ Colon [] => Colon.Fits 1
  | .CommClause _ _ Colon [] => Colon.Fits 1
  | _ => true

/-- The addition of the `End` method of the node, when it makes one, does not
wrap around. -/
def Node.endFits : Node → Bool
  | .Comment c => c.Slash.Fits c.Text.utf8ByteSize
  | .FieldList (.mk _ _ Closing) => !Closing.IsValid || Closing.Fits 1
  | .Expr e => e.endFits
  | .Stmt s => s.endFits
  | .Decl (.GenDecl _ _ _ _ _ Rparen) => !Rparen.IsValid || Rparen.Fits 1
  | _ => true

/-- A field list without fields records both of its delimiters or none. -/
def Node.delimitersPaired : Node → Bool
  | .FieldList (.mk Opening [] Closing) => Opening.IsValid == Closing.IsValid
  | _ => true

/-- The span of the node is derived without wrapping around, and from both
delimiters when from one. -/
def Node.localFit (n : Node) : Bool := n.endFits && n.delimitersPaired

/-- The property `P` holds at every node of a tree. -/
inductive Node.Every (P : Node → Bool) : Node → Prop where
  | intro (n : Node) (hlocal : P n = true) (hchildren : ∀ c ∈ n.children, Node.Every P c) :
    Node.Every P n

/-- A well-formed tree: every node of it is well formed in itself. -/
def Node.WF (n : Node) : Prop := Node.Every Node.localWF n

/-- A tree in which no end of a span wraps around and no empty field list has
a single delimiter. -/
def Node.Fitting (n : Node) : Prop := Node.Every Node.localFit n

/-- The node `m` is a node of the tree `n`: the tree itself, a child, a child
of a child, and so on. -/
inductive Node.Within : Node → Node → Prop where
  | refl (n : Node) : Node.Within n n
  | step (m c n : Node) (hc : c ∈ n.children) (hm : Node.Within m c) : Node.Within m n

/-- A check that `P` holds at every node of a tree, down to the depth `fuel`. -/
def Node.everyCheck (P : Node → Bool) : Nat → Node → Bool
  | 0, _ => false
  | fuel + 1, n => P n && n.children.all (Node.everyCheck P fuel)

/-- The span of the node is derived without a panic, and starts no later than
it ends: `Pos(n) ≤ End(n)`. -/
def Node.Proper (n : Node) : Prop :=
  ∃ p e, n.Pos = .ok p ∧ n.End = .ok e ∧ p ≤ e

/-- The span of the child `c` is contained in the span of the parent `n`:
`Pos(n) ≤ Pos(c)` and `End(c) ≤ End(n)`. -/
def Node.Contains (n c : Node) : Prop :=
  ∃ p e cp ce, n.Pos = .ok p ∧ n.End = .ok e ∧ c.Pos = .ok cp ∧ c.End = .ok ce ∧
    p ≤ cp ∧ ce ≤ e

/-! ## The recursion of the search

Every case of the type switch either returns on its own, or calls
`findNodeHelper` on children of the node, one after the other, and returns the
first result that is not no match. -/

/-- The arguments of the calls of `findNodeHelper` in the cases of the
expression and type nodes, in the order of the calls. -/
def Expr.callArgs : Expr → List (Option Node)
  | .Ellipsis _ Elt => [Expr.node Elt]
  | .FuncLit Typ Body => [FuncType.node Typ, BlockStmt.node Body]
  | .CompositeLit Typ _ Elts _ => Expr.node Typ :: Elts.map Expr.node
  | .ParenExpr _ X _ => [Expr.node X]
  | .IndexExpr X _ Index _ => [Expr.node X, Expr.node Index]
  | .SliceExpr X _ Low High Max _ _ =>
    [Expr.node X, Expr.node Low, Expr.node High, Expr.node Max]
  | .TypeAssertExpr X Typ => [Expr.node X, Expr.node Typ]
  | .CallExpr (.mk Fun _ Args _ _) => Expr.node Fun :: Args.map Expr.node
  | .StarExpr _ X => [Expr.node X]
  | .UnaryExpr _ _ X => [Expr.node X]
  | .BinaryExpr X _ _ Y => [Expr.node X, Expr.node Y]
  | .KeyValueExpr Key _ Value => [Expr.node Key, Expr.node Value]
  | .ArrayType _ Len Elt => [Expr.node Len, Expr.node Elt]
  | .StructType _ Fields _ => [FieldList.node Fields]
  | .FuncType (.mk _ Params Results) => [FieldList.node Params, FieldList.node Results]
  | .InterfaceType _ Methods _ => [FieldList.node Methods]
  | .MapType _ Key Value => [Expr.node Key, Expr.node Value]
  | .ChanType _ _ Value => [Expr.node Value]
  | _ => []

/-- The arguments of the calls of `findNodeHelper` in the cases of the
statement nodes, in the order of the calls. -/
def Stmt.callArgs : Stmt → List (Option Node)
  | .DeclStmt d => [Decl.node d]
  | .LabeledStmt Label _ s => [Ident.node Label, Stmt.node s]
  | .ExprStmt X => [Expr.node X]
  | .SendStmt Chan _ Value => [Expr.node Chan, Expr.node Value]
  | .IncDecStmt X _ _ => [Expr.node X]
  | .AssignStmt Lhs _ _ Rhs => Lhs.map Expr.node ++ Rhs.map Expr.node
  | .GoStmt _ Call => [CallExpr.node Call]
  | .DeferStmt _ Call => [CallExpr.node Call]
  | .ReturnStmt _ Results => Results.map Expr.node
  | .BranchStmt _ _ Label => [Ident.node Label]
  | .BlockStmt (.mk _ Lst _) => Lst.map Stmt.node
  | .IfStmt _ Init Cond Body Else =>
    [Stmt.node Init, Expr.node Cond, BlockStmt.node Body, Stmt.node Else]
  | .CaseClause _ Lst _ Body => Lst.map Expr.node ++ Body.map Stmt.node
  | .SwitchStmt _ Init Tag Body => [Stmt.node Init, Expr.node Tag, BlockStmt.node Body]
  | .TypeSwitchStmt _ Init Assign Body =>
    [Stmt.node Init, Stmt.node Assign, BlockStmt.node Body]
  | .CommClause _ Comm _ Body => Stmt.node Comm :: Body.map Stmt.node
  | .SelectStmt _ Body => [BlockStmt.node Body]
  | .ForStmt _ Init Cond Post Body =>
    [Stmt.node Init, Expr.node Cond, Stmt.node Post, BlockStmt.node Body]
  | .RangeStmt _ Key Value _ _ X Body =>
    [Expr.node Key, Expr.node Value, Expr.node X, BlockStmt.node Body]
  | _ => []

/-- The arguments of the calls of `findNodeHelper` in the case of a node, in
the order of the calls. -/
def Node.callArgs : Node → List (Option Node)
  | .Field (.mk _ Names Typ _ _) => Names.map Ident.node ++ [Expr.node Typ]
  | .FieldList (.mk _ Lst _) => Lst.map Field.node
  | .Expr e => e.callArgs
  | .Stmt s => s.callArgs
  | .Decl (.FuncDecl _ Recv _ Typ Body) =>
    [FieldList.node Recv, FuncType.node Typ, BlockStmt.node Body]
  | .File f => f.Decls.map Decl.node
  | _ => []

/-- What the case of a node returns when none of its calls returns a node:
the result of the test of an identifier or a selector, the exit
`node type not handled` for a kind without a case or with an empty case, and
no match for the rest. -/
def Node.baseCase : Node → token.Pos → Result
  | .Expr (.Ident i), pos => i.findCase pos
  | .Expr (.SelectorExpr X Sel), pos => selectorCase X Sel pos
  | .Expr (.BadExpr _ _), _ => .error .notHandled
  | .Expr _, _ => .ok none
  | .Stmt (.BadStmt _ _), _ => .error .notHandled
  | .Stmt (.EmptyStmt _), _ => .error .notHandled
  | .Stmt _, _ => .ok none
  | .Decl (.FuncDecl _ _ _ _ _), _ => .ok none
  | .Decl _, _ => .error .notHandled
  | .Field _, _ => .ok none
  | .FieldList _, _ => .ok none
  | .File _, _ => .ok none
  | .Comment _, _ => .error .notHandled
  | .CommentGroup _, _ => .error .notHandled
  | .Spec _, _ => .error .notHandled
  | .Package _, _ => .error .notHandled

/-- The calls `call` on the arguments `args`, one after the other: the first
result that is not no match is returned, and `base` when there is none. -/
def callChain (call : Option Node → Result) (args : List (Option Node)) (base : Result) :
    Result :=
  args.foldr (fun c r => orElse (call c) r) base

/-- The greatest nesting depth among the arguments of calls. -/
def maxNesting : List (Option Node) → Nat
  | [] => 0
  | c :: cs => max (Node.nesting c) (maxNesting cs)

/-- The node `m` is reached by the recursion from `n`: it is `n`, the
argument of a call in the case of `n`, the argument of a call in the case of
such an argument, and so on. -/
inductive Node.Reached : Node → Node → Prop where
  | refl (n : Node) : Node.Reached n n
  | step (m c n : Node) (hc : some c ∈ n.callArgs) (hm : Node.Reached m c) : Node.Reached m n

/-- The calls `call` on the arguments `args`, one after the other, when a call
may fail to return: the calls after the first result that is not no match are
not made. -/
def chainFuel (call : Option Node → Option Result) : List (Option Node) → Result →
    Option Result
  | [], base => some base
  | c :: cs, base =>
    match call c with
    | none => none
    | some (.ok none) => chainFuel call cs base
    | some r => some r

/-- The span test followed by `body`, when `body` may fail to return: `body`
is run only past the test. -/
def guardFuel (p e : Except Failure token.Pos) (pos : token.Pos) (body : Option Result) :
    Option Result :=
  match p with
  | .error f => some (.error f)
  | .ok p =>
    if p > pos then some (.ok none)
    else
      match e with
      | .error f => some (.error f)
      | .ok e => if e ≤ pos then some (.ok none) else body

/-- The function `findNodeHelper` run with a bound on the depth of its
recursion: `fuel` is the number of calls of `findNodeHelper` that may be active
at the same time, the outermost one included, and the result is `none` when
the run needs more. -/
def findNodeHelperFuel : Nat → Option Node → token.Pos → Option Result
  | 0, _, _ => none
  | _ + 1, none, _ => some (.ok none)
  | fuel + 1, some n, pos =>
    guardFuel n.Pos n.End pos
      (chainFuel (fun c => findNodeHelperFuel fuel c pos) n.callArgs (n.baseCase pos))

/-! ## Concrete trees -/

/-- The literal `42` at position 1. -/
def lit42 : BasicLit := ⟨1, ⟨"INT"⟩, "42"⟩

/-- The identifier `x` at position 1. -/
def idX : Ident := ⟨1, "x"⟩

/-- The identifier `y` at position 3. -/
def idY : Ident := ⟨3, "y"⟩

/-- The identifier `z` at position 5. -/
def idZ : Ident := ⟨5, "z"⟩

/-- The selector `x.y` at position 1. -/
def selXY : Expr := .SelectorExpr (some (.Ident idX)) (some idY)

/-- The call `x.y(z)` at position 1. -/
def callXYZ : Expr := .CallExpr (.mk (some selXY) 4 [some (.Ident idZ)] token.NoPos 6)

/-- The call `f()` at position 1. -/
def callF : Expr := .CallExpr (.mk (some (.Ident ⟨1, "f"⟩)) 2 [] token.NoPos 3)

/-- The identifier `g` at position 5. -/
def idG : Ident := ⟨5, "g"⟩

/-- The declaration `func f() {}` at position 1: the name `f` is at position 6. -/
def funcDeclF : Decl :=
  .FuncDecl none none (some ⟨6, "f"⟩)
    (some (.mk 1 (some (.mk 7 [] 8)) none))
    (some (.mk 10 [] 11))

/-- The declaration `var x int` at position 11: the name `x` is at position 15. -/
def genDeclVarX : Decl :=
  .GenDecl none 11 ⟨"var"⟩ token.NoPos
    [some (.ValueSpec none [some ⟨15, "x"⟩] (some (.Ident ⟨17, "int"⟩)) [] none)] token.NoPos

/-- The file `package p`, newline, `var x int`. -/
def fileVarX : File :=
  { Doc := none, Package := 1, Name := some ⟨9, "p"⟩, Decls := [some genDeclVarX], Comments := [] }

/-- The bad expression with `From` 4 and `To` 1: its span is empty. -/
def badExprEmpty : Expr := .BadExpr 4 1

/-- The statement `if x {}` at position 1, without else branch: the body spans `[6, 8)`. -/
def ifStmtX : Stmt :=
  .IfStmt 1 none (some (.Ident ⟨4, "x"⟩)) (some (.mk 6 [] 7)) none

/-- The identifier `é` at position 1: one character, two bytes. -/
def idEAcute : Ident := ⟨1, "é"⟩

/-- The composite literal `T{}` at position 1: the brace `{` is at position 2. -/
def compositeT : Expr := .CompositeLit (some (.Ident ⟨1, "T"⟩)) 2 [] 3

/-- The statement `return x, y` at position 1. -/
def returnXY : Stmt := .ReturnStmt 1 [some (.Ident ⟨8, "x"⟩), some (.Ident ⟨11, "y"⟩)]

/-- A generic declaration `var` at position 1 with no spec and no parentheses. -/
def genDeclNoSpec : Decl := .GenDecl none 1 ⟨"var"⟩ token.NoPos [] token.NoPos

/-- The field list `(a, b int, string)` at position 1: two named parameters
in one field and one anonymous parameter. -/
def fieldListABS : FieldList :=
  .mk 1
    [some (.mk none [some ⟨2, "a"⟩, some ⟨5, "b"⟩] (some (.Ident ⟨7, "int"⟩)) none none),
     some (.mk none [] (some (.Ident ⟨12, "string"⟩)) none none)]
    18

/-- The block `{ x; y }` at position 1, with `x` at 3 and `y` at 6. -/
def blockXY : BlockStmt :=
  .mk 1 [some (.ExprStmt (some (.Ident ⟨3, "x"⟩))), some (.ExprStmt (some (.Ident ⟨6, "y"⟩)))] 8

/-- The declaration `func g(a int) { a }` at position 11. -/
def funcDeclG : Decl :=
  .FuncDecl none none (some ⟨16, "g"⟩)
    (some (.mk 11
      (some (.mk 17 [some (.mk none [some ⟨18, "a"⟩] (some (.Ident ⟨20, "int"⟩)) none none)] 23))
      none))
    (some (.mk 25 [some (.ExprStmt (some (.Ident ⟨27, "a"⟩)))] 29))

/-- The file `package q`, newline, `func g(a int) { a }`. -/
def fileFuncG : File :=
  { Doc := none, Package := 1, Name := some ⟨9, "q"⟩, Decls := [some funcDeclG],
    Comments := [] }

/-- The comment group `// c` at position 1. -/
def commentAt1 : CommentGroup := ⟨[some ⟨1, "// c"⟩]⟩

/-- The comment group `// d` at position 1. -/
def docD : CommentGroup := ⟨[some ⟨1, "// d"⟩]⟩

/-- The comment group `// c` at position 13. -/
def commentC : CommentGroup := ⟨[some ⟨13, "// c"⟩]⟩

/-- The field `x int` at position 6, documented by the comment `// d` on the
line before and followed by the line comment `// c`. -/
def fieldDocX : Field :=
  .mk (some docD) [some ⟨6, "x"⟩] (some (.Ident ⟨8, "int"⟩)) none (some commentC)

/-- A file whose `package` keyword is at the least `int`:
`package p; func g() { a }` with the identifier `a` at position 0. -/
def fileAtMinInt : File :=
  { Doc := none, Package := MinInt, Name := some ⟨-30, "p"⟩,
    Decls := [some (.FuncDecl none none (some ⟨-20, "g"⟩)
      (some (.mk (-25) (some (.mk (-19) [] (-18))) none))
      (some (.mk (-2) [some (.ExprStmt (some (.Ident ⟨0, "a"⟩)))] 2)))],
    Comments := [] }

/-- The file `package q`, newline, `func g(a int) { a }`, newline,
`var x int`: the generic declaration is at position 31, its name `x` at 35. -/
def fileFuncGVarX : File :=
  { Doc := none, Package := 1, Name := some ⟨9, "q"⟩,
    Decls := [some funcDeclG,
      some (.GenDecl none 31 ⟨"var"⟩ token.NoPos
        [some (.ValueSpec none [some ⟨35, "x"⟩] (some (.Ident ⟨37, "int"⟩)) [] none)]
        token.NoPos)],
    Comments := [] }

/-- The statement `break` at position 1, without label. -/
def breakStmt : Stmt := .BranchStmt 1 ⟨"break"⟩ none

/-- A field list with an opening parenthesis at position 3, no field and no
closing parenthesis. -/
def fieldListOpenOnly : FieldList := .mk 3 [] token.NoPos

/-- The file `// c`, newline, `package p`: the comment is at position 1, the
keyword at 6, the name at 14. -/
def fileCommentFirst : File :=
  { Doc := none, Package := 6, Name := some ⟨14, "p"⟩, Decls := [],
    Comments := [some commentAt1] }

/-- The package of the one file `fileVarX`. -/
def packageVarX : Package := { Name := "p", Files := [("x.go", some fileVarX)] }

/-- The declaration `var x int, y int` at position 1, without parentheses: a
generic declaration of two specs and no closing parenthesis. -/
def genDeclTwoSpecs : Decl :=
  .GenDecl none 1 ⟨"var"⟩ token.NoPos
    [some (.ValueSpec none [some ⟨5, "x"⟩] (some (.Ident ⟨7, "int"⟩)) [] none),
     some (.ValueSpec none [some ⟨12, "y"⟩] (some (.Ident ⟨14, "int"⟩)) [] none)]
    token.NoPos

/-- The block `{ a }` at position 1, with `a` at 2 and `}` at 3. -/
def blockA : BlockStmt := .mk 1 [some (.ExprStmt (some (.Ident ⟨2, "a"⟩)))] 3

/-- A function declaration with `func` at position 4 and the name `g` at 5,
whose parameter list is an opening parenthesis at position 6 and nothing else,
and whose body is `blockA`. -/
def funcDeclOpenOnly : Decl :=
  .FuncDecl none none (some ⟨5, "g"⟩) (some (.mk 4 (some (.mk 6 [] token.NoPos)) none))
    (some blockA)

/-- The expression `(x)` with `(` at 1, `x` at 2 and `)` at the greatest
`int`. -/
def parenAtMaxInt : Expr := .ParenExpr 1 (some (.Ident ⟨2, "x"⟩)) MaxInt

end GoDef

namespace GoDef

/-! ## Arithmetic of `int` -/

theorem int.ext {a b : int} (h : a.toInt = b.toInt) : a = b := by
  cases a
  cases b
  cases h
  rfl

theorem int.eq_iff (a b : int) : a = b ↔ a.toInt = b.toInt :=
  ⟨fun h => by rw [h], int.ext⟩

theorem int.le_iff (a b : int) : a ≤ b ↔ a.toInt ≤ b.toInt := Iff.rfl

theorem int.lt_iff (a b : int) : a < b ↔ a.toInt < b.toInt := Iff.rfl

theorem int.toInt_add (a b : int) : (a + b).toInt = wrap (a.toInt + b.toInt) := rfl

theorem int.toInt_ofNat (n : Nat) : (OfNat.ofNat n : int).toInt = wrap n := rfl

theorem int.toInt_natCast (n : Nat) : ((n : int)).toInt = wrap n := rfl

theorem int.toInt_zero : (0 : int).toInt = 0 := rfl

theorem int.toInt_one : (1 : int).toInt = 1 := rfl

theorem int.toInt_MaxInt : MaxInt.toInt = 9223372036854775807 := rfl

theorem int.toInt_MinInt : MinInt.toInt = -9223372036854775808 := rfl

theorem wrap_eq (x : Int) (h1 : -9223372036854775808 ≤ x) (h2 : x ≤ 9223372036854775807) :
    wrap x = x := by
  unfold wrap
  omega

theorem int.add_zero (a : int) : a + 0 = a := by
  apply int.ext
  rw [int.toInt_add, int.toInt_zero]
  have := a.inRange
  unfold wrap
  omega

theorem token.Pos.fits_iff (p : token.Pos) (n : Nat) :
    p.Fits n = true ↔ p.toInt + (n : Int) ≤ 9223372036854775807 := by
  simp [token.Pos.Fits]

theorem int.toInt_add_natCast (p : int) (n : Nat) (h : token.Pos.Fits p n = true) :
    (p + (n : int)).toInt = p.toInt + (n : Int) := by
  have h1 := (token.Pos.fits_iff p n).1 h
  have h2 := p.inRange
  rw [int.toInt_add, int.toInt_natCast]
  unfold wrap
  omega

theorem int.toInt_add_ofNat (p : int) (n : Nat) (h : token.Pos.Fits p n = true) :
    (p + (OfNat.ofNat n : int)).toInt = p.toInt + (n : Int) := by
  have h1 := (token.Pos.fits_iff p n).1 h
  have h2 := p.inRange
  rw [int.toInt_add, int.toInt_ofNat]
  unfold wrap
  omega

theorem int.add_comm (a b : int) : a + b = b + a := by
  apply int.ext
  rw [int.toInt_add, int.toInt_add, Int.add_comm]

theorem int.add_natCast_zero (a : int) : a + ((0 : Nat) : int) = a :=
  int.add_zero a

theorem int.add_natCast_add (n : int) (a b : Nat) :
    n + (a : int) + (b : int) = n + ((a + b : Nat) : int) := by
  apply int.ext
  simp only [int.toInt_add, int.toInt_natCast]
  unfold wrap
  push_cast
  omega

theorem int.zero_add (a : int) : 0 + a = a := by
  rw [int.add_comm, int.add_zero]

theorem wrap_add_wrap (a b : Int) : wrap (a + wrap b) = wrap (a + b) := by
  unfold wrap
  omega

theorem int.toInt_add_natCast_wrap (p : int) (n : Nat) :
    (p + (n : int)).toInt = wrap (p.toInt + (n : Int)) := by
  rw [int.toInt_add, int.toInt_natCast, wrap_add_wrap]

theorem int.le_add_natCast (p : int) (n : Nat) (h : token.Pos.Fits p n = true) :
    p ≤ p + (n : int) := by
  rw [int.le_iff, int.toInt_add_natCast p n h]
  omega

theorem int.le_add_ofNat (p : int) (n : Nat) (h : token.Pos.Fits p n = true) :
    p ≤ p + (OfNat.ofNat n : int) := by
  rw [int.le_iff, int.toInt_add_ofNat p n h]
  omega

theorem int.lt_add_ofNat (p : int) (n : Nat) (hn : 0 < n) (h : token.Pos.Fits p n = true) :
    p < p + (OfNat.ofNat n : int) := by
  rw [int.lt_iff, int.toInt_add_ofNat p n h]
  omega

end GoDef

namespace GoDef

/-! ## Basic facts about the control structure of the search -/

@[simp] theorem orElse_ok_none (b : Result) : orElse (.ok none) b = b := rfl

@[simp] theorem orElse_ok_some (x : Node) (b : Result) :
    orElse (.ok (some x)) b = .ok (some x) := rfl

@[simp] theorem orElse_error (f : Failure) (b : Result) : orElse (.error f) b = .error f := rfl

theorem spanGuard_ok (p e pos : token.Pos) (body : Result) :
    spanGuard (.ok p) (.ok e) pos body = if p ≤ pos ∧ pos < e then body else .ok none := by
  unfold spanGuard
  by_cases h1 : p > pos
  · have : ¬ (p ≤ pos ∧ pos < e) := fun h => absurd h.1 (not_le.mpr h1)
    simp [h1, this]
  · by_cases h2 : e ≤ pos
    · have : ¬ (p ≤ pos ∧ pos < e) := fun h => absurd h.2 (not_lt.mpr h2)
      simp [h1, h2, this]
    · have : p ≤ pos ∧ pos < e := ⟨not_lt.mp h1, not_le.mp h2⟩
      simp [h1, h2, this]

theorem spanGuard_before (p pos : token.Pos) (e : Except Failure token.Pos) (body : Result)
    (h : pos < p) : spanGuard (.ok p) e pos body = .ok none := by
  unfold spanGuard
  simp [h]

theorem Ident.findCase_eq (i : Ident) (pos : token.Pos) :
    i.findCase pos =
      if i.NamePos ≤ pos ∧ pos < i.NamePos + (i.Name.utf8ByteSize : token.Pos)
      then .ok (some (.Expr (.Ident i))) else .ok none := by
  unfold Ident.findCase Ident.Pos Ident.End
  by_cases h : i.NamePos ≤ pos ∧ pos < i.NamePos + (i.Name.utf8ByteSize : token.Pos)
  · simp [h]
  · simp only [h, if_false]
    rw [if_neg]
    simpa using h

theorem findNodeHelperExpr_ident (i : Ident) (pos : token.Pos) :
    findNodeHelperExpr (some (.Ident i)) pos =
      if i.NamePos ≤ pos ∧ pos < i.NamePos + (i.Name.utf8ByteSize : token.Pos)
      then .ok (some (.Expr (.Ident i))) else .ok none := by
  show spanGuard (.ok i.NamePos) (.ok (i.NamePos + (i.Name.utf8ByteSize : token.Pos))) pos
      (i.findCase pos) = _
  rw [spanGuard_ok, Ident.findCase_eq]
  by_cases h : i.NamePos ≤ pos ∧ pos < i.NamePos + (i.Name.utf8ByteSize : token.Pos)
  · simp [h]
  · simp [h]

theorem selectorCase_eq (X : Option Expr) (Sel : Option Ident) (p e pos : token.Pos)
    (hX : Expr.PosOf X = .ok p) (hS : Ident.EndOf Sel = .ok e) :
    selectorCase X Sel pos =
      if p ≤ pos ∧ pos < e then .ok (some (.Expr (.SelectorExpr X Sel))) else .ok none := by
  unfold selectorCase
  rw [hX, hS]
  by_cases h1 : p ≤ pos
  · by_cases h2 : pos < e
    · simp [h1, h2]
    · simp [h1, h2]
  · simp [h1]

theorem findNodeHelperExpr_selector (X : Option Expr) (Sel : Option Ident) (p e pos : token.Pos)
    (hX : Expr.PosOf X = .ok p) (hS : Ident.EndOf Sel = .ok e) :
    findNodeHelperExpr (some (.SelectorExpr X Sel)) pos =
      if p ≤ pos ∧ pos < e then .ok (some (.Expr (.SelectorExpr X Sel))) else .ok none := by
  show spanGuard (Expr.PosOf X) (Ident.EndOf Sel) pos (selectorCase X Sel pos) = _
  rw [selectorCase_eq X Sel p e pos hX hS, hX, hS, spanGuard_ok]
  by_cases h : p ≤ pos ∧ pos < e
  · simp [h]
  · simp [h]

theorem Ident.Pos_le_End (i : Ident) (h : i.NamePos.Fits i.Name.utf8ByteSize = true) :
    i.Pos ≤ i.End :=
  int.le_add_natCast i.NamePos i.Name.utf8ByteSize h

end GoDef

namespace GoDef

/-! ## The search on particular nodes -/

/-- C2: for every selector node `X.Sel` and every position with
`Pos(X) ≤ pos < End(Sel)`, the search on the selector returns the selector
node itself, whatever kind of expression `X` is. -/
theorem findNodeHelper_selector (X : Expr) (Sel : Ident) (p pos : token.Pos)
    (hX : X.Pos = .ok p) (h1 : p ≤ pos) (h2 : pos < Sel.End) :
    findNodeHelper (some (.Expr (.SelectorExpr (some X) (some Sel)))) pos =
      .ok (some (.Expr (.SelectorExpr (some X) (some Sel)))) := by
  show findNodeHelperExpr (some (.SelectorExpr (some X) (some Sel))) pos = _
  rw [findNodeHelperExpr_selector (some X) (some Sel) p Sel.End pos hX rfl, if_pos ⟨h1, h2⟩]

/-- Witness of C2 on the selector `f().g`, whose left operand is a call: the
position of `f` yields the selector. -/
theorem findNodeHelper_selector_witness :
    findNodeHelper (some (.Expr (.SelectorExpr (some callF) (some idG)))) 1 =
      .ok (some (.Expr (.SelectorExpr (some callF) (some idG)))) :=
  findNodeHelper_selector callF idG 1 1 rfl (by decide) (by decide)

/-- C3, as stated, fails when an end of a span wraps around on `int`, in each
of four ways; the stored positions are in source order and the names are not
empty.  With `x` at 1, `y` at 3, `(` at 4, `z` at 5 and `)` at the greatest
`int`, the end of the call, `Rparen + 1`, is the least `int`, and the search at
position 3, inside `y`, returns no match.  With `x` at the greatest `int`, whose
end is the least `int`, followed by `y`, `(`, `z` and `)` at the next positions
of `int`, the call starts after every position of `y`.  With `z` at the
greatest `int`, whose end is the least `int`, and `)` at 0, the call ends at 1,
before `y`.  With `y` at the greatest `int`, followed by `(`, `z` and `)` at
the next positions of `int`, the call starts at `x`, after every position of
`z`, and the search inside `z` returns no match. -/
theorem call_selector_rparen_overflow :
    (Ident.End ⟨1, "x"⟩ < Ident.Pos ⟨3, "y"⟩ ∧
     Ident.End ⟨3, "y"⟩ ≤ 4 ∧
     (4 : token.Pos) < Ident.Pos ⟨5, "z"⟩ ∧
     Ident.End ⟨5, "z"⟩ ≤ MaxInt ∧
     Ident.Pos ⟨1, "x"⟩ ≤ Ident.End ⟨1, "x"⟩ ∧
     Ident.Pos ⟨3, "y"⟩ ≤ Ident.End ⟨3, "y"⟩ ∧
     Ident.Pos ⟨5, "z"⟩ ≤ Ident.End ⟨5, "z"⟩ ∧
     ¬ ((MaxInt : token.Pos) < MaxInt + 1) ∧
     Ident.Pos ⟨3, "y"⟩ ≤ 3 ∧
     (3 : token.Pos) < Ident.End ⟨3, "y"⟩ ∧
     findNodeHelper (some (.Expr
      (.CallExpr (.mk (some (.SelectorExpr (some (.Ident ⟨1, "x"⟩)) (some ⟨3, "y"⟩))) 4
        [some (.Ident ⟨5, "z"⟩)] token.NoPos MaxInt)))) 3 =
      .ok none) ∧
    (Ident.End ⟨MaxInt, "x"⟩ < Ident.Pos ⟨MinInt + 2, "y"⟩ ∧
     Ident.End ⟨MinInt + 2, "y"⟩ ≤ (MinInt + 3) ∧
     ((MinInt + 3) : token.Pos) < Ident.Pos ⟨MinInt + 4, "z"⟩ ∧
     Ident.End ⟨MinInt + 4, "z"⟩ ≤ (MinInt + 5) ∧
     ¬ Ident.Pos ⟨MaxInt, "x"⟩ ≤ Ident.End ⟨MaxInt, "x"⟩ ∧
     Ident.Pos ⟨MinInt + 2, "y"⟩ ≤ Ident.End ⟨MinInt + 2, "y"⟩ ∧
     Ident.Pos ⟨MinInt + 4, "z"⟩ ≤ Ident.End ⟨MinInt + 4, "z"⟩ ∧
     ((MinInt + 5) : token.Pos) < (MinInt + 5) + 1 ∧
     Ident.Pos ⟨MinInt + 2, "y"⟩ ≤ (MinInt + 2) ∧
     ((MinInt + 2) : token.Pos) < Ident.End ⟨MinInt + 2, "y"⟩ ∧
     findNodeHelper (some (.Expr
      (.CallExpr (.mk
        (some (.SelectorExpr (some (.Ident ⟨MaxInt, "x"⟩)) (some ⟨MinInt + 2, "y"⟩))) (MinInt + 3)
        [some (.Ident ⟨MinInt + 4, "z"⟩)] token.NoPos (MinInt + 5))))) (MinInt + 2) =
      .ok none) ∧
    (Ident.End ⟨1, "x"⟩ < Ident.Pos ⟨3, "y"⟩ ∧
     Ident.End ⟨3, "y"⟩ ≤ 4 ∧
     (4 : token.Pos) < Ident.Pos ⟨MaxInt, "z"⟩ ∧
     Ident.End ⟨MaxInt, "z"⟩ ≤ 0 ∧
     Ident.Pos ⟨1, "x"⟩ ≤ Ident.End ⟨1, "x"⟩ ∧
     Ident.Pos ⟨3, "y"⟩ ≤ Ident.End ⟨3, "y"⟩ ∧
     ¬ Ident.Pos ⟨MaxInt, "z"⟩ ≤ Ident.End ⟨MaxInt, "z"⟩ ∧
     (0 : token.Pos) < 0 + 1 ∧
     Ident.Pos ⟨3, "y"⟩ ≤ 3 ∧
     (3 : token.Pos) < Ident.End ⟨3, "y"⟩ ∧
     findNodeHelper (some (.Expr
      (.CallExpr (.mk (some (.SelectorExpr (some (.Ident ⟨1, "x"⟩)) (some ⟨3, "y"⟩))) 4
        [some (.Ident ⟨MaxInt, "z"⟩)] token.NoPos 0)))) 3 =
      .ok none) ∧
    (Ident.End ⟨5, "x"⟩ < Ident.Pos ⟨MaxInt, "y"⟩ ∧
     Ident.End ⟨MaxInt, "y"⟩ ≤ (MinInt + 1) ∧
     ((MinInt + 1) : token.Pos) < Ident.Pos ⟨MinInt + 2, "z"⟩ ∧
     Ident.End ⟨MinInt + 2, "z"⟩ ≤ (MinInt + 3) ∧
     Ident.Pos ⟨5, "x"⟩ ≤ Ident.End ⟨5, "x"⟩ ∧
     ¬ Ident.Pos ⟨MaxInt, "y"⟩ ≤ Ident.End ⟨MaxInt, "y"⟩ ∧
     Ident.Pos ⟨MinInt + 2, "z"⟩ ≤ Ident.End ⟨MinInt + 2, "z"⟩ ∧
     ((MinInt + 3) : token.Pos) < (MinInt + 3) + 1 ∧
     Ident.Pos ⟨MinInt + 2, "z"⟩ ≤ (MinInt + 2) ∧
     ((MinInt + 2) : token.Pos) < Ident.End ⟨MinInt + 2, "z"⟩ ∧
     findNodeHelper (some (.Expr
      (.CallExpr (.mk
        (some (.SelectorExpr (some (.Ident ⟨5, "x"⟩)) (some ⟨MaxInt, "y"⟩))) (MinInt + 1)
        [some (.Ident ⟨MinInt + 2, "z"⟩)] token.NoPos (MinInt + 3))))) (MinInt + 2) =
      .ok none) :=
  ⟨⟨by decide, by decide, by decide, by decide, by decide, by decide, by decide, by decide,
      by decide, by decide, rfl⟩,
    ⟨by decide, by decide, by decide, by decide, by decide, by decide, by decide, by decide,
      by decide, by decide, rfl⟩,
    ⟨by decide, by decide, by decide, by decide, by decide, by decide, by decide, by decide,
      by decide, by decide, rfl⟩,
    ⟨by decide, by decide, by decide, by decide, by decide, by decide, by decide, by decide,
      by decide, by decide, rfl⟩⟩

/-- C3, amended: for the call `x.y(z)` over identifiers `x`, `y`, `z` in source
order, where no end of a span wraps around (each identifier ends at or after
its start, and the call ends after its closing parenthesis), the search on
the call returns the selector `x.y`, not the identifier `y`, at every position
inside `y`, and the identifier `z` at every position inside `z`. -/
theorem findNodeHelper_call_selector (x y z : Ident) (Lparen Ellipsis Rparen pos : token.Pos)
    (hxy : x.End < y.Pos) (hyl : y.End ≤ Lparen) (hlz : Lparen < z.Pos)
    (hzr : z.End ≤ Rparen)
    (hx : x.Pos ≤ x.End) (hy : y.Pos ≤ y.End) (hz : z.Pos ≤ z.End) (hr : Rparen < Rparen + 1) :
    (y.Pos ≤ pos → pos < y.End →
      findNodeHelper (some (.Expr (.CallExpr (.mk
          (some (.SelectorExpr (some (.Ident x)) (some y))) Lparen [some (.Ident z)]
          Ellipsis Rparen)))) pos
        = .ok (some (.Expr (.SelectorExpr (some (.Ident x)) (some y)))) ∧
      findNodeHelper (some (.Expr (.CallExpr (.mk
          (some (.SelectorExpr (some (.Ident x)) (some y))) Lparen [some (.Ident z)]
          Ellipsis Rparen)))) pos
        ≠ .ok (some (.Expr (.Ident y)))) ∧
    (z.Pos ≤ pos → pos < z.End →
      findNodeHelper (some (.Expr (.CallExpr (.mk
          (some (.SelectorExpr (some (.Ident x)) (some y))) Lparen [some (.Ident z)]
          Ellipsis Rparen)))) pos
        = .ok (some (.Expr (.Ident z)))) := by
  have hshape : findNodeHelper (some (.Expr (.CallExpr (.mk
          (some (.SelectorExpr (some (.Ident x)) (some y))) Lparen [some (.Ident z)]
          Ellipsis Rparen)))) pos
      = spanGuard (.ok x.Pos) (.ok (Rparen + 1)) pos
          (orElse (findNodeHelperExpr (some (.SelectorExpr (some (.Ident x)) (some y))) pos)
            (orElse (findNodeHelperExpr (some (.Ident z)) pos) (.ok none))) := rfl
  rw [hshape, spanGuard_ok,
    findNodeHelperExpr_selector (some (.Ident x)) (some y) x.Pos y.End pos rfl rfl,
    findNodeHelperExpr_ident]
  unfold Ident.Pos Ident.End at *
  refine ⟨fun h1 h2 => ?_, fun h1 h2 => ?_⟩
  · have hin : x.NamePos ≤ pos ∧ pos < Rparen + 1 := by
      simp only [int.le_iff, int.lt_iff] at *
      omega
    have hsel : x.NamePos ≤ pos ∧ pos < y.NamePos + (y.Name.utf8ByteSize : token.Pos) := by
      simp only [int.le_iff, int.lt_iff] at *
      omega
    rw [if_pos hin, if_pos hsel]
    simp
  · have hin : x.NamePos ≤ pos ∧ pos < Rparen + 1 := by
      simp only [int.le_iff, int.lt_iff] at *
      omega
    have hsel :
        ¬ (x.NamePos ≤ pos ∧ pos < y.NamePos + (y.Name.utf8ByteSize : token.Pos)) := by
      simp only [int.le_iff, int.lt_iff] at *
      omega
    rw [if_pos hin, if_neg hsel, if_pos ⟨h1, h2⟩]
    simp

/-- Witness of C3 on `x.y(z)` at positions 1 to 6: position 3 of `y` yields
the selector, position 5 of `z` yields `z`. -/
theorem findNodeHelper_call_selector_witness :
    findNodeHelper (some (.Expr callXYZ)) 3 = .ok (some (.Expr selXY)) ∧
    findNodeHelper (some (.Expr callXYZ)) 5 = .ok (some (.Expr (.Ident idZ))) :=
  ⟨((findNodeHelper_call_selector idX idY idZ 4 token.NoPos 6 3
      (by decide) (by decide) (by decide) (by decide)
      (by decide) (by decide) (by decide) (by decide)).1 (by decide) (by decide)).1,
   (findNodeHelper_call_selector idX idY idZ 4 token.NoPos 6 5
      (by decide) (by decide) (by decide) (by decide)
      (by decide) (by decide) (by decide) (by decide)).2 (by decide) (by decide)⟩

/-- C4, as stated, fails: for the identifier `x` at the greatest `int` and
`pos` the greatest `int`, `NamePos ≤ pos < NamePos + len(Name)` holds of the
integers, and the search returns no match: the end of the identifier,
`NamePos + 1` on `int`, wraps around to the least `int`. -/
theorem ident_at_MaxInt_no_match :
    (⟨MaxInt, "x"⟩ : Ident).NamePos.toInt ≤ MaxInt.toInt ∧
    MaxInt.toInt < (⟨MaxInt, "x"⟩ : Ident).NamePos.toInt + ("x".utf8ByteSize : Int) ∧
    Ident.End ⟨MaxInt, "x"⟩ = MinInt ∧
    findNodeHelper (some (.Expr (.Ident ⟨MaxInt, "x"⟩))) MaxInt = .ok none := by
  refine ⟨by decide, by decide, by decide, rfl⟩

/-- C4, amended: for every identifier node and every position, the search on
the identifier returns the identifier itself when
`NamePos ≤ pos < NamePos + len(Name)`, and no match otherwise, the sum being
the sum of Go on `int`: the exact sum wrapped around into the 64-bit range.
When the exact sum is at most the greatest `int`, the sum is exact and the
condition is the one on the integers. -/
theorem findNodeHelper_ident (i : Ident) (pos : token.Pos) :
    (findNodeHelper (some (.Expr (.Ident i))) pos =
      if i.NamePos ≤ pos ∧ pos < i.NamePos + (i.Name.utf8ByteSize : token.Pos)
      then .ok (some (.Expr (.Ident i))) else .ok none) ∧
    (i.NamePos + (i.Name.utf8ByteSize : token.Pos)).toInt =
      wrap (i.NamePos.toInt + (i.Name.utf8ByteSize : Int)) ∧
    (i.NamePos.Fits i.Name.utf8ByteSize = true →
      findNodeHelper (some (.Expr (.Ident i))) pos =
        if i.NamePos.toInt ≤ pos.toInt ∧
            pos.toInt < i.NamePos.toInt + (i.Name.utf8ByteSize : Int)
        then .ok (some (.Expr (.Ident i))) else .ok none) := by
  refine ⟨findNodeHelperExpr_ident i pos, int.toInt_add_natCast_wrap _ _, ?_⟩
  intro h
  refine (findNodeHelperExpr_ident i pos).trans ?_
  simp only [int.le_iff, int.lt_iff, int.toInt_add_natCast _ _ h]

/-- Witness of C4 on the identifier `f` at position 6, of span `[6, 7)`, at
position 6. -/
theorem findNodeHelper_ident_witness :
    (⟨6, "f"⟩ : Ident).NamePos.Fits ("f" : String).utf8ByteSize = true ∧
    findNodeHelper (some (.Expr (.Ident ⟨6, "f"⟩))) 6 = .ok (some (.Expr (.Ident ⟨6, "f"⟩))) :=
  ⟨by decide, ((findNodeHelper_ident ⟨6, "f"⟩ 6).2.2 (by decide)).trans rfl⟩

/-- C5 fails on the code: in `func f() {}` the name `f` spans `[6, 7)`, inside
the span `[1, 12)` of the declaration, and the search on the declaration at
position 6 returns no match, because the case of function declarations
searches the receiver, the type and the body but not the name. -/
theorem findNodeHelper_funcDecl_name_missed :
    Decl.Pos funcDeclF = .ok 1 ∧ Decl.End funcDeclF = .ok 12 ∧
    Ident.Pos ⟨6, "f"⟩ = 6 ∧ Ident.End ⟨6, "f"⟩ = 7 ∧
    findNodeHelper (some (.Expr (.Ident ⟨6, "f"⟩))) 6 = .ok (some (.Expr (.Ident ⟨6, "f"⟩))) ∧
    findNodeHelper (some (.Decl funcDeclF)) 6 = .ok none :=
  ⟨rfl, rfl, rfl, rfl, rfl, rfl⟩

/-- C6, as stated, fails: at position 1, inside the span `[1, 3)` of the
literal `42`, the search on the literal returns no match, not the literal. -/
theorem basicLit_inside_span_no_match :
    lit42.Pos ≤ 1 ∧ (1 : token.Pos) < lit42.End ∧
    findNodeHelper (some (.Expr (.BasicLit lit42))) 1 = .ok none ∧
    findNodeHelper (some (.Expr (.BasicLit lit42))) 1 ≠ .ok (some (.Expr (.BasicLit lit42))) := by
  refine ⟨by decide, by decide, rfl, ?_⟩
  show (Except.ok none : Result) ≠ _
  simp

/-- C6, amended: for every basic literal and every position, the search on the
literal returns no match; a basic literal is never the match. -/
theorem findNodeHelper_basicLit (b : BasicLit) (pos : token.Pos) :
    findNodeHelper (some (.Expr (.BasicLit b))) pos = .ok none := by
  show spanGuard (.ok b.Pos) (.ok b.End) pos (.ok none) = _
  rw [spanGuard_ok]
  simp

/-- C7 fails on the code: nodes of the taxonomy reach the exit
`node type not handled`.  The case of generic declarations has an empty body
and the bad-expression and empty-statement kinds have no case, so the search
on `var x int` at the position of `x`, on the file holding that declaration,
on a bad expression and on an empty statement all end in that exit. -/
theorem findNodeHelper_taxonomy_notHandled :
    findNodeHelper (some (.Decl genDeclVarX)) 15 = .error .notHandled ∧
    findNodeHelper (some (.File fileVarX)) 15 = .error .notHandled ∧
    findNode (some fileVarX) 14 = .error .notHandled ∧
    findNodeHelper (some (.Expr (.BadExpr 1 4))) 2 = .error .notHandled ∧
    findNodeHelper (some (.Stmt (.ExprStmt (some (.BadExpr 1 4))))) 2 = .error .notHandled ∧
    findNodeHelper (some (.Stmt (.EmptyStmt 1))) 1 = .error .notHandled ∧
    findNodeHelper (some (.Stmt (.BadStmt 1 4))) 2 = .error .notHandled ∧
    findNodeHelper (some (.Decl (.BadDecl 1 4))) 2 = .error .notHandled :=
  ⟨rfl, rfl, rfl, rfl, rfl, rfl, rfl, rfl⟩

/-- C10: the search returns no match for a nil node, and for a present node
whose span starts after the position or ends at or before it, whatever the
type switch would do on the node: no child is searched. -/
theorem findNodeHelper_outside_span (pos : token.Pos) :
    findNodeHelper none pos = .ok none ∧
    (∀ (n : Node) (p : token.Pos), n.Pos = .ok p → pos < p →
      findNodeHelper (some n) pos = .ok none ∧
      ∀ body : Result, spanGuard n.Pos n.End pos body = .ok none) ∧
    (∀ (n : Node) (p e : token.Pos), n.Pos = .ok p → n.End = .ok e → e ≤ pos →
      findNodeHelper (some n) pos = .ok none ∧
      ∀ body : Result, spanGuard n.Pos n.End pos body = .ok none) := by
  refine ⟨rfl, fun n p hp hlt => ?_, fun n p e hp he hle => ?_⟩
  · have key : ∀ body : Result, spanGuard n.Pos n.End pos body = .ok none := by
      intro body
      rw [hp]
      exact spanGuard_before p pos n.End body hlt
    exact ⟨key (n.findCase pos), key⟩
  · have key : ∀ body : Result, spanGuard n.Pos n.End pos body = .ok none := by
      intro body
      rw [hp, he, spanGuard_ok]
      have : ¬ (p ≤ pos ∧ pos < e) := fun h => absurd h.2 (not_lt.mpr hle)
      rw [if_neg this]
    exact ⟨key (n.findCase pos), key⟩

/-- Witness of C10 on the declaration `var x int`, of span `[11, 20)`, whose
type switch would not return: before and after the span the search returns no
match. -/
theorem findNodeHelper_outside_span_witness :
    findNodeHelper none 5 = .ok none ∧
    findNodeHelper (some (.Decl genDeclVarX)) 5 = .ok none ∧
    findNodeHelper (some (.Decl genDeclVarX)) 20 = .ok none :=
  ⟨(findNodeHelper_outside_span 5).1,
   ((findNodeHelper_outside_span 5).2.1 (.Decl genDeclVarX) 11 rfl (by decide)).1,
   ((findNodeHelper_outside_span 20).2.2 (.Decl genDeclVarX) 11 20 rfl rfl (by decide)).1⟩

end GoDef

namespace GoDef

/-! ## The chain unroller -/

theorem unrollExpr_selector (X : Expr) (Sel : Option Ident) :
    unrollExpr (.SelectorExpr (some X) Sel) =
      match unrollExpr X with
      | .error f => .error f
      | .ok idents => .ok (idents ++ [Sel]) := rfl

theorem unrollExpr_foldl (is : List Ident) :
    ∀ (acc : Expr) (l : List (Option Ident)), unrollExpr acc = .ok l →
      unrollExpr (is.foldl (fun acc i => Expr.SelectorExpr (some acc) (some i)) acc)
        = .ok (l ++ is.map some) := by
  induction is with
  | nil => intro acc l h; simpa using h
  | cons i is ih =>
    intro acc l h
    have step : unrollExpr (Expr.SelectorExpr (some acc) (some i)) = .ok (l ++ [some i]) := by
      rw [unrollExpr_selector, h]
    have := ih _ _ step
    simpa using this

theorem unrollExpr_chain : ∀ e : Expr,
    Node.isSelector ((Expr.chainEnd e).map Node.Expr) = false ∧
    (Node.isIdent ((Expr.chainEnd e).map Node.Expr) = true →
      ∃ l, unrollExpr e = .ok l ∧ l.length = Expr.chainDepth e + 1) ∧
    (Node.isIdent ((Expr.chainEnd e).map Node.Expr) = false →
      unrollExpr e = .error .notIdentifier)
  | .SelectorExpr none _ => ⟨rfl, fun h => (by cases h), fun _ => rfl⟩
  | .SelectorExpr (some X) Sel => by
    have ih := unrollExpr_chain X
    refine ⟨ih.1, fun h => ?_, fun h => ?_⟩
    · obtain ⟨l, hl, hlen⟩ := ih.2.1 h
      refine ⟨l ++ [Sel], ?_, ?_⟩
      · rw [unrollExpr_selector, hl]
      · show (l ++ [Sel]).length = (Expr.chainDepth X + 1) + 1
        simp [hlen]
    · rw [unrollExpr_selector, ih.2.2 h]
  | .Ident _ => ⟨rfl, fun _ => ⟨_, rfl, rfl⟩, fun h => (by cases h)⟩
  | .BadExpr _ _ => ⟨rfl, fun h => (by cases h), fun _ => rfl⟩
  | .Ellipsis _ _ => ⟨rfl, fun h => (by cases h), fun _ => rfl⟩
  | .BasicLit _ => ⟨rfl, fun h => (by cases h), fun _ => rfl⟩
  | .FuncLit _ _ => ⟨rfl, fun h => (by cases h), fun _ => rfl⟩
  | .CompositeLit _ _ _ _ => ⟨rfl, fun h => (by cases h), fun _ => rfl⟩
  | .ParenExpr _ _ _ => ⟨rfl, fun h => (by cases h), fun _ => rfl⟩
  | .IndexExpr _ _ _ _ => ⟨rfl, fun h => (by cases h), fun _ => rfl⟩
  | .SliceExpr _ _ _ _ _ _ _ => ⟨rfl, fun h => (by cases h), fun _ => rfl⟩
  | .TypeAssertExpr _ _ => ⟨rfl, fun h => (by cases h), fun _ => rfl⟩
  | .CallExpr _ => ⟨rfl, fun h => (by cases h), fun _ => rfl⟩
  | .StarExpr _ _ => ⟨rfl, fun h => (by cases h), fun _ => rfl⟩
  | .UnaryExpr _ _ _ => ⟨rfl, fun h => (by cases h), fun _ => rfl⟩
  | .BinaryExpr _ _ _ _ => ⟨rfl, fun h => (by cases h), fun _ => rfl⟩
  | .KeyValueExpr _ _ _ => ⟨rfl, fun h => (by cases h), fun _ => rfl⟩
  | .ArrayType _ _ _ => ⟨rfl, fun h => (by cases h), fun _ => rfl⟩
  | .StructType _ _ _ => ⟨rfl, fun h => (by cases h), fun _ => rfl⟩
  | .FuncType _ => ⟨rfl, fun h => (by cases h), fun _ => rfl⟩
  | .InterfaceType _ _ _ => ⟨rfl, fun h => (by cases h), fun _ => rfl⟩
  | .MapType _ _ _ => ⟨rfl, fun h => (by cases h), fun _ => rfl⟩
  | .ChanType _ _ _ => ⟨rfl, fun h => (by cases h), fun _ => rfl⟩

theorem unroll_chain (n : Option Node) :
    Node.isSelector (Node.chainEnd n) = false ∧
    (Node.isIdent (Node.chainEnd n) = true →
      ∃ l, unroll n = .ok l ∧ l.length = Node.chainDepth n + 1) ∧
    (Node.isIdent (Node.chainEnd n) = false → unroll n = .error .notIdentifier) := by
  match n with
  | none => exact ⟨rfl, fun h => (by cases h), fun _ => rfl⟩
  | some (.Expr e) => exact unrollExpr_chain e
  | some (.Comment _) => exact ⟨rfl, fun h => (by cases h), fun _ => rfl⟩
  | some (.CommentGroup _) => exact ⟨rfl, fun h => (by cases h), fun _ => rfl⟩
  | some (.Field _) => exact ⟨rfl, fun h => (by cases h), fun _ => rfl⟩
  | some (.FieldList _) => exact ⟨rfl, fun h => (by cases h), fun _ => rfl⟩
  | some (.Stmt _) => exact ⟨rfl, fun h => (by cases h), fun _ => rfl⟩
  | some (.Spec _) => exact ⟨rfl, fun h => (by cases h), fun _ => rfl⟩
  | some (.Decl _) => exact ⟨rfl, fun h => (by cases h), fun _ => rfl⟩
  | some (.File _) => exact ⟨rfl, fun h => (by cases h), fun _ => rfl⟩
  | some (.Package _) => exact ⟨rfl, fun h => (by cases h), fun _ => rfl⟩

/-- C8: for every left-nested selector chain `i0.i1. ... .ik` over
identifiers, `unroll` returns exactly `[i0, i1, ..., ik]`, in source order
and of length `k + 1`; in particular `a.b.c` unrolls to `[a, b, c]`. -/
theorem unroll_selectorChain (i0 : Ident) (is : List Ident) :
    unroll (some (.Expr (selectorChain i0 is))) = .ok ((i0 :: is).map some) ∧
    ((i0 :: is).map some).length = is.length + 1 ∧
    ∀ a b c : Ident,
      unroll (some (.Expr
        (.SelectorExpr (some (.SelectorExpr (some (.Ident a)) (some b))) (some c))))
        = .ok [some a, some b, some c] := by
  refine ⟨?_, by simp, fun a b c => rfl⟩
  show unrollExpr (selectorChain i0 is) = _
  unfold selectorChain
  rw [unrollExpr_foldl is (.Ident i0) [some i0] rfl]
  simp

/-- C9: `unroll` fails with its `not identifier` exit exactly when following
the left operand `X` from the node through nested selector nodes ends in a
value that is not an identifier (a node of another kind, or nil); it has no
other failure, and when the chain ends in an identifier it returns a sequence
with one entry for the identifier and one for every selector passed, never a
shorter one. -/
theorem unroll_fails_iff (n : Option Node) :
    Node.isSelector (Node.chainEnd n) = false ∧
    (unroll n = .error .notIdentifier ↔ Node.isIdent (Node.chainEnd n) = false) ∧
    (∀ f : Failure, unroll n = .error f → f = .notIdentifier) ∧
    (Node.isIdent (Node.chainEnd n) = true →
      ∃ l, unroll n = .ok l ∧ l.length = Node.chainDepth n + 1) := by
  obtain ⟨h1, h2, h3⟩ := unroll_chain n
  refine ⟨h1, ⟨fun h => ?_, h3⟩, fun f hf => ?_, h2⟩
  · cases hid : Node.isIdent (Node.chainEnd n) with
    | false => rfl
    | true =>
      obtain ⟨l, hl, _⟩ := h2 hid
      rw [hl] at h
      cases h
  · cases hid : Node.isIdent (Node.chainEnd n) with
    | false =>
      rw [h3 hid] at hf
      cases hf
      rfl
    | true =>
      obtain ⟨l, hl, _⟩ := h2 hid
      rw [hl] at hf
      cases hf

/-- Witness of C9: the chain `f().g` ends in a call, so `unroll` fails, and
the chain `x.y` ends in the identifier `x`, so `unroll` returns two entries. -/
theorem unroll_fails_iff_witness :
    unroll (some (.Expr (.SelectorExpr (some callF) (some idG)))) = .error .notIdentifier ∧
    ∃ l, unroll (some (.Expr selXY)) = .ok l ∧ l.length = 2 :=
  ⟨(unroll_fails_iff (some (.Expr (.SelectorExpr (some callF) (some idG))))).2.1.mpr rfl,
   (unroll_fails_iff (some (.Expr selXY))).2.2.2 rfl⟩

end GoDef

namespace GoDef

/-! ## Every match contains the position -/

theorem MatchInSpan.ok_none (pos : token.Pos) : MatchInSpan pos (.ok none) := by
  intro r h
  cases h

theorem MatchInSpan.error (pos : token.Pos) (f : Failure) : MatchInSpan pos (.error f) := by
  intro r h
  cases h

theorem MatchInSpan.orElse {pos : token.Pos} {a b : Result}
    (ha : MatchInSpan pos a) (hb : MatchInSpan pos b) : MatchInSpan pos (orElse a b) := by
  match a, ha with
  | .ok none, _ => exact hb
  | .ok (some x), ha => exact ha
  | .error f, ha => exact ha

theorem MatchInSpan.spanGuard {pos : token.Pos} (p e : Except Failure token.Pos) {body : Result}
    (hb : MatchInSpan pos body) : MatchInSpan pos (spanGuard p e pos body) := by
  unfold GoDef.spanGuard
  match p with
  | .error f => exact MatchInSpan.error pos f
  | .ok p =>
    by_cases h1 : p > pos
    · simp only [h1, if_true]
      exact MatchInSpan.ok_none pos
    · simp only [h1, if_false]
      match e with
      | .error f => exact MatchInSpan.error pos f
      | .ok e =>
        by_cases h2 : e ≤ pos
        · simp only [h2, if_true]
          exact MatchInSpan.ok_none pos
        · simp only [h2, if_false]
          exact hb

theorem MatchInSpan.identCase (i : Ident) (pos : token.Pos) :
    MatchInSpan pos (i.findCase pos) := by
  rw [Ident.findCase_eq]
  by_cases h : i.NamePos ≤ pos ∧ pos < i.NamePos + (i.Name.utf8ByteSize : token.Pos)
  · rw [if_pos h]
    intro r hr
    cases hr
    exact ⟨i.NamePos, i.NamePos + (i.Name.utf8ByteSize : token.Pos), rfl, rfl, h.1, h.2⟩
  · rw [if_neg h]
    exact MatchInSpan.ok_none pos

theorem MatchInSpan.selectorCase (X : Option Expr) (Sel : Option Ident) (pos : token.Pos) :
    MatchInSpan pos (selectorCase X Sel pos) := by
  cases hX : Expr.PosOf X with
  | error f =>
    unfold GoDef.selectorCase
    rw [hX]
    exact MatchInSpan.error pos f
  | ok p =>
    cases hS : Ident.EndOf Sel with
    | error f =>
      unfold GoDef.selectorCase
      rw [hX, hS]
      by_cases h1 : p ≤ pos
      · simp only [h1, if_true]
        exact MatchInSpan.error pos f
      · simp only [h1, if_false]
        exact MatchInSpan.ok_none pos
    | ok e =>
      rw [selectorCase_eq X Sel p e pos hX hS]
      by_cases h : p ≤ pos ∧ pos < e
      · rw [if_pos h]
        intro r hr
        cases hr
        exact ⟨p, e, hX, hS, h.1, h.2⟩
      · rw [if_neg h]
        exact MatchInSpan.ok_none pos

theorem MatchInSpan.findIdent (x : Option Ident) (pos : token.Pos) :
    MatchInSpan pos (findNodeHelperIdent x pos) := by
  match x with
  | none => exact MatchInSpan.ok_none pos
  | some i =>
    show MatchInSpan pos (GoDef.spanGuard (.ok i.Pos) (.ok i.End) pos (i.findCase pos))
    exact MatchInSpan.spanGuard _ _ (MatchInSpan.identCase i pos)

theorem MatchInSpan.findIdents (xs : List (Option Ident)) (pos : token.Pos) :
    MatchInSpan pos (findNodeHelperIdents xs pos) := by
  induction xs with
  | nil => exact MatchInSpan.ok_none pos
  | cons x xs ih => exact MatchInSpan.orElse (MatchInSpan.findIdent x pos) ih

mutual

theorem MatchInSpan.findExpr :
    ∀ (x : Option Expr) (pos : token.Pos), MatchInSpan pos (findNodeHelperExpr x pos)
  | none, pos => MatchInSpan.ok_none pos
  | some e, pos => MatchInSpan.spanGuard _ _ (MatchInSpan.caseExpr e pos)

theorem MatchInSpan.caseExpr :
    ∀ (e : Expr) (pos : token.Pos), MatchInSpan pos (e.findCase pos)
  | .BadExpr _ _, pos => MatchInSpan.error pos _
  | .Ident i, pos => MatchInSpan.identCase i pos
  | .Ellipsis _ Elt, pos => MatchInSpan.findExpr Elt pos
  | .BasicLit _, pos => MatchInSpan.ok_none pos
  | .FuncLit Typ Body, pos =>
    MatchInSpan.orElse (MatchInSpan.findFuncType Typ pos) (MatchInSpan.findBlockStmt Body pos)
  | .CompositeLit Typ _ Elts _, pos =>
    MatchInSpan.orElse (MatchInSpan.findExpr Typ pos) (MatchInSpan.findExprs Elts pos)
  | .ParenExpr _ X _, pos => MatchInSpan.findExpr X pos
  | .SelectorExpr X Sel, pos => MatchInSpan.selectorCase X Sel pos
  | .IndexExpr X _ Index _, pos =>
    MatchInSpan.orElse (MatchInSpan.findExpr X pos) (MatchInSpan.findExpr Index pos)
  | .SliceExpr X _ Low High Max _ _, pos =>
    MatchInSpan.orElse (MatchInSpan.findExpr X pos)
      (MatchInSpan.orElse (MatchInSpan.findExpr Low pos)
        (MatchInSpan.orElse (MatchInSpan.findExpr High pos) (MatchInSpan.findExpr Max pos)))
  | .TypeAssertExpr X Typ, pos =>
    MatchInSpan.orElse (MatchInSpan.findExpr X pos) (MatchInSpan.findExpr Typ pos)
  | .CallExpr c, pos => MatchInSpan.caseCallExpr c pos
  | .StarExpr _ X, pos => MatchInSpan.findExpr X pos
  | .UnaryExpr _ _ X, pos => MatchInSpan.findExpr X pos
  | .BinaryExpr X _ _ Y, pos =>
    MatchInSpan.orElse (MatchInSpan.findExpr X pos) (MatchInSpan.findExpr Y pos)
  | .KeyValueExpr Key _ Value, pos =>
    MatchInSpan.orElse (MatchInSpan.findExpr Key pos) (MatchInSpan.findExpr Value pos)
  | .ArrayType _ Len Elt, pos =>
    MatchInSpan.orElse (MatchInSpan.findExpr Len pos) (MatchInSpan.findExpr Elt pos)
  | .StructType _ Fields _, pos => MatchInSpan.findFieldList Fields pos
  | .FuncType ft, pos => MatchInSpan.caseFuncType ft pos
  | .InterfaceType _ Methods _, pos => MatchInSpan.findFieldList Methods pos
  | .MapType _ Key Value, pos =>
    MatchInSpan.orElse (MatchInSpan.findExpr Key pos) (MatchInSpan.findExpr Value pos)
  | .ChanType _ _ Value, pos => MatchInSpan.findExpr Value pos

theorem MatchInSpan.findExprs :
    ∀ (xs : List (Option Expr)) (pos : token.Pos), MatchInSpan pos (findNodeHelperExprs xs pos)
  | [], pos => MatchInSpan.ok_none pos
  | e :: es, pos => MatchInSpan.orElse (MatchInSpan.findExpr e pos) (MatchInSpan.findExprs es pos)

theorem MatchInSpan.findCallExpr :
    ∀ (x : Option CallExpr) (pos : token.Pos), MatchInSpan pos (findNodeHelperCallExpr x pos)
  | none, pos => MatchInSpan.ok_none pos
  | some c, pos => MatchInSpan.spanGuard _ _ (MatchInSpan.caseCallExpr c pos)

theorem MatchInSpan.caseCallExpr :
    ∀ (c : CallExpr) (pos : token.Pos), MatchInSpan pos (c.findCase pos)
  | .mk Fun _ Args _ _, pos =>
    MatchInSpan.orElse (MatchInSpan.findExpr Fun pos) (MatchInSpan.findExprs Args pos)

theorem MatchInSpan.findFuncType :
    ∀ (x : Option FuncType) (pos : token.Pos), MatchInSpan pos (findNodeHelperFuncType x pos)
  | none, pos => MatchInSpan.ok_none pos
  | some t, pos => MatchInSpan.spanGuard _ _ (MatchInSpan.caseFuncType t pos)

theorem MatchInSpan.caseFuncType :
    ∀ (t : FuncType) (pos : token.Pos), MatchInSpan pos (t.findCase pos)
  | .mk _ Params Results, pos =>
    MatchInSpan.orElse (MatchInSpan.findFieldList Params pos)
      (MatchInSpan.findFieldList Results pos)

theorem MatchInSpan.findFieldList :
    ∀ (x : Option FieldList) (pos : token.Pos), MatchInSpan pos (findNodeHelperFieldList x pos)
  | none, pos => MatchInSpan.ok_none pos
  | some l, pos => MatchInSpan.spanGuard _ _ (MatchInSpan.caseFieldList l pos)

theorem MatchInSpan.caseFieldList :
    ∀ (l : FieldList) (pos : token.Pos), MatchInSpan pos (l.findCase pos)
  | .mk _ Lst _, pos => MatchInSpan.findFields Lst pos

theorem MatchInSpan.findFields :
    ∀ (xs : List (Option Field)) (pos : token.Pos), MatchInSpan pos (findNodeHelperFields xs pos)
  | [], pos => MatchInSpan.ok_none pos
  | f :: fs, pos =>
    MatchInSpan.orElse (MatchInSpan.findField f pos) (MatchInSpan.findFields fs pos)

theorem MatchInSpan.findField :
    ∀ (x : Option Field) (pos : token.Pos), MatchInSpan pos (findNodeHelperField x pos)
  | none, pos => MatchInSpan.ok_none pos
  | some f, pos => MatchInSpan.spanGuard _ _ (MatchInSpan.caseField f pos)

theorem MatchInSpan.caseField :
    ∀ (f : Field) (pos : token.Pos), MatchInSpan pos (f.findCase pos)
  | .mk _ Names Typ _ _, pos =>
    MatchInSpan.orElse (MatchInSpan.findIdents Names pos) (MatchInSpan.findExpr Typ pos)

theorem MatchInSpan.findBlockStmt :
    ∀ (x : Option BlockStmt) (pos : token.Pos), MatchInSpan pos (findNodeHelperBlockStmt x pos)
  | none, pos => MatchInSpan.ok_none pos
  | some b, pos => MatchInSpan.spanGuard _ _ (MatchInSpan.caseBlockStmt b pos)

theorem MatchInSpan.caseBlockStmt :
    ∀ (b : BlockStmt) (pos : token.Pos), MatchInSpan pos (b.findCase pos)
  | .mk _ Lst _, pos => MatchInSpan.findStmts Lst pos

theorem MatchInSpan.findStmt :
    ∀ (x : Option Stmt) (pos : token.Pos), MatchInSpan pos (findNodeHelperStmt x pos)
  | none, pos => MatchInSpan.ok_none pos
  | some s, pos => MatchInSpan.spanGuard _ _ (MatchInSpan.caseStmt s pos)

theorem MatchInSpan.caseStmt :
    ∀ (s : Stmt) (pos : token.Pos), MatchInSpan pos (s.findCase pos)
  | .BadStmt _ _, pos => MatchInSpan.error pos _
  | .DeclStmt d, pos => MatchInSpan.findDecl d pos
  | .EmptyStmt _, pos => MatchInSpan.error pos _
  | .LabeledStmt Label _ s, pos =>
    MatchInSpan.orElse (MatchInSpan.findIdent Label pos) (MatchInSpan.findStmt s pos)
  | .ExprStmt X, pos => MatchInSpan.findExpr X pos
  | .SendStmt Chan _ Value, pos =>
    MatchInSpan.orElse (MatchInSpan.findExpr Chan pos) (MatchInSpan.findExpr Value pos)
  | .IncDecStmt X _ _, pos => MatchInSpan.findExpr X pos
  | .AssignStmt Lhs _ _ Rhs, pos =>
    MatchInSpan.orElse (MatchInSpan.findExprs Lhs pos) (MatchInSpan.findExprs Rhs pos)
  | .GoStmt _ Call, pos => MatchInSpan.findCallExpr Call pos
  | .DeferStmt _ Call, pos => MatchInSpan.findCallExpr Call pos
  | .ReturnStmt _ Results, pos => MatchInSpan.findExprs Results pos
  | .BranchStmt _ _ Label, pos => MatchInSpan.findIdent Label pos
  | .BlockStmt b, pos => MatchInSpan.caseBlockStmt b pos
  | .IfStmt _ Init Cond Body Else, pos =>
    MatchInSpan.orElse (MatchInSpan.findStmt Init pos)
      (MatchInSpan.orElse (MatchInSpan.findExpr Cond pos)
        (MatchInSpan.orElse (MatchInSpan.findBlockStmt Body pos)
          (MatchInSpan.findStmt Else pos)))
  | .CaseClause _ Lst _ Body, pos =>
    MatchInSpan.orElse (MatchInSpan.findExprs Lst pos) (MatchInSpan.findStmts Body pos)
  | .SwitchStmt _ Init Tag Body, pos =>
    MatchInSpan.orElse (MatchInSpan.findStmt Init pos)
      (MatchInSpan.orElse (MatchInSpan.findExpr Tag pos) (MatchInSpan.findBlockStmt Body pos))
  | .TypeSwitchStmt _ Init Assign Body, pos =>
    MatchInSpan.orElse (MatchInSpan.findStmt Init pos)
      (MatchInSpan.orElse (MatchInSpan.findStmt Assign pos)
        (MatchInSpan.findBlockStmt Body pos))
  | .CommClause _ Comm _ Body, pos =>
    MatchInSpan.orElse (MatchInSpan.findStmt Comm pos) (MatchInSpan.findStmts Body pos)
  | .SelectStmt _ Body, pos => MatchInSpan.findBlockStmt Body pos
  | .ForStmt _ Init Cond Post Body, pos =>
    MatchInSpan.orElse (MatchInSpan.findStmt Init pos)
      (MatchInSpan.orElse (MatchInSpan.findExpr Cond pos)
        (MatchInSpan.orElse (MatchInSpan.findStmt Post pos)
          (MatchInSpan.findBlockStmt Body pos)))
  | .RangeStmt _ Key Value _ _ X Body, pos =>
    MatchInSpan.orElse (MatchInSpan.findExpr Key pos)
      (MatchInSpan.orElse (MatchInSpan.findExpr Value pos)
        (MatchInSpan.orElse (MatchInSpan.findExpr X pos)
          (MatchInSpan.findBlockStmt Body pos)))

theorem MatchInSpan.findStmts :
    ∀ (xs : List (Option Stmt)) (pos : token.Pos), MatchInSpan pos (findNodeHelperStmts xs pos)
  | [], pos => MatchInSpan.ok_none pos
  | s :: ss, pos => MatchInSpan.orElse (MatchInSpan.findStmt s pos) (MatchInSpan.findStmts ss pos)

theorem MatchInSpan.findDecl :
    ∀ (x : Option Decl) (pos : token.Pos), MatchInSpan pos (findNodeHelperDecl x pos)
  | none, pos => MatchInSpan.ok_none pos
  | some d, pos => MatchInSpan.spanGuard _ _ (MatchInSpan.caseDecl d pos)

theorem MatchInSpan.caseDecl :
    ∀ (d : Decl) (pos : token.Pos), MatchInSpan pos (d.findCase pos)
  | .BadDecl _ _, pos => MatchInSpan.error pos _
  | .GenDecl _ _ _ _ _ _, pos => MatchInSpan.error pos _
  | .FuncDecl _ Recv _ Typ Body, pos =>
    MatchInSpan.orElse (MatchInSpan.findFieldList Recv pos)
      (MatchInSpan.orElse (MatchInSpan.findFuncType Typ pos)
        (MatchInSpan.findBlockStmt Body pos))

end

theorem MatchInSpan.findDecls (ds : List (Option Decl)) (pos : token.Pos) :
    MatchInSpan pos (findNodeHelperDecls ds pos) := by
  induction ds with
  | nil => exact MatchInSpan.ok_none pos
  | cons d ds ih => exact MatchInSpan.orElse (MatchInSpan.findDecl d pos) ih

theorem MatchInSpan.caseNode (n : Node) (pos : token.Pos) : MatchInSpan pos (n.findCase pos) := by
  match n with
  | .Comment _ => exact MatchInSpan.error pos _
  | .CommentGroup _ => exact MatchInSpan.error pos _
  | .Field f => exact MatchInSpan.caseField f pos
  | .FieldList l => exact MatchInSpan.caseFieldList l pos
  | .Expr e => exact MatchInSpan.caseExpr e pos
  | .Stmt s => exact MatchInSpan.caseStmt s pos
  | .Spec _ => exact MatchInSpan.error pos _
  | .Decl d => exact MatchInSpan.caseDecl d pos
  | .File f => exact MatchInSpan.findDecls f.Decls pos
  | .Package _ => exact MatchInSpan.error pos _

/-- C1: for every node, nil included, and every position, a node returned by
the search has a defined span that contains the position:
`Pos(r) ≤ pos < End(r)`. -/
theorem findNodeHelper_match_in_span (n : Option Node) (pos : token.Pos) (r : Node)
    (h : findNodeHelper n pos = .ok (some r)) :
    ∃ p e : token.Pos, r.Pos = .ok p ∧ r.End = .ok e ∧ p ≤ pos ∧ pos < e := by
  match n, h with
  | none, h => cases h
  | some n, h => exact MatchInSpan.spanGuard _ _ (MatchInSpan.caseNode n pos) r h

/-- Witness of C1 on the call `x.y(z)`: the search at position 3 returns the
selector `x.y`, of span `[1, 4)`. -/
theorem findNodeHelper_match_in_span_witness :
    ∃ p e : token.Pos, (Node.Expr selXY).Pos = .ok p ∧ (Node.Expr selXY).End = .ok e ∧
      p ≤ 3 ∧ 3 < e :=
  findNodeHelper_match_in_span (some (.Expr callXYZ)) 3 (.Expr selXY) rfl

end GoDef

namespace GoDef

/-! ## Empty spans, boundaries and the derived spans of particular kinds -/

theorem spanGuard_empty (p e pos : token.Pos) (body : Result) (h : e ≤ p) :
    spanGuard (.ok p) (.ok e) pos body = .ok none := by
  rw [spanGuard_ok]
  have : ¬ (p ≤ pos ∧ pos < e) := by
    simp only [int.le_iff, int.lt_iff] at *
    omega
  rw [if_neg this]

theorem spanGuard_ok_none (p e pos : token.Pos) :
    spanGuard (.ok p) (.ok e) pos (.ok none) = .ok none := by
  rw [spanGuard_ok]
  by_cases h : p ≤ pos ∧ pos < e
  · rw [if_pos h]
  · rw [if_neg h]

theorem spanGuard_after (p e pos : token.Pos) (body : Result) (h : e ≤ pos) :
    spanGuard (.ok p) (.ok e) pos body = .ok none := by
  rw [spanGuard_ok]
  have : ¬ (p ≤ pos ∧ pos < e) := by
    simp only [int.le_iff, int.lt_iff] at *
    omega
  rw [if_neg this]

theorem FieldList.Pos_nil (Opening Closing : token.Pos) :
    ∃ p, FieldList.Pos (.mk Opening [] Closing) = .ok p := by
  by_cases h : Opening.IsValid = true
  · exact ⟨Opening, by simp [FieldList.Pos, h]⟩
  · exact ⟨token.NoPos, by simp [FieldList.Pos, h]⟩

theorem FieldList.End_nil (Opening Closing : token.Pos) :
    ∃ e, FieldList.End (.mk Opening [] Closing) = .ok e := by
  by_cases h : Closing.IsValid = true
  · exact ⟨Closing + 1, by simp [FieldList.End, h]⟩
  · exact ⟨token.NoPos, by simp [FieldList.End, h]⟩

theorem utf8ByteSize_eq_zero_iff (s : String) : s.utf8ByteSize = 0 ↔ s = "" := by
  cases s with
  | mk cs =>
    cases cs with
    | nil => exact ⟨fun _ => rfl, fun _ => rfl⟩
    | cons c cs =>
      constructor
      · intro h
        have hc := Char.utf8Size_pos c
        simp only [String.utf8ByteSize_mk, String.utf8Len_cons] at h
        omega
      · intro h
        have hd : (c :: cs) = [] := congrArg String.data h
        cases hd

theorem lastElem_eq_getLast {α : Type} (xs : List α) (h : xs ≠ []) :
    lastElem xs = .ok (xs.getLast h) := by
  unfold lastElem
  rw [List.getLast?_eq_getLast xs h]

/-- C12: for every node whose span is empty, `End(n) ≤ Pos(n)`, and every
position, the search returns no match; in particular for a package node and
for a field list without delimiters and fields, whose `Pos` and `End` are both
the invalid sentinel, and for an identifier with an empty name. -/
theorem findNodeHelper_empty_span (pos : token.Pos) :
    (∀ (n : Node) (p e : token.Pos), n.Pos = .ok p → n.End = .ok e → e ≤ p →
      findNodeHelper (some n) pos = .ok none) ∧
    (∀ pkg : Package, (Node.Package pkg).Pos = .ok token.NoPos ∧
      (Node.Package pkg).End = .ok token.NoPos ∧
      findNodeHelper (some (.Package pkg)) pos = .ok none) ∧
    ((Node.FieldList (.mk token.NoPos [] token.NoPos)).Pos = .ok token.NoPos ∧
      (Node.FieldList (.mk token.NoPos [] token.NoPos)).End = .ok token.NoPos ∧
      findNodeHelper (some (.FieldList (.mk token.NoPos [] token.NoPos))) pos = .ok none) ∧
    (∀ NamePos : token.Pos, (Node.Expr (.Ident ⟨NamePos, ""⟩)).Pos = .ok NamePos ∧
      (Node.Expr (.Ident ⟨NamePos, ""⟩)).End = .ok NamePos ∧
      findNodeHelper (some (.Expr (.Ident ⟨NamePos, ""⟩))) pos = .ok none) := by
  have gen : ∀ (n : Node) (p e : token.Pos), n.Pos = .ok p → n.End = .ok e → e ≤ p →
      findNodeHelper (some n) pos = .ok none := by
    intro n p e hp he h
    show spanGuard n.Pos n.End pos (n.findCase pos) = .ok none
    rw [hp, he]
    exact spanGuard_empty p e pos _ h
  refine ⟨gen, fun pkg => ⟨rfl, rfl, ?_⟩, ⟨rfl, rfl, ?_⟩, fun NamePos => ⟨rfl, ?_, ?_⟩⟩
  · exact gen _ token.NoPos token.NoPos rfl rfl (le_refl _)
  · exact gen _ token.NoPos token.NoPos rfl rfl (le_refl _)
  · show Except.ok (NamePos + ((0 : Nat) : token.Pos)) = Except.ok NamePos
    rw [int.add_natCast_zero]
  · have hE : (Node.Expr (.Ident ⟨NamePos, ""⟩)).End = .ok NamePos := by
      show Except.ok (NamePos + ((0 : Nat) : token.Pos)) = Except.ok NamePos
      rw [int.add_natCast_zero]
    exact gen _ NamePos NamePos rfl hE (le_refl _)

/-- Witness of C12 on a bad expression with `From` 4 and `To` 1, whose type
switch would not return: the search at position 3 returns no match. -/
theorem findNodeHelper_empty_span_witness :
    findNodeHelper (some (.Expr badExprEmpty)) 3 = .ok none :=
  (findNodeHelper_empty_span 3).1 (.Expr badExprEmpty) 4 1 rfl rfl (by decide)

/-- C13: for every field list with an empty `List` and every position, the
positions of the delimiters included, the search returns no match, not the
field list. -/
theorem findNodeHelper_empty_fieldList (Opening Closing pos : token.Pos) :
    findNodeHelper (some (.FieldList (.mk Opening [] Closing))) pos = .ok none ∧
    findNodeHelperFieldList (some (.mk Opening [] Closing)) pos = .ok none := by
  obtain ⟨p, hp⟩ := FieldList.Pos_nil Opening Closing
  obtain ⟨e, he⟩ := FieldList.End_nil Opening Closing
  have key : spanGuard (FieldList.Pos (.mk Opening [] Closing))
      (FieldList.End (.mk Opening [] Closing)) pos (.ok none) = .ok none := by
    rw [hp, he]
    exact spanGuard_ok_none p e pos
  exact ⟨key, key⟩

/-- C14: for every if statement without else branch, `End` of the statement
is `End` of its body, and for every position at or after the end of the body
the search on the statement returns no match. -/
theorem findNodeHelper_if_without_else (If : token.Pos) (Init : Option Stmt)
    (Cond : Option Expr) (Body : Option BlockStmt) (pos : token.Pos) :
    Stmt.End (.IfStmt If Init Cond Body none) = BlockStmt.EndOf Body ∧
    (∀ e : token.Pos, BlockStmt.EndOf Body = .ok e → e ≤ pos →
      findNodeHelper (some (.Stmt (.IfStmt If Init Cond Body none))) pos = .ok none) := by
  refine ⟨rfl, fun e he hle => ?_⟩
  show spanGuard (.ok If) (BlockStmt.EndOf Body) pos _ = .ok none
  rw [he]
  exact spanGuard_after If e pos _ hle

/-- Witness of C14 on `if x {}`, whose body ends at 8: the search at position
8 returns no match. -/
theorem findNodeHelper_if_without_else_witness :
    findNodeHelper (some (.Stmt ifStmtX)) 8 = .ok none :=
  (findNodeHelper_if_without_else 1 none (some (.Ident ⟨4, "x"⟩)) (some (.mk 6 [] 7)) 8).2
    8 rfl (by decide)

/-- C16, as stated, fails: `findNode` on the file `fileAtMinInt`, whose
`package` keyword is at the least `int`, with the least `int` as offset,
searches at position 0, because the sum of the position of the file and the
offset wraps around; the offset is negative and the search returns the
identifier `a` at position 0. -/
theorem findNode_negative_offset_wraps :
    MinInt < 0 ∧ fileAtMinInt.Pos + MinInt = 0 ∧
    findNode (some fileAtMinInt) MinInt = .ok (some (.Expr (.Ident ⟨0, "a"⟩))) :=
  ⟨by decide, by decide, rfl⟩

/-- C16, amended: for every file and every offset, `findNode` is the search
on the file at the position of the file plus the offset, the sum of Go on
`int`; every negative offset for which this sum is exact, not wrapped around,
yields no match. -/
theorem findNode_offset (f : File) (o : int) :
    findNode (some f) o = findNodeHelper (some (.File f)) (f.Pos + o) ∧
    (o < 0 → (f.Pos + o).toInt = f.Pos.toInt + o.toInt →
      findNode (some f) o = .ok none) := by
  have h1 : findNode (some f) o = findNodeHelper (some (.File f)) (f.Pos + o) := by
    show findNodeHelper (some (.File f)) (o + f.Pos) = _
    rw [int.add_comm]
  refine ⟨h1, fun ho hex => ?_⟩
  rw [h1]
  show spanGuard (.ok f.Pos) f.End (f.Pos + o) _ = .ok none
  apply spanGuard_before
  rw [int.lt_iff] at ho ⊢
  rw [hex]
  have h0 : (0 : int).toInt = 0 := rfl
  omega

/-- Witness of C16 on the file `package p; var x int` at offset -1. -/
theorem findNode_offset_witness : findNode (some fileVarX) (-1) = .ok none :=
  (findNode_offset fileVarX (-1)).2 (by decide) (by decide)

/-- C17, as stated, fails: the identifier `x` at the greatest `int` has its
`End`, `NamePos + 1`, wrapped around to the least `int`, before its `Pos`. -/
theorem ident_End_wraps :
    Ident.Pos ⟨MaxInt, "x"⟩ = MaxInt ∧ Ident.End ⟨MaxInt, "x"⟩ = MinInt ∧
    Ident.End ⟨MaxInt, "x"⟩ < Ident.Pos ⟨MaxInt, "x"⟩ ∧
    ¬ (Ident.Pos ⟨MaxInt, "x"⟩ ≤ Ident.End ⟨MaxInt, "x"⟩) := by
  decide

/-- C17, amended: for every identifier node, `Pos` is the stored `NamePos` and
`End` is `NamePos` plus the length of `Name` in bytes, not in characters (the
name `é` has one character and two bytes), the sum being that of Go on `int`;
when the sum does not wrap around, `Pos ≤ End`, with equality exactly when the
name is empty. -/
theorem ident_span (x : Ident) (h : x.NamePos.Fits x.Name.utf8ByteSize = true) :
    x.Pos = x.NamePos ∧
    x.End = x.NamePos + (x.Name.utf8ByteSize : token.Pos) ∧
    x.End.toInt = x.NamePos.toInt + (x.Name.utf8ByteSize : Int) ∧
    x.Pos ≤ x.End ∧
    (x.Pos = x.End ↔ x.Name = "") ∧
    (idEAcute.Name.length = 1 ∧ idEAcute.End = idEAcute.NamePos + 2) := by
  have hE := int.toInt_add_natCast x.NamePos x.Name.utf8ByteSize h
  refine ⟨rfl, rfl, hE, Ident.Pos_le_End x h, ?_, by decide, by decide⟩
  rw [← utf8ByteSize_eq_zero_iff]
  unfold Ident.Pos Ident.End
  rw [int.eq_iff, hE]
  omega

/-- Witness of C17 on the identifier `é` at position 1, of span `[1, 3)`. -/
theorem ident_span_witness :
    idEAcute.NamePos.Fits idEAcute.Name.utf8ByteSize = true ∧ idEAcute.Pos = 1 ∧
    idEAcute.End = 3 ∧ idEAcute.Pos ≤ idEAcute.End :=
  ⟨by decide, rfl, rfl, (ident_span idEAcute (by decide)).2.2.2.1⟩

end GoDef

namespace GoDef

/-- C18, as stated, fails: the call `f()` starts at position 1 of its function
expression, not at its opening parenthesis at 2, and the composite literal
`T{}` starts at position 1 of its type, not at its opening brace at 2. -/
theorem bracketed_pos_not_opening_marker :
    Expr.Pos (.CallExpr (.mk (some (.Ident ⟨1, "f"⟩)) 2 [] token.NoPos 3)) = .ok 1 ∧
    Expr.Pos (.CallExpr (.mk (some (.Ident ⟨1, "f"⟩)) 2 [] token.NoPos 3)) ≠ .ok 2 ∧
    Expr.Pos (.CompositeLit (some (.Ident ⟨1, "T"⟩)) 2 [] 3) = .ok 1 ∧
    Expr.Pos (.CompositeLit (some (.Ident ⟨1, "T"⟩)) 2 [] 3) ≠ .ok 2 := by
  refine ⟨rfl, ?_, rfl, ?_⟩
  · show (Except.ok 1 : Except Failure token.Pos) ≠ .ok 2
    intro h
    cases h
  · show (Except.ok 1 : Except Failure token.Pos) ≠ .ok 2
    intro h
    cases h

/-- C18, amended: for every parenthesized expression and every block, `Pos` is
the position of the opening marker and `End` is one past the closing marker;
for every composite literal and every call, `End` is one past the closing
marker, whereas `Pos` is `Pos` of the type of the literal (the opening brace
when the literal has no type) and `Pos` of the function expression of the
call; all of this whatever the spans of the contents. -/
theorem bracketed_spans :
    (∀ (Lparen Rparen : token.Pos) (X : Option Expr),
      Expr.Pos (.ParenExpr Lparen X Rparen) = .ok Lparen ∧
      Expr.End (.ParenExpr Lparen X Rparen) = .ok (Rparen + 1)) ∧
    (∀ (Lbrace Rbrace : token.Pos) (Lst : List (Option Stmt)),
      Stmt.Pos (.BlockStmt (.mk Lbrace Lst Rbrace)) = .ok Lbrace ∧
      Stmt.End (.BlockStmt (.mk Lbrace Lst Rbrace)) = .ok (Rbrace + 1) ∧
      BlockStmt.Pos (.mk Lbrace Lst Rbrace) = .ok Lbrace ∧
      BlockStmt.End (.mk Lbrace Lst Rbrace) = .ok (Rbrace + 1)) ∧
    (∀ (Typ : Option Expr) (Lbrace Rbrace : token.Pos) (Elts : List (Option Expr)),
      Expr.End (.CompositeLit Typ Lbrace Elts Rbrace) = .ok (Rbrace + 1)) ∧
    (∀ (Lbrace Rbrace : token.Pos) (Elts : List (Option Expr)),
      Expr.Pos (.CompositeLit none Lbrace Elts Rbrace) = .ok Lbrace) ∧
    (∀ (t : Expr) (Lbrace Rbrace : token.Pos) (Elts : List (Option Expr)),
      Expr.Pos (.CompositeLit (some t) Lbrace Elts Rbrace) = Expr.Pos t) ∧
    (∀ (Fun : Option Expr) (Lparen Ellipsis Rparen : token.Pos) (Args : List (Option Expr)),
      Expr.End (.CallExpr (.mk Fun Lparen Args Ellipsis Rparen)) = .ok (Rparen + 1) ∧
      Expr.Pos (.CallExpr (.mk Fun Lparen Args Ellipsis Rparen)) = Expr.PosOf Fun) :=
  ⟨fun _ _ _ => ⟨rfl, rfl⟩, fun _ _ _ => ⟨rfl, rfl, rfl, rfl⟩, fun _ _ _ _ => rfl,
   fun _ _ _ => rfl, fun _ _ _ _ => rfl, fun _ _ _ _ _ => ⟨rfl, rfl⟩⟩

theorem Expr.EndLast_eq (es : List (Option Expr)) (h : es ≠ []) :
    Expr.EndLast es = Expr.EndOf (es.getLast h) := by
  unfold Expr.EndLast
  rw [lastElem_eq_getLast es h]
  rfl

theorem returnStmt_End_eq (Return : token.Pos) (Results : List (Option Expr))
    (h : Results ≠ []) :
    Stmt.End (.ReturnStmt Return Results) = Expr.EndOf (Results.getLast h) := by
  rw [← Expr.EndLast_eq Results h]
  cases Results with
  | nil => exact absurd rfl h
  | cons r rs => rfl

/-- C19: for every return statement, `Pos` is the position of the keyword, and
`End` is `End` of the last result expression when there are results and the
position of the keyword plus 6 when there are none. -/
theorem returnStmt_span (Return : token.Pos) (Results : List (Option Expr)) :
    Stmt.Pos (.ReturnStmt Return Results) = .ok Return ∧
    Stmt.End (.ReturnStmt Return []) = .ok (Return + 6) ∧
    (∀ h : Results ≠ [],
      Stmt.End (.ReturnStmt Return Results) = Expr.EndOf (Results.getLast h)) :=
  ⟨rfl, rfl, returnStmt_End_eq Return Results⟩

/-- Witness of C19 on `return x, y` with `y` at position 11: the statement
ends at 12. -/
theorem returnStmt_span_witness : Stmt.End returnXY = .ok 12 :=
  ((returnStmt_span 1 [some (.Ident ⟨8, "x"⟩), some (.Ident ⟨11, "y"⟩)]).2.2
    (by simp)).trans rfl

/-- C20 fails on the code: for a generic declaration with an empty spec list
and no valid closing parenthesis, `End` indexes `Specs[0]` and panics with an
index out of range, whereas the sibling `End` of a field list guards the same
situation and reports the invalid sentinel. -/
theorem genDecl_End_empty_specs_panics :
    (∀ (Doc : Option CommentGroup) (TokPos : token.Pos) (Tok : token.Token)
      (Lparen : token.Pos),
      Decl.End (.GenDecl Doc TokPos Tok Lparen [] token.NoPos) = .error .indexOutOfRange) ∧
    Decl.End genDeclNoSpec = .error .indexOutOfRange ∧
    Decl.End genDeclNoSpec ≠ .ok token.NoPos ∧
    findNodeHelper (some (.Decl genDeclNoSpec)) 1 = .error .indexOutOfRange ∧
    (∀ Opening : token.Pos, FieldList.End (.mk Opening [] token.NoPos) = .ok token.NoPos) := by
  refine ⟨fun _ _ _ _ => rfl, rfl, ?_, rfl, fun _ => rfl⟩
  show (Except.error Failure.indexOutOfRange : Except Failure token.Pos) ≠ _
  intro h
  cases h

end GoDef

namespace GoDef

/-! ## What a match can be

The search returns a node in two places only, the identifier case and the
selector case; a property that holds of the nodes returned there holds of
every match. -/

theorem matchSatisfies_ok_none (Q : Node → Prop) : MatchSatisfies Q (.ok none) := by
  intro r h
  cases h

theorem matchSatisfies_error (Q : Node → Prop) (f : Failure) :
    MatchSatisfies Q (.error f) := by
  intro r h
  cases h

theorem matchSatisfies_orElse {Q : Node → Prop} {a b : Result}
    (ha : MatchSatisfies Q a) (hb : MatchSatisfies Q b) : MatchSatisfies Q (orElse a b) := by
  match a, ha with
  | .ok none, _ => exact hb
  | .ok (some x), ha => exact ha
  | .error f, ha => exact ha

theorem matchSatisfies_spanGuard {Q : Node → Prop} {pos : token.Pos}
    (p e : Except Failure token.Pos) {body : Result}
    (hb : MatchSatisfies Q body) : MatchSatisfies Q (spanGuard p e pos body) := by
  unfold GoDef.spanGuard
  match p with
  | .error f => exact matchSatisfies_error Q f
  | .ok p =>
    by_cases h1 : p > pos
    · simp only [h1, if_true]
      exact matchSatisfies_ok_none Q
    · simp only [h1, if_false]
      match e with
      | .error f => exact matchSatisfies_error Q f
      | .ok e =>
        by_cases h2 : e ≤ pos
        · simp only [h2, if_true]
          exact matchSatisfies_ok_none Q
        · simp only [h2, if_false]
          exact hb

theorem matchSatisfies_identCase {Q : Node → Prop} {pos : token.Pos}
    (hI : ∀ i : Ident, i.Pos ≤ pos → pos < i.End → Q (.Expr (.Ident i)))
    (i : Ident) : MatchSatisfies Q (i.findCase pos) := by
  rw [Ident.findCase_eq]
  by_cases h : i.NamePos ≤ pos ∧ pos < i.NamePos + (i.Name.utf8ByteSize : token.Pos)
  · rw [if_pos h]
    intro r hr
    cases hr
    exact hI i h.1 h.2
  · rw [if_neg h]
    exact matchSatisfies_ok_none Q

theorem matchSatisfies_selectorCase {Q : Node → Prop} {pos : token.Pos}
    (hS : ∀ (X : Option Expr) (Sel : Option Ident) (p e : token.Pos),
      Expr.PosOf X = .ok p → Ident.EndOf Sel = .ok e → p ≤ pos → pos < e →
      Q (.Expr (.SelectorExpr X Sel)))
    (X : Option Expr) (Sel : Option Ident) : MatchSatisfies Q (selectorCase X Sel pos) := by
  cases hX : Expr.PosOf X with
  | error f =>
    unfold GoDef.selectorCase
    rw [hX]
    exact matchSatisfies_error Q f
  | ok p =>
    cases hE : Ident.EndOf Sel with
    | error f =>
      unfold GoDef.selectorCase
      rw [hX, hE]
      by_cases h1 : p ≤ pos
      · simp only [h1, if_true]
        exact matchSatisfies_error Q f
      · simp only [h1, if_false]
        exact matchSatisfies_ok_none Q
    | ok e =>
      rw [selectorCase_eq X Sel p e pos hX hE]
      by_cases h : p ≤ pos ∧ pos < e
      · rw [if_pos h]
        intro r hr
        cases hr
        exact hS X Sel p e hX hE h.1 h.2
      · rw [if_neg h]
        exact matchSatisfies_ok_none Q

theorem matchSatisfies_findIdent {Q : Node → Prop} {pos : token.Pos}
    (hI : ∀ i : Ident, i.Pos ≤ pos → pos < i.End → Q (.Expr (.Ident i)))
    (x : Option Ident) : MatchSatisfies Q (findNodeHelperIdent x pos) := by
  match x with
  | none => exact matchSatisfies_ok_none Q
  | some i =>
    show MatchSatisfies Q (GoDef.spanGuard (.ok i.Pos) (.ok i.End) pos (i.findCase pos))
    exact matchSatisfies_spanGuard _ _ (matchSatisfies_identCase hI i)

theorem matchSatisfies_findIdents {Q : Node → Prop} {pos : token.Pos}
    (hI : ∀ i : Ident, i.Pos ≤ pos → pos < i.End → Q (.Expr (.Ident i)))
    (xs : List (Option Ident)) : MatchSatisfies Q (findNodeHelperIdents xs pos) := by
  induction xs with
  | nil => exact matchSatisfies_ok_none Q
  | cons x xs ih => exact matchSatisfies_orElse (matchSatisfies_findIdent hI x) ih

mutual

theorem matchSatisfies_findExpr {Q : Node → Prop} {pos : token.Pos}
    (hI : ∀ i : Ident, i.Pos ≤ pos → pos < i.End → Q (.Expr (.Ident i)))
    (hS : ∀ (X : Option Expr) (Sel : Option Ident) (p e : token.Pos),
      Expr.PosOf X = .ok p → Ident.EndOf Sel = .ok e → p ≤ pos → pos < e →
      Q (.Expr (.SelectorExpr X Sel))) :
    ∀ (x : Option Expr), MatchSatisfies Q (findNodeHelperExpr x pos)
  | none => matchSatisfies_ok_none Q
  | some e => matchSatisfies_spanGuard _ _ (matchSatisfies_caseExpr hI hS e)

theorem matchSatisfies_caseExpr {Q : Node → Prop} {pos : token.Pos}
    (hI : ∀ i : Ident, i.Pos ≤ pos → pos < i.End → Q (.Expr (.Ident i)))
    (hS : ∀ (X : Option Expr) (Sel : Option Ident) (p e : token.Pos),
      Expr.PosOf X = .ok p → Ident.EndOf Sel = .ok e → p ≤ pos → pos < e →
      Q (.Expr (.SelectorExpr X Sel))) :
    ∀ (e : Expr), MatchSatisfies Q (e.findCase pos)
  | .BadExpr _ _ => matchSatisfies_error Q _
  | .Ident i => matchSatisfies_identCase hI i
  | .Ellipsis _ Elt => matchSatisfies_findExpr hI hS Elt
  | .BasicLit _ => matchSatisfies_ok_none Q
  | .FuncLit Typ Body =>
    matchSatisfies_orElse (matchSatisfies_findFuncType hI hS Typ) (matchSatisfies_findBlockStmt hI hS Body)
  | .CompositeLit Typ _ Elts _ =>
    matchSatisfies_orElse (matchSatisfies_findExpr hI hS Typ) (matchSatisfies_findExprs hI hS Elts)
  | .ParenExpr _ X _ => matchSatisfies_findExpr hI hS X
  | .SelectorExpr X Sel => matchSatisfies_selectorCase hS X Sel
  | .IndexExpr X _ Index _ =>
    matchSatisfies_orElse (matchSatisfies_findExpr hI hS X) (matchSatisfies_findExpr hI hS Index)
  | .SliceExpr X _ Low High Max _ _ =>
    matchSatisfies_orElse (matchSatisfies_findExpr hI hS X)
      (matchSatisfies_orElse (matchSatisfies_findExpr hI hS Low)
        (matchSatisfies_orElse (matchSatisfies_findExpr hI hS High) (matchSatisfies_findExpr hI hS Max)))
  | .TypeAssertExpr X Typ =>
    matchSatisfies_orElse (matchSatisfies_findExpr hI hS X) (matchSatisfies_findExpr hI hS Typ)
  | .CallExpr c => matchSatisfies_caseCallExpr hI hS c
  | .StarExpr _ X => matchSatisfies_findExpr hI hS X
  | .UnaryExpr _ _ X => matchSatisfies_findExpr hI hS X
  | .BinaryExpr X _ _ Y =>
    matchSatisfies_orElse (matchSatisfies_findExpr hI hS X) (matchSatisfies_findExpr hI hS Y)
  | .KeyValueExpr Key _ Value =>
    matchSatisfies_orElse (matchSatisfies_findExpr hI hS Key) (matchSatisfies_findExpr hI hS Value)
  | .ArrayType _ Len Elt =>
    matchSatisfies_orElse (matchSatisfies_findExpr hI hS Len) (matchSatisfies_findExpr hI hS Elt)
  | .StructType _ Fields _ => matchSatisfies_findFieldList hI hS Fields
  | .FuncType ft => matchSatisfies_caseFuncType hI hS ft
  | .InterfaceType _ Methods _ => matchSatisfies_findFieldList hI hS Methods
  | .MapType _ Key Value =>
    matchSatisfies_orElse (matchSatisfies_findExpr hI hS Key) (matchSatisfies_findExpr hI hS Value)
  | .ChanType _ _ Value => matchSatisfies_findExpr hI hS Value

theorem matchSatisfies_findExprs {Q : Node → Prop} {pos : token.Pos}
    (hI : ∀ i : Ident, i.Pos ≤ pos → pos < i.End → Q (.Expr (.Ident i)))
    (hS : ∀ (X : Option Expr) (Sel : Option Ident) (p e : token.Pos),
      Expr.PosOf X = .ok p → Ident.EndOf Sel = .ok e → p ≤ pos → pos < e →
      Q (.Expr (.SelectorExpr X Sel))) :
    ∀ (xs : List (Option Expr)), MatchSatisfies Q (findNodeHelperExprs xs pos)
  | [] => matchSatisfies_ok_none Q
  | e :: es => matchSatisfies_orElse (matchSatisfies_findExpr hI hS e) (matchSatisfies_findExprs hI hS es)

theorem matchSatisfies_findCallExpr {Q : Node → Prop} {pos : token.Pos}
    (hI : ∀ i : Ident, i.Pos ≤ pos → pos < i.End → Q (.Expr (.Ident i)))
    (hS : ∀ (X : Option Expr) (Sel : Option Ident) (p e : token.Pos),
      Expr.PosOf X = .ok p → Ident.EndOf Sel = .ok e → p ≤ pos → pos < e →
      Q (.Expr (.SelectorExpr X Sel))) :
    ∀ (x : Option CallExpr), MatchSatisfies Q (findNodeHelperCallExpr x pos)
  | none => matchSatisfies_ok_none Q
  | some c => matchSatisfies_spanGuard _ _ (matchSatisfies_caseCallExpr hI hS c)

theorem matchSatisfies_caseCallExpr {Q : Node → Prop} {pos : token.Pos}
    (hI : ∀ i : Ident, i.Pos ≤ pos → pos < i.End → Q (.Expr (.Ident i)))
    (hS : ∀ (X : Option Expr) (Sel : Option Ident) (p e : token.Pos),
      Expr.PosOf X = .ok p → Ident.EndOf Sel = .ok e → p ≤ pos → pos < e →
      Q (.Expr (.SelectorExpr X Sel))) :
    ∀ (c : CallExpr), MatchSatisfies Q (c.findCase pos)
  | .mk Fun _ Args _ _ =>
    matchSatisfies_orElse (matchSatisfies_findExpr hI hS Fun) (matchSatisfies_findExprs hI hS Args)

theorem matchSatisfies_findFuncType {Q : Node → Prop} {pos : token.Pos}
    (hI : ∀ i : Ident, i.Pos ≤ pos → pos < i.End → Q (.Expr (.Ident i)))
    (hS : ∀ (X : Option Expr) (Sel : Option Ident) (p e : token.Pos),
      Expr.PosOf X = .ok p → Ident.EndOf Sel = .ok e → p ≤ pos → pos < e →
      Q (.Expr (.SelectorExpr X Sel))) :
    ∀ (x : Option FuncType), MatchSatisfies Q (findNodeHelperFuncType x pos)
  | none => matchSatisfies_ok_none Q
  | some t => matchSatisfies_spanGuard _ _ (matchSatisfies_caseFuncType hI hS t)

theorem matchSatisfies_caseFuncType {Q : Node → Prop} {pos : token.Pos}
    (hI : ∀ i : Ident, i.Pos ≤ pos → pos < i.End → Q (.Expr (.Ident i)))
    (hS : ∀ (X : Option Expr) (Sel : Option Ident) (p e : token.Pos),
      Expr.PosOf X = .ok p → Ident.EndOf Sel = .ok e → p ≤ pos → pos < e →
      Q (.Expr (.SelectorExpr X Sel))) :
    ∀ (t : FuncType), MatchSatisfies Q (t.findCase pos)
  | .mk _ Params Results =>
    matchSatisfies_orElse (matchSatisfies_findFieldList hI hS Params)
      (matchSatisfies_findFieldList hI hS Results)

theorem matchSatisfies_findFieldList {Q : Node → Prop} {pos : token.Pos}
    (hI : ∀ i : Ident, i.Pos ≤ pos → pos < i.End → Q (.Expr (.Ident i)))
    (hS : ∀ (X : Option Expr) (Sel : Option Ident) (p e : token.Pos),
      Expr.PosOf X = .ok p → Ident.EndOf Sel = .ok e → p ≤ pos → pos < e →
      Q (.Expr (.SelectorExpr X Sel))) :
    ∀ (x : Option FieldList), MatchSatisfies Q (findNodeHelperFieldList x pos)
  | none => matchSatisfies_ok_none Q
  | some l => matchSatisfies_spanGuard _ _ (matchSatisfies_caseFieldList hI hS l)

theorem matchSatisfies_caseFieldList {Q : Node → Prop} {pos : token.Pos}
    (hI : ∀ i : Ident, i.Pos ≤ pos → pos < i.End → Q (.Expr (.Ident i)))
    (hS : ∀ (X : Option Expr) (Sel : Option Ident) (p e : token.Pos),
      Expr.PosOf X = .ok p → Ident.EndOf Sel = .ok e → p ≤ pos → pos < e →
      Q (.Expr (.SelectorExpr X Sel))) :
    ∀ (l : FieldList), MatchSatisfies Q (l.findCase pos)
  | .mk _ Lst _ => matchSatisfies_findFields hI hS Lst

theorem matchSatisfies_findFields {Q : Node → Prop} {pos : token.Pos}
    (hI : ∀ i : Ident, i.Pos ≤ pos → pos < i.End → Q (.Expr (.Ident i)))
    (hS : ∀ (X : Option Expr) (Sel : Option Ident) (p e : token.Pos),
      Expr.PosOf X = .ok p → Ident.EndOf Sel = .ok e → p ≤ pos → pos < e →
      Q (.Expr (.SelectorExpr X Sel))) :
    ∀ (xs : List (Option Field)), MatchSatisfies Q (findNodeHelperFields xs pos)
  | [] => matchSatisfies_ok_none Q
  | f :: fs =>
    matchSatisfies_orElse (matchSatisfies_findField hI hS f) (matchSatisfies_findFields hI hS fs)

theorem matchSatisfies_findField {Q : Node → Prop} {pos : token.Pos}
    (hI : ∀ i : Ident, i.Pos ≤ pos → pos < i.End → Q (.Expr (.Ident i)))
    (hS : ∀ (X : Option Expr) (Sel : Option Ident) (p e : token.Pos),
      Expr.PosOf X = .ok p → Ident.EndOf Sel = .ok e → p ≤ pos → pos < e →
      Q (.Expr (.SelectorExpr X Sel))) :
    ∀ (x : Option Field), MatchSatisfies Q (findNodeHelperField x pos)
  | none => matchSatisfies_ok_none Q
  | some f => matchSatisfies_spanGuard _ _ (matchSatisfies_caseField hI hS f)

theorem matchSatisfies_caseField {Q : Node → Prop} {pos : token.Pos}
    (hI : ∀ i : Ident, i.Pos ≤ pos → pos < i.End → Q (.Expr (.Ident i)))
    (hS : ∀ (X : Option Expr) (Sel : Option Ident) (p e : token.Pos),
      Expr.PosOf X = .ok p → Ident.EndOf Sel = .ok e → p ≤ pos → pos < e →
      Q (.Expr (.SelectorExpr X Sel))) :
    ∀ (f : Field), MatchSatisfies Q (f.findCase pos)
  | .mk _ Names Typ _ _ =>
    matchSatisfies_orElse (matchSatisfies_findIdents hI Names) (matchSatisfies_findExpr hI hS Typ)

theorem matchSatisfies_findBlockStmt {Q : Node → Prop} {pos : token.Pos}
    (hI : ∀ i : Ident, i.Pos ≤ pos → pos < i.End → Q (.Expr (.Ident i)))
    (hS : ∀ (X : Option Expr) (Sel : Option Ident) (p e : token.Pos),
      Expr.PosOf X = .ok p → Ident.EndOf Sel = .ok e → p ≤ pos → pos < e →
      Q (.Expr (.SelectorExpr X Sel))) :
    ∀ (x : Option BlockStmt), MatchSatisfies Q (findNodeHelperBlockStmt x pos)
  | none => matchSatisfies_ok_none Q
  | some b => matchSatisfies_spanGuard _ _ (matchSatisfies_caseBlockStmt hI hS b)

theorem matchSatisfies_caseBlockStmt {Q : Node → Prop} {pos : token.Pos}
    (hI : ∀ i : Ident, i.Pos ≤ pos → pos < i.End → Q (.Expr (.Ident i)))
    (hS : ∀ (X : Option Expr) (Sel : Option Ident) (p e : token.Pos),
      Expr.PosOf X = .ok p → Ident.EndOf Sel = .ok e → p ≤ pos → pos < e →
      Q (.Expr (.SelectorExpr X Sel))) :
    ∀ (b : BlockStmt), MatchSatisfies Q (b.findCase pos)
  | .mk _ Lst _ => matchSatisfies_findStmts hI hS Lst

theorem matchSatisfies_findStmt {Q : Node → Prop} {pos : token.Pos}
    (hI : ∀ i : Ident, i.Pos ≤ pos → pos < i.End → Q (.Expr (.Ident i)))
    (hS : ∀ (X : Option Expr) (Sel : Option Ident) (p e : token.Pos),
      Expr.PosOf X = .ok p → Ident.EndOf Sel = .ok e → p ≤ pos → pos < e →
      Q (.Expr (.SelectorExpr X Sel))) :
    ∀ (x : Option Stmt), MatchSatisfies Q (findNodeHelperStmt x pos)
  | none => matchSatisfies_ok_none Q
  | some s => matchSatisfies_spanGuard _ _ (matchSatisfies_caseStmt hI hS s)

theorem matchSatisfies_caseStmt {Q : Node → Prop} {pos : token.Pos}
    (hI : ∀ i : Ident, i.Pos ≤ pos → pos < i.End → Q (.Expr (.Ident i)))
    (hS : ∀ (X : Option Expr) (Sel : Option Ident) (p e : token.Pos),
      Expr.PosOf X = .ok p → Ident.EndOf Sel = .ok e → p ≤ pos → pos < e →
      Q (.Expr (.SelectorExpr X Sel))) :
    ∀ (s : Stmt), MatchSatisfies Q (s.findCase pos)
  | .BadStmt _ _ => matchSatisfies_error Q _
  | .DeclStmt d => matchSatisfies_findDecl hI hS d
  | .EmptyStmt _ => matchSatisfies_error Q _
  | .LabeledStmt Label _ s =>
    matchSatisfies_orElse (matchSatisfies_findIdent hI Label) (matchSatisfies_findStmt hI hS s)
  | .ExprStmt X => matchSatisfies_findExpr hI hS X
  | .SendStmt Chan _ Value =>
    matchSatisfies_orElse (matchSatisfies_findExpr hI hS Chan) (matchSatisfies_findExpr hI hS Value)
  | .IncDecStmt X _ _ => matchSatisfies_findExpr hI hS X
  | .AssignStmt Lhs _ _ Rhs =>
    matchSatisfies_orElse (matchSatisfies_findExprs hI hS Lhs) (matchSatisfies_findExprs hI hS Rhs)
  | .GoStmt _ Call => matchSatisfies_findCallExpr hI hS Call
  | .DeferStmt _ Call => matchSatisfies_findCallExpr hI hS Call
  | .ReturnStmt _ Results => matchSatisfies_findExprs hI hS Results
  | .BranchStmt _ _ Label => matchSatisfies_findIdent hI Label
  | .BlockStmt b => matchSatisfies_caseBlockStmt hI hS b
  | .IfStmt _ Init Cond Body Else =>
    matchSatisfies_orElse (matchSatisfies_findStmt hI hS Init)
      (matchSatisfies_orElse (matchSatisfies_findExpr hI hS Cond)
        (matchSatisfies_orElse (matchSatisfies_findBlockStmt hI hS Body)
          (matchSatisfies_findStmt hI hS Else)))
  | .CaseClause _ Lst _ Body =>
    matchSatisfies_orElse (matchSatisfies_findExprs hI hS Lst) (matchSatisfies_findStmts hI hS Body)
  | .SwitchStmt _ Init Tag Body =>
    matchSatisfies_orElse (matchSatisfies_findStmt hI hS Init)
      (matchSatisfies_orElse (matchSatisfies_findExpr hI hS Tag) (matchSatisfies_findBlockStmt hI hS Body))
  | .TypeSwitchStmt _ Init Assign Body =>
    matchSatisfies_orElse (matchSatisfies_findStmt hI hS Init)
      (matchSatisfies_orElse (matchSatisfies_findStmt hI hS Assign)
        (matchSatisfies_findBlockStmt hI hS Body))
  | .CommClause _ Comm _ Body =>
    matchSatisfies_orElse (matchSatisfies_findStmt hI hS Comm) (matchSatisfies_findStmts hI hS Body)
  | .SelectStmt _ Body => matchSatisfies_findBlockStmt hI hS Body
  | .ForStmt _ Init Cond Post Body =>
    matchSatisfies_orElse (matchSatisfies_findStmt hI hS Init)
      (matchSatisfies_orElse (matchSatisfies_findExpr hI hS Cond)
        (matchSatisfies_orElse (matchSatisfies_findStmt hI hS Post)
          (matchSatisfies_findBlockStmt hI hS Body)))
  | .RangeStmt _ Key Value _ _ X Body =>
    matchSatisfies_orElse (matchSatisfies_findExpr hI hS Key)
      (matchSatisfies_orElse (matchSatisfies_findExpr hI hS Value)
        (matchSatisfies_orElse (matchSatisfies_findExpr hI hS X)
          (matchSatisfies_findBlockStmt hI hS Body)))

theorem matchSatisfies_findStmts {Q : Node → Prop} {pos : token.Pos}
    (hI : ∀ i : Ident, i.Pos ≤ pos → pos < i.End → Q (.Expr (.Ident i)))
    (hS : ∀ (X : Option Expr) (Sel : Option Ident) (p e : token.Pos),
      Expr.PosOf X = .ok p → Ident.EndOf Sel = .ok e → p ≤ pos → pos < e →
      Q (.Expr (.SelectorExpr X Sel))) :
    ∀ (xs : List (Option Stmt)), MatchSatisfies Q (findNodeHelperStmts xs pos)
  | [] => matchSatisfies_ok_none Q
  | s :: ss => matchSatisfies_orElse (matchSatisfies_findStmt hI hS s) (matchSatisfies_findStmts hI hS ss)

theorem matchSatisfies_findDecl {Q : Node → Prop} {pos : token.Pos}
    (hI : ∀ i : Ident, i.Pos ≤ pos → pos < i.End → Q (.Expr (.Ident i)))
    (hS : ∀ (X : Option Expr) (Sel : Option Ident) (p e : token.Pos),
      Expr.PosOf X = .ok p → Ident.EndOf Sel = .ok e → p ≤ pos → pos < e →
      Q (.Expr (.SelectorExpr X Sel))) :
    ∀ (x : Option Decl), MatchSatisfies Q (findNodeHelperDecl x pos)
  | none => matchSatisfies_ok_none Q
  | some d => matchSatisfies_spanGuard _ _ (matchSatisfies_caseDecl hI hS d)

theorem matchSatisfies_caseDecl {Q : Node → Prop} {pos : token.Pos}
    (hI : ∀ i : Ident, i.Pos ≤ pos → pos < i.End → Q (.Expr (.Ident i)))
    (hS : ∀ (X : Option Expr) (Sel : Option Ident) (p e : token.Pos),
      Expr.PosOf X = .ok p → Ident.EndOf Sel = .ok e → p ≤ pos → pos < e →
      Q (.Expr (.SelectorExpr X Sel))) :
    ∀ (d : Decl), MatchSatisfies Q (d.findCase pos)
  | .BadDecl _ _ => matchSatisfies_error Q _
  | .GenDecl _ _ _ _ _ _ => matchSatisfies_error Q _
  | .FuncDecl _ Recv _ Typ Body =>
    matchSatisfies_orElse (matchSatisfies_findFieldList hI hS Recv)
      (matchSatisfies_orElse (matchSatisfies_findFuncType hI hS Typ)
        (matchSatisfies_findBlockStmt hI hS Body))

end

theorem matchSatisfies_findDecls {Q : Node → Prop} {pos : token.Pos}
    (hI : ∀ i : Ident, i.Pos ≤ pos → pos < i.End → Q (.Expr (.Ident i)))
    (hS : ∀ (X : Option Expr) (Sel : Option Ident) (p e : token.Pos),
      Expr.PosOf X = .ok p → Ident.EndOf Sel = .ok e → p ≤ pos → pos < e →
      Q (.Expr (.SelectorExpr X Sel)))
    (ds : List (Option Decl)) : MatchSatisfies Q (findNodeHelperDecls ds pos) := by
  induction ds with
  | nil => exact matchSatisfies_ok_none Q
  | cons d ds ih => exact matchSatisfies_orElse (matchSatisfies_findDecl hI hS d) ih

theorem matchSatisfies_caseNode {Q : Node → Prop} {pos : token.Pos}
    (hI : ∀ i : Ident, i.Pos ≤ pos → pos < i.End → Q (.Expr (.Ident i)))
    (hS : ∀ (X : Option Expr) (Sel : Option Ident) (p e : token.Pos),
      Expr.PosOf X = .ok p → Ident.EndOf Sel = .ok e → p ≤ pos → pos < e →
      Q (.Expr (.SelectorExpr X Sel)))
    (n : Node) : MatchSatisfies Q (n.findCase pos) := by
  match n with
  | .Comment _ => exact matchSatisfies_error Q _
  | .CommentGroup _ => exact matchSatisfies_error Q _
  | .Field f => exact matchSatisfies_caseField hI hS f
  | .FieldList l => exact matchSatisfies_caseFieldList hI hS l
  | .Expr e => exact matchSatisfies_caseExpr hI hS e
  | .Stmt s => exact matchSatisfies_caseStmt hI hS s
  | .Spec _ => exact matchSatisfies_error Q _
  | .Decl d => exact matchSatisfies_caseDecl hI hS d
  | .File f => exact matchSatisfies_findDecls hI hS f.Decls
  | .Package _ => exact matchSatisfies_error Q _

theorem matchSatisfies_findNode {Q : Node → Prop} {pos : token.Pos}
    (hI : ∀ i : Ident, i.Pos ≤ pos → pos < i.End → Q (.Expr (.Ident i)))
    (hS : ∀ (X : Option Expr) (Sel : Option Ident) (p e : token.Pos),
      Expr.PosOf X = .ok p → Ident.EndOf Sel = .ok e → p ≤ pos → pos < e →
      Q (.Expr (.SelectorExpr X Sel)))
    (n : Option Node) : MatchSatisfies Q (findNodeHelper n pos) := by
  match n with
  | none => exact matchSatisfies_ok_none Q
  | some n => exact matchSatisfies_spanGuard _ _ (matchSatisfies_caseNode hI hS n)

theorem findNodeHelper_inSpan (n : Option Node) (pos : token.Pos) (r : Node)
    (h : findNodeHelper n pos = .ok (some r)) : r.InSpan pos := by
  refine matchSatisfies_findNode (Q := fun r => r.InSpan pos) ?_ ?_ n r h
  · intro i h1 h2
    exact ⟨i.Pos, i.End, rfl, rfl, h1, h2⟩
  · intro X Sel p e hX hE h1 h2
    exact ⟨p, e, hX, hE, h1, h2⟩

theorem findNodeHelper_never_again (n : Option Node) (p : token.Pos) (r : Node)
    (h : findNodeHelper n p = .ok (some r)) :
    ∃ e : token.Pos, r.End = .ok e ∧
      ∀ q : token.Pos, e ≤ q → findNodeHelper n q ≠ .ok (some r) := by
  obtain ⟨p0, e, _, hE, _, _⟩ := findNodeHelper_inSpan n p r h
  refine ⟨e, hE, fun q hq hq2 => ?_⟩
  obtain ⟨_, e2, _, hE2, _, hlt⟩ := findNodeHelper_inSpan n q r hq2
  rw [hE] at hE2
  cases hE2
  exact absurd hlt (not_lt.mpr hq)

/-- C11 fails on the code.  A node returned at a position is never returned
at a position at or after its end; but the search at such a position need not
return at all.  On the file `package q; func g(a int) { a }; var x int` the
search at position 27 returns the identifier `a`, which ends at 28, and the
search at position 35, in `var x int`, reaches the case of generic
declarations, which has no body, and ends in the exit `node type not handled`:
it returns neither a different node nor no match. -/
theorem findNodeHelper_not_at_end :
    (∀ (n : Option Node) (p : token.Pos) (r : Node), findNodeHelper n p = .ok (some r) →
      ∃ e : token.Pos, r.End = .ok e ∧
        ∀ q : token.Pos, e ≤ q → findNodeHelper n q ≠ .ok (some r)) ∧
    findNodeHelper (some (.File fileFuncGVarX)) 27 = .ok (some (.Expr (.Ident ⟨27, "a"⟩))) ∧
    (Node.Expr (.Ident ⟨27, "a"⟩)).End = .ok 28 ∧ (28 : token.Pos) ≤ 35 ∧
    findNodeHelper (some (.File fileFuncGVarX)) 35 = .error .notHandled ∧
    (∀ res : Option Node, findNodeHelper (some (.File fileFuncGVarX)) 35 ≠ .ok res) := by
  refine ⟨findNodeHelper_never_again, rfl, rfl, by decide, rfl, fun res h => ?_⟩
  have h2 : (Except.error Failure.notHandled : Result) = .ok res := h
  cases h2

/-- C15: for every node and every position, a match returned by the search is
an identifier node or a selector node; no node of another kind is returned. -/
theorem findNodeHelper_match_kind (n : Option Node) (pos : token.Pos) (r : Node)
    (h : findNodeHelper n pos = .ok (some r)) :
    Node.isIdent (some r) = true ∨ Node.isSelector (some r) = true := by
  refine matchSatisfies_findNode
    (Q := fun r => Node.isIdent (some r) = true ∨ Node.isSelector (some r) = true)
    ?_ ?_ n r h
  · intro i _ _
    exact Or.inl rfl
  · intro X Sel p e _ _ _ _
    exact Or.inr rfl

/-- Witness of C15 on the call `x.y(z)`: the match at position 5 is the
identifier `z`. -/
theorem findNodeHelper_match_kind_witness :
    Node.isIdent (some (.Expr (.Ident idZ))) = true ∨
      Node.isSelector (some (.Expr (.Ident idZ))) = true :=
  findNodeHelper_match_kind (some (.Expr callXYZ)) 5 (.Expr (.Ident idZ)) rfl

end GoDef

namespace GoDef

/-! ## Ellipses, field lists and field counts -/

/-- C21: for every ellipsis node, `Pos` is the position of the `...` token,
and `End` is `End` of the element type when there is one and `Pos + 3` when
there is none. -/
theorem ellipsis_span (Ellipsis : token.Pos) :
    (∀ Elt : Option Expr, Expr.Pos (.Ellipsis Ellipsis Elt) = .ok Ellipsis) ∧
    (∀ elt : Expr, Expr.End (.Ellipsis Ellipsis (some elt)) = Expr.End elt) ∧
    Expr.End (.Ellipsis Ellipsis none) = .ok (Ellipsis + 3) :=
  ⟨fun _ => rfl, fun _ => rfl, rfl⟩

theorem Field_EndLast_eq (fs : List (Option Field)) (h : fs ≠ []) :
    Field.EndLast fs = Field.EndOf (fs.getLast h) := by
  induction fs with
  | nil => exact absurd rfl h
  | cons f fs ih =>
    cases fs with
    | nil => rfl
    | cons g gs =>
      rw [List.getLast_cons (List.cons_ne_nil g gs)]
      rw [← ih (List.cons_ne_nil g gs)]
      rfl

theorem FieldList.End_eq_last (Opening Closing : token.Pos) (Lst : List (Option Field))
    (hc : Closing.IsValid = false) (h : Lst ≠ []) :
    FieldList.End (.mk Opening Lst Closing) = Field.EndOf (Lst.getLast h) := by
  rw [← Field_EndLast_eq Lst h]
  cases Lst with
  | nil => exact absurd rfl h
  | cons f fs => simp [FieldList.End, hc]

/-- C22: for every field list, `Pos` is `Opening` when `Opening` is valid,
else `Pos` of the first field when there is one, else the invalid sentinel;
`End` is `Closing + 1` when `Closing` is valid, else `End` of the last field
when there is one, else the invalid sentinel; on an empty `List` neither
panics with an index out of range. -/
theorem fieldList_span (Opening Closing : token.Pos) (Lst : List (Option Field)) :
    (Opening.IsValid = true → FieldList.Pos (.mk Opening Lst Closing) = .ok Opening) ∧
    (Opening.IsValid = false → ∀ (f : Option Field) (fs : List (Option Field)),
      Lst = f :: fs → FieldList.Pos (.mk Opening Lst Closing) = Field.PosOf f) ∧
    (Opening.IsValid = false → Lst = [] →
      FieldList.Pos (.mk Opening Lst Closing) = .ok token.NoPos) ∧
    (Closing.IsValid = true → FieldList.End (.mk Opening Lst Closing) = .ok (Closing + 1)) ∧
    (Closing.IsValid = false → ∀ h : Lst ≠ [],
      FieldList.End (.mk Opening Lst Closing) = Field.EndOf (Lst.getLast h)) ∧
    (Closing.IsValid = false → Lst = [] →
      FieldList.End (.mk Opening Lst Closing) = .ok token.NoPos) ∧
    FieldList.Pos (.mk Opening [] Closing) ≠ .error .indexOutOfRange ∧
    FieldList.End (.mk Opening [] Closing) ≠ .error .indexOutOfRange := by
  refine ⟨fun h => ?_, fun h f fs hl => ?_, fun h hl => ?_, fun h => ?_,
    fun h hne => FieldList.End_eq_last Opening Closing Lst h hne, fun h hl => ?_, ?_, ?_⟩
  · simp [FieldList.Pos, h]
  · subst hl
    simp [FieldList.Pos, h]
  · subst hl
    simp [FieldList.Pos, h]
  · simp [FieldList.End, h]
  · subst hl
    simp [FieldList.End, h]
  · obtain ⟨p, hp⟩ := FieldList.Pos_nil Opening Closing
    rw [hp]
    intro hx
    cases hx
  · obtain ⟨e, he⟩ := FieldList.End_nil Opening Closing
    rw [he]
    intro hx
    cases hx

/-- Witness of C22 on a field list without delimiters that holds the one
field `x int`: it spans from `x` at 1 to the end of `int` at 6. -/
theorem fieldList_span_witness :
    FieldList.Pos (.mk token.NoPos
        [some (.mk none [some ⟨1, "x"⟩] (some (.Ident ⟨3, "int"⟩)) none none)] token.NoPos)
      = .ok 1 ∧
    FieldList.End (.mk token.NoPos
        [some (.mk none [some ⟨1, "x"⟩] (some (.Ident ⟨3, "int"⟩)) none none)] token.NoPos)
      = .ok 6 :=
  ⟨((fieldList_span token.NoPos token.NoPos
      [some (.mk none [some ⟨1, "x"⟩] (some (.Ident ⟨3, "int"⟩)) none none)]).2.1 rfl
      _ _ rfl).trans rfl,
   ((fieldList_span token.NoPos token.NoPos
      [some (.mk none [some ⟨1, "x"⟩] (some (.Ident ⟨3, "int"⟩)) none none)]).2.2.2.2.1 rfl
      (by simp)).trans rfl⟩

theorem numFieldsLoop_eq (fs : List Field) :
    ∀ n : int, FieldList.numFieldsLoop (fs.map some) n =
      .ok (n + (((fs.map (fun g => max 1 g.Names.length)).sum : Nat) : int)) := by
  induction fs with
  | nil =>
    intro n
    show Except.ok n = Except.ok (n + ((0 : Nat) : int))
    rw [int.add_natCast_zero]
  | cons g gs ih =>
    intro n
    simp only [List.map_cons, FieldList.numFieldsLoop, List.sum_cons]
    rw [ih, ← int.add_natCast_add]
    by_cases h : g.Names.length = 0
    · have hm : max 1 g.Names.length = 1 := by omega
      rw [if_pos h, hm]
      rfl
    · have hm : max 1 g.Names.length = g.Names.length := by omega
      rw [if_neg h, hm]

theorem sum_max_one_ge_length (fs : List Field) :
    fs.length ≤ (fs.map (fun g => max 1 g.Names.length)).sum := by
  induction fs with
  | nil => simp
  | cons g gs ih =>
    simp only [List.map_cons, List.sum_cons, List.length_cons]
    omega

/-- C25, as stated, fails: on the field list `(nil)`, which is not nil and
holds one nil field, `NumFields` reads the names of the nil field and panics:
it returns neither a sum nor a count of at least one. -/
theorem numFields_nil_field_panics :
    FieldList.NumFields (some (.mk 1 [none] 2)) = .error .nilDeref ∧
    (∀ n : int, FieldList.NumFields (some (.mk 1 [none] 2)) ≠ .ok n) := by
  refine ⟨rfl, fun n h => ?_⟩
  have h2 : (Except.error Failure.nilDeref : Except Failure int) = .ok n := h
  cases h2

/-- C25, amended: `NumFields` returns 0 for a nil field list and, for a field
list whose fields `fs` are all non-nil, the sum over the fields of the number
of names, an anonymous field counting as one: the sum as an `int`, which is
the exact sum wrapped around.  The exact sum is at least the number of fields,
and so is the returned count when the exact sum is at most the greatest
`int`. -/
theorem numFields_eq (Opening Closing : token.Pos) (fs : List Field) :
    FieldList.NumFields none = .ok 0 ∧
    FieldList.NumFields (some (.mk Opening (fs.map some) Closing)) =
      .ok (((fs.map (fun g => max 1 g.Names.length)).sum : Nat) : int) ∧
    ((((fs.map (fun g => max 1 g.Names.length)).sum : Nat) : int)).toInt =
      wrap (((fs.map (fun g => max 1 g.Names.length)).sum : Nat) : Int) ∧
    (fs.map some).length ≤ (fs.map (fun g => max 1 g.Names.length)).sum ∧
    ((((fs.map (fun g => max 1 g.Names.length)).sum : Nat) : Int) ≤ 9223372036854775807 →
      (((fs.map some).length : Nat) : Int) ≤
        ((((fs.map (fun g => max 1 g.Names.length)).sum : Nat) : int)).toInt) := by
  have hlen : (fs.map some).length ≤ (fs.map (fun g => max 1 g.Names.length)).sum := by
    rw [List.length_map]
    exact sum_max_one_ge_length fs
  refine ⟨rfl, ?_, rfl, hlen, ?_⟩
  · show FieldList.numFieldsLoop (fs.map some) 0 = _
    rw [numFieldsLoop_eq, int.zero_add]
  · intro h
    rw [int.toInt_natCast, wrap_eq _ (by omega) h]
    exact_mod_cast hlen

/-- Witness of C25 on the field list `(a, b int, string)`: two names and an
anonymous field, counted as three. -/
theorem numFields_eq_witness :
    FieldList.NumFields (some (.mk 1
      [some (.mk none [some ⟨2, "a"⟩, some ⟨5, "b"⟩] (some (.Ident ⟨7, "int"⟩)) none none),
       some (.mk none [] (some (.Ident ⟨12, "string"⟩)) none none)] 18)) = .ok 3 ∧
    ((2 : Nat) : Int) ≤ (3 : int).toInt :=
  ⟨(numFields_eq 1 18
      [.mk none [some ⟨2, "a"⟩, some ⟨5, "b"⟩] (some (.Ident ⟨7, "int"⟩)) none none,
       .mk none [] (some (.Ident ⟨12, "string"⟩)) none none]).2.1,
    (numFields_eq 1 18
      [.mk none [some ⟨2, "a"⟩, some ⟨5, "b"⟩] (some (.Ident ⟨7, "int"⟩)) none none,
       .mk none [] (some (.Ident ⟨12, "string"⟩)) none none]).2.2.2.2 (by decide)⟩

end GoDef

namespace GoDef

/-! ## Blocks, generic declarations and the visitor -/

theorem orElse_ok_none_right (a : Result) : orElse a (.ok none) = a := by
  match a with
  | .ok none => rfl
  | .ok (some _) => rfl
  | .error _ => rfl

theorem findNodeHelperStmt_outside (s : Option Stmt) (pos : token.Pos)
    (hd : Stmt.spanDefined s) (hn : ¬ Stmt.spanContains s pos) :
    findNodeHelperStmt s pos = .ok none := by
  obtain ⟨p, e, hp, he⟩ := hd
  match s, hp, he, hn with
  | none, hp, _, _ => cases hp
  | some s, hp, he, hn =>
    show spanGuard (Stmt.Pos s) (Stmt.End s) pos _ = .ok none
    have hp2 : Stmt.Pos s = .ok p := hp
    have he2 : Stmt.End s = .ok e := he
    rw [hp2, he2, spanGuard_ok]
    have : ¬ (p ≤ pos ∧ pos < e) := fun h => hn ⟨p, e, hp, he, h.1, h.2⟩
    rw [if_neg this]

theorem findNodeHelperStmts_outside (ss : List (Option Stmt)) (pos : token.Pos)
    (hd : ∀ s ∈ ss, Stmt.spanDefined s) (hn : ∀ s ∈ ss, ¬ Stmt.spanContains s pos) :
    findNodeHelperStmts ss pos = .ok none := by
  induction ss with
  | nil => rfl
  | cons s ss ih =>
    show orElse (findNodeHelperStmt s pos) (findNodeHelperStmts ss pos) = .ok none
    rw [findNodeHelperStmt_outside s pos (hd s (List.mem_cons_self s ss))
      (hn s (List.mem_cons_self s ss))]
    exact ih (fun t ht => hd t (List.mem_cons_of_mem s ht))
      (fun t ht => hn t (List.mem_cons_of_mem s ht))

theorem findNodeHelperStmts_unique (ss : List (Option Stmt)) (pos : token.Pos)
    (hd : ∀ s ∈ ss, Stmt.spanDefined s) (hdisj : ss.Pairwise Stmt.spansDisjoint) :
    ∀ s ∈ ss, Stmt.spanContains s pos →
      findNodeHelperStmts ss pos = findNodeHelperStmt s pos := by
  induction ss with
  | nil =>
    intro s hs
    cases hs
  | cons s0 rest ih =>
    intro s hs hc
    rw [List.pairwise_cons] at hdisj
    show orElse (findNodeHelperStmt s0 pos) (findNodeHelperStmts rest pos) = _
    have hdr : ∀ t ∈ rest, Stmt.spanDefined t := fun t ht => hd t (List.mem_cons_of_mem s0 ht)
    by_cases h0 : Stmt.spanContains s0 pos
    · have hrest : ∀ t ∈ rest, ¬ Stmt.spanContains t pos :=
        fun t ht hct => hdisj.1 t ht pos ⟨h0, hct⟩
      rw [findNodeHelperStmts_outside rest pos hdr hrest, orElse_ok_none_right]
      rcases List.mem_cons.mp hs with h | h
      · rw [h]
      · exact absurd hc (hrest s h)
    · rw [findNodeHelperStmt_outside s0 pos (hd s0 (List.mem_cons_self s0 rest)) h0]
      rcases List.mem_cons.mp hs with h | h
      · rw [h] at hc
        exact absurd hc h0
      · exact ih hdr hdisj.2 s h hc

theorem exprStmt_ident_contains (i : Ident) (x : token.Pos) :
    Stmt.spanContains (some (.ExprStmt (some (.Ident i)))) x ↔ i.Pos ≤ x ∧ x < i.End := by
  constructor
  · rintro ⟨p, e, hp, he, h1, h2⟩
    cases hp
    cases he
    exact ⟨h1, h2⟩
  · rintro ⟨h1, h2⟩
    exact ⟨i.Pos, i.End, rfl, rfl, h1, h2⟩

/-- C26, as stated, fails: in the block `{ x }` with `{` at 1, `x` at 3 and `}`
at the greatest `int`, the end of the block, `Rbrace + 1`, wraps around to the
least `int`; position 3 lies from the opening to the closing brace and in the
span of the one statement, on which the search returns `x`, but the span test
of the block fails and the search on the block returns no match. -/
theorem block_rbrace_overflow :
    (1 : token.Pos) ≤ 3 ∧ (3 : token.Pos) ≤ MaxInt ∧
    Stmt.spanContains (some (.ExprStmt (some (.Ident ⟨3, "x"⟩)))) 3 ∧
    [some (Stmt.ExprStmt (some (.Ident ⟨3, "x"⟩)))].Pairwise Stmt.spansDisjoint ∧
    findNodeHelperStmt (some (.ExprStmt (some (.Ident ⟨3, "x"⟩)))) 3 =
      .ok (some (.Expr (.Ident ⟨3, "x"⟩))) ∧
    Stmt.End (.BlockStmt (.mk 1 [some (.ExprStmt (some (.Ident ⟨3, "x"⟩)))] MaxInt)) =
      .ok MinInt ∧
    findNodeHelper
      (some (.Stmt (.BlockStmt (.mk 1 [some (.ExprStmt (some (.Ident ⟨3, "x"⟩)))] MaxInt)))) 3 =
      .ok none :=
  ⟨by decide, by decide, (exprStmt_ident_contains _ _).mpr ⟨by decide, by decide⟩,
    List.pairwise_singleton _ _, rfl, rfl, rfl⟩

/-- C26, amended: for every block whose end does not wrap around,
`Rbrace < Rbrace + 1`, and every position from its opening to its closing
brace, when the statements of the block have defined and pairwise disjoint
spans, the search on the block is the search on the statement whose span
contains the position, and is no match, not a failure and not the block, when
no statement contains the position. -/
theorem findNodeHelper_block (Lbrace Rbrace : token.Pos) (Lst : List (Option Stmt))
    (pos : token.Pos) (h1 : Lbrace ≤ pos) (h2 : pos ≤ Rbrace) (hr : Rbrace < Rbrace + 1)
    (hd : ∀ s ∈ Lst, Stmt.spanDefined s) (hdisj : Lst.Pairwise Stmt.spansDisjoint) :
    (∀ s ∈ Lst, Stmt.spanContains s pos →
      findNodeHelper (some (.Stmt (.BlockStmt (.mk Lbrace Lst Rbrace)))) pos =
        findNodeHelperStmt s pos) ∧
    ((∀ s ∈ Lst, ¬ Stmt.spanContains s pos) →
      findNodeHelper (some (.Stmt (.BlockStmt (.mk Lbrace Lst Rbrace)))) pos = .ok none) := by
  have hshape : findNodeHelper (some (.Stmt (.BlockStmt (.mk Lbrace Lst Rbrace)))) pos =
      findNodeHelperStmts Lst pos := by
    show spanGuard (.ok Lbrace) (.ok (Rbrace + 1)) pos (findNodeHelperStmts Lst pos) = _
    rw [spanGuard_ok]
    have : Lbrace ≤ pos ∧ pos < Rbrace + 1 := ⟨h1, lt_of_le_of_lt h2 hr⟩
    rw [if_pos this]
  rw [hshape]
  exact ⟨findNodeHelperStmts_unique Lst pos hd hdisj,
    fun hn => findNodeHelperStmts_outside Lst pos hd hn⟩

/-- Witness of C26 on the block `{ x; y }`: at position 6 the search on the
block is the search on the statement `y`, and at position 4, between the
statements, it is no match. -/
theorem findNodeHelper_block_witness :
    findNodeHelper (some (.Stmt (.BlockStmt blockXY))) 6 =
      findNodeHelperStmt (some (.ExprStmt (some (.Ident ⟨6, "y"⟩)))) 6 ∧
    findNodeHelper (some (.Stmt (.BlockStmt blockXY))) 4 = .ok none := by
  have hd : ∀ s ∈ [some (Stmt.ExprStmt (some (.Ident ⟨3, "x"⟩))),
      some (Stmt.ExprStmt (some (.Ident ⟨6, "y"⟩)))], Stmt.spanDefined s := by
    intro s hs
    simp only [List.mem_cons, List.mem_singleton, List.not_mem_nil, or_false] at hs
    rcases hs with h | h
    · rw [h]
      exact ⟨_, _, rfl, rfl⟩
    · rw [h]
      exact ⟨_, _, rfl, rfl⟩
  have hdisj : [some (Stmt.ExprStmt (some (.Ident ⟨3, "x"⟩))),
      some (Stmt.ExprStmt (some (.Ident ⟨6, "y"⟩)))].Pairwise Stmt.spansDisjoint := by
    simp only [List.pairwise_cons, List.mem_singleton, forall_eq, List.not_mem_nil,
      false_implies, implies_true, List.Pairwise.nil, and_true]
    intro x hx
    rw [exprStmt_ident_contains, exprStmt_ident_contains] at hx
    obtain ⟨⟨_, h2⟩, ⟨h3, _⟩⟩ := hx
    have h2' : x < 4 := h2
    have h3' : 6 ≤ x := h3
    exact absurd (lt_of_le_of_lt h3' h2') (by decide)
  refine ⟨(findNodeHelper_block 1 8 _ 6 (by decide) (by decide) (by decide) hd hdisj).1 _
      (by simp) ((exprStmt_ident_contains _ _).mpr ⟨by decide, by decide⟩),
    (findNodeHelper_block 1 8 _ 4 (by decide) (by decide) (by decide) hd hdisj).2 ?_⟩
  intro s hs hc
  simp only [List.mem_cons, List.mem_singleton, List.not_mem_nil, or_false] at hs
  rcases hs with h | h
  · rw [h, exprStmt_ident_contains] at hc
    exact absurd hc.2 (by decide)
  · rw [h, exprStmt_ident_contains] at hc
    exact absurd hc.1 (by decide)

theorem findNodeHelperDecls_append (pre post : List (Option Decl)) (pos : token.Pos) :
    findNodeHelperDecls (pre ++ post) pos =
      orElse (findNodeHelperDecls pre pos) (findNodeHelperDecls post pos) := by
  induction pre with
  | nil => rfl
  | cons d ds ih =>
    show orElse (findNodeHelperDecl d pos) (findNodeHelperDecls (ds ++ post) pos) =
      orElse (orElse (findNodeHelperDecl d pos) (findNodeHelperDecls ds pos))
        (findNodeHelperDecls post pos)
    rw [ih]
    match findNodeHelperDecl d pos with
    | .ok none => rfl
    | .ok (some _) => rfl
    | .error _ => rfl

theorem findNodeHelperDecl_genDecl (Doc : Option CommentGroup) (TokPos : token.Pos)
    (Tok : token.Token) (Lparen : token.Pos) (Specs : List (Option Spec)) (Rparen : token.Pos)
    (pos e : token.Pos)
    (hE : Decl.End (.GenDecl Doc TokPos Tok Lparen Specs Rparen) = .ok e)
    (h1 : TokPos ≤ pos) (h2 : pos < e) :
    findNodeHelperDecl (some (.GenDecl Doc TokPos Tok Lparen Specs Rparen)) pos =
      .error .notHandled := by
  show spanGuard (.ok TokPos) (Decl.End (.GenDecl Doc TokPos Tok Lparen Specs Rparen)) pos
    (.error .notHandled) = _
  rw [hE, spanGuard_ok, if_pos ⟨h1, h2⟩]

/-- C27: for every generic declaration and every position inside its span,
the search on the declaration neither returns a match nor no match but ends
in the exit `node type not handled`; so does the search on a file at that
position when the span of the file contains it and the declarations before
the generic one yield no match. -/
theorem findNodeHelper_genDecl (Doc : Option CommentGroup) (TokPos : token.Pos)
    (Tok : token.Token) (Lparen : token.Pos) (Specs : List (Option Spec)) (Rparen : token.Pos)
    (pos e : token.Pos)
    (hE : Decl.End (.GenDecl Doc TokPos Tok Lparen Specs Rparen) = .ok e)
    (h1 : TokPos ≤ pos) (h2 : pos < e) :
    findNodeHelper (some (.Decl (.GenDecl Doc TokPos Tok Lparen Specs Rparen))) pos =
      .error .notHandled ∧
    (∀ (f : File) (pre post : List (Option Decl)) (fe : token.Pos),
      f.Decls = pre ++ some (.GenDecl Doc TokPos Tok Lparen Specs Rparen) :: post →
      f.Pos ≤ pos → f.End = .ok fe → pos < fe →
      findNodeHelperDecls pre pos = .ok none →
      findNodeHelper (some (.File f)) pos = .error .notHandled) := by
  have hg := findNodeHelperDecl_genDecl Doc TokPos Tok Lparen Specs Rparen pos e hE h1 h2
  refine ⟨hg, fun f pre post fe hdecls hp hfe hlt hpre => ?_⟩
  show spanGuard (.ok f.Pos) f.End pos (findNodeHelperDecls f.Decls pos) = _
  rw [hfe, spanGuard_ok, if_pos ⟨hp, hlt⟩, hdecls, findNodeHelperDecls_append, hpre]
  show orElse (findNodeHelperDecl (some (.GenDecl Doc TokPos Tok Lparen Specs Rparen)) pos)
    (findNodeHelperDecls post pos) = _
  rw [hg]
  rfl

/-- Witness of C27 on `var x int` at the position of `x`, alone and as the
only declaration of a file. -/
theorem findNodeHelper_genDecl_witness :
    findNodeHelper (some (.Decl genDeclVarX)) 15 = .error .notHandled ∧
    findNodeHelper (some (.File fileVarX)) 15 = .error .notHandled :=
  ⟨(findNodeHelper_genDecl none 11 ⟨"var"⟩ token.NoPos
      [some (.ValueSpec none [some ⟨15, "x"⟩] (some (.Ident ⟨17, "int"⟩)) [] none)]
      token.NoPos 15 20 rfl (by decide) (by decide)).1,
   (findNodeHelper_genDecl none 11 ⟨"var"⟩ token.NoPos
      [some (.ValueSpec none [some ⟨15, "x"⟩] (some (.Ident ⟨17, "int"⟩)) [] none)]
      token.NoPos 15 20 rfl (by decide) (by decide)).2
      fileVarX [] [] 20 rfl (by decide) rfl (by decide) rfl⟩

/-- C29: `Visit` stores the node in `v.id` and returns nil exactly when the
node is an identifier whose span contains `v.pos`; for every other node, nil
included, it leaves `v.id` unchanged and returns the visitor itself; it never
changes `v.pos`. -/
theorem visitor_Visit (v : visitor) (n : Option Node) :
    (∀ id : Ident, n = some (.Expr (.Ident id)) → id.Pos ≤ v.pos → v.pos < id.End →
      (v.Visit n).1.id = some id ∧ (v.Visit n).2 = none) ∧
    ((¬ ∃ id : Ident, n = some (.Expr (.Ident id)) ∧ id.Pos ≤ v.pos ∧ v.pos < id.End) →
      (v.Visit n).1.id = v.id ∧ (v.Visit n).2 = some v) ∧
    ((v.Visit n).2 = none ↔
      ∃ id : Ident, n = some (.Expr (.Ident id)) ∧ id.Pos ≤ v.pos ∧ v.pos < id.End) ∧
    (v.Visit n).1.pos = v.pos := by
  have key : ∀ id : Ident, id.Pos ≤ v.pos → v.pos < id.End →
      v.Visit (some (.Expr (.Ident id))) = ({ v with id := some id }, none) := by
    intro id h1 h2
    simp [visitor.Visit, h1, h2]
  have key2 : (¬ ∃ id : Ident, n = some (.Expr (.Ident id)) ∧ id.Pos ≤ v.pos ∧ v.pos < id.End) →
      v.Visit n = (v, some v) := by
    intro hn
    unfold visitor.Visit
    split
    · rename_i id
      have : ¬ (id.Pos ≤ v.pos ∧ v.pos < id.End) := fun h => hn ⟨id, rfl, h.1, h.2⟩
      have h2 : (decide (id.Pos ≤ v.pos) && decide (v.pos < id.End)) = false := by
        by_cases ha : id.Pos ≤ v.pos
        · have hb : ¬ v.pos < id.End := fun hb => this ⟨ha, hb⟩
          simp [ha, hb]
        · simp [ha]
      simp [h2]
    · rfl
  refine ⟨fun id hn h1 h2 => ?_, fun hn => ?_, ⟨fun h => ?_, fun h => ?_⟩, ?_⟩
  · rw [hn, key id h1 h2]
    exact ⟨rfl, rfl⟩
  · rw [key2 hn]
    exact ⟨rfl, rfl⟩
  · by_contra hn
    rw [key2 hn] at h
    cases h
  · obtain ⟨id, hn, h1, h2⟩ := h
    rw [hn, key id h1 h2]
  · by_cases hn : ∃ id : Ident, n = some (.Expr (.Ident id)) ∧ id.Pos ≤ v.pos ∧ v.pos < id.End
    · obtain ⟨id, hn, h1, h2⟩ := hn
      rw [hn, key id h1 h2]
    · rw [key2 hn]

/-- Witness of C29: at position 3 the visitor takes the identifier `y` of
span `[3, 4)` and returns nil; on the selector `x.y` it stays as it is. -/
theorem visitor_Visit_witness :
    ((visitor.mk 3 none).Visit (some (.Expr (.Ident idY)))).1.id = some idY ∧
    ((visitor.mk 3 none).Visit (some (.Expr (.Ident idY)))).2 = none ∧
    ((visitor.mk 3 none).Visit (some (.Expr selXY))).1.id = none ∧
    ((visitor.mk 3 none).Visit (some (.Expr selXY))).2 = some (visitor.mk 3 none) := by
  have h1 := (visitor_Visit (visitor.mk 3 none) (some (.Expr (.Ident idY)))).1 idY rfl
    (by decide) (by decide)
  have h2 := (visitor_Visit (visitor.mk 3 none) (some (.Expr selXY))).2.1 (by
    rintro ⟨id, hn, _, _⟩
    cases hn)
  exact ⟨h1.1, h1.2, h2.1, h2.2⟩

end GoDef

namespace GoDef

/-! ## A match lies in the searched part of the tree -/

theorem matchAmong_ok_none (S : List Node) : MatchAmong S (.ok none) := by
  intro r h
  cases h

theorem matchAmong_error (S : List Node) (f : Failure) : MatchAmong S (.error f) := by
  intro r h
  cases h

theorem matchAmong_cons {S : List Node} {res : Result} (n : Node) (h : MatchAmong S res) :
    MatchAmong (n :: S) res :=
  fun r hr => List.mem_cons_of_mem n (h r hr)

theorem matchAmong_orElse {A B : List Node} {a b : Result}
    (ha : MatchAmong A a) (hb : MatchAmong B b) :
    MatchAmong (List.append A B) (orElse a b) := by
  match a, ha with
  | .ok none, _ => exact fun r hr => List.mem_append_right A (hb r hr)
  | .ok (some x), ha => exact fun r hr => List.mem_append_left B (ha r hr)
  | .error f, _ =>
    intro r hr
    cases hr

theorem matchAmong_guard {S : List Node} {pos : token.Pos}
    (p e : Except Failure token.Pos) {body : Result}
    (hb : MatchAmong S body) : MatchAmong S (spanGuard p e pos body) := by
  unfold GoDef.spanGuard
  match p with
  | .error f => exact matchAmong_error S f
  | .ok p =>
    by_cases h1 : p > pos
    · simp only [h1, if_true]
      exact matchAmong_ok_none S
    · simp only [h1, if_false]
      match e with
      | .error f => exact matchAmong_error S f
      | .ok e =>
        by_cases h2 : e ≤ pos
        · simp only [h2, if_true]
          exact matchAmong_ok_none S
        · simp only [h2, if_false]
          exact hb

theorem matchAmong_identCase {S : List Node} {pos : token.Pos} (i : Ident) :
    MatchAmong (Node.Expr (.Ident i) :: S) (i.findCase pos) := by
  rw [Ident.findCase_eq]
  by_cases h : i.NamePos ≤ pos ∧ pos < i.NamePos + (i.Name.utf8ByteSize : token.Pos)
  · rw [if_pos h]
    intro r hr
    cases hr
    exact List.mem_cons_self _ _
  · rw [if_neg h]
    exact matchAmong_ok_none _

theorem matchAmong_selectorCase {S : List Node} {pos : token.Pos}
    (X : Option Expr) (Sel : Option Ident) :
    MatchAmong (Node.Expr (.SelectorExpr X Sel) :: S) (selectorCase X Sel pos) := by
  cases hX : Expr.PosOf X with
  | error f =>
    unfold GoDef.selectorCase
    rw [hX]
    exact matchAmong_error _ f
  | ok p =>
    cases hE : Ident.EndOf Sel with
    | error f =>
      unfold GoDef.selectorCase
      rw [hX, hE]
      by_cases h1 : p ≤ pos
      · simp only [h1, if_true]
        exact matchAmong_error _ f
      · simp only [h1, if_false]
        exact matchAmong_ok_none _
    | ok e =>
      rw [selectorCase_eq X Sel p e pos hX hE]
      by_cases h : p ≤ pos ∧ pos < e
      · rw [if_pos h]
        intro r hr
        cases hr
        exact List.mem_cons_self _ _
      · rw [if_neg h]
        exact matchAmong_ok_none _

theorem matchAmong_findIdent {pos : token.Pos} (x : Option Ident) :
    MatchAmong (searchedIdent x) (findNodeHelperIdent x pos) := by
  match x with
  | none => exact matchAmong_ok_none _
  | some i =>
    show MatchAmong [Node.Expr (.Ident i)]
      (GoDef.spanGuard (.ok i.Pos) (.ok i.End) pos (i.findCase pos))
    exact matchAmong_guard _ _ (matchAmong_identCase i)

theorem matchAmong_findIdents {pos : token.Pos} (xs : List (Option Ident)) :
    MatchAmong (searchedIdents xs) (findNodeHelperIdents xs pos) := by
  induction xs with
  | nil => exact matchAmong_ok_none _
  | cons x xs ih => exact matchAmong_orElse (matchAmong_findIdent x) ih

mutual

theorem matchAmong_findExpr {pos : token.Pos} :
    ∀ (x : Option Expr), MatchAmong (searchedExpr x) (findNodeHelperExpr x pos)
  | none => matchAmong_ok_none _
  | some e => matchAmong_guard _ _ (matchAmong_caseExpr e)

theorem matchAmong_caseExpr {pos : token.Pos} :
    ∀ (e : Expr), MatchAmong (Node.Expr e :: Expr.searchedBelow e) (e.findCase pos)
  | .BadExpr _ _ =>
    matchAmong_cons _ (matchAmong_error _ _)
  | .Ident i => matchAmong_identCase i
  | .Ellipsis _ Elt =>
    matchAmong_cons _ (matchAmong_findExpr Elt)
  | .BasicLit _ =>
    matchAmong_cons _ (matchAmong_ok_none _)
  | .FuncLit Typ Body =>
    matchAmong_cons _ (matchAmong_orElse (matchAmong_findFuncType Typ) (matchAmong_findBlockStmt
        Body))
  | .CompositeLit Typ _ Elts _ =>
    matchAmong_cons _ (matchAmong_orElse (matchAmong_findExpr Typ) (matchAmong_findExprs Elts))
  | .ParenExpr _ X _ =>
    matchAmong_cons _ (matchAmong_findExpr X)
  | .SelectorExpr X Sel => matchAmong_selectorCase X Sel
  | .IndexExpr X _ Index _ =>
    matchAmong_cons _ (matchAmong_orElse (matchAmong_findExpr X) (matchAmong_findExpr Index))
  | .SliceExpr X _ Low High Max _ _ =>
    matchAmong_cons _ (matchAmong_orElse (matchAmong_findExpr X)
      (matchAmong_orElse (matchAmong_findExpr Low)
        (matchAmong_orElse (matchAmong_findExpr High) (matchAmong_findExpr Max))))
  | .TypeAssertExpr X Typ =>
    matchAmong_cons _ (matchAmong_orElse (matchAmong_findExpr X) (matchAmong_findExpr Typ))
  | .CallExpr c => matchAmong_caseCallExpr c
  | .StarExpr _ X =>
    matchAmong_cons _ (matchAmong_findExpr X)
  | .UnaryExpr _ _ X =>
    matchAmong_cons _ (matchAmong_findExpr X)
  | .BinaryExpr X _ _ Y =>
    matchAmong_cons _ (matchAmong_orElse (matchAmong_findExpr X) (matchAmong_findExpr Y))
  | .KeyValueExpr Key _ Value =>
    matchAmong_cons _ (matchAmong_orElse (matchAmong_findExpr Key) (matchAmong_findExpr Value))
  | .ArrayType _ Len Elt =>
    matchAmong_cons _ (matchAmong_orElse (matchAmong_findExpr Len) (matchAmong_findExpr Elt))
  | .StructType _ Fields _ =>
    matchAmong_cons _ (matchAmong_findFieldList Fields)
  | .FuncType ft => matchAmong_caseFuncType ft
  | .InterfaceType _ Methods _ =>
    matchAmong_cons _ (matchAmong_findFieldList Methods)
  | .MapType _ Key Value =>
    matchAmong_cons _ (matchAmong_orElse (matchAmong_findExpr Key) (matchAmong_findExpr Value))
  | .ChanType _ _ Value =>
    matchAmong_cons _ (matchAmong_findExpr Value)

theorem matchAmong_findExprs {pos : token.Pos} :
    ∀ (xs : List (Option Expr)), MatchAmong (searchedExprs xs) (findNodeHelperExprs xs pos)
  | [] => matchAmong_ok_none _
  | e :: es => matchAmong_orElse (matchAmong_findExpr e) (matchAmong_findExprs es)

theorem matchAmong_findCallExpr {pos : token.Pos} :
    ∀ (x : Option CallExpr), MatchAmong (searchedCallExpr x) (findNodeHelperCallExpr x pos)
  | none => matchAmong_ok_none _
  | some c => matchAmong_guard _ _ (matchAmong_caseCallExpr c)

theorem matchAmong_caseCallExpr {pos : token.Pos} :
    ∀ (c : CallExpr),
        MatchAmong (Node.Expr (.CallExpr c) :: CallExpr.searchedBelow c) (c.findCase pos)
  | .mk Fun _ Args _ _ =>
    matchAmong_cons _ (matchAmong_orElse (matchAmong_findExpr Fun) (matchAmong_findExprs Args))

theorem matchAmong_findFuncType {pos : token.Pos} :
    ∀ (x : Option FuncType), MatchAmong (searchedFuncType x) (findNodeHelperFuncType x pos)
  | none => matchAmong_ok_none _
  | some t => matchAmong_guard _ _ (matchAmong_caseFuncType t)

theorem matchAmong_caseFuncType {pos : token.Pos} :
    ∀ (t : FuncType),
        MatchAmong (Node.Expr (.FuncType t) :: FuncType.searchedBelow t) (t.findCase pos)
  | .mk _ Params Results =>
    matchAmong_cons _ (matchAmong_orElse (matchAmong_findFieldList Params)
      (matchAmong_findFieldList Results))

theorem matchAmong_findFieldList {pos : token.Pos} :
    ∀ (x : Option FieldList), MatchAmong (searchedFieldList x) (findNodeHelperFieldList x pos)
  | none => matchAmong_ok_none _
  | some l => matchAmong_guard _ _ (matchAmong_caseFieldList l)

theorem matchAmong_caseFieldList {pos : token.Pos} :
    ∀ (l : FieldList), MatchAmong (Node.FieldList l :: FieldList.searchedBelow l) (l.findCase pos)
  | .mk _ Lst _ =>
    matchAmong_cons _ (matchAmong_findFields Lst)

theorem matchAmong_findFields {pos : token.Pos} :
    ∀ (xs : List (Option Field)), MatchAmong (searchedFields xs) (findNodeHelperFields xs pos)
  | [] => matchAmong_ok_none _
  | f :: fs =>
    matchAmong_orElse (matchAmong_findField f) (matchAmong_findFields fs)

theorem matchAmong_findField {pos : token.Pos} :
    ∀ (x : Option Field), MatchAmong (searchedField x) (findNodeHelperField x pos)
  | none => matchAmong_ok_none _
  | some f => matchAmong_guard _ _ (matchAmong_caseField f)

theorem matchAmong_caseField {pos : token.Pos} :
    ∀ (f : Field), MatchAmong (Node.Field f :: Field.searchedBelow f) (f.findCase pos)
  | .mk _ Names Typ _ _ =>
    matchAmong_cons _ (matchAmong_orElse (matchAmong_findIdents Names) (matchAmong_findExpr Typ))

theorem matchAmong_findBlockStmt {pos : token.Pos} :
    ∀ (x : Option BlockStmt), MatchAmong (searchedBlockStmt x) (findNodeHelperBlockStmt x pos)
  | none => matchAmong_ok_none _
  | some b => matchAmong_guard _ _ (matchAmong_caseBlockStmt b)

theorem matchAmong_caseBlockStmt {pos : token.Pos} :
    ∀ (b : BlockStmt),
        MatchAmong (Node.Stmt (.BlockStmt b) :: BlockStmt.searchedBelow b) (b.findCase pos)
  | .mk _ Lst _ =>
    matchAmong_cons _ (matchAmong_findStmts Lst)

theorem matchAmong_findStmt {pos : token.Pos} :
    ∀ (x : Option Stmt), MatchAmong (searchedStmt x) (findNodeHelperStmt x pos)
  | none => matchAmong_ok_none _
  | some s => matchAmong_guard _ _ (matchAmong_caseStmt s)

theorem matchAmong_caseStmt {pos : token.Pos} :
    ∀ (s : Stmt), MatchAmong (Node.Stmt s :: Stmt.searchedBelow s) (s.findCase pos)
  | .BadStmt _ _ =>
    matchAmong_cons _ (matchAmong_error _ _)
  | .DeclStmt d =>
    matchAmong_cons _ (matchAmong_findDecl d)
  | .EmptyStmt _ =>
    matchAmong_cons _ (matchAmong_error _ _)
  | .LabeledStmt Label _ s =>
    matchAmong_cons _ (matchAmong_orElse (matchAmong_findIdent Label) (matchAmong_findStmt s))
  | .ExprStmt X =>
    matchAmong_cons _ (matchAmong_findExpr X)
  | .SendStmt Chan _ Value =>
    matchAmong_cons _ (matchAmong_orElse (matchAmong_findExpr Chan) (matchAmong_findExpr Value))
  | .IncDecStmt X _ _ =>
    matchAmong_cons _ (matchAmong_findExpr X)
  | .AssignStmt Lhs _ _ Rhs =>
    matchAmong_cons _ (matchAmong_orElse (matchAmong_findExprs Lhs) (matchAmong_findExprs Rhs))
  | .GoStmt _ Call =>
    matchAmong_cons _ (matchAmong_findCallExpr Call)
  | .DeferStmt _ Call =>
    matchAmong_cons _ (matchAmong_findCallExpr Call)
  | .ReturnStmt _ Results =>
    matchAmong_cons _ (matchAmong_findExprs Results)
  | .BranchStmt _ _ Label =>
    matchAmong_cons _ (matchAmong_findIdent Label)
  | .BlockStmt b => matchAmong_caseBlockStmt b
  | .IfStmt _ Init Cond Body Else =>
    matchAmong_cons _ (matchAmong_orElse (matchAmong_findStmt Init)
      (matchAmong_orElse (matchAmong_findExpr Cond)
        (matchAmong_orElse (matchAmong_findBlockStmt Body)
          (matchAmong_findStmt Else))))
  | .CaseClause _ Lst _ Body =>
    matchAmong_cons _ (matchAmong_orElse (matchAmong_findExprs Lst) (matchAmong_findStmts Body))
  | .SwitchStmt _ Init Tag Body =>
    matchAmong_cons _ (matchAmong_orElse (matchAmong_findStmt Init)
      (matchAmong_orElse (matchAmong_findExpr Tag) (matchAmong_findBlockStmt Body)))
  | .TypeSwitchStmt _ Init Assign Body =>
    matchAmong_cons _ (matchAmong_orElse (matchAmong_findStmt Init)
      (matchAmong_orElse (matchAmong_findStmt Assign)
        (matchAmong_findBlockStmt Body)))
  | .CommClause _ Comm _ Body =>
    matchAmong_cons _ (matchAmong_orElse (matchAmong_findStmt Comm) (matchAmong_findStmts Body))
  | .SelectStmt _ Body =>
    matchAmong_cons _ (matchAmong_findBlockStmt Body)
  | .ForStmt _ Init Cond Post Body =>
    matchAmong_cons _ (matchAmong_orElse (matchAmong_findStmt Init)
      (matchAmong_orElse (matchAmong_findExpr Cond)
        (matchAmong_orElse (matchAmong_findStmt Post)
          (matchAmong_findBlockStmt Body))))
  | .RangeStmt _ Key Value _ _ X Body =>
    matchAmong_cons _ (matchAmong_orElse (matchAmong_findExpr Key)
      (matchAmong_orElse (matchAmong_findExpr Value)
        (matchAmong_orElse (matchAmong_findExpr X)
          (matchAmong_findBlockStmt Body))))

theorem matchAmong_findStmts {pos : token.Pos} :
    ∀ (xs : List (Option Stmt)), MatchAmong (searchedStmts xs) (findNodeHelperStmts xs pos)
  | [] => matchAmong_ok_none _
  | s :: ss => matchAmong_orElse (matchAmong_findStmt s) (matchAmong_findStmts ss)

theorem matchAmong_findDecl {pos : token.Pos} :
    ∀ (x : Option Decl), MatchAmong (searchedDecl x) (findNodeHelperDecl x pos)
  | none => matchAmong_ok_none _
  | some d => matchAmong_guard _ _ (matchAmong_caseDecl d)

theorem matchAmong_caseDecl {pos : token.Pos} :
    ∀ (d : Decl), MatchAmong (Node.Decl d :: Decl.searchedBelow d) (d.findCase pos)
  | .BadDecl _ _ =>
    matchAmong_cons _ (matchAmong_error _ _)
  | .GenDecl _ _ _ _ _ _ =>
    matchAmong_cons _ (matchAmong_error _ _)
  | .FuncDecl _ Recv _ Typ Body =>
    matchAmong_cons _ (matchAmong_orElse (matchAmong_findFieldList Recv)
      (matchAmong_orElse (matchAmong_findFuncType Typ)
        (matchAmong_findBlockStmt Body)))

end

theorem matchAmong_findDecls {pos : token.Pos} (ds : List (Option Decl)) :
    MatchAmong (searchedDecls ds) (findNodeHelperDecls ds pos) := by
  induction ds with
  | nil => exact matchAmong_ok_none _
  | cons d ds ih => exact matchAmong_orElse (matchAmong_findDecl d) ih

theorem matchAmong_caseNode {pos : token.Pos} (n : Node) :
    MatchAmong (n :: n.searchedBelow) (n.findCase pos) := by
  match n with
  | .Comment _ => exact matchAmong_error _ _
  | .CommentGroup _ => exact matchAmong_error _ _
  | .Field f => exact matchAmong_caseField f
  | .FieldList l => exact matchAmong_caseFieldList l
  | .Expr e => exact matchAmong_caseExpr e
  | .Stmt s => exact matchAmong_caseStmt s
  | .Spec _ => exact matchAmong_error _ _
  | .Decl d => exact matchAmong_caseDecl d
  | .File f => exact matchAmong_cons _ (matchAmong_findDecls f.Decls)
  | .Package _ => exact matchAmong_error _ _

/-- C28: for every node and every position, a match returned by the search is
the node itself or one of its descendants through the child fields the type
switch searches; a nil node yields no match. -/
theorem findNodeHelper_match_in_subtree (n : Option Node) (pos : token.Pos) (r : Node)
    (h : findNodeHelper n pos = .ok (some r)) :
    r ∈ Node.searched n ∧
    ∃ m : Node, n = some m ∧ (r = m ∨ r ∈ m.searchedBelow) := by
  match n, h with
  | none, h => cases h
  | some m, h =>
    have hm : r ∈ m :: m.searchedBelow :=
      @matchAmong_guard _ pos m.Pos m.End _ (matchAmong_caseNode m) r h
    exact ⟨hm, m, rfl, List.mem_cons.mp hm⟩

/-- Witness of C28 on the call `x.y(z)`: the match at position 5, the
identifier `z`, is among the nodes reached from the call. -/
theorem findNodeHelper_match_in_subtree_witness :
    Node.Expr (.Ident idZ) ∈ Node.searched (some (.Expr callXYZ)) :=
  (findNodeHelper_match_in_subtree (some (.Expr callXYZ)) 5 (.Expr (.Ident idZ)) rfl).1

/-! ## The recursion of the search -/

theorem orElse_assoc (a b c : Result) : orElse (orElse a b) c = orElse a (orElse b c) := by
  match a with
  | .ok none => rfl
  | .ok (some x) => rfl
  | .error f => rfl

theorem callChain_nil (call : Option Node → Result) (base : Result) :
    callChain call [] base = base := rfl

theorem callChain_cons (call : Option Node → Result) (c : Option Node)
    (cs : List (Option Node)) (base : Result) :
    callChain call (c :: cs) base = orElse (call c) (callChain call cs base) := rfl

theorem callChain_append (call : Option Node → Result) (as bs : List (Option Node))
    (base : Result) :
    callChain call (as ++ bs) base = callChain call as (callChain call bs base) := by
  unfold callChain
  rw [List.foldr_append]

theorem findNodeHelper_nodeExpr (x : Option Expr) (pos : token.Pos) :
    findNodeHelper (Expr.node x) pos = findNodeHelperExpr x pos := by
  cases x <;> rfl

theorem nesting_nodeExpr (x : Option Expr) : Node.nesting (Expr.node x) = nestingExpr x := by
  cases x <;> rfl

theorem findNodeHelper_nodeIdent (x : Option Ident) (pos : token.Pos) :
    findNodeHelper (Ident.node x) pos = findNodeHelperIdent x pos := by
  cases x <;> rfl

theorem nesting_nodeIdent (x : Option Ident) : Node.nesting (Ident.node x) = nestingIdent x := by
  cases x <;> rfl

theorem findNodeHelper_nodeFuncType (x : Option FuncType) (pos : token.Pos) :
    findNodeHelper (FuncType.node x) pos = findNodeHelperFuncType x pos := by
  cases x <;> rfl

theorem nesting_nodeFuncType (x : Option FuncType) : Node.nesting (FuncType.node x) =
    nestingFuncType x := by
  cases x <;> rfl

theorem findNodeHelper_nodeCallExpr (x : Option CallExpr) (pos : token.Pos) :
    findNodeHelper (CallExpr.node x) pos = findNodeHelperCallExpr x pos := by
  cases x <;> rfl

theorem nesting_nodeCallExpr (x : Option CallExpr) : Node.nesting (CallExpr.node x) =
    nestingCallExpr x := by
  cases x <;> rfl

theorem findNodeHelper_nodeBlockStmt (x : Option BlockStmt) (pos : token.Pos) :
    findNodeHelper (BlockStmt.node x) pos = findNodeHelperBlockStmt x pos := by
  cases x <;> rfl

theorem nesting_nodeBlockStmt (x : Option BlockStmt) : Node.nesting (BlockStmt.node x) =
    nestingBlockStmt x := by
  cases x <;> rfl

theorem findNodeHelper_nodeFieldList (x : Option FieldList) (pos : token.Pos) :
    findNodeHelper (FieldList.node x) pos = findNodeHelperFieldList x pos := by
  cases x <;> rfl

theorem nesting_nodeFieldList (x : Option FieldList) : Node.nesting (FieldList.node x) =
    nestingFieldList x := by
  cases x <;> rfl

theorem findNodeHelper_nodeField (x : Option Field) (pos : token.Pos) :
    findNodeHelper (Field.node x) pos = findNodeHelperField x pos := by
  cases x <;> rfl

theorem nesting_nodeField (x : Option Field) : Node.nesting (Field.node x) = nestingField x := by
  cases x <;> rfl

theorem findNodeHelper_nodeStmt (x : Option Stmt) (pos : token.Pos) :
    findNodeHelper (Stmt.node x) pos = findNodeHelperStmt x pos := by
  cases x <;> rfl

theorem nesting_nodeStmt (x : Option Stmt) : Node.nesting (Stmt.node x) = nestingStmt x := by
  cases x <;> rfl

theorem findNodeHelper_nodeDecl (x : Option Decl) (pos : token.Pos) :
    findNodeHelper (Decl.node x) pos = findNodeHelperDecl x pos := by
  cases x <;> rfl

theorem nesting_nodeDecl (x : Option Decl) : Node.nesting (Decl.node x) = nestingDecl x := by
  cases x <;> rfl

theorem callChain_mapExpr (xs : List (Option Expr)) (pos : token.Pos) (base : Result) :
    callChain (fun c => findNodeHelper c pos) (xs.map Expr.node) base =
      orElse (findNodeHelperExprs xs pos) base := by
  induction xs with
  | nil => rfl
  | cons x xs ih =>
    rw [List.map_cons, callChain_cons, ih, findNodeHelper_nodeExpr, ← orElse_assoc]
    rfl

theorem nesting_memExpr (xs : List (Option Expr)) (x : Option Expr) (h : x ∈ xs) :
    nestingExpr x ≤ nestingExprs xs := by
  induction xs with
  | nil => cases h
  | cons y ys ih =>
    have h1 : nestingExprs (y :: ys) = max (nestingExpr y) (nestingExprs ys) := rfl
    rw [h1]
    rcases List.mem_cons.1 h with rfl | h
    · exact le_max_left _ _
    · exact le_trans (ih h) (le_max_right _ _)

theorem callChain_mapIdent (xs : List (Option Ident)) (pos : token.Pos) (base : Result) :
    callChain (fun c => findNodeHelper c pos) (xs.map Ident.node) base =
      orElse (findNodeHelperIdents xs pos) base := by
  induction xs with
  | nil => rfl
  | cons x xs ih =>
    rw [List.map_cons, callChain_cons, ih, findNodeHelper_nodeIdent, ← orElse_assoc]
    rfl

theorem nesting_memIdent (xs : List (Option Ident)) (x : Option Ident) (h : x ∈ xs) :
    nestingIdent x ≤ nestingIdents xs := by
  induction xs with
  | nil => cases h
  | cons y ys ih =>
    have h1 : nestingIdents (y :: ys) = max (nestingIdent y) (nestingIdents ys) := rfl
    rw [h1]
    rcases List.mem_cons.1 h with rfl | h
    · exact le_max_left _ _
    · exact le_trans (ih h) (le_max_right _ _)

theorem callChain_mapField (xs : List (Option Field)) (pos : token.Pos) (base : Result) :
    callChain (fun c => findNodeHelper c pos) (xs.map Field.node) base =
      orElse (findNodeHelperFields xs pos) base := by
  induction xs with
  | nil => rfl
  | cons x xs ih =>
    rw [List.map_cons, callChain_cons, ih, findNodeHelper_nodeField, ← orElse_assoc]
    rfl

theorem nesting_memField (xs : List (Option Field)) (x : Option Field) (h : x ∈ xs) :
    nestingField x ≤ nestingFields xs := by
  induction xs with
  | nil => cases h
  | cons y ys ih =>
    have h1 : nestingFields (y :: ys) = max (nestingField y) (nestingFields ys) := rfl
    rw [h1]
    rcases List.mem_cons.1 h with rfl | h
    · exact le_max_left _ _
    · exact le_trans (ih h) (le_max_right _ _)

theorem callChain_mapStmt (xs : List (Option Stmt)) (pos : token.Pos) (base : Result) :
    callChain (fun c => findNodeHelper c pos) (xs.map Stmt.node) base =
      orElse (findNodeHelperStmts xs pos) base := by
  induction xs with
  | nil => rfl
  | cons x xs ih =>
    rw [List.map_cons, callChain_cons, ih, findNodeHelper_nodeStmt, ← orElse_assoc]
    rfl

theorem nesting_memStmt (xs : List (Option Stmt)) (x : Option Stmt) (h : x ∈ xs) :
    nestingStmt x ≤ nestingStmts xs := by
  induction xs with
  | nil => cases h
  | cons y ys ih =>
    have h1 : nestingStmts (y :: ys) = max (nestingStmt y) (nestingStmts ys) := rfl
    rw [h1]
    rcases List.mem_cons.1 h with rfl | h
    · exact le_max_left _ _
    · exact le_trans (ih h) (le_max_right _ _)

theorem callChain_mapDecl (xs : List (Option Decl)) (pos : token.Pos) (base : Result) :
    callChain (fun c => findNodeHelper c pos) (xs.map Decl.node) base =
      orElse (findNodeHelperDecls xs pos) base := by
  induction xs with
  | nil => rfl
  | cons x xs ih =>
    rw [List.map_cons, callChain_cons, ih, findNodeHelper_nodeDecl, ← orElse_assoc]
    rfl

theorem nesting_memDecl (xs : List (Option Decl)) (x : Option Decl) (h : x ∈ xs) :
    nestingDecl x ≤ nestingDecls xs := by
  induction xs with
  | nil => cases h
  | cons y ys ih =>
    have h1 : nestingDecls (y :: ys) = max (nestingDecl y) (nestingDecls ys) := rfl
    rw [h1]
    rcases List.mem_cons.1 h with rfl | h
    · exact le_max_left _ _
    · exact le_trans (ih h) (le_max_right _ _)

set_option maxHeartbeats 4000000 in
/-- The case of a node is the chain of the calls on its call arguments, ending
in its base case. -/
theorem Node.findCase_eq_calls (n : Node) (pos : token.Pos) :
    n.findCase pos = callChain (fun c => findNodeHelper c pos) n.callArgs (n.baseCase pos) := by
  cases n with
  | Comment c => rfl
  | CommentGroup g => rfl
  | Spec x => rfl
  | Package p => rfl
  | File f =>
    show findNodeHelperDecls f.Decls pos = _
    simp only [Node.callArgs, Node.baseCase, callChain_cons, callChain_nil, callChain_append,
        callChain_mapExpr, callChain_mapIdent, callChain_mapField, callChain_mapStmt,
            callChain_mapDecl, findNodeHelper_nodeExpr, findNodeHelper_nodeIdent,
                findNodeHelper_nodeFuncType, findNodeHelper_nodeCallExpr,
                    findNodeHelper_nodeBlockStmt, findNodeHelper_nodeFieldList,
                        findNodeHelper_nodeField, findNodeHelper_nodeStmt,
                            findNodeHelper_nodeDecl, orElse_ok_none_right]
  | Field f =>
    cases f
    simp only [Node.findCase, Field.findCase, Node.callArgs, Node.baseCase, callChain_cons,
        callChain_nil, callChain_append, callChain_mapExpr, callChain_mapIdent,
            callChain_mapField, callChain_mapStmt, callChain_mapDecl, findNodeHelper_nodeExpr,
                findNodeHelper_nodeIdent, findNodeHelper_nodeFuncType,
                    findNodeHelper_nodeCallExpr, findNodeHelper_nodeBlockStmt,
                        findNodeHelper_nodeFieldList, findNodeHelper_nodeField,
                            findNodeHelper_nodeStmt, findNodeHelper_nodeDecl, orElse_ok_none_right]
  | FieldList l =>
    cases l
    simp only [Node.findCase, FieldList.findCase, Node.callArgs, Node.baseCase, callChain_cons,
        callChain_nil, callChain_append, callChain_mapExpr, callChain_mapIdent,
            callChain_mapField, callChain_mapStmt, callChain_mapDecl, findNodeHelper_nodeExpr,
                findNodeHelper_nodeIdent, findNodeHelper_nodeFuncType,
                    findNodeHelper_nodeCallExpr, findNodeHelper_nodeBlockStmt,
                        findNodeHelper_nodeFieldList, findNodeHelper_nodeField,
                            findNodeHelper_nodeStmt, findNodeHelper_nodeDecl, orElse_ok_none_right]
  | Decl d =>
    cases d <;>
      simp only [Node.findCase, Decl.findCase, Node.callArgs, Node.baseCase, callChain_cons,
          callChain_nil, callChain_append, callChain_mapExpr, callChain_mapIdent,
              callChain_mapField, callChain_mapStmt, callChain_mapDecl, findNodeHelper_nodeExpr,
                  findNodeHelper_nodeIdent, findNodeHelper_nodeFuncType,
                      findNodeHelper_nodeCallExpr, findNodeHelper_nodeBlockStmt,
                          findNodeHelper_nodeFieldList, findNodeHelper_nodeField,
                              findNodeHelper_nodeStmt, findNodeHelper_nodeDecl,
                                  orElse_ok_none_right]
  | Expr e =>
    cases e with
    | CallExpr c =>
      cases c
      simp only [Node.findCase, Expr.findCase, CallExpr.findCase, Node.callArgs,
        Expr.callArgs, Node.baseCase, callChain_cons, callChain_nil, callChain_append,
            callChain_mapExpr, callChain_mapIdent, callChain_mapField, callChain_mapStmt,
                callChain_mapDecl, findNodeHelper_nodeExpr, findNodeHelper_nodeIdent,
                    findNodeHelper_nodeFuncType, findNodeHelper_nodeCallExpr,
                        findNodeHelper_nodeBlockStmt, findNodeHelper_nodeFieldList,
                            findNodeHelper_nodeField, findNodeHelper_nodeStmt,
                                findNodeHelper_nodeDecl, orElse_ok_none_right]
    | FuncType t =>
      cases t
      simp only [Node.findCase, Expr.findCase, FuncType.findCase, Node.callArgs,
        Expr.callArgs, Node.baseCase, callChain_cons, callChain_nil, callChain_append,
            callChain_mapExpr, callChain_mapIdent, callChain_mapField, callChain_mapStmt,
                callChain_mapDecl, findNodeHelper_nodeExpr, findNodeHelper_nodeIdent,
                    findNodeHelper_nodeFuncType, findNodeHelper_nodeCallExpr,
                        findNodeHelper_nodeBlockStmt, findNodeHelper_nodeFieldList,
                            findNodeHelper_nodeField, findNodeHelper_nodeStmt,
                                findNodeHelper_nodeDecl, orElse_ok_none_right]
    | _ =>
      simp only [Node.findCase, Expr.findCase, Node.callArgs, Expr.callArgs, Node.baseCase,
        callChain_cons, callChain_nil, callChain_append, callChain_mapExpr, callChain_mapIdent,
            callChain_mapField, callChain_mapStmt, callChain_mapDecl, findNodeHelper_nodeExpr,
                findNodeHelper_nodeIdent, findNodeHelper_nodeFuncType,
                    findNodeHelper_nodeCallExpr, findNodeHelper_nodeBlockStmt,
                        findNodeHelper_nodeFieldList, findNodeHelper_nodeField,
                            findNodeHelper_nodeStmt, findNodeHelper_nodeDecl, orElse_ok_none_right]
  | Stmt x =>
    cases x with
    | BlockStmt b =>
      cases b
      simp only [Node.findCase, Stmt.findCase, BlockStmt.findCase, Node.callArgs,
        Stmt.callArgs, Node.baseCase, callChain_cons, callChain_nil, callChain_append,
            callChain_mapExpr, callChain_mapIdent, callChain_mapField, callChain_mapStmt,
                callChain_mapDecl, findNodeHelper_nodeExpr, findNodeHelper_nodeIdent,
                    findNodeHelper_nodeFuncType, findNodeHelper_nodeCallExpr,
                        findNodeHelper_nodeBlockStmt, findNodeHelper_nodeFieldList,
                            findNodeHelper_nodeField, findNodeHelper_nodeStmt,
                                findNodeHelper_nodeDecl, orElse_ok_none_right]
    | _ =>
      simp only [Node.findCase, Stmt.findCase, Node.callArgs, Stmt.callArgs, Node.baseCase,
        callChain_cons, callChain_nil, callChain_append, callChain_mapExpr, callChain_mapIdent,
            callChain_mapField, callChain_mapStmt, callChain_mapDecl, findNodeHelper_nodeExpr,
                findNodeHelper_nodeIdent, findNodeHelper_nodeFuncType,
                    findNodeHelper_nodeCallExpr, findNodeHelper_nodeBlockStmt,
                        findNodeHelper_nodeFieldList, findNodeHelper_nodeField,
                            findNodeHelper_nodeStmt, findNodeHelper_nodeDecl, orElse_ok_none_right]

theorem maxNesting_nil : maxNesting [] = 0 := rfl

theorem maxNesting_cons (c : Option Node) (cs : List (Option Node)) :
    maxNesting (c :: cs) = max (Node.nesting c) (maxNesting cs) := rfl

theorem maxNesting_append (as bs : List (Option Node)) :
    maxNesting (as ++ bs) = max (maxNesting as) (maxNesting bs) := by
  induction as with
  | nil => simp [maxNesting_nil]
  | cons a as ih => simp only [List.cons_append, maxNesting_cons, ih, max_assoc]

theorem nesting_le_maxNesting (cs : List (Option Node)) (c : Option Node) (h : c ∈ cs) :
    Node.nesting c ≤ maxNesting cs := by
  induction cs with
  | nil => cases h
  | cons y ys ih =>
    rw [maxNesting_cons]
    rcases List.mem_cons.1 h with rfl | h
    · exact le_max_left _ _
    · exact le_trans (ih h) (le_max_right _ _)

theorem maxNesting_mapExpr (xs : List (Option Expr)) :
    maxNesting (xs.map Expr.node) = nestingExprs xs := by
  induction xs with
  | nil => rfl
  | cons x xs ih =>
    rw [List.map_cons, maxNesting_cons, ih, nesting_nodeExpr]
    rfl

theorem maxNesting_mapIdent (xs : List (Option Ident)) :
    maxNesting (xs.map Ident.node) = nestingIdents xs := by
  induction xs with
  | nil => rfl
  | cons x xs ih =>
    rw [List.map_cons, maxNesting_cons, ih, nesting_nodeIdent]
    rfl

theorem maxNesting_mapField (xs : List (Option Field)) :
    maxNesting (xs.map Field.node) = nestingFields xs := by
  induction xs with
  | nil => rfl
  | cons x xs ih =>
    rw [List.map_cons, maxNesting_cons, ih, nesting_nodeField]
    rfl

theorem maxNesting_mapStmt (xs : List (Option Stmt)) :
    maxNesting (xs.map Stmt.node) = nestingStmts xs := by
  induction xs with
  | nil => rfl
  | cons x xs ih =>
    rw [List.map_cons, maxNesting_cons, ih, nesting_nodeStmt]
    rfl

theorem maxNesting_mapDecl (xs : List (Option Decl)) :
    maxNesting (xs.map Decl.node) = nestingDecls xs := by
  induction xs with
  | nil => rfl
  | cons x xs ih =>
    rw [List.map_cons, maxNesting_cons, ih, nesting_nodeDecl]
    rfl

set_option maxHeartbeats 4000000 in
/-- The nesting depth below a node is the greatest nesting depth of its call
arguments. -/
theorem Node.maxNesting_callArgs (n : Node) : maxNesting n.callArgs = n.nestingBelow := by
  cases n with
  | Comment x => rfl
  | CommentGroup g => rfl
  | Spec x => rfl
  | Package p => rfl
  | File f => exact maxNesting_mapDecl f.Decls
  | Field f =>
    cases f
    simp only [Node.callArgs, Node.nestingBelow, Field.nestingBelow, maxNesting_nil,
        maxNesting_cons, maxNesting_append, maxNesting_mapExpr, maxNesting_mapIdent,
            maxNesting_mapField, maxNesting_mapStmt, maxNesting_mapDecl, nesting_nodeExpr,
                nesting_nodeIdent, nesting_nodeFuncType, nesting_nodeCallExpr,
                    nesting_nodeBlockStmt, nesting_nodeFieldList, nesting_nodeField,
                        nesting_nodeStmt, nesting_nodeDecl, Nat.max_zero]
  | FieldList l =>
    cases l
    simp only [Node.callArgs, Node.nestingBelow, FieldList.nestingBelow, maxNesting_nil,
        maxNesting_cons, maxNesting_append, maxNesting_mapExpr, maxNesting_mapIdent,
            maxNesting_mapField, maxNesting_mapStmt, maxNesting_mapDecl, nesting_nodeExpr,
                nesting_nodeIdent, nesting_nodeFuncType, nesting_nodeCallExpr,
                    nesting_nodeBlockStmt, nesting_nodeFieldList, nesting_nodeField,
                        nesting_nodeStmt, nesting_nodeDecl, Nat.max_zero]
  | Decl d =>
    cases d <;> simp only [Node.callArgs, Node.nestingBelow, Decl.nestingBelow, maxNesting_nil,
        maxNesting_cons, maxNesting_append, maxNesting_mapExpr, maxNesting_mapIdent,
            maxNesting_mapField, maxNesting_mapStmt, maxNesting_mapDecl, nesting_nodeExpr,
                nesting_nodeIdent, nesting_nodeFuncType, nesting_nodeCallExpr,
                    nesting_nodeBlockStmt, nesting_nodeFieldList, nesting_nodeField,
                        nesting_nodeStmt, nesting_nodeDecl, Nat.max_zero]
  | Expr e =>
    cases e with
    | CallExpr c =>
      cases c
      simp only [Node.callArgs, Expr.callArgs, Node.nestingBelow, Expr.nestingBelow,
        CallExpr.nestingBelow, maxNesting_nil, maxNesting_cons, maxNesting_append,
            maxNesting_mapExpr, maxNesting_mapIdent, maxNesting_mapField, maxNesting_mapStmt,
                maxNesting_mapDecl, nesting_nodeExpr, nesting_nodeIdent, nesting_nodeFuncType,
                    nesting_nodeCallExpr, nesting_nodeBlockStmt, nesting_nodeFieldList,
                        nesting_nodeField, nesting_nodeStmt, nesting_nodeDecl, Nat.max_zero]
    | FuncType t =>
      cases t
      simp only [Node.callArgs, Expr.callArgs, Node.nestingBelow, Expr.nestingBelow,
        FuncType.nestingBelow, maxNesting_nil, maxNesting_cons, maxNesting_append,
            maxNesting_mapExpr, maxNesting_mapIdent, maxNesting_mapField, maxNesting_mapStmt,
                maxNesting_mapDecl, nesting_nodeExpr, nesting_nodeIdent, nesting_nodeFuncType,
                    nesting_nodeCallExpr, nesting_nodeBlockStmt, nesting_nodeFieldList,
                        nesting_nodeField, nesting_nodeStmt, nesting_nodeDecl, Nat.max_zero]
    | _ =>
      simp only [Node.callArgs, Expr.callArgs, Node.nestingBelow, Expr.nestingBelow,
          maxNesting_nil, maxNesting_cons, maxNesting_append, maxNesting_mapExpr,
              maxNesting_mapIdent, maxNesting_mapField, maxNesting_mapStmt, maxNesting_mapDecl,
                  nesting_nodeExpr, nesting_nodeIdent, nesting_nodeFuncType, nesting_nodeCallExpr,
                      nesting_nodeBlockStmt, nesting_nodeFieldList, nesting_nodeField,
                          nesting_nodeStmt, nesting_nodeDecl, Nat.max_zero]
  | Stmt x =>
    cases x with
    | BlockStmt b =>
      cases b
      simp only [Node.callArgs, Stmt.callArgs, Node.nestingBelow, Stmt.nestingBelow,
        BlockStmt.nestingBelow, maxNesting_nil, maxNesting_cons, maxNesting_append,
            maxNesting_mapExpr, maxNesting_mapIdent, maxNesting_mapField, maxNesting_mapStmt,
                maxNesting_mapDecl, nesting_nodeExpr, nesting_nodeIdent, nesting_nodeFuncType,
                    nesting_nodeCallExpr, nesting_nodeBlockStmt, nesting_nodeFieldList,
                        nesting_nodeField, nesting_nodeStmt, nesting_nodeDecl, Nat.max_zero]
    | _ =>
      simp only [Node.callArgs, Stmt.callArgs, Node.nestingBelow, Stmt.nestingBelow,
          maxNesting_nil, maxNesting_cons, maxNesting_append, maxNesting_mapExpr,
              maxNesting_mapIdent, maxNesting_mapField, maxNesting_mapStmt, maxNesting_mapDecl,
                  nesting_nodeExpr, nesting_nodeIdent, nesting_nodeFuncType, nesting_nodeCallExpr,
                      nesting_nodeBlockStmt, nesting_nodeFieldList, nesting_nodeField,
                          nesting_nodeStmt, nesting_nodeDecl, Nat.max_zero]

theorem chainFuel_eq (callF : Option Node → Option Result) (call : Option Node → Result)
    (args : List (Option Node)) (base : Result)
    (h : ∀ c ∈ args, callF c = some (call c)) :
    chainFuel callF args base = some (callChain call args base) := by
  induction args with
  | nil => rfl
  | cons c cs ih =>
    have hc := h c (List.mem_cons_self _ _)
    have ih2 := ih (fun d hd => h d (List.mem_cons_of_mem _ hd))
    rw [callChain_cons]
    unfold chainFuel
    rw [hc]
    match call c with
    | .ok none => exact ih2
    | .ok (some x) => rfl
    | .error f => rfl

theorem guardFuel_some (p e : Except Failure token.Pos) (pos : token.Pos) (body : Result) :
    guardFuel p e pos (some body) = some (spanGuard p e pos body) := by
  unfold guardFuel spanGuard
  match p with
  | .error f => rfl
  | .ok p =>
    by_cases h1 : p > pos
    · simp only [h1, if_true]
    · simp only [h1, if_false]
      match e with
      | .error f => rfl
      | .ok e =>
        by_cases h2 : e ≤ pos
        · simp only [h2, if_true]
        · simp only [h2, if_false]

theorem findNodeHelperFuel_enough (fuel : Nat) :
    ∀ (n : Option Node) (pos : token.Pos), Node.nesting n + 1 ≤ fuel →
      findNodeHelperFuel fuel n pos = some (findNodeHelper n pos) := by
  induction fuel with
  | zero =>
    intro n pos h
    omega
  | succ k ih =>
    intro n pos h
    match n, h with
    | none, _ => rfl
    | some m, h =>
      have hk : m.nestingBelow + 1 ≤ k := by
        have h1 : Node.nesting (some m) = m.nestingBelow + 1 := rfl
        omega
      have hargs : ∀ c ∈ m.callArgs,
          (fun c => findNodeHelperFuel k c pos) c = some ((fun c => findNodeHelper c pos) c) := by
        intro c hc
        have h2 := nesting_le_maxNesting m.callArgs c hc
        rw [Node.maxNesting_callArgs] at h2
        exact ih c pos (by omega)
      show guardFuel m.Pos m.End pos
          (chainFuel (fun c => findNodeHelperFuel k c pos) m.callArgs (m.baseCase pos)) =
        some (spanGuard m.Pos m.End pos (m.findCase pos))
      rw [chainFuel_eq _ _ m.callArgs (m.baseCase pos) hargs, guardFuel_some,
        Node.findCase_eq_calls]

/-! ## The calls are made on children -/

theorem Part.child_mem_req (x : Option Node) (c : Node) :
    c ∈ (Part.req x).filterMap Part.child ↔ some c = x := by
  cases x <;> simp [Part.req, Part.child, eq_comm]

theorem Part.child_mem_opt (x : Option Node) (c : Node) :
    c ∈ (Part.opt x).filterMap Part.child ↔ some c = x := by
  cases x <;> simp [Part.opt, Part.child, eq_comm]

theorem Part.child_mem_many (xs : List (Option Node)) (c : Node) :
    c ∈ (Part.many xs).filterMap Part.child ↔ some c ∈ xs := by
  induction xs with
  | nil => simp [Part.many]
  | cons x xs ih =>
    have h : Part.many (x :: xs) = Part.node x :: Part.many xs := rfl
    rw [h, List.filterMap_cons]
    cases x with
    | none =>
      simp only [Part.child, ih, List.mem_cons]
      constructor
      · exact Or.inr
      · rintro (h | h)
        · cases h
        · exact h
    | some d =>
      simp only [Part.child, List.mem_cons, ih, Option.some.injEq]

theorem Part.child_mem_tokIf (p : token.Pos) (c : Node) :
    c ∈ (Part.tokIf p).filterMap Part.child ↔ False := by
  unfold Part.tokIf
  by_cases h : p.IsValid = true <;> simp [h, Part.child]

theorem Part.child_mem_tok (p : token.Pos) (c : Node) :
    c ∈ [Part.tok p].filterMap Part.child ↔ False := by
  simp [Part.child]

theorem Part.child_mem_tok2 (p q : token.Pos) (c : Node) :
    c ∈ [Part.tok p, Part.tok q].filterMap Part.child ↔ False := by
  simp [Part.child]

set_option maxHeartbeats 4000000 in
/-- Every node on which the case of `n` calls `findNodeHelper` is a child of
`n` that the span of `n` is derived to cover. -/
theorem Node.callArgs_spanChildren (n c : Node) (hc : some c ∈ n.callArgs) :
    c ∈ n.spanChildren := by
  unfold Node.spanChildren
  rw [List.mem_append]
  cases n with
  | Comment x => cases hc
  | CommentGroup g => cases hc
  | Spec x => cases hc
  | Package p => cases hc
  | File f =>
    left
    simp only [Node.callArgs] at hc
    simp only [Node.layout, Expr.layout, CallExpr.layout, FuncType.layout, FieldList.layout,
        Field.layout, BlockStmt.layout, Stmt.layout, Decl.layout, List.filterMap_append,
            List.mem_append, Part.child_mem_req, Part.child_mem_opt, Part.child_mem_many,
                Part.child_mem_tokIf, Part.child_mem_tok, Part.child_mem_tok2, List.filterMap_nil,
                    List.not_mem_nil, or_false, false_or]
    exact Or.inr hc
  | Field f =>
    cases f with
    | mk Doc Names Typ Tag cmt =>
      left
      simp only [Node.callArgs, List.mem_append, List.mem_singleton] at hc
      simp only [Node.layout, Expr.layout, CallExpr.layout, FuncType.layout, FieldList.layout,
          Field.layout, BlockStmt.layout, Stmt.layout, Decl.layout, List.filterMap_append,
              List.mem_append, Part.child_mem_req, Part.child_mem_opt, Part.child_mem_many,
                  Part.child_mem_tokIf, Part.child_mem_tok, Part.child_mem_tok2,
                      List.filterMap_nil, List.not_mem_nil, or_false, false_or]
      rcases hc with h | h
      · exact Or.inl (Or.inl h)
      · exact Or.inl (Or.inr h)
  | FieldList l =>
    cases l with
    | mk Opening Lst Closing =>
      left
      simp only [Node.callArgs] at hc
      simp only [Node.layout, Expr.layout, CallExpr.layout, FuncType.layout, FieldList.layout,
          Field.layout, BlockStmt.layout, Stmt.layout, Decl.layout, List.filterMap_append,
              List.mem_append, Part.child_mem_req, Part.child_mem_opt, Part.child_mem_many,
                  Part.child_mem_tokIf, Part.child_mem_tok, Part.child_mem_tok2,
                      List.filterMap_nil, List.not_mem_nil, or_false, false_or]
      exact hc
  | Decl d =>
    cases d with
    | BadDecl From To => cases hc
    | GenDecl Doc TokPos Tok Lparen Specs Rparen => cases hc
    | FuncDecl Doc Recv Name Typ Body =>
      simp only [Node.callArgs, List.mem_cons, List.mem_singleton, List.not_mem_nil,
        or_false] at hc
      rcases Typ with _ | ⟨⟨Func, Params, Results⟩⟩
      · left
        simp only [Node.layout, Expr.layout, CallExpr.layout, FuncType.layout, FieldList.layout,
            Field.layout, BlockStmt.layout, Stmt.layout, Decl.layout, List.filterMap_append,
                List.mem_append, Part.child_mem_req, Part.child_mem_opt, Part.child_mem_many,
                    Part.child_mem_tokIf, Part.child_mem_tok, Part.child_mem_tok2,
                        List.filterMap_nil, List.not_mem_nil, or_false, false_or]
        rcases hc with h | h | h
        · exact Or.inl (Or.inl (Or.inl h))
        · cases h
        · exact Or.inr h
      · rcases hc with h | h | h
        · left
          simp only [Node.layout, Expr.layout, CallExpr.layout, FuncType.layout, FieldList.layout,
              Field.layout, BlockStmt.layout, Stmt.layout, Decl.layout, List.filterMap_append,
                  List.mem_append, Part.child_mem_req, Part.child_mem_opt, Part.child_mem_many,
                      Part.child_mem_tokIf, Part.child_mem_tok, Part.child_mem_tok2,
                          List.filterMap_nil, List.not_mem_nil, or_false, false_or]
          tauto
        · right
          cases h
          exact List.mem_singleton.2 rfl
        · left
          simp only [Node.layout, Expr.layout, CallExpr.layout, FuncType.layout, FieldList.layout,
              Field.layout, BlockStmt.layout, Stmt.layout, Decl.layout, List.filterMap_append,
                  List.mem_append, Part.child_mem_req, Part.child_mem_opt, Part.child_mem_many,
                      Part.child_mem_tokIf, Part.child_mem_tok, Part.child_mem_tok2,
                          List.filterMap_nil, List.not_mem_nil, or_false, false_or]
          tauto
  | Expr e =>
    left
    cases e with
    | CallExpr x =>
      cases x
      simp only [Node.callArgs, Expr.callArgs, List.mem_cons, List.mem_singleton,
        List.not_mem_nil, or_false] at hc <;>
      simp only [Node.layout, Expr.layout, CallExpr.layout, FuncType.layout, FieldList.layout,
          Field.layout, BlockStmt.layout, Stmt.layout, Decl.layout, List.filterMap_append,
              List.mem_append, Part.child_mem_req, Part.child_mem_opt, Part.child_mem_many,
                  Part.child_mem_tokIf, Part.child_mem_tok, Part.child_mem_tok2,
                      List.filterMap_nil, List.not_mem_nil, or_false, false_or] <;>
      tauto
    | FuncType t =>
      cases t
      simp only [Node.callArgs, Expr.callArgs, List.mem_cons, List.mem_singleton,
        List.not_mem_nil, or_false] at hc <;>
      simp only [Node.layout, Expr.layout, CallExpr.layout, FuncType.layout, FieldList.layout,
          Field.layout, BlockStmt.layout, Stmt.layout, Decl.layout, List.filterMap_append,
              List.mem_append, Part.child_mem_req, Part.child_mem_opt, Part.child_mem_many,
                  Part.child_mem_tokIf, Part.child_mem_tok, Part.child_mem_tok2,
                      List.filterMap_nil, List.not_mem_nil, or_false, false_or] <;>
      tauto
    | _ =>
      simp only [Node.callArgs, Expr.callArgs, List.mem_cons, List.mem_singleton,
        List.not_mem_nil, or_false] at hc <;>
      simp only [Node.layout, Expr.layout, CallExpr.layout, FuncType.layout, FieldList.layout,
          Field.layout, BlockStmt.layout, Stmt.layout, Decl.layout, List.filterMap_append,
              List.mem_append, Part.child_mem_req, Part.child_mem_opt, Part.child_mem_many,
                  Part.child_mem_tokIf, Part.child_mem_tok, Part.child_mem_tok2,
                      List.filterMap_nil, List.not_mem_nil, or_false, false_or] <;>
      tauto
  | Stmt x =>
    left
    cases x with
    | BlockStmt b =>
      cases b
      simp only [Node.callArgs, Stmt.callArgs, List.mem_cons, List.mem_singleton,
        List.not_mem_nil, or_false, List.mem_append] at hc <;>
      simp only [Node.layout, Expr.layout, CallExpr.layout, FuncType.layout, FieldList.layout,
          Field.layout, BlockStmt.layout, Stmt.layout, Decl.layout, List.filterMap_append,
              List.mem_append, Part.child_mem_req, Part.child_mem_opt, Part.child_mem_many,
                  Part.child_mem_tokIf, Part.child_mem_tok, Part.child_mem_tok2,
                      List.filterMap_nil, List.not_mem_nil, or_false, false_or] <;>
      tauto
    | _ =>
      simp only [Node.callArgs, Stmt.callArgs, List.mem_cons, List.mem_singleton,
        List.not_mem_nil, or_false, List.mem_append] at hc <;>
      simp only [Node.layout, Expr.layout, CallExpr.layout, FuncType.layout, FieldList.layout,
          Field.layout, BlockStmt.layout, Stmt.layout, Decl.layout, List.filterMap_append,
              List.mem_append, Part.child_mem_req, Part.child_mem_opt, Part.child_mem_many,
                  Part.child_mem_tokIf, Part.child_mem_tok, Part.child_mem_tok2,
                      List.filterMap_nil, List.not_mem_nil, or_false, false_or] <;>
      tauto

end GoDef

namespace GoDef

/-! ## Well-formed trees: the span of a node frames its layout

For every kind of node, `Pos` is the start of the first part of the layout and
`End` is at or after the end of the last part. -/

theorem Part.span_tok_iff (p : token.Pos) (s : Span) :
    Part.span (.tok p) = some s ↔ s.1 = p ∧ s.2 = p := by
  simp only [Part.span, Option.some.injEq]
  constructor
  · intro h
    rw [← h]
    exact ⟨rfl, rfl⟩
  · rintro ⟨h1, h2⟩
    exact Prod.ext h1.symm h2.symm

theorem Part.span_node_none (s : Span) : Part.span (.node none) = some s ↔ False := by
  simp [Part.span]

theorem Part.span_node_some (n : Node) (s : Span) :
    Part.span (.node (some n)) = some s ↔ n.Pos = .ok s.1 ∧ n.End = .ok s.2 := by
  simp only [Part.span]
  cases hp : n.Pos <;> cases he : n.End <;> simp
  rename_i p e
  constructor
  · intro h
    rw [← h]
    exact ⟨rfl, rfl⟩
  · rintro ⟨h1, h2⟩
    exact Prod.ext h1 h2

set_option linter.unusedTactic false in
set_option linter.unreachableTactic false in
set_option linter.unnecessarySeqFocus false in
set_option maxHeartbeats 4000000 in
theorem CallExpr_frame_head (x : CallExpr) (s : Span)
    (h : (x.layout.head?.bind Part.span) = some s) : CallExpr.Pos x = .ok s.1 := by
  cases x with
  | mk aFun aLparen aArgs aEllipsis aRparen =>
    cases aFun <;>
    (try (simp [Expr.layout, CallExpr.layout, FuncType.layout, Field.layout, BlockStmt.layout,
      Stmt.layout, Spec.layout, Decl.layout, Part.req, Part.opt, Part.many, Part.tokIf, Expr.node,
      Ident.node, BasicLit.node, FuncType.node, CallExpr.node, BlockStmt.node, FieldList.node,
      Field.node, Stmt.node, Decl.node, Spec.node, List.getLast?_cons] at h)) <;>
    (try (simp only [Part.span_tok_iff, Part.span_node_none, Part.span_node_some] at h)) <;>
    (try (simp [Expr.Pos, Expr.PosOf, Expr.End, Expr.EndOf, CallExpr.Pos, CallExpr.PosOf,
      CallExpr.End, CallExpr.EndOf, FuncType.Pos, FuncType.PosOf, FuncType.End, FuncType.EndOf,
      FieldList.PosOf, FieldList.EndOf, BlockStmt.Pos, BlockStmt.PosOf, BlockStmt.End,
      BlockStmt.EndOf, Stmt.Pos, Stmt.PosOf, Stmt.End, Stmt.EndOf, Decl.PosOf, Decl.EndOf,
      Spec.Pos, Spec.End, Decl.Pos, Decl.End, Ident.PosOf, Ident.EndOf, BasicLit.PosOf,
      BasicLit.EndOf, Ident.Pos, Ident.End, BasicLit.Pos, BasicLit.End, deref, Node.Pos,
      Node.End] at h)) <;>
    (try (simp [Expr.Pos, Expr.PosOf, Expr.End, Expr.EndOf, CallExpr.Pos, CallExpr.PosOf,
      CallExpr.End, CallExpr.EndOf, FuncType.Pos, FuncType.PosOf, FuncType.End, FuncType.EndOf,
      FieldList.PosOf, FieldList.EndOf, BlockStmt.Pos, BlockStmt.PosOf, BlockStmt.End,
      BlockStmt.EndOf, Stmt.Pos, Stmt.PosOf, Stmt.End, Stmt.EndOf, Decl.PosOf, Decl.EndOf,
      Spec.Pos, Spec.End, Decl.Pos, Decl.End, Ident.PosOf, Ident.EndOf, BasicLit.PosOf,
      BasicLit.EndOf, Ident.Pos, Ident.End, BasicLit.Pos, BasicLit.End, deref, h]))

set_option linter.unusedTactic false in
set_option linter.unreachableTactic false in
set_option linter.unnecessarySeqFocus false in
set_option maxHeartbeats 4000000 in
theorem CallExpr_frame_last (x : CallExpr) (hf : (Expr.CallExpr x).endFits = true) (s : Span)
    (h : (x.layout.getLast?.bind Part.span) = some s) :
    ∃ e, CallExpr.End x = .ok e ∧ s.2 ≤ e := by
  cases x with
  | mk aFun aLparen aArgs aEllipsis aRparen =>
    cases aFun <;>
    (try (simp only [Expr.endFits, Stmt.endFits, Node.endFits] at hf)) <;>
    (try (simp [Expr.layout, CallExpr.layout, FuncType.layout, Field.layout, BlockStmt.layout,
      Stmt.layout, Spec.layout, Decl.layout, Part.req, Part.opt, Part.many, Part.tokIf, Expr.node,
      Ident.node, BasicLit.node, FuncType.node, CallExpr.node, BlockStmt.node, FieldList.node,
      Field.node, Stmt.node, Decl.node, Spec.node, List.getLast?_cons] at h)) <;>
    (try (simp only [Part.span_tok_iff, Part.span_node_none, Part.span_node_some] at h)) <;>
    (try (simp [Expr.Pos, Expr.PosOf, Expr.End, Expr.EndOf, CallExpr.Pos, CallExpr.PosOf,
      CallExpr.End, CallExpr.EndOf, FuncType.Pos, FuncType.PosOf, FuncType.End, FuncType.EndOf,
      FieldList.PosOf, FieldList.EndOf, BlockStmt.Pos, BlockStmt.PosOf, BlockStmt.End,
      BlockStmt.EndOf, Stmt.Pos, Stmt.PosOf, Stmt.End, Stmt.EndOf, Decl.PosOf, Decl.EndOf,
      Spec.Pos, Spec.End, Decl.Pos, Decl.End, Ident.PosOf, Ident.EndOf, BasicLit.PosOf,
      BasicLit.EndOf, Ident.Pos, Ident.End, BasicLit.Pos, BasicLit.End, deref, Node.Pos,
      Node.End] at h)) <;>
    (try (simp [Expr.Pos, Expr.PosOf, Expr.End, Expr.EndOf, CallExpr.Pos, CallExpr.PosOf,
      CallExpr.End, CallExpr.EndOf, FuncType.Pos, FuncType.PosOf, FuncType.End, FuncType.EndOf,
      FieldList.PosOf, FieldList.EndOf, BlockStmt.Pos, BlockStmt.PosOf, BlockStmt.End,
      BlockStmt.EndOf, Stmt.Pos, Stmt.PosOf, Stmt.End, Stmt.EndOf, Decl.PosOf, Decl.EndOf,
      Spec.Pos, Spec.End, Decl.Pos, Decl.End, Ident.PosOf, Ident.EndOf, BasicLit.PosOf,
      BasicLit.EndOf, Ident.Pos, Ident.End, BasicLit.Pos, BasicLit.End, deref, h])) <;>
    (try (first
      | exact int.le_add_ofNat _ _ hf
      | exact int.le_add_natCast _ _ hf
      | exact le_of_eq_of_le h.2 (int.le_add_ofNat _ _ hf)
      | exact le_of_eq_of_le h.2 (int.le_add_natCast _ _ hf)
      | exact le_of_eq_of_le h (int.le_add_ofNat _ _ hf)
      | rw [← h.1, h.2]))

set_option linter.unusedTactic false in
set_option linter.unreachableTactic false in
set_option linter.unnecessarySeqFocus false in
set_option maxHeartbeats 4000000 in
theorem FuncType_frame_head (x : FuncType) (s : Span)
    (h : (x.layout.head?.bind Part.span) = some s) : FuncType.Pos x = .ok s.1 := by
  cases x with
  | mk aFunc aParams aResults =>
    cases aParams <;> cases aResults <;>
    (try (simp [Expr.layout, CallExpr.layout, FuncType.layout, Field.layout, BlockStmt.layout,
      Stmt.layout, Spec.layout, Decl.layout, Part.req, Part.opt, Part.many, Part.tokIf, Expr.node,
      Ident.node, BasicLit.node, FuncType.node, CallExpr.node, BlockStmt.node, FieldList.node,
      Field.node, Stmt.node, Decl.node, Spec.node, List.getLast?_cons] at h)) <;>
    (try (simp only [Part.span_tok_iff, Part.span_node_none, Part.span_node_some] at h)) <;>
    (try (simp [Expr.Pos, Expr.PosOf, Expr.End, Expr.EndOf, CallExpr.Pos, CallExpr.PosOf,
      CallExpr.End, CallExpr.EndOf, FuncType.Pos, FuncType.PosOf, FuncType.End, FuncType.EndOf,
      FieldList.PosOf, FieldList.EndOf, BlockStmt.Pos, BlockStmt.PosOf, BlockStmt.End,
      BlockStmt.EndOf, Stmt.Pos, Stmt.PosOf, Stmt.End, Stmt.EndOf, Decl.PosOf, Decl.EndOf,
      Spec.Pos, Spec.End, Decl.Pos, Decl.End, Ident.PosOf, Ident.EndOf, BasicLit.PosOf,
      BasicLit.EndOf, Ident.Pos, Ident.End, BasicLit.Pos, BasicLit.End, deref, Node.Pos,
      Node.End] at h)) <;>
    (try (simp [Expr.Pos, Expr.PosOf, Expr.End, Expr.EndOf, CallExpr.Pos, CallExpr.PosOf,
      CallExpr.End, CallExpr.EndOf, FuncType.Pos, FuncType.PosOf, FuncType.End, FuncType.EndOf,
      FieldList.PosOf, FieldList.EndOf, BlockStmt.Pos, BlockStmt.PosOf, BlockStmt.End,
      BlockStmt.EndOf, Stmt.Pos, Stmt.PosOf, Stmt.End, Stmt.EndOf, Decl.PosOf, Decl.EndOf,
      Spec.Pos, Spec.End, Decl.Pos, Decl.End, Ident.PosOf, Ident.EndOf, BasicLit.PosOf,
      BasicLit.EndOf, Ident.Pos, Ident.End, BasicLit.Pos, BasicLit.End, deref, h]))

set_option linter.unusedTactic false in
set_option linter.unreachableTactic false in
set_option linter.unnecessarySeqFocus false in
set_option maxHeartbeats 4000000 in
theorem FuncType_frame_last (x : FuncType) (s : Span)
    (h : (x.layout.getLast?.bind Part.span) = some s) :
    ∃ e, FuncType.End x = .ok e ∧ s.2 ≤ e := by
  cases x with
  | mk aFunc aParams aResults =>
    cases aParams <;> cases aResults <;>
    (try (simp [Expr.layout, CallExpr.layout, FuncType.layout, Field.layout, BlockStmt.layout,
      Stmt.layout, Spec.layout, Decl.layout, Part.req, Part.opt, Part.many, Part.tokIf, Expr.node,
      Ident.node, BasicLit.node, FuncType.node, CallExpr.node, BlockStmt.node, FieldList.node,
      Field.node, Stmt.node, Decl.node, Spec.node, List.getLast?_cons] at h)) <;>
    (try (simp only [Part.span_tok_iff, Part.span_node_none, Part.span_node_some] at h)) <;>
    (try (simp [Expr.Pos, Expr.PosOf, Expr.End, Expr.EndOf, CallExpr.Pos, CallExpr.PosOf,
      CallExpr.End, CallExpr.EndOf, FuncType.Pos, FuncType.PosOf, FuncType.End, FuncType.EndOf,
      FieldList.PosOf, FieldList.EndOf, BlockStmt.Pos, BlockStmt.PosOf, BlockStmt.End,
      BlockStmt.EndOf, Stmt.Pos, Stmt.PosOf, Stmt.End, Stmt.EndOf, Decl.PosOf, Decl.EndOf,
      Spec.Pos, Spec.End, Decl.Pos, Decl.End, Ident.PosOf, Ident.EndOf, BasicLit.PosOf,
      BasicLit.EndOf, Ident.Pos, Ident.End, BasicLit.Pos, BasicLit.End, deref, Node.Pos,
      Node.End] at h)) <;>
    (try (simp [Expr.Pos, Expr.PosOf, Expr.End, Expr.EndOf, CallExpr.Pos, CallExpr.PosOf,
      CallExpr.End, CallExpr.EndOf, FuncType.Pos, FuncType.PosOf, FuncType.End, FuncType.EndOf,
      FieldList.PosOf, FieldList.EndOf, BlockStmt.Pos, BlockStmt.PosOf, BlockStmt.End,
      BlockStmt.EndOf, Stmt.Pos, Stmt.PosOf, Stmt.End, Stmt.EndOf, Decl.PosOf, Decl.EndOf,
      Spec.Pos, Spec.End, Decl.Pos, Decl.End, Ident.PosOf, Ident.EndOf, BasicLit.PosOf,
      BasicLit.EndOf, Ident.Pos, Ident.End, BasicLit.Pos, BasicLit.End, deref, h]))

set_option linter.unusedTactic false in
set_option linter.unreachableTactic false in
set_option linter.unnecessarySeqFocus false in
set_option maxHeartbeats 4000000 in
theorem BlockStmt_frame_head (x : BlockStmt) (s : Span)
    (h : (x.layout.head?.bind Part.span) = some s) : BlockStmt.Pos x = .ok s.1 := by
  cases x with
  | mk aLbrace aLst aRbrace =>
    (try (simp [Expr.layout, CallExpr.layout, FuncType.layout, Field.layout, BlockStmt.layout,
      Stmt.layout, Spec.layout, Decl.layout, Part.req, Part.opt, Part.many, Part.tokIf, Expr.node,
      Ident.node, BasicLit.node, FuncType.node, CallExpr.node, BlockStmt.node, FieldList.node,
      Field.node, Stmt.node, Decl.node, Spec.node, List.getLast?_cons] at h)) <;>
    (try (simp only [Part.span_tok_iff, Part.span_node_none, Part.span_node_some] at h)) <;>
    (try (simp [Expr.Pos, Expr.PosOf, Expr.End, Expr.EndOf, CallExpr.Pos, CallExpr.PosOf,
      CallExpr.End, CallExpr.EndOf, FuncType.Pos, FuncType.PosOf, FuncType.End, FuncType.EndOf,
      FieldList.PosOf, FieldList.EndOf, BlockStmt.Pos, BlockStmt.PosOf, BlockStmt.End,
      BlockStmt.EndOf, Stmt.Pos, Stmt.PosOf, Stmt.End, Stmt.EndOf, Decl.PosOf, Decl.EndOf,
      Spec.Pos, Spec.End, Decl.Pos, Decl.End, Ident.PosOf, Ident.EndOf, BasicLit.PosOf,
      BasicLit.EndOf, Ident.Pos, Ident.End, BasicLit.Pos, BasicLit.End, deref, Node.Pos,
      Node.End] at h)) <;>
    (try (simp [Expr.Pos, Expr.PosOf, Expr.End, Expr.EndOf, CallExpr.Pos, CallExpr.PosOf,
      CallExpr.End, CallExpr.EndOf, FuncType.Pos, FuncType.PosOf, FuncType.End, FuncType.EndOf,
      FieldList.PosOf, FieldList.EndOf, BlockStmt.Pos, BlockStmt.PosOf, BlockStmt.End,
      BlockStmt.EndOf, Stmt.Pos, Stmt.PosOf, Stmt.End, Stmt.EndOf, Decl.PosOf, Decl.EndOf,
      Spec.Pos, Spec.End, Decl.Pos, Decl.End, Ident.PosOf, Ident.EndOf, BasicLit.PosOf,
      BasicLit.EndOf, Ident.Pos, Ident.End, BasicLit.Pos, BasicLit.End, deref, h]))

set_option linter.unusedTactic false in
set_option linter.unreachableTactic false in
set_option linter.unnecessarySeqFocus false in
set_option maxHeartbeats 4000000 in
theorem BlockStmt_frame_last (x : BlockStmt) (hf : (Stmt.BlockStmt x).endFits = true) (s : Span)
    (h : (x.layout.getLast?.bind Part.span) = some s) :
    ∃ e, BlockStmt.End x = .ok e ∧ s.2 ≤ e := by
  cases x with
  | mk aLbrace aLst aRbrace =>
    (try (simp only [Expr.endFits, Stmt.endFits, Node.endFits] at hf)) <;>
    (try (simp [Expr.layout, CallExpr.layout, FuncType.layout, Field.layout, BlockStmt.layout,
      Stmt.layout, Spec.layout, Decl.layout, Part.req, Part.opt, Part.many, Part.tokIf, Expr.node,
      Ident.node, BasicLit.node, FuncType.node, CallExpr.node, BlockStmt.node, FieldList.node,
      Field.node, Stmt.node, Decl.node, Spec.node, List.getLast?_cons] at h)) <;>
    (try (simp only [Part.span_tok_iff, Part.span_node_none, Part.span_node_some] at h)) <;>
    (try (simp [Expr.Pos, Expr.PosOf, Expr.End, Expr.EndOf, CallExpr.Pos, CallExpr.PosOf,
      CallExpr.End, CallExpr.EndOf, FuncType.Pos, FuncType.PosOf, FuncType.End, FuncType.EndOf,
      FieldList.PosOf, FieldList.EndOf, BlockStmt.Pos, BlockStmt.PosOf, BlockStmt.End,
      BlockStmt.EndOf, Stmt.Pos, Stmt.PosOf, Stmt.End, Stmt.EndOf, Decl.PosOf, Decl.EndOf,
      Spec.Pos, Spec.End, Decl.Pos, Decl.End, Ident.PosOf, Ident.EndOf, BasicLit.PosOf,
      BasicLit.EndOf, Ident.Pos, Ident.End, BasicLit.Pos, BasicLit.End, deref, Node.Pos,
      Node.End] at h)) <;>
    (try (simp [Expr.Pos, Expr.PosOf, Expr.End, Expr.EndOf, CallExpr.Pos, CallExpr.PosOf,
      CallExpr.End, CallExpr.EndOf, FuncType.Pos, FuncType.PosOf, FuncType.End, FuncType.EndOf,
      FieldList.PosOf, FieldList.EndOf, BlockStmt.Pos, BlockStmt.PosOf, BlockStmt.End,
      BlockStmt.EndOf, Stmt.Pos, Stmt.PosOf, Stmt.End, Stmt.EndOf, Decl.PosOf, Decl.EndOf,
      Spec.Pos, Spec.End, Decl.Pos, Decl.End, Ident.PosOf, Ident.EndOf, BasicLit.PosOf,
      BasicLit.EndOf, Ident.Pos, Ident.End, BasicLit.Pos, BasicLit.End, deref, h])) <;>
    (try (first
      | exact int.le_add_ofNat _ _ hf
      | exact int.le_add_natCast _ _ hf
      | exact le_of_eq_of_le h.2 (int.le_add_ofNat _ _ hf)
      | exact le_of_eq_of_le h.2 (int.le_add_natCast _ _ hf)
      | exact le_of_eq_of_le h (int.le_add_ofNat _ _ hf)
      | rw [← h.1, h.2]))

set_option linter.unusedTactic false in
set_option linter.unreachableTactic false in
set_option linter.unnecessarySeqFocus false in
set_option maxHeartbeats 4000000 in
theorem Expr_frame_head (x : Expr) (s : Span)
    (h : (x.layout.head?.bind Part.span) = some s) : Expr.Pos x = .ok s.1 := by
  cases x with
  | BadExpr aFrom aTo =>
    (try (simp [Expr.layout, CallExpr.layout, FuncType.layout, Field.layout, BlockStmt.layout,
      Stmt.layout, Spec.layout, Decl.layout, Part.req, Part.opt, Part.many, Part.tokIf, Expr.node,
      Ident.node, BasicLit.node, FuncType.node, CallExpr.node, BlockStmt.node, FieldList.node,
      Field.node, Stmt.node, Decl.node, Spec.node, List.getLast?_cons] at h)) <;>
    (try (simp only [Part.span_tok_iff, Part.span_node_none, Part.span_node_some] at h)) <;>
    (try (simp [Expr.Pos, Expr.PosOf, Expr.End, Expr.EndOf, CallExpr.PosOf, CallExpr.EndOf,
      FuncType.PosOf, FuncType.EndOf, FieldList.PosOf, FieldList.EndOf, BlockStmt.PosOf,
      BlockStmt.EndOf, Stmt.Pos, Stmt.PosOf, Stmt.End, Stmt.EndOf, Decl.PosOf, Decl.EndOf,
      Spec.Pos, Spec.End, Decl.Pos, Decl.End, Ident.PosOf, Ident.EndOf, BasicLit.PosOf,
      BasicLit.EndOf, Ident.Pos, Ident.End, BasicLit.Pos, BasicLit.End, deref, Node.Pos,
      Node.End] at h)) <;>
    (try (simp [Expr.Pos, Expr.PosOf, Expr.End, Expr.EndOf, CallExpr.PosOf, CallExpr.EndOf,
      FuncType.PosOf, FuncType.EndOf, FieldList.PosOf, FieldList.EndOf, BlockStmt.PosOf,
      BlockStmt.EndOf, Stmt.Pos, Stmt.PosOf, Stmt.End, Stmt.EndOf, Decl.PosOf, Decl.EndOf,
      Spec.Pos, Spec.End, Decl.Pos, Decl.End, Ident.PosOf, Ident.EndOf, BasicLit.PosOf,
      BasicLit.EndOf, Ident.Pos, Ident.End, BasicLit.Pos, BasicLit.End, deref, h]))
  | Ident aid =>
    (try (simp [Expr.layout, CallExpr.layout, FuncType.layout, Field.layout, BlockStmt.layout,
      Stmt.layout, Spec.layout, Decl.layout, Part.req, Part.opt, Part.many, Part.tokIf, Expr.node,
      Ident.node, BasicLit.node, FuncType.node, CallExpr.node, BlockStmt.node, FieldList.node,
      Field.node, Stmt.node, Decl.node, Spec.node, List.getLast?_cons] at h)) <;>
    (try (simp only [Part.span_tok_iff, Part.span_node_none, Part.span_node_some] at h)) <;>
    (try (simp [Expr.Pos, Expr.PosOf, Expr.End, Expr.EndOf, CallExpr.PosOf, CallExpr.EndOf,
      FuncType.PosOf, FuncType.EndOf, FieldList.PosOf, FieldList.EndOf, BlockStmt.PosOf,
      BlockStmt.EndOf, Stmt.Pos, Stmt.PosOf, Stmt.End, Stmt.EndOf, Decl.PosOf, Decl.EndOf,
      Spec.Pos, Spec.End, Decl.Pos, Decl.End, Ident.PosOf, Ident.EndOf, BasicLit.PosOf,
      BasicLit.EndOf, Ident.Pos, Ident.End, BasicLit.Pos, BasicLit.End, deref, Node.Pos,
      Node.End] at h)) <;>
    (try (simp [Expr.Pos, Expr.PosOf, Expr.End, Expr.EndOf, CallExpr.PosOf, CallExpr.EndOf,
      FuncType.PosOf, FuncType.EndOf, FieldList.PosOf, FieldList.EndOf, BlockStmt.PosOf,
      BlockStmt.EndOf, Stmt.Pos, Stmt.PosOf, Stmt.End, Stmt.EndOf, Decl.PosOf, Decl.EndOf,
      Spec.Pos, Spec.End, Decl.Pos, Decl.End, Ident.PosOf, Ident.EndOf, BasicLit.PosOf,
      BasicLit.EndOf, Ident.Pos, Ident.End, BasicLit.Pos, BasicLit.End, deref, h]))
  | Ellipsis aEllipsis aElt =>
    cases aElt <;>
    (try (simp [Expr.layout, CallExpr.layout, FuncType.layout, Field.layout, BlockStmt.layout,
      Stmt.layout, Spec.layout, Decl.layout, Part.req, Part.opt, Part.many, Part.tokIf, Expr.node,
      Ident.node, BasicLit.node, FuncType.node, CallExpr.node, BlockStmt.node, FieldList.node,
      Field.node, Stmt.node, Decl.node, Spec.node, List.getLast?_cons] at h)) <;>
    (try (simp only [Part.span_tok_iff, Part.span_node_none, Part.span_node_some] at h)) <;>
    (try (simp [Expr.Pos, Expr.PosOf, Expr.End, Expr.EndOf, CallExpr.PosOf, CallExpr.EndOf,
      FuncType.PosOf, FuncType.EndOf, FieldList.PosOf, FieldList.EndOf, BlockStmt.PosOf,
      BlockStmt.EndOf, Stmt.Pos, Stmt.PosOf, Stmt.End, Stmt.EndOf, Decl.PosOf, Decl.EndOf,
      Spec.Pos, Spec.End, Decl.Pos, Decl.End, Ident.PosOf, Ident.EndOf, BasicLit.PosOf,
      BasicLit.EndOf, Ident.Pos, Ident.End, BasicLit.Pos, BasicLit.End, deref, Node.Pos,
      Node.End] at h)) <;>
    (try (simp [Expr.Pos, Expr.PosOf, Expr.End, Expr.EndOf, CallExpr.PosOf, CallExpr.EndOf,
      FuncType.PosOf, FuncType.EndOf, FieldList.PosOf, FieldList.EndOf, BlockStmt.PosOf,
      BlockStmt.EndOf, Stmt.Pos, Stmt.PosOf, Stmt.End, Stmt.EndOf, Decl.PosOf, Decl.EndOf,
      Spec.Pos, Spec.End, Decl.Pos, Decl.End, Ident.PosOf, Ident.EndOf, BasicLit.PosOf,
      BasicLit.EndOf, Ident.Pos, Ident.End, BasicLit.Pos, BasicLit.End, deref, h]))
  | BasicLit alit =>
    (try (simp [Expr.layout, CallExpr.layout, FuncType.layout, Field.layout, BlockStmt.layout,
      Stmt.layout, Spec.layout, Decl.layout, Part.req, Part.opt, Part.many, Part.tokIf, Expr.node,
      Ident.node, BasicLit.node, FuncType.node, CallExpr.node, BlockStmt.node, FieldList.node,
      Field.node, Stmt.node, Decl.node, Spec.node, List.getLast?_cons] at h)) <;>
    (try (simp only [Part.span_tok_iff, Part.span_node_none, Part.span_node_some] at h)) <;>
    (try (simp [Expr.Pos, Expr.PosOf, Expr.End, Expr.EndOf, CallExpr.PosOf, CallExpr.EndOf,
      FuncType.PosOf, FuncType.EndOf, FieldList.PosOf, FieldList.EndOf, BlockStmt.PosOf,
      BlockStmt.EndOf, Stmt.Pos, Stmt.PosOf, Stmt.End, Stmt.EndOf, Decl.PosOf, Decl.EndOf,
      Spec.Pos, Spec.End, Decl.Pos, Decl.End, Ident.PosOf, Ident.EndOf, BasicLit.PosOf,
      BasicLit.EndOf, Ident.Pos, Ident.End, BasicLit.Pos, BasicLit.End, deref, Node.Pos,
      Node.End] at h)) <;>
    (try (simp [Expr.Pos, Expr.PosOf, Expr.End, Expr.EndOf, CallExpr.PosOf, CallExpr.EndOf,
      FuncType.PosOf, FuncType.EndOf, FieldList.PosOf, FieldList.EndOf, BlockStmt.PosOf,
      BlockStmt.EndOf, Stmt.Pos, Stmt.PosOf, Stmt.End, Stmt.EndOf, Decl.PosOf, Decl.EndOf,
      Spec.Pos, Spec.End, Decl.Pos, Decl.End, Ident.PosOf, Ident.EndOf, BasicLit.PosOf,
      BasicLit.EndOf, Ident.Pos, Ident.End, BasicLit.Pos, BasicLit.End, deref, h]))
  | FuncLit aTyp aBody =>
    cases aTyp <;> cases aBody <;>
    (try (simp [Expr.layout, CallExpr.layout, FuncType.layout, Field.layout, BlockStmt.layout,
      Stmt.layout, Spec.layout, Decl.layout, Part.req, Part.opt, Part.many, Part.tokIf, Expr.node,
      Ident.node, BasicLit.node, FuncType.node, CallExpr.node, BlockStmt.node, FieldList.node,
      Field.node, Stmt.node, Decl.node, Spec.node, List.getLast?_cons] at h)) <;>
    (try (simp only [Part.span_tok_iff, Part.span_node_none, Part.span_node_some] at h)) <;>
    (try (simp [Expr.Pos, Expr.PosOf, Expr.End, Expr.EndOf, CallExpr.PosOf, CallExpr.EndOf,
      FuncType.PosOf, FuncType.EndOf, FieldList.PosOf, FieldList.EndOf, BlockStmt.PosOf,
      BlockStmt.EndOf, Stmt.Pos, Stmt.PosOf, Stmt.End, Stmt.EndOf, Decl.PosOf, Decl.EndOf,
      Spec.Pos, Spec.End, Decl.Pos, Decl.End, Ident.PosOf, Ident.EndOf, BasicLit.PosOf,
      BasicLit.EndOf, Ident.Pos, Ident.End, BasicLit.Pos, BasicLit.End, deref, Node.Pos,
      Node.End] at h)) <;>
    (try (simp [Expr.Pos, Expr.PosOf, Expr.End, Expr.EndOf, CallExpr.PosOf, CallExpr.EndOf,
      FuncType.PosOf, FuncType.EndOf, FieldList.PosOf, FieldList.EndOf, BlockStmt.PosOf,
      BlockStmt.EndOf, Stmt.Pos, Stmt.PosOf, Stmt.End, Stmt.EndOf, Decl.PosOf, Decl.EndOf,
      Spec.Pos, Spec.End, Decl.Pos, Decl.End, Ident.PosOf, Ident.EndOf, BasicLit.PosOf,
      BasicLit.EndOf, Ident.Pos, Ident.End, BasicLit.Pos, BasicLit.End, deref, h]))
  | CompositeLit aTyp aLbrace aElts aRbrace =>
    cases aTyp <;>
    (try (simp [Expr.layout, CallExpr.layout, FuncType.layout, Field.layout, BlockStmt.layout,
      Stmt.layout, Spec.layout, Decl.layout, Part.req, Part.opt, Part.many, Part.tokIf, Expr.node,
      Ident.node, BasicLit.node, FuncType.node, CallExpr.node, BlockStmt.node, FieldList.node,
      Field.node, Stmt.node, Decl.node, Spec.node, List.getLast?_cons] at h)) <;>
    (try (simp only [Part.span_tok_iff, Part.span_node_none, Part.span_node_some] at h)) <;>
    (try (simp [Expr.Pos, Expr.PosOf, Expr.End, Expr.EndOf, CallExpr.PosOf, CallExpr.EndOf,
      FuncType.PosOf, FuncType.EndOf, FieldList.PosOf, FieldList.EndOf, BlockStmt.PosOf,
      BlockStmt.EndOf, Stmt.Pos, Stmt.PosOf, Stmt.End, Stmt.EndOf, Decl.PosOf, Decl.EndOf,
      Spec.Pos, Spec.End, Decl.Pos, Decl.End, Ident.PosOf, Ident.EndOf, BasicLit.PosOf,
      BasicLit.EndOf, Ident.Pos, Ident.End, BasicLit.Pos, BasicLit.End, deref, Node.Pos,
      Node.End] at h)) <;>
    (try (simp [Expr.Pos, Expr.PosOf, Expr.End, Expr.EndOf, CallExpr.PosOf, CallExpr.EndOf,
      FuncType.PosOf, FuncType.EndOf, FieldList.PosOf, FieldList.EndOf, BlockStmt.PosOf,
      BlockStmt.EndOf, Stmt.Pos, Stmt.PosOf, Stmt.End, Stmt.EndOf, Decl.PosOf, Decl.EndOf,
      Spec.Pos, Spec.End, Decl.Pos, Decl.End, Ident.PosOf, Ident.EndOf, BasicLit.PosOf,
      BasicLit.EndOf, Ident.Pos, Ident.End, BasicLit.Pos, BasicLit.End, deref, h]))
  | ParenExpr aLparen aX aRparen =>
    cases aX <;>
    (try (simp [Expr.layout, CallExpr.layout, FuncType.layout, Field.layout, BlockStmt.layout,
      Stmt.layout, Spec.layout, Decl.layout, Part.req, Part.opt, Part.many, Part.tokIf, Expr.node,
      Ident.node, BasicLit.node, FuncType.node, CallExpr.node, BlockStmt.node, FieldList.node,
      Field.node, Stmt.node, Decl.node, Spec.node, List.getLast?_cons] at h)) <;>
    (try (simp only [Part.span_tok_iff, Part.span_node_none, Part.span_node_some] at h)) <;>
    (try (simp [Expr.Pos, Expr.PosOf, Expr.End, Expr.EndOf, CallExpr.PosOf, CallExpr.EndOf,
      FuncType.PosOf, FuncType.EndOf, FieldList.PosOf, FieldList.EndOf, BlockStmt.PosOf,
      BlockStmt.EndOf, Stmt.Pos, Stmt.PosOf, Stmt.End, Stmt.EndOf, Decl.PosOf, Decl.EndOf,
      Spec.Pos, Spec.End, Decl.Pos, Decl.End, Ident.PosOf, Ident.EndOf, BasicLit.PosOf,
      BasicLit.EndOf, Ident.Pos, Ident.End, BasicLit.Pos, BasicLit.End, deref, Node.Pos,
      Node.End] at h)) <;>
    (try (simp [Expr.Pos, Expr.PosOf, Expr.End, Expr.EndOf, CallExpr.PosOf, CallExpr.EndOf,
      FuncType.PosOf, FuncType.EndOf, FieldList.PosOf, FieldList.EndOf, BlockStmt.PosOf,
      BlockStmt.EndOf, Stmt.Pos, Stmt.PosOf, Stmt.End, Stmt.EndOf, Decl.PosOf, Decl.EndOf,
      Spec.Pos, Spec.End, Decl.Pos, Decl.End, Ident.PosOf, Ident.EndOf, BasicLit.PosOf,
      BasicLit.EndOf, Ident.Pos, Ident.End, BasicLit.Pos, BasicLit.End, deref, h]))
  | SelectorExpr aX aSel =>
    cases aX <;> cases aSel <;>
    (try (simp [Expr.layout, CallExpr.layout, FuncType.layout, Field.layout, BlockStmt.layout,
      Stmt.layout, Spec.layout, Decl.layout, Part.req, Part.opt, Part.many, Part.tokIf, Expr.node,
      Ident.node, BasicLit.node, FuncType.node, CallExpr.node, BlockStmt.node, FieldList.node,
      Field.node, Stmt.node, Decl.node, Spec.node, List.getLast?_cons] at h)) <;>
    (try (simp only [Part.span_tok_iff, Part.span_node_none, Part.span_node_some] at h)) <;>
    (try (simp [Expr.Pos, Expr.PosOf, Expr.End, Expr.EndOf, CallExpr.PosOf, CallExpr.EndOf,
      FuncType.PosOf, FuncType.EndOf, FieldList.PosOf, FieldList.EndOf, BlockStmt.PosOf,
      BlockStmt.EndOf, Stmt.Pos, Stmt.PosOf, Stmt.End, Stmt.EndOf, Decl.PosOf, Decl.EndOf,
      Spec.Pos, Spec.End, Decl.Pos, Decl.End, Ident.PosOf, Ident.EndOf, BasicLit.PosOf,
      BasicLit.EndOf, Ident.Pos, Ident.End, BasicLit.Pos, BasicLit.End, deref, Node.Pos,
      Node.End] at h)) <;>
    (try (simp [Expr.Pos, Expr.PosOf, Expr.End, Expr.EndOf, CallExpr.PosOf, CallExpr.EndOf,
      FuncType.PosOf, FuncType.EndOf, FieldList.PosOf, FieldList.EndOf, BlockStmt.PosOf,
      BlockStmt.EndOf, Stmt.Pos, Stmt.PosOf, Stmt.End, Stmt.EndOf, Decl.PosOf, Decl.EndOf,
      Spec.Pos, Spec.End, Decl.Pos, Decl.End, Ident.PosOf, Ident.EndOf, BasicLit.PosOf,
      BasicLit.EndOf, Ident.Pos, Ident.End, BasicLit.Pos, BasicLit.End, deref, h]))
  | IndexExpr aX aLbrack aIndex aRbrack =>
    cases aX <;> cases aIndex <;>
    (try (simp [Expr.layout, CallExpr.layout, FuncType.layout, Field.layout, BlockStmt.layout,
      Stmt.layout, Spec.layout, Decl.layout, Part.req, Part.opt, Part.many, Part.tokIf, Expr.node,
      Ident.node, BasicLit.node, FuncType.node, CallExpr.node, BlockStmt.node, FieldList.node,
      Field.node, Stmt.node, Decl.node, Spec.node, List.getLast?_cons] at h)) <;>
    (try (simp only [Part.span_tok_iff, Part.span_node_none, Part.span_node_some] at h)) <;>
    (try (simp [Expr.Pos, Expr.PosOf, Expr.End, Expr.EndOf, CallExpr.PosOf, CallExpr.EndOf,
      FuncType.PosOf, FuncType.EndOf, FieldList.PosOf, FieldList.EndOf, BlockStmt.PosOf,
      BlockStmt.EndOf, Stmt.Pos, Stmt.PosOf, Stmt.End, Stmt.EndOf, Decl.PosOf, Decl.EndOf,
      Spec.Pos, Spec.End, Decl.Pos, Decl.End, Ident.PosOf, Ident.EndOf, BasicLit.PosOf,
      BasicLit.EndOf, Ident.Pos, Ident.End, BasicLit.Pos, BasicLit.End, deref, Node.Pos,
      Node.End] at h)) <;>
    (try (simp [Expr.Pos, Expr.PosOf, Expr.End, Expr.EndOf, CallExpr.PosOf, CallExpr.EndOf,
      FuncType.PosOf, FuncType.EndOf, FieldList.PosOf, FieldList.EndOf, BlockStmt.PosOf,
      BlockStmt.EndOf, Stmt.Pos, Stmt.PosOf, Stmt.End, Stmt.EndOf, Decl.PosOf, Decl.EndOf,
      Spec.Pos, Spec.End, Decl.Pos, Decl.End, Ident.PosOf, Ident.EndOf, BasicLit.PosOf,
      BasicLit.EndOf, Ident.Pos, Ident.End, BasicLit.Pos, BasicLit.End, deref, h]))
  | SliceExpr aX aLbrack aLow aHigh aMax aSlice3 aRbrack =>
    cases aX <;> cases aLow <;> cases aHigh <;> cases aMax <;>
    (try (simp [Expr.layout, CallExpr.layout, FuncType.layout, Field.layout, BlockStmt.layout,
      Stmt.layout, Spec.layout, Decl.layout, Part.req, Part.opt, Part.many, Part.tokIf, Expr.node,
      Ident.node, BasicLit.node, FuncType.node, CallExpr.node, BlockStmt.node, FieldList.node,
      Field.node, Stmt.node, Decl.node, Spec.node, List.getLast?_cons] at h)) <;>
    (try (simp only [Part.span_tok_iff, Part.span_node_none, Part.span_node_some] at h)) <;>
    (try (simp [Expr.Pos, Expr.PosOf, Expr.End, Expr.EndOf, CallExpr.PosOf, CallExpr.EndOf,
      FuncType.PosOf, FuncType.EndOf, FieldList.PosOf, FieldList.EndOf, BlockStmt.PosOf,
      BlockStmt.EndOf, Stmt.Pos, Stmt.PosOf, Stmt.End, Stmt.EndOf, Decl.PosOf, Decl.EndOf,
      Spec.Pos, Spec.End, Decl.Pos, Decl.End, Ident.PosOf, Ident.EndOf, BasicLit.PosOf,
      BasicLit.EndOf, Ident.Pos, Ident.End, BasicLit.Pos, BasicLit.End, deref, Node.Pos,
      Node.End] at h)) <;>
    (try (simp [Expr.Pos, Expr.PosOf, Expr.End, Expr.EndOf, CallExpr.PosOf, CallExpr.EndOf,
      FuncType.PosOf, FuncType.EndOf, FieldList.PosOf, FieldList.EndOf, BlockStmt.PosOf,
      BlockStmt.EndOf, Stmt.Pos, Stmt.PosOf, Stmt.End, Stmt.EndOf, Decl.PosOf, Decl.EndOf,
      Spec.Pos, Spec.End, Decl.Pos, Decl.End, Ident.PosOf, Ident.EndOf, BasicLit.PosOf,
      BasicLit.EndOf, Ident.Pos, Ident.End, BasicLit.Pos, BasicLit.End, deref, h]))
  | TypeAssertExpr aX aTyp =>
    cases aX <;> cases aTyp <;>
    (try (simp [Expr.layout, CallExpr.layout, FuncType.layout, Field.layout, BlockStmt.layout,
      Stmt.layout, Spec.layout, Decl.layout, Part.req, Part.opt, Part.many, Part.tokIf, Expr.node,
      Ident.node, BasicLit.node, FuncType.node, CallExpr.node, BlockStmt.node, FieldList.node,
      Field.node, Stmt.node, Decl.node, Spec.node, List.getLast?_cons] at h)) <;>
    (try (simp only [Part.span_tok_iff, Part.span_node_none, Part.span_node_some] at h)) <;>
    (try (simp [Expr.Pos, Expr.PosOf, Expr.End, Expr.EndOf, CallExpr.PosOf, CallExpr.EndOf,
      FuncType.PosOf, FuncType.EndOf, FieldList.PosOf, FieldList.EndOf, BlockStmt.PosOf,
      BlockStmt.EndOf, Stmt.Pos, Stmt.PosOf, Stmt.End, Stmt.EndOf, Decl.PosOf, Decl.EndOf,
      Spec.Pos, Spec.End, Decl.Pos, Decl.End, Ident.PosOf, Ident.EndOf, BasicLit.PosOf,
      BasicLit.EndOf, Ident.Pos, Ident.End, BasicLit.Pos, BasicLit.End, deref, Node.Pos,
      Node.End] at h)) <;>
    (try (simp [Expr.Pos, Expr.PosOf, Expr.End, Expr.EndOf, CallExpr.PosOf, CallExpr.EndOf,
      FuncType.PosOf, FuncType.EndOf, FieldList.PosOf, FieldList.EndOf, BlockStmt.PosOf,
      BlockStmt.EndOf, Stmt.Pos, Stmt.PosOf, Stmt.End, Stmt.EndOf, Decl.PosOf, Decl.EndOf,
      Spec.Pos, Spec.End, Decl.Pos, Decl.End, Ident.PosOf, Ident.EndOf, BasicLit.PosOf,
      BasicLit.EndOf, Ident.Pos, Ident.End, BasicLit.Pos, BasicLit.End, deref, h]))
  | CallExpr acall =>
    exact CallExpr_frame_head acall s h
  | StarExpr aStar aX =>
    cases aX <;>
    (try (simp [Expr.layout, CallExpr.layout, FuncType.layout, Field.layout, BlockStmt.layout,
      Stmt.layout, Spec.layout, Decl.layout, Part.req, Part.opt, Part.many, Part.tokIf, Expr.node,
      Ident.node, BasicLit.node, FuncType.node, CallExpr.node, BlockStmt.node, FieldList.node,
      Field.node, Stmt.node, Decl.node, Spec.node, List.getLast?_cons] at h)) <;>
    (try (simp only [Part.span_tok_iff, Part.span_node_none, Part.span_node_some] at h)) <;>
    (try (simp [Expr.Pos, Expr.PosOf, Expr.End, Expr.EndOf, CallExpr.PosOf, CallExpr.EndOf,
      FuncType.PosOf, FuncType.EndOf, FieldList.PosOf, FieldList.EndOf, BlockStmt.PosOf,
      BlockStmt.EndOf, Stmt.Pos, Stmt.PosOf, Stmt.End, Stmt.EndOf, Decl.PosOf, Decl.EndOf,
      Spec.Pos, Spec.End, Decl.Pos, Decl.End, Ident.PosOf, Ident.EndOf, BasicLit.PosOf,
      BasicLit.EndOf, Ident.Pos, Ident.End, BasicLit.Pos, BasicLit.End, deref, Node.Pos,
      Node.End] at h)) <;>
    (try (simp [Expr.Pos, Expr.PosOf, Expr.End, Expr.EndOf, CallExpr.PosOf, CallExpr.EndOf,
      FuncType.PosOf, FuncType.EndOf, FieldList.PosOf, FieldList.EndOf, BlockStmt.PosOf,
      BlockStmt.EndOf, Stmt.Pos, Stmt.PosOf, Stmt.End, Stmt.EndOf, Decl.PosOf, Decl.EndOf,
      Spec.Pos, Spec.End, Decl.Pos, Decl.End, Ident.PosOf, Ident.EndOf, BasicLit.PosOf,
      BasicLit.EndOf, Ident.Pos, Ident.End, BasicLit.Pos, BasicLit.End, deref, h]))
  | UnaryExpr aOpPos aOp aX =>
    cases aX <;>
    (try (simp [Expr.layout, CallExpr.layout, FuncType.layout, Field.layout, BlockStmt.layout,
      Stmt.layout, Spec.layout, Decl.layout, Part.req, Part.opt, Part.many, Part.tokIf, Expr.node,
      Ident.node, BasicLit.node, FuncType.node, CallExpr.node, BlockStmt.node, FieldList.node,
      Field.node, Stmt.node, Decl.node, Spec.node, List.getLast?_cons] at h)) <;>
    (try (simp only [Part.span_tok_iff, Part.span_node_none, Part.span_node_some] at h)) <;>
    (try (simp [Expr.Pos, Expr.PosOf, Expr.End, Expr.EndOf, CallExpr.PosOf, CallExpr.EndOf,
      FuncType.PosOf, FuncType.EndOf, FieldList.PosOf, FieldList.EndOf, BlockStmt.PosOf,
      BlockStmt.EndOf, Stmt.Pos, Stmt.PosOf, Stmt.End, Stmt.EndOf, Decl.PosOf, Decl.EndOf,
      Spec.Pos, Spec.End, Decl.Pos, Decl.End, Ident.PosOf, Ident.EndOf, BasicLit.PosOf,
      BasicLit.EndOf, Ident.Pos, Ident.End, BasicLit.Pos, BasicLit.End, deref, Node.Pos,
      Node.End] at h)) <;>
    (try (simp [Expr.Pos, Expr.PosOf, Expr.End, Expr.EndOf, CallExpr.PosOf, CallExpr.EndOf,
      FuncType.PosOf, FuncType.EndOf, FieldList.PosOf, FieldList.EndOf, BlockStmt.PosOf,
      BlockStmt.EndOf, Stmt.Pos, Stmt.PosOf, Stmt.End, Stmt.EndOf, Decl.PosOf, Decl.EndOf,
      Spec.Pos, Spec.End, Decl.Pos, Decl.End, Ident.PosOf, Ident.EndOf, BasicLit.PosOf,
      BasicLit.EndOf, Ident.Pos, Ident.End, BasicLit.Pos, BasicLit.End, deref, h]))
  | BinaryExpr aX aOpPos aOp aY =>
    cases aX <;> cases aY <;>
    (try (simp [Expr.layout, CallExpr.layout, FuncType.layout, Field.layout, BlockStmt.layout,
      Stmt.layout, Spec.layout, Decl.layout, Part.req, Part.opt, Part.many, Part.tokIf, Expr.node,
      Ident.node, BasicLit.node, FuncType.node, CallExpr.node, BlockStmt.node, FieldList.node,
      Field.node, Stmt.node, Decl.node, Spec.node, List.getLast?_cons] at h)) <;>
    (try (simp only [Part.span_tok_iff, Part.span_node_none, Part.span_node_some] at h)) <;>
    (try (simp [Expr.Pos, Expr.PosOf, Expr.End, Expr.EndOf, CallExpr.PosOf, CallExpr.EndOf,
      FuncType.PosOf, FuncType.EndOf, FieldList.PosOf, FieldList.EndOf, BlockStmt.PosOf,
      BlockStmt.EndOf, Stmt.Pos, Stmt.PosOf, Stmt.End, Stmt.EndOf, Decl.PosOf, Decl.EndOf,
      Spec.Pos, Spec.End, Decl.Pos, Decl.End, Ident.PosOf, Ident.EndOf, BasicLit.PosOf,
      BasicLit.EndOf, Ident.Pos, Ident.End, BasicLit.Pos, BasicLit.End, deref, Node.Pos,
      Node.End] at h)) <;>
    (try (simp [Expr.Pos, Expr.PosOf, Expr.End, Expr.EndOf, CallExpr.PosOf, CallExpr.EndOf,
      FuncType.PosOf, FuncType.EndOf, FieldList.PosOf, FieldList.EndOf, BlockStmt.PosOf,
      BlockStmt.EndOf, Stmt.Pos, Stmt.PosOf, Stmt.End, Stmt.EndOf, Decl.PosOf, Decl.EndOf,
      Spec.Pos, Spec.End, Decl.Pos, Decl.End, Ident.PosOf, Ident.EndOf, BasicLit.PosOf,
      BasicLit.EndOf, Ident.Pos, Ident.End, BasicLit.Pos, BasicLit.End, deref, h]))
  | KeyValueExpr aKey aColon aValue =>
    cases aKey <;> cases aValue <;>
    (try (simp [Expr.layout, CallExpr.layout, FuncType.layout, Field.layout, BlockStmt.layout,
      Stmt.layout, Spec.layout, Decl.layout, Part.req, Part.opt, Part.many, Part.tokIf, Expr.node,
      Ident.node, BasicLit.node, FuncType.node, CallExpr.node, BlockStmt.node, FieldList.node,
      Field.node, Stmt.node, Decl.node, Spec.node, List.getLast?_cons] at h)) <;>
    (try (simp only [Part.span_tok_iff, Part.span_node_none, Part.span_node_some] at h)) <;>
    (try (simp [Expr.Pos, Expr.PosOf, Expr.End, Expr.EndOf, CallExpr.PosOf, CallExpr.EndOf,
      FuncType.PosOf, FuncType.EndOf, FieldList.PosOf, FieldList.EndOf, BlockStmt.PosOf,
      BlockStmt.EndOf, Stmt.Pos, Stmt.PosOf, Stmt.End, Stmt.EndOf, Decl.PosOf, Decl.EndOf,
      Spec.Pos, Spec.End, Decl.Pos, Decl.End, Ident.PosOf, Ident.EndOf, BasicLit.PosOf,
      BasicLit.EndOf, Ident.Pos, Ident.End, BasicLit.Pos, BasicLit.End, deref, Node.Pos,
      Node.End] at h)) <;>
    (try (simp [Expr.Pos, Expr.PosOf, Expr.End, Expr.EndOf, CallExpr.PosOf, CallExpr.EndOf,
      FuncType.PosOf, FuncType.EndOf, FieldList.PosOf, FieldList.EndOf, BlockStmt.PosOf,
      BlockStmt.EndOf, Stmt.Pos, Stmt.PosOf, Stmt.End, Stmt.EndOf, Decl.PosOf, Decl.EndOf,
      Spec.Pos, Spec.End, Decl.Pos, Decl.End, Ident.PosOf, Ident.EndOf, BasicLit.PosOf,
      BasicLit.EndOf, Ident.Pos, Ident.End, BasicLit.Pos, BasicLit.End, deref, h]))
  | ArrayType aLbrack aLen aElt =>
    cases aLen <;> cases aElt <;>
    (try (simp [Expr.layout, CallExpr.layout, FuncType.layout, Field.layout, BlockStmt.layout,
      Stmt.layout, Spec.layout, Decl.layout, Part.req, Part.opt, Part.many, Part.tokIf, Expr.node,
      Ident.node, BasicLit.node, FuncType.node, CallExpr.node, BlockStmt.node, FieldList.node,
      Field.node, Stmt.node, Decl.node, Spec.node, List.getLast?_cons] at h)) <;>
    (try (simp only [Part.span_tok_iff, Part.span_node_none, Part.span_node_some] at h)) <;>
    (try (simp [Expr.Pos, Expr.PosOf, Expr.End, Expr.EndOf, CallExpr.PosOf, CallExpr.EndOf,
      FuncType.PosOf, FuncType.EndOf, FieldList.PosOf, FieldList.EndOf, BlockStmt.PosOf,
      BlockStmt.EndOf, Stmt.Pos, Stmt.PosOf, Stmt.End, Stmt.EndOf, Decl.PosOf, Decl.EndOf,
      Spec.Pos, Spec.End, Decl.Pos, Decl.End, Ident.PosOf, Ident.EndOf, BasicLit.PosOf,
      BasicLit.EndOf, Ident.Pos, Ident.End, BasicLit.Pos, BasicLit.End, deref, Node.Pos,
      Node.End] at h)) <;>
    (try (simp [Expr.Pos, Expr.PosOf, Expr.End, Expr.EndOf, CallExpr.PosOf, CallExpr.EndOf,
      FuncType.PosOf, FuncType.EndOf, FieldList.PosOf, FieldList.EndOf, BlockStmt.PosOf,
      BlockStmt.EndOf, Stmt.Pos, Stmt.PosOf, Stmt.End, Stmt.EndOf, Decl.PosOf, Decl.EndOf,
      Spec.Pos, Spec.End, Decl.Pos, Decl.End, Ident.PosOf, Ident.EndOf, BasicLit.PosOf,
      BasicLit.EndOf, Ident.Pos, Ident.End, BasicLit.Pos, BasicLit.End, deref, h]))
  | StructType aStruct aFields aIncomplete =>
    cases aFields <;>
    (try (simp [Expr.layout, CallExpr.layout, FuncType.layout, Field.layout, BlockStmt.layout,
      Stmt.layout, Spec.layout, Decl.layout, Part.req, Part.opt, Part.many, Part.tokIf, Expr.node,
      Ident.node, BasicLit.node, FuncType.node, CallExpr.node, BlockStmt.node, FieldList.node,
      Field.node, Stmt.node, Decl.node, Spec.node, List.getLast?_cons] at h)) <;>
    (try (simp only [Part.span_tok_iff, Part.span_node_none, Part.span_node_some] at h)) <;>
    (try (simp [Expr.Pos, Expr.PosOf, Expr.End, Expr.EndOf, CallExpr.PosOf, CallExpr.EndOf,
      FuncType.PosOf, FuncType.EndOf, FieldList.PosOf, FieldList.EndOf, BlockStmt.PosOf,
      BlockStmt.EndOf, Stmt.Pos, Stmt.PosOf, Stmt.End, Stmt.EndOf, Decl.PosOf, Decl.EndOf,
      Spec.Pos, Spec.End, Decl.Pos, Decl.End, Ident.PosOf, Ident.EndOf, BasicLit.PosOf,
      BasicLit.EndOf, Ident.Pos, Ident.End, BasicLit.Pos, BasicLit.End, deref, Node.Pos,
      Node.End] at h)) <;>
    (try (simp [Expr.Pos, Expr.PosOf, Expr.End, Expr.EndOf, CallExpr.PosOf, CallExpr.EndOf,
      FuncType.PosOf, FuncType.EndOf, FieldList.PosOf, FieldList.EndOf, BlockStmt.PosOf,
      BlockStmt.EndOf, Stmt.Pos, Stmt.PosOf, Stmt.End, Stmt.EndOf, Decl.PosOf, Decl.EndOf,
      Spec.Pos, Spec.End, Decl.Pos, Decl.End, Ident.PosOf, Ident.EndOf, BasicLit.PosOf,
      BasicLit.EndOf, Ident.Pos, Ident.End, BasicLit.Pos, BasicLit.End, deref, h]))
  | FuncType aft =>
    exact FuncType_frame_head aft s h
  | InterfaceType aInterface aMethods aIncomplete =>
    cases aMethods <;>
    (try (simp [Expr.layout, CallExpr.layout, FuncType.layout, Field.layout, BlockStmt.layout,
      Stmt.layout, Spec.layout, Decl.layout, Part.req, Part.opt, Part.many, Part.tokIf, Expr.node,
      Ident.node, BasicLit.node, FuncType.node, CallExpr.node, BlockStmt.node, FieldList.node,
      Field.node, Stmt.node, Decl.node, Spec.node, List.getLast?_cons] at h)) <;>
    (try (simp only [Part.span_tok_iff, Part.span_node_none, Part.span_node_some] at h)) <;>
    (try (simp [Expr.Pos, Expr.PosOf, Expr.End, Expr.EndOf, CallExpr.PosOf, CallExpr.EndOf,
      FuncType.PosOf, FuncType.EndOf, FieldList.PosOf, FieldList.EndOf, BlockStmt.PosOf,
      BlockStmt.EndOf, Stmt.Pos, Stmt.PosOf, Stmt.End, Stmt.EndOf, Decl.PosOf, Decl.EndOf,
      Spec.Pos, Spec.End, Decl.Pos, Decl.End, Ident.PosOf, Ident.EndOf, BasicLit.PosOf,
      BasicLit.EndOf, Ident.Pos, Ident.End, BasicLit.Pos, BasicLit.End, deref, Node.Pos,
      Node.End] at h)) <;>
    (try (simp [Expr.Pos, Expr.PosOf, Expr.End, Expr.EndOf, CallExpr.PosOf, CallExpr.EndOf,
      FuncType.PosOf, FuncType.EndOf, FieldList.PosOf, FieldList.EndOf, BlockStmt.PosOf,
      BlockStmt.EndOf, Stmt.Pos, Stmt.PosOf, Stmt.End, Stmt.EndOf, Decl.PosOf, Decl.EndOf,
      Spec.Pos, Spec.End, Decl.Pos, Decl.End, Ident.PosOf, Ident.EndOf, BasicLit.PosOf,
      BasicLit.EndOf, Ident.Pos, Ident.End, BasicLit.Pos, BasicLit.End, deref, h]))
  | MapType aMap aKey aValue =>
    cases aKey <;> cases aValue <;>
    (try (simp [Expr.layout, CallExpr.layout, FuncType.layout, Field.layout, BlockStmt.layout,
      Stmt.layout, Spec.layout, Decl.layout, Part.req, Part.opt, Part.many, Part.tokIf, Expr.node,
      Ident.node, BasicLit.node, FuncType.node, CallExpr.node, BlockStmt.node, FieldList.node,
      Field.node, Stmt.node, Decl.node, Spec.node, List.getLast?_cons] at h)) <;>
    (try (simp only [Part.span_tok_iff, Part.span_node_none, Part.span_node_some] at h)) <;>
    (try (simp [Expr.Pos, Expr.PosOf, Expr.End, Expr.EndOf, CallExpr.PosOf, CallExpr.EndOf,
      FuncType.PosOf, FuncType.EndOf, FieldList.PosOf, FieldList.EndOf, BlockStmt.PosOf,
      BlockStmt.EndOf, Stmt.Pos, Stmt.PosOf, Stmt.End, Stmt.EndOf, Decl.PosOf, Decl.EndOf,
      Spec.Pos, Spec.End, Decl.Pos, Decl.End, Ident.PosOf, Ident.EndOf, BasicLit.PosOf,
      BasicLit.EndOf, Ident.Pos, Ident.End, BasicLit.Pos, BasicLit.End, deref, Node.Pos,
      Node.End] at h)) <;>
    (try (simp [Expr.Pos, Expr.PosOf, Expr.End, Expr.EndOf, CallExpr.PosOf, CallExpr.EndOf,
      FuncType.PosOf, FuncType.EndOf, FieldList.PosOf, FieldList.EndOf, BlockStmt.PosOf,
      BlockStmt.EndOf, Stmt.Pos, Stmt.PosOf, Stmt.End, Stmt.EndOf, Decl.PosOf, Decl.EndOf,
      Spec.Pos, Spec.End, Decl.Pos, Decl.End, Ident.PosOf, Ident.EndOf, BasicLit.PosOf,
      BasicLit.EndOf, Ident.Pos, Ident.End, BasicLit.Pos, BasicLit.End, deref, h]))
  | ChanType aBegin aDir aValue =>
    cases aValue <;>
    (try (simp [Expr.layout, CallExpr.layout, FuncType.layout, Field.layout, BlockStmt.layout,
      Stmt.layout, Spec.layout, Decl.layout, Part.req, Part.opt, Part.many, Part.tokIf, Expr.node,
      Ident.node, BasicLit.node, FuncType.node, CallExpr.node, BlockStmt.node, FieldList.node,
      Field.node, Stmt.node, Decl.node, Spec.node, List.getLast?_cons] at h)) <;>
    (try (simp only [Part.span_tok_iff, Part.span_node_none, Part.span_node_some] at h)) <;>
    (try (simp [Expr.Pos, Expr.PosOf, Expr.End, Expr.EndOf, CallExpr.PosOf, CallExpr.EndOf,
      FuncType.PosOf, FuncType.EndOf, FieldList.PosOf, FieldList.EndOf, BlockStmt.PosOf,
      BlockStmt.EndOf, Stmt.Pos, Stmt.PosOf, Stmt.End, Stmt.EndOf, Decl.PosOf, Decl.EndOf,
      Spec.Pos, Spec.End, Decl.Pos, Decl.End, Ident.PosOf, Ident.EndOf, BasicLit.PosOf,
      BasicLit.EndOf, Ident.Pos, Ident.End, BasicLit.Pos, BasicLit.End, deref, Node.Pos,
      Node.End] at h)) <;>
    (try (simp [Expr.Pos, Expr.PosOf, Expr.End, Expr.EndOf, CallExpr.PosOf, CallExpr.EndOf,
      FuncType.PosOf, FuncType.EndOf, FieldList.PosOf, FieldList.EndOf, BlockStmt.PosOf,
      BlockStmt.EndOf, Stmt.Pos, Stmt.PosOf, Stmt.End, Stmt.EndOf, Decl.PosOf, Decl.EndOf,
      Spec.Pos, Spec.End, Decl.Pos, Decl.End, Ident.PosOf, Ident.EndOf, BasicLit.PosOf,
      BasicLit.EndOf, Ident.Pos, Ident.End, BasicLit.Pos, BasicLit.End, deref, h]))

set_option linter.unusedTactic false in
set_option linter.unreachableTactic false in
set_option linter.unnecessarySeqFocus false in
set_option maxHeartbeats 4000000 in
theorem Expr_frame_last (x : Expr) (hf : x.endFits = true) (s : Span)
    (h : (x.layout.getLast?.bind Part.span) = some s) :
    ∃ e, Expr.End x = .ok e ∧ s.2 ≤ e := by
  cases x with
  | BadExpr aFrom aTo =>
    (try (simp only [Expr.endFits, Stmt.endFits, Node.endFits] at hf)) <;>
    (try (simp [Expr.layout, CallExpr.layout, FuncType.layout, Field.layout, BlockStmt.layout,
      Stmt.layout, Spec.layout, Decl.layout, Part.req, Part.opt, Part.many, Part.tokIf, Expr.node,
      Ident.node, BasicLit.node, FuncType.node, CallExpr.node, BlockStmt.node, FieldList.node,
      Field.node, Stmt.node, Decl.node, Spec.node, List.getLast?_cons] at h)) <;>
    (try (simp only [Part.span_tok_iff, Part.span_node_none, Part.span_node_some] at h)) <;>
    (try (simp [Expr.Pos, Expr.PosOf, Expr.End, Expr.EndOf, CallExpr.PosOf, CallExpr.EndOf,
      FuncType.PosOf, FuncType.EndOf, FieldList.PosOf, FieldList.EndOf, BlockStmt.PosOf,
      BlockStmt.EndOf, Stmt.Pos, Stmt.PosOf, Stmt.End, Stmt.EndOf, Decl.PosOf, Decl.EndOf,
      Spec.Pos, Spec.End, Decl.Pos, Decl.End, Ident.PosOf, Ident.EndOf, BasicLit.PosOf,
      BasicLit.EndOf, Ident.Pos, Ident.End, BasicLit.Pos, BasicLit.End, deref, Node.Pos,
      Node.End] at h)) <;>
    (try (simp [Expr.Pos, Expr.PosOf, Expr.End, Expr.EndOf, CallExpr.PosOf, CallExpr.EndOf,
      FuncType.PosOf, FuncType.EndOf, FieldList.PosOf, FieldList.EndOf, BlockStmt.PosOf,
      BlockStmt.EndOf, Stmt.Pos, Stmt.PosOf, Stmt.End, Stmt.EndOf, Decl.PosOf, Decl.EndOf,
      Spec.Pos, Spec.End, Decl.Pos, Decl.End, Ident.PosOf, Ident.EndOf, BasicLit.PosOf,
      BasicLit.EndOf, Ident.Pos, Ident.End, BasicLit.Pos, BasicLit.End, deref, h])) <;>
    (try (first
      | exact int.le_add_ofNat _ _ hf
      | exact int.le_add_natCast _ _ hf
      | exact le_of_eq_of_le h.2 (int.le_add_ofNat _ _ hf)
      | exact le_of_eq_of_le h.2 (int.le_add_natCast _ _ hf)
      | exact le_of_eq_of_le h (int.le_add_ofNat _ _ hf)
      | rw [← h.1, h.2]))
  | Ident aid =>
    (try (simp only [Expr.endFits, Stmt.endFits, Node.endFits] at hf)) <;>
    (try (simp [Expr.layout, CallExpr.layout, FuncType.layout, Field.layout, BlockStmt.layout,
      Stmt.layout, Spec.layout, Decl.layout, Part.req, Part.opt, Part.many, Part.tokIf, Expr.node,
      Ident.node, BasicLit.node, FuncType.node, CallExpr.node, BlockStmt.node, FieldList.node,
      Field.node, Stmt.node, Decl.node, Spec.node, List.getLast?_cons] at h)) <;>
    (try (simp only [Part.span_tok_iff, Part.span_node_none, Part.span_node_some] at h)) <;>
    (try (simp [Expr.Pos, Expr.PosOf, Expr.End, Expr.EndOf, CallExpr.PosOf, CallExpr.EndOf,
      FuncType.PosOf, FuncType.EndOf, FieldList.PosOf, FieldList.EndOf, BlockStmt.PosOf,
      BlockStmt.EndOf, Stmt.Pos, Stmt.PosOf, Stmt.End, Stmt.EndOf, Decl.PosOf, Decl.EndOf,
      Spec.Pos, Spec.End, Decl.Pos, Decl.End, Ident.PosOf, Ident.EndOf, BasicLit.PosOf,
      BasicLit.EndOf, Ident.Pos, Ident.End, BasicLit.Pos, BasicLit.End, deref, Node.Pos,
      Node.End] at h)) <;>
    (try (simp [Expr.Pos, Expr.PosOf, Expr.End, Expr.EndOf, CallExpr.PosOf, CallExpr.EndOf,
      FuncType.PosOf, FuncType.EndOf, FieldList.PosOf, FieldList.EndOf, BlockStmt.PosOf,
      BlockStmt.EndOf, Stmt.Pos, Stmt.PosOf, Stmt.End, Stmt.EndOf, Decl.PosOf, Decl.EndOf,
      Spec.Pos, Spec.End, Decl.Pos, Decl.End, Ident.PosOf, Ident.EndOf, BasicLit.PosOf,
      BasicLit.EndOf, Ident.Pos, Ident.End, BasicLit.Pos, BasicLit.End, deref, h])) <;>
    (try (first
      | exact int.le_add_ofNat _ _ hf
      | exact int.le_add_natCast _ _ hf
      | exact le_of_eq_of_le h.2 (int.le_add_ofNat _ _ hf)
      | exact le_of_eq_of_le h.2 (int.le_add_natCast _ _ hf)
      | exact le_of_eq_of_le h (int.le_add_ofNat _ _ hf)
      | rw [← h.1, h.2]))
  | Ellipsis aEllipsis aElt =>
    cases aElt <;>
    (try (simp only [Expr.endFits, Stmt.endFits, Node.endFits] at hf)) <;>
    (try (simp [Expr.layout, CallExpr.layout, FuncType.layout, Field.layout, BlockStmt.layout,
      Stmt.layout, Spec.layout, Decl.layout, Part.req, Part.opt, Part.many, Part.tokIf, Expr.node,
      Ident.node, BasicLit.node, FuncType.node, CallExpr.node, BlockStmt.node, FieldList.node,
      Field.node, Stmt.node, Decl.node, Spec.node, List.getLast?_cons] at h)) <;>
    (try (simp only [Part.span_tok_iff, Part.span_node_none, Part.span_node_some] at h)) <;>
    (try (simp [Expr.Pos, Expr.PosOf, Expr.End, Expr.EndOf, CallExpr.PosOf, CallExpr.EndOf,
      FuncType.PosOf, FuncType.EndOf, FieldList.PosOf, FieldList.EndOf, BlockStmt.PosOf,
      BlockStmt.EndOf, Stmt.Pos, Stmt.PosOf, Stmt.End, Stmt.EndOf, Decl.PosOf, Decl.EndOf,
      Spec.Pos, Spec.End, Decl.Pos, Decl.End, Ident.PosOf, Ident.EndOf, BasicLit.PosOf,
      BasicLit.EndOf, Ident.Pos, Ident.End, BasicLit.Pos, BasicLit.End, deref, Node.Pos,
      Node.End] at h)) <;>
    (try (simp [Expr.Pos, Expr.PosOf, Expr.End, Expr.EndOf, CallExpr.PosOf, CallExpr.EndOf,
      FuncType.PosOf, FuncType.EndOf, FieldList.PosOf, FieldList.EndOf, BlockStmt.PosOf,
      BlockStmt.EndOf, Stmt.Pos, Stmt.PosOf, Stmt.End, Stmt.EndOf, Decl.PosOf, Decl.EndOf,
      Spec.Pos, Spec.End, Decl.Pos, Decl.End, Ident.PosOf, Ident.EndOf, BasicLit.PosOf,
      BasicLit.EndOf, Ident.Pos, Ident.End, BasicLit.Pos, BasicLit.End, deref, h])) <;>
    (try (first
      | exact int.le_add_ofNat _ _ hf
      | exact int.le_add_natCast _ _ hf
      | exact le_of_eq_of_le h.2 (int.le_add_ofNat _ _ hf)
      | exact le_of_eq_of_le h.2 (int.le_add_natCast _ _ hf)
      | exact le_of_eq_of_le h (int.le_add_ofNat _ _ hf)
      | rw [← h.1, h.2]))
  | BasicLit alit =>
    (try (simp only [Expr.endFits, Stmt.endFits, Node.endFits] at hf)) <;>
    (try (simp [Expr.layout, CallExpr.layout, FuncType.layout, Field.layout, BlockStmt.layout,
      Stmt.layout, Spec.layout, Decl.layout, Part.req, Part.opt, Part.many, Part.tokIf, Expr.node,
      Ident.node, BasicLit.node, FuncType.node, CallExpr.node, BlockStmt.node, FieldList.node,
      Field.node, Stmt.node, Decl.node, Spec.node, List.getLast?_cons] at h)) <;>
    (try (simp only [Part.span_tok_iff, Part.span_node_none, Part.span_node_some] at h)) <;>
    (try (simp [Expr.Pos, Expr.PosOf, Expr.End, Expr.EndOf, CallExpr.PosOf, CallExpr.EndOf,
      FuncType.PosOf, FuncType.EndOf, FieldList.PosOf, FieldList.EndOf, BlockStmt.PosOf,
      BlockStmt.EndOf, Stmt.Pos, Stmt.PosOf, Stmt.End, Stmt.EndOf, Decl.PosOf, Decl.EndOf,
      Spec.Pos, Spec.End, Decl.Pos, Decl.End, Ident.PosOf, Ident.EndOf, BasicLit.PosOf,
      BasicLit.EndOf, Ident.Pos, Ident.End, BasicLit.Pos, BasicLit.End, deref, Node.Pos,
      Node.End] at h)) <;>
    (try (simp [Expr.Pos, Expr.PosOf, Expr.End, Expr.EndOf, CallExpr.PosOf, CallExpr.EndOf,
      FuncType.PosOf, FuncType.EndOf, FieldList.PosOf, FieldList.EndOf, BlockStmt.PosOf,
      BlockStmt.EndOf, Stmt.Pos, Stmt.PosOf, Stmt.End, Stmt.EndOf, Decl.PosOf, Decl.EndOf,
      Spec.Pos, Spec.End, Decl.Pos, Decl.End, Ident.PosOf, Ident.EndOf, BasicLit.PosOf,
      BasicLit.EndOf, Ident.Pos, Ident.End, BasicLit.Pos, BasicLit.End, deref, h])) <;>
    (try (first
      | exact int.le_add_ofNat _ _ hf
      | exact int.le_add_natCast _ _ hf
      | exact le_of_eq_of_le h.2 (int.le_add_ofNat _ _ hf)
      | exact le_of_eq_of_le h.2 (int.le_add_natCast _ _ hf)
      | exact le_of_eq_of_le h (int.le_add_ofNat _ _ hf)
      | rw [← h.1, h.2]))
  | FuncLit aTyp aBody =>
    cases aTyp <;> cases aBody <;>
    (try (simp only [Expr.endFits, Stmt.endFits, Node.endFits] at hf)) <;>
    (try (simp [Expr.layout, CallExpr.layout, FuncType.layout, Field.layout, BlockStmt.layout,
      Stmt.layout, Spec.layout, Decl.layout, Part.req, Part.opt, Part.many, Part.tokIf, Expr.node,
      Ident.node, BasicLit.node, FuncType.node, CallExpr.node, BlockStmt.node, FieldList.node,
      Field.node, Stmt.node, Decl.node, Spec.node, List.getLast?_cons] at h)) <;>
    (try (simp only [Part.span_tok_iff, Part.span_node_none, Part.span_node_some] at h)) <;>
    (try (simp [Expr.Pos, Expr.PosOf, Expr.End, Expr.EndOf, CallExpr.PosOf, CallExpr.EndOf,
      FuncType.PosOf, FuncType.EndOf, FieldList.PosOf, FieldList.EndOf, BlockStmt.PosOf,
      BlockStmt.EndOf, Stmt.Pos, Stmt.PosOf, Stmt.End, Stmt.EndOf, Decl.PosOf, Decl.EndOf,
      Spec.Pos, Spec.End, Decl.Pos, Decl.End, Ident.PosOf, Ident.EndOf, BasicLit.PosOf,
      BasicLit.EndOf, Ident.Pos, Ident.End, BasicLit.Pos, BasicLit.End, deref, Node.Pos,
      Node.End] at h)) <;>
    (try (simp [Expr.Pos, Expr.PosOf, Expr.End, Expr.EndOf, CallExpr.PosOf, CallExpr.EndOf,
      FuncType.PosOf, FuncType.EndOf, FieldList.PosOf, FieldList.EndOf, BlockStmt.PosOf,
      BlockStmt.EndOf, Stmt.Pos, Stmt.PosOf, Stmt.End, Stmt.EndOf, Decl.PosOf, Decl.EndOf,
      Spec.Pos, Spec.End, Decl.Pos, Decl.End, Ident.PosOf, Ident.EndOf, BasicLit.PosOf,
      BasicLit.EndOf, Ident.Pos, Ident.End, BasicLit.Pos, BasicLit.End, deref, h])) <;>
    (try (first
      | exact int.le_add_ofNat _ _ hf
      | exact int.le_add_natCast _ _ hf
      | exact le_of_eq_of_le h.2 (int.le_add_ofNat _ _ hf)
      | exact le_of_eq_of_le h.2 (int.le_add_natCast _ _ hf)
      | exact le_of_eq_of_le h (int.le_add_ofNat _ _ hf)
      | rw [← h.1, h.2]))
  | CompositeLit aTyp aLbrace aElts aRbrace =>
    cases aTyp <;>
    (try (simp only [Expr.endFits, Stmt.endFits, Node.endFits] at hf)) <;>
    (try (simp [Expr.layout, CallExpr.layout, FuncType.layout, Field.layout, BlockStmt.layout,
      Stmt.layout, Spec.layout, Decl.layout, Part.req, Part.opt, Part.many, Part.tokIf, Expr.node,
      Ident.node, BasicLit.node, FuncType.node, CallExpr.node, BlockStmt.node, FieldList.node,
      Field.node, Stmt.node, Decl.node, Spec.node, List.getLast?_cons] at h)) <;>
    (try (simp only [Part.span_tok_iff, Part.span_node_none, Part.span_node_some] at h)) <;>
    (try (simp [Expr.Pos, Expr.PosOf, Expr.End, Expr.EndOf, CallExpr.PosOf, CallExpr.EndOf,
      FuncType.PosOf, FuncType.EndOf, FieldList.PosOf, FieldList.EndOf, BlockStmt.PosOf,
      BlockStmt.EndOf, Stmt.Pos, Stmt.PosOf, Stmt.End, Stmt.EndOf, Decl.PosOf, Decl.EndOf,
      Spec.Pos, Spec.End, Decl.Pos, Decl.End, Ident.PosOf, Ident.EndOf, BasicLit.PosOf,
      BasicLit.EndOf, Ident.Pos, Ident.End, BasicLit.Pos, BasicLit.End, deref, Node.Pos,
      Node.End] at h)) <;>
    (try (simp [Expr.Pos, Expr.PosOf, Expr.End, Expr.EndOf, CallExpr.PosOf, CallExpr.EndOf,
      FuncType.PosOf, FuncType.EndOf, FieldList.PosOf, FieldList.EndOf, BlockStmt.PosOf,
      BlockStmt.EndOf, Stmt.Pos, Stmt.PosOf, Stmt.End, Stmt.EndOf, Decl.PosOf, Decl.EndOf,
      Spec.Pos, Spec.End, Decl.Pos, Decl.End, Ident.PosOf, Ident.EndOf, BasicLit.PosOf,
      BasicLit.EndOf, Ident.Pos, Ident.End, BasicLit.Pos, BasicLit.End, deref, h])) <;>
    (try (first
      | exact int.le_add_ofNat _ _ hf
      | exact int.le_add_natCast _ _ hf
      | exact le_of_eq_of_le h.2 (int.le_add_ofNat _ _ hf)
      | exact le_of_eq_of_le h.2 (int.le_add_natCast _ _ hf)
      | exact le_of_eq_of_le h (int.le_add_ofNat _ _ hf)
      | rw [← h.1, h.2]))
  | ParenExpr aLparen aX aRparen =>
    cases aX <;>
    (try (simp only [Expr.endFits, Stmt.endFits, Node.endFits] at hf)) <;>
    (try (simp [Expr.layout, CallExpr.layout, FuncType.layout, Field.layout, BlockStmt.layout,
      Stmt.layout, Spec.layout, Decl.layout, Part.req, Part.opt, Part.many, Part.tokIf, Expr.node,
      Ident.node, BasicLit.node, FuncType.node, CallExpr.node, BlockStmt.node, FieldList.node,
      Field.node, Stmt.node, Decl.node, Spec.node, List.getLast?_cons] at h)) <;>
    (try (simp only [Part.span_tok_iff, Part.span_node_none, Part.span_node_some] at h)) <;>
    (try (simp [Expr.Pos, Expr.PosOf, Expr.End, Expr.EndOf, CallExpr.PosOf, CallExpr.EndOf,
      FuncType.PosOf, FuncType.EndOf, FieldList.PosOf, FieldList.EndOf, BlockStmt.PosOf,
      BlockStmt.EndOf, Stmt.Pos, Stmt.PosOf, Stmt.End, Stmt.EndOf, Decl.PosOf, Decl.EndOf,
      Spec.Pos, Spec.End, Decl.Pos, Decl.End, Ident.PosOf, Ident.EndOf, BasicLit.PosOf,
      BasicLit.EndOf, Ident.Pos, Ident.End, BasicLit.Pos, BasicLit.End, deref, Node.Pos,
      Node.End] at h)) <;>
    (try (simp [Expr.Pos, Expr.PosOf, Expr.End, Expr.EndOf, CallExpr.PosOf, CallExpr.EndOf,
      FuncType.PosOf, FuncType.EndOf, FieldList.PosOf, FieldList.EndOf, BlockStmt.PosOf,
      BlockStmt.EndOf, Stmt.Pos, Stmt.PosOf, Stmt.End, Stmt.EndOf, Decl.PosOf, Decl.EndOf,
      Spec.Pos, Spec.End, Decl.Pos, Decl.End, Ident.PosOf, Ident.EndOf, BasicLit.PosOf,
      BasicLit.EndOf, Ident.Pos, Ident.End, BasicLit.Pos, BasicLit.End, deref, h])) <;>
    (try (first
      | exact int.le_add_ofNat _ _ hf
      | exact int.le_add_natCast _ _ hf
      | exact le_of_eq_of_le h.2 (int.le_add_ofNat _ _ hf)
      | exact le_of_eq_of_le h.2 (int.le_add_natCast _ _ hf)
      | exact le_of_eq_of_le h (int.le_add_ofNat _ _ hf)
      | rw [← h.1, h.2]))
  | SelectorExpr aX aSel =>
    cases aX <;> cases aSel <;>
    (try (simp only [Expr.endFits, Stmt.endFits, Node.endFits] at hf)) <;>
    (try (simp [Expr.layout, CallExpr.layout, FuncType.layout, Field.layout, BlockStmt.layout,
      Stmt.layout, Spec.layout, Decl.layout, Part.req, Part.opt, Part.many, Part.tokIf, Expr.node,
      Ident.node, BasicLit.node, FuncType.node, CallExpr.node, BlockStmt.node, FieldList.node,
      Field.node, Stmt.node, Decl.node, Spec.node, List.getLast?_cons] at h)) <;>
    (try (simp only [Part.span_tok_iff, Part.span_node_none, Part.span_node_some] at h)) <;>
    (try (simp [Expr.Pos, Expr.PosOf, Expr.End, Expr.EndOf, CallExpr.PosOf, CallExpr.EndOf,
      FuncType.PosOf, FuncType.EndOf, FieldList.PosOf, FieldList.EndOf, BlockStmt.PosOf,
      BlockStmt.EndOf, Stmt.Pos, Stmt.PosOf, Stmt.End, Stmt.EndOf, Decl.PosOf, Decl.EndOf,
      Spec.Pos, Spec.End, Decl.Pos, Decl.End, Ident.PosOf, Ident.EndOf, BasicLit.PosOf,
      BasicLit.EndOf, Ident.Pos, Ident.End, BasicLit.Pos, BasicLit.End, deref, Node.Pos,
      Node.End] at h)) <;>
    (try (simp [Expr.Pos, Expr.PosOf, Expr.End, Expr.EndOf, CallExpr.PosOf, CallExpr.EndOf,
      FuncType.PosOf, FuncType.EndOf, FieldList.PosOf, FieldList.EndOf, BlockStmt.PosOf,
      BlockStmt.EndOf, Stmt.Pos, Stmt.PosOf, Stmt.End, Stmt.EndOf, Decl.PosOf, Decl.EndOf,
      Spec.Pos, Spec.End, Decl.Pos, Decl.End, Ident.PosOf, Ident.EndOf, BasicLit.PosOf,
      BasicLit.EndOf, Ident.Pos, Ident.End, BasicLit.Pos, BasicLit.End, deref, h])) <;>
    (try (first
      | exact int.le_add_ofNat _ _ hf
      | exact int.le_add_natCast _ _ hf
      | exact le_of_eq_of_le h.2 (int.le_add_ofNat _ _ hf)
      | exact le_of_eq_of_le h.2 (int.le_add_natCast _ _ hf)
      | exact le_of_eq_of_le h (int.le_add_ofNat _ _ hf)
      | rw [← h.1, h.2]))
  | IndexExpr aX aLbrack aIndex aRbrack =>
    cases aX <;> cases aIndex <;>
    (try (simp only [Expr.endFits, Stmt.endFits, Node.endFits] at hf)) <;>
    (try (simp [Expr.layout, CallExpr.layout, FuncType.layout, Field.layout, BlockStmt.layout,
      Stmt.layout, Spec.layout, Decl.layout, Part.req, Part.opt, Part.many, Part.tokIf, Expr.node,
      Ident.node, BasicLit.node, FuncType.node, CallExpr.node, BlockStmt.node, FieldList.node,
      Field.node, Stmt.node, Decl.node, Spec.node, List.getLast?_cons] at h)) <;>
    (try (simp only [Part.span_tok_iff, Part.span_node_none, Part.span_node_some] at h)) <;>
    (try (simp [Expr.Pos, Expr.PosOf, Expr.End, Expr.EndOf, CallExpr.PosOf, CallExpr.EndOf,
      FuncType.PosOf, FuncType.EndOf, FieldList.PosOf, FieldList.EndOf, BlockStmt.PosOf,
      BlockStmt.EndOf, Stmt.Pos, Stmt.PosOf, Stmt.End, Stmt.EndOf, Decl.PosOf, Decl.EndOf,
      Spec.Pos, Spec.End, Decl.Pos, Decl.End, Ident.PosOf, Ident.EndOf, BasicLit.PosOf,
      BasicLit.EndOf, Ident.Pos, Ident.End, BasicLit.Pos, BasicLit.End, deref, Node.Pos,
      Node.End] at h)) <;>
    (try (simp [Expr.Pos, Expr.PosOf, Expr.End, Expr.EndOf, CallExpr.PosOf, CallExpr.EndOf,
      FuncType.PosOf, FuncType.EndOf, FieldList.PosOf, FieldList.EndOf, BlockStmt.PosOf,
      BlockStmt.EndOf, Stmt.Pos, Stmt.PosOf, Stmt.End, Stmt.EndOf, Decl.PosOf, Decl.EndOf,
      Spec.Pos, Spec.End, Decl.Pos, Decl.End, Ident.PosOf, Ident.EndOf, BasicLit.PosOf,
      BasicLit.EndOf, Ident.Pos, Ident.End, BasicLit.Pos, BasicLit.End, deref, h])) <;>
    (try (first
      | exact int.le_add_ofNat _ _ hf
      | exact int.le_add_natCast _ _ hf
      | exact le_of_eq_of_le h.2 (int.le_add_ofNat _ _ hf)
      | exact le_of_eq_of_le h.2 (int.le_add_natCast _ _ hf)
      | exact le_of_eq_of_le h (int.le_add_ofNat _ _ hf)
      | rw [← h.1, h.2]))
  | SliceExpr aX aLbrack aLow aHigh aMax aSlice3 aRbrack =>
    cases aX <;> cases aLow <;> cases aHigh <;> cases aMax <;>
    (try (simp only [Expr.endFits, Stmt.endFits, Node.endFits] at hf)) <;>
    (try (simp [Expr.layout, CallExpr.layout, FuncType.layout, Field.layout, BlockStmt.layout,
      Stmt.layout, Spec.layout, Decl.layout, Part.req, Part.opt, Part.many, Part.tokIf, Expr.node,
      Ident.node, BasicLit.node, FuncType.node, CallExpr.node, BlockStmt.node, FieldList.node,
      Field.node, Stmt.node, Decl.node, Spec.node, List.getLast?_cons] at h)) <;>
    (try (simp only [Part.span_tok_iff, Part.span_node_none, Part.span_node_some] at h)) <;>
    (try (simp [Expr.Pos, Expr.PosOf, Expr.End, Expr.EndOf, CallExpr.PosOf, CallExpr.EndOf,
      FuncType.PosOf, FuncType.EndOf, FieldList.PosOf, FieldList.EndOf, BlockStmt.PosOf,
      BlockStmt.EndOf, Stmt.Pos, Stmt.PosOf, Stmt.End, Stmt.EndOf, Decl.PosOf, Decl.EndOf,
      Spec.Pos, Spec.End, Decl.Pos, Decl.End, Ident.PosOf, Ident.EndOf, BasicLit.PosOf,
      BasicLit.EndOf, Ident.Pos, Ident.End, BasicLit.Pos, BasicLit.End, deref, Node.Pos,
      Node.End] at h)) <;>
    (try (simp [Expr.Pos, Expr.PosOf, Expr.End, Expr.EndOf, CallExpr.PosOf, CallExpr.EndOf,
      FuncType.PosOf, FuncType.EndOf, FieldList.PosOf, FieldList.EndOf, BlockStmt.PosOf,
      BlockStmt.EndOf, Stmt.Pos, Stmt.PosOf, Stmt.End, Stmt.EndOf, Decl.PosOf, Decl.EndOf,
      Spec.Pos, Spec.End, Decl.Pos, Decl.End, Ident.PosOf, Ident.EndOf, BasicLit.PosOf,
      BasicLit.EndOf, Ident.Pos, Ident.End, BasicLit.Pos, BasicLit.End, deref, h])) <;>
    (try (first
      | exact int.le_add_ofNat _ _ hf
      | exact int.le_add_natCast _ _ hf
      | exact le_of_eq_of_le h.2 (int.le_add_ofNat _ _ hf)
      | exact le_of_eq_of_le h.2 (int.le_add_natCast _ _ hf)
      | exact le_of_eq_of_le h (int.le_add_ofNat _ _ hf)
      | rw [← h.1, h.2]))
  | TypeAssertExpr aX aTyp =>
    cases aX <;> cases aTyp <;>
    (try (simp only [Expr.endFits, Stmt.endFits, Node.endFits] at hf)) <;>
    (try (simp [Expr.layout, CallExpr.layout, FuncType.layout, Field.layout, BlockStmt.layout,
      Stmt.layout, Spec.layout, Decl.layout, Part.req, Part.opt, Part.many, Part.tokIf, Expr.node,
      Ident.node, BasicLit.node, FuncType.node, CallExpr.node, BlockStmt.node, FieldList.node,
      Field.node, Stmt.node, Decl.node, Spec.node, List.getLast?_cons] at h)) <;>
    (try (simp only [Part.span_tok_iff, Part.span_node_none, Part.span_node_some] at h)) <;>
    (try (simp [Expr.Pos, Expr.PosOf, Expr.End, Expr.EndOf, CallExpr.PosOf, CallExpr.EndOf,
      FuncType.PosOf, FuncType.EndOf, FieldList.PosOf, FieldList.EndOf, BlockStmt.PosOf,
      BlockStmt.EndOf, Stmt.Pos, Stmt.PosOf, Stmt.End, Stmt.EndOf, Decl.PosOf, Decl.EndOf,
      Spec.Pos, Spec.End, Decl.Pos, Decl.End, Ident.PosOf, Ident.EndOf, BasicLit.PosOf,
      BasicLit.EndOf, Ident.Pos, Ident.End, BasicLit.Pos, BasicLit.End, deref, Node.Pos,
      Node.End] at h)) <;>
    (try (simp [Expr.Pos, Expr.PosOf, Expr.End, Expr.EndOf, CallExpr.PosOf, CallExpr.EndOf,
      FuncType.PosOf, FuncType.EndOf, FieldList.PosOf, FieldList.EndOf, BlockStmt.PosOf,
      BlockStmt.EndOf, Stmt.Pos, Stmt.PosOf, Stmt.End, Stmt.EndOf, Decl.PosOf, Decl.EndOf,
      Spec.Pos, Spec.End, Decl.Pos, Decl.End, Ident.PosOf, Ident.EndOf, BasicLit.PosOf,
      BasicLit.EndOf, Ident.Pos, Ident.End, BasicLit.Pos, BasicLit.End, deref, h])) <;>
    (try (first
      | exact int.le_add_ofNat _ _ hf
      | exact int.le_add_natCast _ _ hf
      | exact le_of_eq_of_le h.2 (int.le_add_ofNat _ _ hf)
      | exact le_of_eq_of_le h.2 (int.le_add_natCast _ _ hf)
      | exact le_of_eq_of_le h (int.le_add_ofNat _ _ hf)
      | rw [← h.1, h.2]))
  | CallExpr acall =>
    exact CallExpr_frame_last acall hf s h
  | StarExpr aStar aX =>
    cases aX <;>
    (try (simp only [Expr.endFits, Stmt.endFits, Node.endFits] at hf)) <;>
    (try (simp [Expr.layout, CallExpr.layout, FuncType.layout, Field.layout, BlockStmt.layout,
      Stmt.layout, Spec.layout, Decl.layout, Part.req, Part.opt, Part.many, Part.tokIf, Expr.node,
      Ident.node, BasicLit.node, FuncType.node, CallExpr.node, BlockStmt.node, FieldList.node,
      Field.node, Stmt.node, Decl.node, Spec.node, List.getLast?_cons] at h)) <;>
    (try (simp only [Part.span_tok_iff, Part.span_node_none, Part.span_node_some] at h)) <;>
    (try (simp [Expr.Pos, Expr.PosOf, Expr.End, Expr.EndOf, CallExpr.PosOf, CallExpr.EndOf,
      FuncType.PosOf, FuncType.EndOf, FieldList.PosOf, FieldList.EndOf, BlockStmt.PosOf,
      BlockStmt.EndOf, Stmt.Pos, Stmt.PosOf, Stmt.End, Stmt.EndOf, Decl.PosOf, Decl.EndOf,
      Spec.Pos, Spec.End, Decl.Pos, Decl.End, Ident.PosOf, Ident.EndOf, BasicLit.PosOf,
      BasicLit.EndOf, Ident.Pos, Ident.End, BasicLit.Pos, BasicLit.End, deref, Node.Pos,
      Node.End] at h)) <;>
    (try (simp [Expr.Pos, Expr.PosOf, Expr.End, Expr.EndOf, CallExpr.PosOf, CallExpr.EndOf,
      FuncType.PosOf, FuncType.EndOf, FieldList.PosOf, FieldList.EndOf, BlockStmt.PosOf,
      BlockStmt.EndOf, Stmt.Pos, Stmt.PosOf, Stmt.End, Stmt.EndOf, Decl.PosOf, Decl.EndOf,
      Spec.Pos, Spec.End, Decl.Pos, Decl.End, Ident.PosOf, Ident.EndOf, BasicLit.PosOf,
      BasicLit.EndOf, Ident.Pos, Ident.End, BasicLit.Pos, BasicLit.End, deref, h])) <;>
    (try (first
      | exact int.le_add_ofNat _ _ hf
      | exact int.le_add_natCast _ _ hf
      | exact le_of_eq_of_le h.2 (int.le_add_ofNat _ _ hf)
      | exact le_of_eq_of_le h.2 (int.le_add_natCast _ _ hf)
      | exact le_of_eq_of_le h (int.le_add_ofNat _ _ hf)
      | rw [← h.1, h.2]))
  | UnaryExpr aOpPos aOp aX =>
    cases aX <;>
    (try (simp only [Expr.endFits, Stmt.endFits, Node.endFits] at hf)) <;>
    (try (simp [Expr.layout, CallExpr.layout, FuncType.layout, Field.layout, BlockStmt.layout,
      Stmt.layout, Spec.layout, Decl.layout, Part.req, Part.opt, Part.many, Part.tokIf, Expr.node,
      Ident.node, BasicLit.node, FuncType.node, CallExpr.node, BlockStmt.node, FieldList.node,
      Field.node, Stmt.node, Decl.node, Spec.node, List.getLast?_cons] at h)) <;>
    (try (simp only [Part.span_tok_iff, Part.span_node_none, Part.span_node_some] at h)) <;>
    (try (simp [Expr.Pos, Expr.PosOf, Expr.End, Expr.EndOf, CallExpr.PosOf, CallExpr.EndOf,
      FuncType.PosOf, FuncType.EndOf, FieldList.PosOf, FieldList.EndOf, BlockStmt.PosOf,
      BlockStmt.EndOf, Stmt.Pos, Stmt.PosOf, Stmt.End, Stmt.EndOf, Decl.PosOf, Decl.EndOf,
      Spec.Pos, Spec.End, Decl.Pos, Decl.End, Ident.PosOf, Ident.EndOf, BasicLit.PosOf,
      BasicLit.EndOf, Ident.Pos, Ident.End, BasicLit.Pos, BasicLit.End, deref, Node.Pos,
      Node.End] at h)) <;>
    (try (simp [Expr.Pos, Expr.PosOf, Expr.End, Expr.EndOf, CallExpr.PosOf, CallExpr.EndOf,
      FuncType.PosOf, FuncType.EndOf, FieldList.PosOf, FieldList.EndOf, BlockStmt.PosOf,
      BlockStmt.EndOf, Stmt.Pos, Stmt.PosOf, Stmt.End, Stmt.EndOf, Decl.PosOf, Decl.EndOf,
      Spec.Pos, Spec.End, Decl.Pos, Decl.End, Ident.PosOf, Ident.EndOf, BasicLit.PosOf,
      BasicLit.EndOf, Ident.Pos, Ident.End, BasicLit.Pos, BasicLit.End, deref, h])) <;>
    (try (first
      | exact int.le_add_ofNat _ _ hf
      | exact int.le_add_natCast _ _ hf
      | exact le_of_eq_of_le h.2 (int.le_add_ofNat _ _ hf)
      | exact le_of_eq_of_le h.2 (int.le_add_natCast _ _ hf)
      | exact le_of_eq_of_le h (int.le_add_ofNat _ _ hf)
      | rw [← h.1, h.2]))
  | BinaryExpr aX aOpPos aOp aY =>
    cases aX <;> cases aY <;>
    (try (simp only [Expr.endFits, Stmt.endFits, Node.endFits] at hf)) <;>
    (try (simp [Expr.layout, CallExpr.layout, FuncType.layout, Field.layout, BlockStmt.layout,
      Stmt.layout, Spec.layout, Decl.layout, Part.req, Part.opt, Part.many, Part.tokIf, Expr.node,
      Ident.node, BasicLit.node, FuncType.node, CallExpr.node, BlockStmt.node, FieldList.node,
      Field.node, Stmt.node, Decl.node, Spec.node, List.getLast?_cons] at h)) <;>
    (try (simp only [Part.span_tok_iff, Part.span_node_none, Part.span_node_some] at h)) <;>
    (try (simp [Expr.Pos, Expr.PosOf, Expr.End, Expr.EndOf, CallExpr.PosOf, CallExpr.EndOf,
      FuncType.PosOf, FuncType.EndOf, FieldList.PosOf, FieldList.EndOf, BlockStmt.PosOf,
      BlockStmt.EndOf, Stmt.Pos, Stmt.PosOf, Stmt.End, Stmt.EndOf, Decl.PosOf, Decl.EndOf,
      Spec.Pos, Spec.End, Decl.Pos, Decl.End, Ident.PosOf, Ident.EndOf, BasicLit.PosOf,
      BasicLit.EndOf, Ident.Pos, Ident.End, BasicLit.Pos, BasicLit.End, deref, Node.Pos,
      Node.End] at h)) <;>
    (try (simp [Expr.Pos, Expr.PosOf, Expr.End, Expr.EndOf, CallExpr.PosOf, CallExpr.EndOf,
      FuncType.PosOf, FuncType.EndOf, FieldList.PosOf, FieldList.EndOf, BlockStmt.PosOf,
      BlockStmt.EndOf, Stmt.Pos, Stmt.PosOf, Stmt.End, Stmt.EndOf, Decl.PosOf, Decl.EndOf,
      Spec.Pos, Spec.End, Decl.Pos, Decl.End, Ident.PosOf, Ident.EndOf, BasicLit.PosOf,
      BasicLit.EndOf, Ident.Pos, Ident.End, BasicLit.Pos, BasicLit.End, deref, h])) <;>
    (try (first
      | exact int.le_add_ofNat _ _ hf
      | exact int.le_add_natCast _ _ hf
      | exact le_of_eq_of_le h.2 (int.le_add_ofNat _ _ hf)
      | exact le_of_eq_of_le h.2 (int.le_add_natCast _ _ hf)
      | exact le_of_eq_of_le h (int.le_add_ofNat _ _ hf)
      | rw [← h.1, h.2]))
  | KeyValueExpr aKey aColon aValue =>
    cases aKey <;> cases aValue <;>
    (try (simp only [Expr.endFits, Stmt.endFits, Node.endFits] at hf)) <;>
    (try (simp [Expr.layout, CallExpr.layout, FuncType.layout, Field.layout, BlockStmt.layout,
      Stmt.layout, Spec.layout, Decl.layout, Part.req, Part.opt, Part.many, Part.tokIf, Expr.node,
      Ident.node, BasicLit.node, FuncType.node, CallExpr.node, BlockStmt.node, FieldList.node,
      Field.node, Stmt.node, Decl.node, Spec.node, List.getLast?_cons] at h)) <;>
    (try (simp only [Part.span_tok_iff, Part.span_node_none, Part.span_node_some] at h)) <;>
    (try (simp [Expr.Pos, Expr.PosOf, Expr.End, Expr.EndOf, CallExpr.PosOf, CallExpr.EndOf,
      FuncType.PosOf, FuncType.EndOf, FieldList.PosOf, FieldList.EndOf, BlockStmt.PosOf,
      BlockStmt.EndOf, Stmt.Pos, Stmt.PosOf, Stmt.End, Stmt.EndOf, Decl.PosOf, Decl.EndOf,
      Spec.Pos, Spec.End, Decl.Pos, Decl.End, Ident.PosOf, Ident.EndOf, BasicLit.PosOf,
      BasicLit.EndOf, Ident.Pos, Ident.End, BasicLit.Pos, BasicLit.End, deref, Node.Pos,
      Node.End] at h)) <;>
    (try (simp [Expr.Pos, Expr.PosOf, Expr.End, Expr.EndOf, CallExpr.PosOf, CallExpr.EndOf,
      FuncType.PosOf, FuncType.EndOf, FieldList.PosOf, FieldList.EndOf, BlockStmt.PosOf,
      BlockStmt.EndOf, Stmt.Pos, Stmt.PosOf, Stmt.End, Stmt.EndOf, Decl.PosOf, Decl.EndOf,
      Spec.Pos, Spec.End, Decl.Pos, Decl.End, Ident.PosOf, Ident.EndOf, BasicLit.PosOf,
      BasicLit.EndOf, Ident.Pos, Ident.End, BasicLit.Pos, BasicLit.End, deref, h])) <;>
    (try (first
      | exact int.le_add_ofNat _ _ hf
      | exact int.le_add_natCast _ _ hf
      | exact le_of_eq_of_le h.2 (int.le_add_ofNat _ _ hf)
      | exact le_of_eq_of_le h.2 (int.le_add_natCast _ _ hf)
      | exact le_of_eq_of_le h (int.le_add_ofNat _ _ hf)
      | rw [← h.1, h.2]))
  | ArrayType aLbrack aLen aElt =>
    cases aLen <;> cases aElt <;>
    (try (simp only [Expr.endFits, Stmt.endFits, Node.endFits] at hf)) <;>
    (try (simp [Expr.layout, CallExpr.layout, FuncType.layout, Field.layout, BlockStmt.layout,
      Stmt.layout, Spec.layout, Decl.layout, Part.req, Part.opt, Part.many, Part.tokIf, Expr.node,
      Ident.node, BasicLit.node, FuncType.node, CallExpr.node, BlockStmt.node, FieldList.node,
      Field.node, Stmt.node, Decl.node, Spec.node, List.getLast?_cons] at h)) <;>
    (try (simp only [Part.span_tok_iff, Part.span_node_none, Part.span_node_some] at h)) <;>
    (try (simp [Expr.Pos, Expr.PosOf, Expr.End, Expr.EndOf, CallExpr.PosOf, CallExpr.EndOf,
      FuncType.PosOf, FuncType.EndOf, FieldList.PosOf, FieldList.EndOf, BlockStmt.PosOf,
      BlockStmt.EndOf, Stmt.Pos, Stmt.PosOf, Stmt.End, Stmt.EndOf, Decl.PosOf, Decl.EndOf,
      Spec.Pos, Spec.End, Decl.Pos, Decl.End, Ident.PosOf, Ident.EndOf, BasicLit.PosOf,
      BasicLit.EndOf, Ident.Pos, Ident.End, BasicLit.Pos, BasicLit.End, deref, Node.Pos,
      Node.End] at h)) <;>
    (try (simp [Expr.Pos, Expr.PosOf, Expr.End, Expr.EndOf, CallExpr.PosOf, CallExpr.EndOf,
      FuncType.PosOf, FuncType.EndOf, FieldList.PosOf, FieldList.EndOf, BlockStmt.PosOf,
      BlockStmt.EndOf, Stmt.Pos, Stmt.PosOf, Stmt.End, Stmt.EndOf, Decl.PosOf, Decl.EndOf,
      Spec.Pos, Spec.End, Decl.Pos, Decl.End, Ident.PosOf, Ident.EndOf, BasicLit.PosOf,
      BasicLit.EndOf, Ident.Pos, Ident.End, BasicLit.Pos, BasicLit.End, deref, h])) <;>
    (try (first
      | exact int.le_add_ofNat _ _ hf
      | exact int.le_add_natCast _ _ hf
      | exact le_of_eq_of_le h.2 (int.le_add_ofNat _ _ hf)
      | exact le_of_eq_of_le h.2 (int.le_add_natCast _ _ hf)
      | exact le_of_eq_of_le h (int.le_add_ofNat _ _ hf)
      | rw [← h.1, h.2]))
  | StructType aStruct aFields aIncomplete =>
    cases aFields <;>
    (try (simp only [Expr.endFits, Stmt.endFits, Node.endFits] at hf)) <;>
    (try (simp [Expr.layout, CallExpr.layout, FuncType.layout, Field.layout, BlockStmt.layout,
      Stmt.layout, Spec.layout, Decl.layout, Part.req, Part.opt, Part.many, Part.tokIf, Expr.node,
      Ident.node, BasicLit.node, FuncType.node, CallExpr.node, BlockStmt.node, FieldList.node,
      Field.node, Stmt.node, Decl.node, Spec.node, List.getLast?_cons] at h)) <;>
    (try (simp only [Part.span_tok_iff, Part.span_node_none, Part.span_node_some] at h)) <;>
    (try (simp [Expr.Pos, Expr.PosOf, Expr.End, Expr.EndOf, CallExpr.PosOf, CallExpr.EndOf,
      FuncType.PosOf, FuncType.EndOf, FieldList.PosOf, FieldList.EndOf, BlockStmt.PosOf,
      BlockStmt.EndOf, Stmt.Pos, Stmt.PosOf, Stmt.End, Stmt.EndOf, Decl.PosOf, Decl.EndOf,
      Spec.Pos, Spec.End, Decl.Pos, Decl.End, Ident.PosOf, Ident.EndOf, BasicLit.PosOf,
      BasicLit.EndOf, Ident.Pos, Ident.End, BasicLit.Pos, BasicLit.End, deref, Node.Pos,
      Node.End] at h)) <;>
    (try (simp [Expr.Pos, Expr.PosOf, Expr.End, Expr.EndOf, CallExpr.PosOf, CallExpr.EndOf,
      FuncType.PosOf, FuncType.EndOf, FieldList.PosOf, FieldList.EndOf, BlockStmt.PosOf,
      BlockStmt.EndOf, Stmt.Pos, Stmt.PosOf, Stmt.End, Stmt.EndOf, Decl.PosOf, Decl.EndOf,
      Spec.Pos, Spec.End, Decl.Pos, Decl.End, Ident.PosOf, Ident.EndOf, BasicLit.PosOf,
      BasicLit.EndOf, Ident.Pos, Ident.End, BasicLit.Pos, BasicLit.End, deref, h])) <;>
    (try (first
      | exact int.le_add_ofNat _ _ hf
      | exact int.le_add_natCast _ _ hf
      | exact le_of_eq_of_le h.2 (int.le_add_ofNat _ _ hf)
      | exact le_of_eq_of_le h.2 (int.le_add_natCast _ _ hf)
      | exact le_of_eq_of_le h (int.le_add_ofNat _ _ hf)
      | rw [← h.1, h.2]))
  | FuncType aft =>
    exact FuncType_frame_last aft s h
  | InterfaceType aInterface aMethods aIncomplete =>
    cases aMethods <;>
    (try (simp only [Expr.endFits, Stmt.endFits, Node.endFits] at hf)) <;>
    (try (simp [Expr.layout, CallExpr.layout, FuncType.layout, Field.layout, BlockStmt.layout,
      Stmt.layout, Spec.layout, Decl.layout, Part.req, Part.opt, Part.many, Part.tokIf, Expr.node,
      Ident.node, BasicLit.node, FuncType.node, CallExpr.node, BlockStmt.node, FieldList.node,
      Field.node, Stmt.node, Decl.node, Spec.node, List.getLast?_cons] at h)) <;>
    (try (simp only [Part.span_tok_iff, Part.span_node_none, Part.span_node_some] at h)) <;>
    (try (simp [Expr.Pos, Expr.PosOf, Expr.End, Expr.EndOf, CallExpr.PosOf, CallExpr.EndOf,
      FuncType.PosOf, FuncType.EndOf, FieldList.PosOf, FieldList.EndOf, BlockStmt.PosOf,
      BlockStmt.EndOf, Stmt.Pos, Stmt.PosOf, Stmt.End, Stmt.EndOf, Decl.PosOf, Decl.EndOf,
      Spec.Pos, Spec.End, Decl.Pos, Decl.End, Ident.PosOf, Ident.EndOf, BasicLit.PosOf,
      BasicLit.EndOf, Ident.Pos, Ident.End, BasicLit.Pos, BasicLit.End, deref, Node.Pos,
      Node.End] at h)) <;>
    (try (simp [Expr.Pos, Expr.PosOf, Expr.End, Expr.EndOf, CallExpr.PosOf, CallExpr.EndOf,
      FuncType.PosOf, FuncType.EndOf, FieldList.PosOf, FieldList.EndOf, BlockStmt.PosOf,
      BlockStmt.EndOf, Stmt.Pos, Stmt.PosOf, Stmt.End, Stmt.EndOf, Decl.PosOf, Decl.EndOf,
      Spec.Pos, Spec.End, Decl.Pos, Decl.End, Ident.PosOf, Ident.EndOf, BasicLit.PosOf,
      BasicLit.EndOf, Ident.Pos, Ident.End, BasicLit.Pos, BasicLit.End, deref, h])) <;>
    (try (first
      | exact int.le_add_ofNat _ _ hf
      | exact int.le_add_natCast _ _ hf
      | exact le_of_eq_of_le h.2 (int.le_add_ofNat _ _ hf)
      | exact le_of_eq_of_le h.2 (int.le_add_natCast _ _ hf)
      | exact le_of_eq_of_le h (int.le_add_ofNat _ _ hf)
      | rw [← h.1, h.2]))
  | MapType aMap aKey aValue =>
    cases aKey <;> cases aValue <;>
    (try (simp only [Expr.endFits, Stmt.endFits, Node.endFits] at hf)) <;>
    (try (simp [Expr.layout, CallExpr.layout, FuncType.layout, Field.layout, BlockStmt.layout,
      Stmt.layout, Spec.layout, Decl.layout, Part.req, Part.opt, Part.many, Part.tokIf, Expr.node,
      Ident.node, BasicLit.node, FuncType.node, CallExpr.node, BlockStmt.node, FieldList.node,
      Field.node, Stmt.node, Decl.node, Spec.node, List.getLast?_cons] at h)) <;>
    (try (simp only [Part.span_tok_iff, Part.span_node_none, Part.span_node_some] at h)) <;>
    (try (simp [Expr.Pos, Expr.PosOf, Expr.End, Expr.EndOf, CallExpr.PosOf, CallExpr.EndOf,
      FuncType.PosOf, FuncType.EndOf, FieldList.PosOf, FieldList.EndOf, BlockStmt.PosOf,
      BlockStmt.EndOf, Stmt.Pos, Stmt.PosOf, Stmt.End, Stmt.EndOf, Decl.PosOf, Decl.EndOf,
      Spec.Pos, Spec.End, Decl.Pos, Decl.End, Ident.PosOf, Ident.EndOf, BasicLit.PosOf,
      BasicLit.EndOf, Ident.Pos, Ident.End, BasicLit.Pos, BasicLit.End, deref, Node.Pos,
      Node.End] at h)) <;>
    (try (simp [Expr.Pos, Expr.PosOf, Expr.End, Expr.EndOf, CallExpr.PosOf, CallExpr.EndOf,
      FuncType.PosOf, FuncType.EndOf, FieldList.PosOf, FieldList.EndOf, BlockStmt.PosOf,
      BlockStmt.EndOf, Stmt.Pos, Stmt.PosOf, Stmt.End, Stmt.EndOf, Decl.PosOf, Decl.EndOf,
      Spec.Pos, Spec.End, Decl.Pos, Decl.End, Ident.PosOf, Ident.EndOf, BasicLit.PosOf,
      BasicLit.EndOf, Ident.Pos, Ident.End, BasicLit.Pos, BasicLit.End, deref, h])) <;>
    (try (first
      | exact int.le_add_ofNat _ _ hf
      | exact int.le_add_natCast _ _ hf
      | exact le_of_eq_of_le h.2 (int.le_add_ofNat _ _ hf)
      | exact le_of_eq_of_le h.2 (int.le_add_natCast _ _ hf)
      | exact le_of_eq_of_le h (int.le_add_ofNat _ _ hf)
      | rw [← h.1, h.2]))
  | ChanType aBegin aDir aValue =>
    cases aValue <;>
    (try (simp only [Expr.endFits, Stmt.endFits, Node.endFits] at hf)) <;>
    (try (simp [Expr.layout, CallExpr.layout, FuncType.layout, Field.layout, BlockStmt.layout,
      Stmt.layout, Spec.layout, Decl.layout, Part.req, Part.opt, Part.many, Part.tokIf, Expr.node,
      Ident.node, BasicLit.node, FuncType.node, CallExpr.node, BlockStmt.node, FieldList.node,
      Field.node, Stmt.node, Decl.node, Spec.node, List.getLast?_cons] at h)) <;>
    (try (simp only [Part.span_tok_iff, Part.span_node_none, Part.span_node_some] at h)) <;>
    (try (simp [Expr.Pos, Expr.PosOf, Expr.End, Expr.EndOf, CallExpr.PosOf, CallExpr.EndOf,
      FuncType.PosOf, FuncType.EndOf, FieldList.PosOf, FieldList.EndOf, BlockStmt.PosOf,
      BlockStmt.EndOf, Stmt.Pos, Stmt.PosOf, Stmt.End, Stmt.EndOf, Decl.PosOf, Decl.EndOf,
      Spec.Pos, Spec.End, Decl.Pos, Decl.End, Ident.PosOf, Ident.EndOf, BasicLit.PosOf,
      BasicLit.EndOf, Ident.Pos, Ident.End, BasicLit.Pos, BasicLit.End, deref, Node.Pos,
      Node.End] at h)) <;>
    (try (simp [Expr.Pos, Expr.PosOf, Expr.End, Expr.EndOf, CallExpr.PosOf, CallExpr.EndOf,
      FuncType.PosOf, FuncType.EndOf, FieldList.PosOf, FieldList.EndOf, BlockStmt.PosOf,
      BlockStmt.EndOf, Stmt.Pos, Stmt.PosOf, Stmt.End, Stmt.EndOf, Decl.PosOf, Decl.EndOf,
      Spec.Pos, Spec.End, Decl.Pos, Decl.End, Ident.PosOf, Ident.EndOf, BasicLit.PosOf,
      BasicLit.EndOf, Ident.Pos, Ident.End, BasicLit.Pos, BasicLit.End, deref, h])) <;>
    (try (first
      | exact int.le_add_ofNat _ _ hf
      | exact int.le_add_natCast _ _ hf
      | exact le_of_eq_of_le h.2 (int.le_add_ofNat _ _ hf)
      | exact le_of_eq_of_le h.2 (int.le_add_natCast _ _ hf)
      | exact le_of_eq_of_le h (int.le_add_ofNat _ _ hf)
      | rw [← h.1, h.2]))

end GoDef

namespace GoDef

theorem Part.getLast_many {α : Type} (f : Option α → Option Node) (pre : List Part)
    (xs : List (Option α)) (h : xs ≠ []) :
    (pre ++ Part.many (xs.map f)).getLast? = some (.node (f (xs.getLast h))) := by
  have h1 : Part.many (xs.map f) ≠ [] := by
    cases xs with
    | nil => exact absurd rfl h
    | cons x xs => simp [Part.many]
  rw [List.getLast?_append_of_ne_nil _ h1, List.getLast?_eq_getLast _ h1]
  simp [Part.many, List.getLast_map]

theorem Expr_span_node (y : Option Expr) (s : Span)
    (h : Part.span (.node (Expr.node y)) = some s) :
    Expr.PosOf y = .ok s.1 ∧ Expr.EndOf y = .ok s.2 := by
  cases y with
  | none => simp [Expr.node, Part.span] at h
  | some e => exact (Part.span_node_some _ _).1 h

theorem Ident_span_node (y : Option Ident) (s : Span)
    (h : Part.span (.node (Ident.node y)) = some s) :
    Ident.PosOf y = .ok s.1 ∧ Ident.EndOf y = .ok s.2 := by
  cases y with
  | none => simp [Ident.node, Part.span] at h
  | some e => exact (Part.span_node_some _ _).1 h

theorem Stmt_span_node (y : Option Stmt) (s : Span)
    (h : Part.span (.node (Stmt.node y)) = some s) :
    Stmt.PosOf y = .ok s.1 ∧ Stmt.EndOf y = .ok s.2 := by
  cases y with
  | none => simp [Stmt.node, Part.span] at h
  | some e => exact (Part.span_node_some _ _).1 h

theorem Field_span_node (y : Option Field) (s : Span)
    (h : Part.span (.node (Field.node y)) = some s) :
    Field.PosOf y = .ok s.1 ∧ Field.EndOf y = .ok s.2 := by
  cases y with
  | none => simp [Field.node, Part.span] at h
  | some e => exact (Part.span_node_some _ _).1 h

theorem Spec_span_node (y : Option Spec) (s : Span)
    (h : Part.span (.node (Spec.node y)) = some s) :
    Spec.PosOf y = .ok s.1 ∧ Spec.EndOf y = .ok s.2 := by
  cases y with
  | none => simp [Spec.node, Part.span] at h
  | some e => exact (Part.span_node_some _ _).1 h

theorem Decl_span_node (y : Option Decl) (s : Span)
    (h : Part.span (.node (Decl.node y)) = some s) :
    Decl.PosOf y = .ok s.1 ∧ Decl.EndOf y = .ok s.2 := by
  cases y with
  | none => simp [Decl.node, Part.span] at h
  | some e => exact (Part.span_node_some _ _).1 h

theorem Comment_span_node (y : Option Comment) (s : Span)
    (h : Part.span (.node (Comment.node y)) = some s) :
    deref y (fun c => Except.ok c.Pos) = .ok s.1 ∧
      deref y (fun c => Except.ok c.End) = (.ok s.2 : Except Failure token.Pos) := by
  cases y with
  | none => simp [Comment.node, Part.span] at h
  | some e => exact (Part.span_node_some _ _).1 h

theorem Stmt_EndLast_eq (ss : List (Option Stmt)) (h : ss ≠ []) :
    Stmt.EndLast ss = Stmt.EndOf (ss.getLast h) := by
  induction ss with
  | nil => exact absurd rfl h
  | cons x xs ih =>
    cases xs with
    | nil => rfl
    | cons y ys =>
      rw [List.getLast_cons (List.cons_ne_nil y ys)]
      rw [← ih (List.cons_ne_nil y ys)]
      rfl

theorem Stmt_frame_head_AssignStmt (Lhs : List (Option Expr)) (TokPos : token.Pos)
    (Tok : token.Token) (Rhs : List (Option Expr))
    (hr : (Node.Stmt (.AssignStmt Lhs TokPos Tok Rhs)).requiredLists = true) (s : Span)
    (h : ((Stmt.AssignStmt Lhs TokPos Tok Rhs).layout.head?.bind Part.span) = some s) :
    Stmt.Pos (.AssignStmt Lhs TokPos Tok Rhs) = .ok s.1 := by
  cases Lhs with
  | nil => simp [Node.requiredLists] at hr
  | cons e es => exact (Expr_span_node e s h).1

theorem Stmt_frame_last_AssignStmt (Lhs : List (Option Expr)) (TokPos : token.Pos)
    (Tok : token.Token) (Rhs : List (Option Expr))
    (hr : (Node.Stmt (.AssignStmt Lhs TokPos Tok Rhs)).requiredLists = true) (s : Span)
    (h : ((Stmt.AssignStmt Lhs TokPos Tok Rhs).layout.getLast?.bind Part.span) = some s) :
    ∃ e, Stmt.End (.AssignStmt Lhs TokPos Tok Rhs) = .ok e ∧ s.2 ≤ e := by
  have hne : Rhs ≠ [] := by
    intro h0
    simp [Node.requiredLists, h0] at hr
  have h2 : ((Part.many (Lhs.map Expr.node) ++ [Part.tok TokPos] ++
      Part.many (Rhs.map Expr.node)).getLast?.bind Part.span) = some s := h
  rw [Part.getLast_many Expr.node _ Rhs hne] at h2
  exact ⟨s.2, by rw [← (Expr_span_node _ s h2).2]; exact Expr.EndLast_eq Rhs hne, le_refl _⟩

theorem Stmt_frame_last_ReturnStmt (Return : token.Pos) (Results : List (Option Expr))
    (hf : (Stmt.ReturnStmt Return Results).endFits = true) (s : Span)
    (h : ((Stmt.ReturnStmt Return Results).layout.getLast?.bind Part.span) = some s) :
    ∃ e, Stmt.End (.ReturnStmt Return Results) = .ok e ∧ s.2 ≤ e := by
  cases Results with
  | nil =>
    have h2 : s.1 = Return ∧ s.2 = Return := (Part.span_tok_iff Return s).1 h
    refine ⟨Return + 6, rfl, ?_⟩
    rw [h2.2]
    exact int.le_add_ofNat Return 6 hf
  | cons r rs =>
    have h2 : (([Part.tok Return] ++
        Part.many ((r :: rs).map Expr.node)).getLast?.bind Part.span) = some s := h
    rw [Part.getLast_many Expr.node _ (r :: rs) (List.cons_ne_nil r rs)] at h2
    exact ⟨s.2, by rw [← (Expr_span_node _ s h2).2]; exact Expr.EndLast_eq _ _, le_refl _⟩

theorem Stmt_frame_last_CaseClause (Case : token.Pos) (Lst : List (Option Expr))
    (Colon : token.Pos) (Body : List (Option Stmt))
    (hf : (Stmt.CaseClause Case Lst Colon Body).endFits = true) (s : Span)
    (h : ((Stmt.CaseClause Case Lst Colon Body).layout.getLast?.bind Part.span) = some s) :
    ∃ e, Stmt.End (.CaseClause Case Lst Colon Body) = .ok e ∧ s.2 ≤ e := by
  cases Body with
  | nil =>
    have h2 : s.1 = Colon ∧ s.2 = Colon := by
      apply (Part.span_tok_iff Colon s).1
      simpa [Stmt.layout, Part.many, List.getLast?_append, List.getLast?_cons] using h
    refine ⟨Colon + 1, rfl, ?_⟩
    rw [h2.2]
    exact int.le_add_ofNat Colon 1 hf
  | cons r rs =>
    have h2 : (([Part.tok Case] ++ Part.many (Lst.map Expr.node) ++ [Part.tok Colon] ++
        Part.many ((r :: rs).map Stmt.node)).getLast?.bind Part.span) = some s := h
    rw [Part.getLast_many Stmt.node _ (r :: rs) (List.cons_ne_nil r rs)] at h2
    exact ⟨s.2, by rw [← (Stmt_span_node _ s h2).2]; exact Stmt_EndLast_eq _ _, le_refl _⟩

theorem Stmt_frame_last_CommClause (Case : token.Pos) (Comm : Option Stmt)
    (Colon : token.Pos) (Body : List (Option Stmt))
    (hf : (Stmt.CommClause Case Comm Colon Body).endFits = true) (s : Span)
    (h : ((Stmt.CommClause Case Comm Colon Body).layout.getLast?.bind Part.span) = some s) :
    ∃ e, Stmt.End (.CommClause Case Comm Colon Body) = .ok e ∧ s.2 ≤ e := by
  cases Body with
  | nil =>
    have h2 : s.1 = Colon ∧ s.2 = Colon := by
      apply (Part.span_tok_iff Colon s).1
      simpa [Stmt.layout, Part.many, List.getLast?_append, List.getLast?_cons] using h
    refine ⟨Colon + 1, rfl, ?_⟩
    rw [h2.2]
    exact int.le_add_ofNat Colon 1 hf
  | cons r rs =>
    have h2 : (([Part.tok Case] ++ Part.opt (Stmt.node Comm) ++ [Part.tok Colon] ++
        Part.many ((r :: rs).map Stmt.node)).getLast?.bind Part.span) = some s := h
    rw [Part.getLast_many Stmt.node _ (r :: rs) (List.cons_ne_nil r rs)] at h2
    exact ⟨s.2, by rw [← (Stmt_span_node _ s h2).2]; exact Stmt_EndLast_eq _ _, le_refl _⟩

theorem Spec_frame_head_ValueSpec (Doc : Option CommentGroup) (Names : List (Option Ident))
    (Typ : Option Expr) (Values : List (Option Expr)) (cmt : Option CommentGroup)
    (hr : (Node.Spec (.ValueSpec Doc Names Typ Values cmt)).requiredLists = true) (s : Span)
    (h : ((Spec.ValueSpec Doc Names Typ Values cmt).layout.head?.bind Part.span) = some s) :
    Spec.Pos (.ValueSpec Doc Names Typ Values cmt) = .ok s.1 := by
  cases Names with
  | nil => simp [Node.requiredLists] at hr
  | cons e es => exact (Ident_span_node e s h).1

theorem Spec_frame_last_ValueSpec (Doc : Option CommentGroup) (Names : List (Option Ident))
    (Typ : Option Expr) (Values : List (Option Expr)) (cmt : Option CommentGroup)
    (hr : (Node.Spec (.ValueSpec Doc Names Typ Values cmt)).requiredLists = true) (s : Span)
    (h : ((Spec.ValueSpec Doc Names Typ Values cmt).layout.getLast?.bind Part.span) = some s) :
    ∃ e, Spec.End (.ValueSpec Doc Names Typ Values cmt) = .ok e ∧ s.2 ≤ e := by
  have hne : Names ≠ [] := by
    intro h0
    simp [Node.requiredLists, h0] at hr
  cases Values with
  | cons r rs =>
    have h2 : ((Part.many (Names.map Ident.node) ++ Part.opt (Expr.node Typ) ++
        Part.many ((r :: rs).map Expr.node)).getLast?.bind Part.span) = some s := h
    rw [Part.getLast_many Expr.node _ (r :: rs) (List.cons_ne_nil r rs)] at h2
    exact ⟨s.2, by rw [← (Expr_span_node _ s h2).2]; exact Expr.EndLast_eq _ _, le_refl _⟩
  | nil =>
    cases Typ with
    | some t =>
      have h2 : Part.span (.node (Expr.node (some t))) = some s := by
        simpa [Spec.layout, Part.many, Part.opt, Expr.node, List.getLast?_append, List.getLast?_cons] using h
      exact ⟨s.2, (Expr_span_node _ s h2).2, le_refl _⟩
    | none =>
      have h2 : ((([] : List Part) ++ Part.many (Names.map Ident.node)).getLast?.bind
          Part.span) = some s := by
        simpa [Spec.layout, Part.many, Part.opt, Expr.node] using h
      rw [Part.getLast_many Ident.node _ Names hne] at h2
      refine ⟨s.2, ?_, le_refl _⟩
      rw [← (Ident_span_node _ s h2).2]
      show (lastElem Names).bind Ident.EndOf = _
      rw [lastElem_eq_getLast Names hne]
      rfl

theorem Decl_frame_head_GenDecl (Doc : Option CommentGroup) (TokPos : token.Pos)
    (Tok : token.Token) (Lparen : token.Pos) (Specs : List (Option Spec)) (Rparen : token.Pos)
    (s : Span)
    (h : ((Decl.GenDecl Doc TokPos Tok Lparen Specs Rparen).layout.head?.bind Part.span) =
      some s) :
    Decl.Pos (.GenDecl Doc TokPos Tok Lparen Specs Rparen) = .ok s.1 := by
  have h2 : s.1 = TokPos ∧ s.2 = TokPos := by
    apply (Part.span_tok_iff TokPos s).1
    by_cases hv : Rparen.IsValid = true <;> simpa [Decl.layout, hv] using h
  rw [h2.1]
  rfl

theorem Decl_frame_last_GenDecl (Doc : Option CommentGroup) (TokPos : token.Pos)
    (Tok : token.Token) (Lparen : token.Pos) (Specs : List (Option Spec)) (Rparen : token.Pos)
    (hr : (Node.Decl (.GenDecl Doc TokPos Tok Lparen Specs Rparen)).requiredLists = true)
    (hf : (Node.Decl (.GenDecl Doc TokPos Tok Lparen Specs Rparen)).endFits = true)
    (s : Span)
    (h : ((Decl.GenDecl Doc TokPos Tok Lparen Specs Rparen).layout.getLast?.bind Part.span) =
      some s) :
    ∃ e, Decl.End (.GenDecl Doc TokPos Tok Lparen Specs Rparen) = .ok e ∧ s.2 ≤ e := by
  by_cases hv : Rparen.IsValid = true
  · have h2 : s.1 = Rparen ∧ s.2 = Rparen := by
      apply (Part.span_tok_iff Rparen s).1
      simpa [Decl.layout, hv, List.getLast?_append, List.getLast?_cons] using h
    refine ⟨Rparen + 1, by simp [Decl.End, hv], ?_⟩
    rw [h2.2]
    exact int.le_add_ofNat Rparen 1 (by simpa [Node.endFits, hv] using hf)
  · cases Specs with
    | nil => simp [Node.requiredLists, hv] at hr
    | cons sp sps =>
      have h2 : Part.span (.node (Spec.node sp)) = some s := by
        simpa [Decl.layout, hv, Part.many, List.getLast?_append, List.getLast?_cons] using h
      exact ⟨s.2, by simpa [Decl.End, hv] using (Spec_span_node _ s h2).2, le_refl _⟩

theorem Part.spans_none_of_mem (ps : List Part) (h : Part.node none ∈ ps) :
    Part.spans ps = none := by
  induction ps with
  | nil => cases h
  | cons p ps ih =>
    rcases List.mem_cons.1 h with h1 | h1
    · rw [← h1]
      simp [Part.spans, Part.span]
    · simp only [Part.spans, ih h1]
      cases p.span <;> rfl

theorem Decl_frame_head_FuncDecl (Doc : Option CommentGroup) (Recv : Option FieldList)
    (Name : Option Ident) (Typ : Option FuncType) (Body : Option BlockStmt)
    (hsp : Part.spans (Decl.FuncDecl Doc Recv Name Typ Body).layout ≠ none) (s : Span)
    (h : ((Decl.FuncDecl Doc Recv Name Typ Body).layout.head?.bind Part.span) = some s) :
    Decl.Pos (.FuncDecl Doc Recv Name Typ Body) = .ok s.1 := by
  rcases Typ with _ | ⟨⟨Func, Params, Results⟩⟩
  · exact absurd (Part.spans_none_of_mem _ (by simp [Decl.layout, Part.req])) hsp
  · have h2 : s.1 = Func ∧ s.2 = Func := (Part.span_tok_iff Func s).1 h
    rw [h2.1]
    rfl

theorem Decl_frame_last_FuncDecl (Doc : Option CommentGroup) (Recv : Option FieldList)
    (Name : Option Ident) (Typ : Option FuncType) (Body : Option BlockStmt)
    (hsp : Part.spans (Decl.FuncDecl Doc Recv Name Typ Body).layout ≠ none) (s : Span)
    (h : ((Decl.FuncDecl Doc Recv Name Typ Body).layout.getLast?.bind Part.span) = some s) :
    ∃ e, Decl.End (.FuncDecl Doc Recv Name Typ Body) = .ok e ∧ s.2 ≤ e := by
  rcases Typ with _ | ⟨⟨Func, Params, Results⟩⟩
  · exact absurd (Part.spans_none_of_mem _ (by simp [Decl.layout, Part.req])) hsp
  · cases Body with
    | some b =>
      have h2 : Part.span (.node (some (Node.Stmt (.BlockStmt b)))) = some s := by
        simpa [Decl.layout, Part.opt, Part.req, BlockStmt.node, List.getLast?_append,
          List.getLast?_cons] using h
      exact ⟨s.2, ((Part.span_node_some _ _).1 h2).2, le_refl _⟩
    | none =>
      cases Results with
      | some r =>
        have h2 : Part.span (.node (some (Node.FieldList r))) = some s := by
          simpa [Decl.layout, Part.opt, Part.req, BlockStmt.node, FieldList.node,
            List.getLast?_append, List.getLast?_cons] using h
        exact ⟨s.2, ((Part.span_node_some _ _).1 h2).2, le_refl _⟩
      | none =>
        cases Params with
        | none =>
          have h2 : Part.span (.node none) = some s := by
            simpa [Decl.layout, Part.opt, Part.req, BlockStmt.node, FieldList.node,
              List.getLast?_append, List.getLast?_cons] using h
          simp [Part.span] at h2
        | some p =>
          have h2 : Part.span (.node (some (Node.FieldList p))) = some s := by
            simpa [Decl.layout, Part.opt, Part.req, BlockStmt.node, FieldList.node,
              List.getLast?_append, List.getLast?_cons] using h
          exact ⟨s.2, ((Part.span_node_some _ _).1 h2).2, le_refl _⟩

set_option linter.unusedTactic false in
set_option linter.unreachableTactic false in
set_option linter.unnecessarySeqFocus false in
set_option maxHeartbeats 4000000 in
theorem Stmt_frame_head (x : Stmt) (hr : (Node.Stmt x).requiredLists = true) (s : Span)
    (h : (x.layout.head?.bind Part.span) = some s) : Stmt.Pos x = .ok s.1 := by
  cases x with
  | BadStmt aFrom aTo =>
    (try (simp [Expr.layout, CallExpr.layout, FuncType.layout, Field.layout, BlockStmt.layout,
      Stmt.layout, Spec.layout, Decl.layout, Part.req, Part.opt, Part.many, Part.tokIf, Expr.node,
      Ident.node, BasicLit.node, FuncType.node, CallExpr.node, BlockStmt.node, FieldList.node,
      Field.node, Stmt.node, Decl.node, Spec.node, List.getLast?_cons] at h)) <;>
    (try (simp only [Part.span_tok_iff, Part.span_node_none, Part.span_node_some] at h)) <;>
    (try (simp [Expr.Pos, Expr.PosOf, Expr.End, Expr.EndOf, CallExpr.PosOf, CallExpr.EndOf,
      FuncType.PosOf, FuncType.EndOf, FieldList.PosOf, FieldList.EndOf, BlockStmt.PosOf,
      BlockStmt.EndOf, Stmt.Pos, Stmt.PosOf, Stmt.End, Stmt.EndOf, Decl.PosOf, Decl.EndOf,
      Spec.Pos, Spec.End, Decl.Pos, Decl.End, Ident.PosOf, Ident.EndOf, BasicLit.PosOf,
      BasicLit.EndOf, Ident.Pos, Ident.End, BasicLit.Pos, BasicLit.End, deref, Node.Pos,
      Node.End] at h)) <;>
    (try (simp [Expr.Pos, Expr.PosOf, Expr.End, Expr.EndOf, CallExpr.PosOf, CallExpr.EndOf,
      FuncType.PosOf, FuncType.EndOf, FieldList.PosOf, FieldList.EndOf, BlockStmt.PosOf,
      BlockStmt.EndOf, Stmt.Pos, Stmt.PosOf, Stmt.End, Stmt.EndOf, Decl.PosOf, Decl.EndOf,
      Spec.Pos, Spec.End, Decl.Pos, Decl.End, Ident.PosOf, Ident.EndOf, BasicLit.PosOf,
      BasicLit.EndOf, Ident.Pos, Ident.End, BasicLit.Pos, BasicLit.End, deref, h]))
  | DeclStmt aDecl =>
    cases aDecl <;>
    (try (simp [Expr.layout, CallExpr.layout, FuncType.layout, Field.layout, BlockStmt.layout,
      Stmt.layout, Spec.layout, Decl.layout, Part.req, Part.opt, Part.many, Part.tokIf, Expr.node,
      Ident.node, BasicLit.node, FuncType.node, CallExpr.node, BlockStmt.node, FieldList.node,
      Field.node, Stmt.node, Decl.node, Spec.node, List.getLast?_cons] at h)) <;>
    (try (simp only [Part.span_tok_iff, Part.span_node_none, Part.span_node_some] at h)) <;>
    (try (simp [Expr.Pos, Expr.PosOf, Expr.End, Expr.EndOf, CallExpr.PosOf, CallExpr.EndOf,
      FuncType.PosOf, FuncType.EndOf, FieldList.PosOf, FieldList.EndOf, BlockStmt.PosOf,
      BlockStmt.EndOf, Stmt.Pos, Stmt.PosOf, Stmt.End, Stmt.EndOf, Decl.PosOf, Decl.EndOf,
      Spec.Pos, Spec.End, Decl.Pos, Decl.End, Ident.PosOf, Ident.EndOf, BasicLit.PosOf,
      BasicLit.EndOf, Ident.Pos, Ident.End, BasicLit.Pos, BasicLit.End, deref, Node.Pos,
      Node.End] at h)) <;>
    (try (simp [Expr.Pos, Expr.PosOf, Expr.End, Expr.EndOf, CallExpr.PosOf, CallExpr.EndOf,
      FuncType.PosOf, FuncType.EndOf, FieldList.PosOf, FieldList.EndOf, BlockStmt.PosOf,
      BlockStmt.EndOf, Stmt.Pos, Stmt.PosOf, Stmt.End, Stmt.EndOf, Decl.PosOf, Decl.EndOf,
      Spec.Pos, Spec.End, Decl.Pos, Decl.End, Ident.PosOf, Ident.EndOf, BasicLit.PosOf,
      BasicLit.EndOf, Ident.Pos, Ident.End, BasicLit.Pos, BasicLit.End, deref, h]))
  | EmptyStmt aSemicolon =>
    (try (simp [Expr.layout, CallExpr.layout, FuncType.layout, Field.layout, BlockStmt.layout,
      Stmt.layout, Spec.layout, Decl.layout, Part.req, Part.opt, Part.many, Part.tokIf, Expr.node,
      Ident.node, BasicLit.node, FuncType.node, CallExpr.node, BlockStmt.node, FieldList.node,
      Field.node, Stmt.node, Decl.node, Spec.node, List.getLast?_cons] at h)) <;>
    (try (simp only [Part.span_tok_iff, Part.span_node_none, Part.span_node_some] at h)) <;>
    (try (simp [Expr.Pos, Expr.PosOf, Expr.End, Expr.EndOf, CallExpr.PosOf, CallExpr.EndOf,
      FuncType.PosOf, FuncType.EndOf, FieldList.PosOf, FieldList.EndOf, BlockStmt.PosOf,
      BlockStmt.EndOf, Stmt.Pos, Stmt.PosOf, Stmt.End, Stmt.EndOf, Decl.PosOf, Decl.EndOf,
      Spec.Pos, Spec.End, Decl.Pos, Decl.End, Ident.PosOf, Ident.EndOf, BasicLit.PosOf,
      BasicLit.EndOf, Ident.Pos, Ident.End, BasicLit.Pos, BasicLit.End, deref, Node.Pos,
      Node.End] at h)) <;>
    (try (simp [Expr.Pos, Expr.PosOf, Expr.End, Expr.EndOf, CallExpr.PosOf, CallExpr.EndOf,
      FuncType.PosOf, FuncType.EndOf, FieldList.PosOf, FieldList.EndOf, BlockStmt.PosOf,
      BlockStmt.EndOf, Stmt.Pos, Stmt.PosOf, Stmt.End, Stmt.EndOf, Decl.PosOf, Decl.EndOf,
      Spec.Pos, Spec.End, Decl.Pos, Decl.End, Ident.PosOf, Ident.EndOf, BasicLit.PosOf,
      BasicLit.EndOf, Ident.Pos, Ident.End, BasicLit.Pos, BasicLit.End, deref, h]))
  | LabeledStmt aLabel aColon aStmt =>
    cases aLabel <;> cases aStmt <;>
    (try (simp [Expr.layout, CallExpr.layout, FuncType.layout, Field.layout, BlockStmt.layout,
      Stmt.layout, Spec.layout, Decl.layout, Part.req, Part.opt, Part.many, Part.tokIf, Expr.node,
      Ident.node, BasicLit.node, FuncType.node, CallExpr.node, BlockStmt.node, FieldList.node,
      Field.node, Stmt.node, Decl.node, Spec.node, List.getLast?_cons] at h)) <;>
    (try (simp only [Part.span_tok_iff, Part.span_node_none, Part.span_node_some] at h)) <;>
    (try (simp [Expr.Pos, Expr.PosOf, Expr.End, Expr.EndOf, CallExpr.PosOf, CallExpr.EndOf,
      FuncType.PosOf, FuncType.EndOf, FieldList.PosOf, FieldList.EndOf, BlockStmt.PosOf,
      BlockStmt.EndOf, Stmt.Pos, Stmt.PosOf, Stmt.End, Stmt.EndOf, Decl.PosOf, Decl.EndOf,
      Spec.Pos, Spec.End, Decl.Pos, Decl.End, Ident.PosOf, Ident.EndOf, BasicLit.PosOf,
      BasicLit.EndOf, Ident.Pos, Ident.End, BasicLit.Pos, BasicLit.End, deref, Node.Pos,
      Node.End] at h)) <;>
    (try (simp [Expr.Pos, Expr.PosOf, Expr.End, Expr.EndOf, CallExpr.PosOf, CallExpr.EndOf,
      FuncType.PosOf, FuncType.EndOf, FieldList.PosOf, FieldList.EndOf, BlockStmt.PosOf,
      BlockStmt.EndOf, Stmt.Pos, Stmt.PosOf, Stmt.End, Stmt.EndOf, Decl.PosOf, Decl.EndOf,
      Spec.Pos, Spec.End, Decl.Pos, Decl.End, Ident.PosOf, Ident.EndOf, BasicLit.PosOf,
      BasicLit.EndOf, Ident.Pos, Ident.End, BasicLit.Pos, BasicLit.End, deref, h]))
  | ExprStmt aX =>
    cases aX <;>
    (try (simp [Expr.layout, CallExpr.layout, FuncType.layout, Field.layout, BlockStmt.layout,
      Stmt.layout, Spec.layout, Decl.layout, Part.req, Part.opt, Part.many, Part.tokIf, Expr.node,
      Ident.node, BasicLit.node, FuncType.node, CallExpr.node, BlockStmt.node, FieldList.node,
      Field.node, Stmt.node, Decl.node, Spec.node, List.getLast?_cons] at h)) <;>
    (try (simp only [Part.span_tok_iff, Part.span_node_none, Part.span_node_some] at h)) <;>
    (try (simp [Expr.Pos, Expr.PosOf, Expr.End, Expr.EndOf, CallExpr.PosOf, CallExpr.EndOf,
      FuncType.PosOf, FuncType.EndOf, FieldList.PosOf, FieldList.EndOf, BlockStmt.PosOf,
      BlockStmt.EndOf, Stmt.Pos, Stmt.PosOf, Stmt.End, Stmt.EndOf, Decl.PosOf, Decl.EndOf,
      Spec.Pos, Spec.End, Decl.Pos, Decl.End, Ident.PosOf, Ident.EndOf, BasicLit.PosOf,
      BasicLit.EndOf, Ident.Pos, Ident.End, BasicLit.Pos, BasicLit.End, deref, Node.Pos,
      Node.End] at h)) <;>
    (try (simp [Expr.Pos, Expr.PosOf, Expr.End, Expr.EndOf, CallExpr.PosOf, CallExpr.EndOf,
      FuncType.PosOf, FuncType.EndOf, FieldList.PosOf, FieldList.EndOf, BlockStmt.PosOf,
      BlockStmt.EndOf, Stmt.Pos, Stmt.PosOf, Stmt.End, Stmt.EndOf, Decl.PosOf, Decl.EndOf,
      Spec.Pos, Spec.End, Decl.Pos, Decl.End, Ident.PosOf, Ident.EndOf, BasicLit.PosOf,
      BasicLit.EndOf, Ident.Pos, Ident.End, BasicLit.Pos, BasicLit.End, deref, h]))
  | SendStmt aChan aArrow aValue =>
    cases aChan <;> cases aValue <;>
    (try (simp [Expr.layout, CallExpr.layout, FuncType.layout, Field.layout, BlockStmt.layout,
      Stmt.layout, Spec.layout, Decl.layout, Part.req, Part.opt, Part.many, Part.tokIf, Expr.node,
      Ident.node, BasicLit.node, FuncType.node, CallExpr.node, BlockStmt.node, FieldList.node,
      Field.node, Stmt.node, Decl.node, Spec.node, List.getLast?_cons] at h)) <;>
    (try (simp only [Part.span_tok_iff, Part.span_node_none, Part.span_node_some] at h)) <;>
    (try (simp [Expr.Pos, Expr.PosOf, Expr.End, Expr.EndOf, CallExpr.PosOf, CallExpr.EndOf,
      FuncType.PosOf, FuncType.EndOf, FieldList.PosOf, FieldList.EndOf, BlockStmt.PosOf,
      BlockStmt.EndOf, Stmt.Pos, Stmt.PosOf, Stmt.End, Stmt.EndOf, Decl.PosOf, Decl.EndOf,
      Spec.Pos, Spec.End, Decl.Pos, Decl.End, Ident.PosOf, Ident.EndOf, BasicLit.PosOf,
      BasicLit.EndOf, Ident.Pos, Ident.End, BasicLit.Pos, BasicLit.End, deref, Node.Pos,
      Node.End] at h)) <;>
    (try (simp [Expr.Pos, Expr.PosOf, Expr.End, Expr.EndOf, CallExpr.PosOf, CallExpr.EndOf,
      FuncType.PosOf, FuncType.EndOf, FieldList.PosOf, FieldList.EndOf, BlockStmt.PosOf,
      BlockStmt.EndOf, Stmt.Pos, Stmt.PosOf, Stmt.End, Stmt.EndOf, Decl.PosOf, Decl.EndOf,
      Spec.Pos, Spec.End, Decl.Pos, Decl.End, Ident.PosOf, Ident.EndOf, BasicLit.PosOf,
      BasicLit.EndOf, Ident.Pos, Ident.End, BasicLit.Pos, BasicLit.End, deref, h]))
  | IncDecStmt aX aTokPos aTok =>
    cases aX <;>
    (try (simp [Expr.layout, CallExpr.layout, FuncType.layout, Field.layout, BlockStmt.layout,
      Stmt.layout, Spec.layout, Decl.layout, Part.req, Part.opt, Part.many, Part.tokIf, Expr.node,
      Ident.node, BasicLit.node, FuncType.node, CallExpr.node, BlockStmt.node, FieldList.node,
      Field.node, Stmt.node, Decl.node, Spec.node, List.getLast?_cons] at h)) <;>
    (try (simp only [Part.span_tok_iff, Part.span_node_none, Part.span_node_some] at h)) <;>
    (try (simp [Expr.Pos, Expr.PosOf, Expr.End, Expr.EndOf, CallExpr.PosOf, CallExpr.EndOf,
      FuncType.PosOf, FuncType.EndOf, FieldList.PosOf, FieldList.EndOf, BlockStmt.PosOf,
      BlockStmt.EndOf, Stmt.Pos, Stmt.PosOf, Stmt.End, Stmt.EndOf, Decl.PosOf, Decl.EndOf,
      Spec.Pos, Spec.End, Decl.Pos, Decl.End, Ident.PosOf, Ident.EndOf, BasicLit.PosOf,
      BasicLit.EndOf, Ident.Pos, Ident.End, BasicLit.Pos, BasicLit.End, deref, Node.Pos,
      Node.End] at h)) <;>
    (try (simp [Expr.Pos, Expr.PosOf, Expr.End, Expr.EndOf, CallExpr.PosOf, CallExpr.EndOf,
      FuncType.PosOf, FuncType.EndOf, FieldList.PosOf, FieldList.EndOf, BlockStmt.PosOf,
      BlockStmt.EndOf, Stmt.Pos, Stmt.PosOf, Stmt.End, Stmt.EndOf, Decl.PosOf, Decl.EndOf,
      Spec.Pos, Spec.End, Decl.Pos, Decl.End, Ident.PosOf, Ident.EndOf, BasicLit.PosOf,
      BasicLit.EndOf, Ident.Pos, Ident.End, BasicLit.Pos, BasicLit.End, deref, h]))
  | AssignStmt aLhs aTokPos aTok aRhs =>
    exact Stmt_frame_head_AssignStmt aLhs aTokPos aTok aRhs hr s h
  | GoStmt aGo aCall =>
    cases aCall <;>
    (try (simp [Expr.layout, CallExpr.layout, FuncType.layout, Field.layout, BlockStmt.layout,
      Stmt.layout, Spec.layout, Decl.layout, Part.req, Part.opt, Part.many, Part.tokIf, Expr.node,
      Ident.node, BasicLit.node, FuncType.node, CallExpr.node, BlockStmt.node, FieldList.node,
      Field.node, Stmt.node, Decl.node, Spec.node, List.getLast?_cons] at h)) <;>
    (try (simp only [Part.span_tok_iff, Part.span_node_none, Part.span_node_some] at h)) <;>
    (try (simp [Expr.Pos, Expr.PosOf, Expr.End, Expr.EndOf, CallExpr.PosOf, CallExpr.EndOf,
      FuncType.PosOf, FuncType.EndOf, FieldList.PosOf, FieldList.EndOf, BlockStmt.PosOf,
      BlockStmt.EndOf, Stmt.Pos, Stmt.PosOf, Stmt.End, Stmt.EndOf, Decl.PosOf, Decl.EndOf,
      Spec.Pos, Spec.End, Decl.Pos, Decl.End, Ident.PosOf, Ident.EndOf, BasicLit.PosOf,
      BasicLit.EndOf, Ident.Pos, Ident.End, BasicLit.Pos, BasicLit.End, deref, Node.Pos,
      Node.End] at h)) <;>
    (try (simp [Expr.Pos, Expr.PosOf, Expr.End, Expr.EndOf, CallExpr.PosOf, CallExpr.EndOf,
      FuncType.PosOf, FuncType.EndOf, FieldList.PosOf, FieldList.EndOf, BlockStmt.PosOf,
      BlockStmt.EndOf, Stmt.Pos, Stmt.PosOf, Stmt.End, Stmt.EndOf, Decl.PosOf, Decl.EndOf,
      Spec.Pos, Spec.End, Decl.Pos, Decl.End, Ident.PosOf, Ident.EndOf, BasicLit.PosOf,
      BasicLit.EndOf, Ident.Pos, Ident.End, BasicLit.Pos, BasicLit.End, deref, h]))
  | DeferStmt aDefer aCall =>
    cases aCall <;>
    (try (simp [Expr.layout, CallExpr.layout, FuncType.layout, Field.layout, BlockStmt.layout,
      Stmt.layout, Spec.layout, Decl.layout, Part.req, Part.opt, Part.many, Part.tokIf, Expr.node,
      Ident.node, BasicLit.node, FuncType.node, CallExpr.node, BlockStmt.node, FieldList.node,
      Field.node, Stmt.node, Decl.node, Spec.node, List.getLast?_cons] at h)) <;>
    (try (simp only [Part.span_tok_iff, Part.span_node_none, Part.span_node_some] at h)) <;>
    (try (simp [Expr.Pos, Expr.PosOf, Expr.End, Expr.EndOf, CallExpr.PosOf, CallExpr.EndOf,
      FuncType.PosOf, FuncType.EndOf, FieldList.PosOf, FieldList.EndOf, BlockStmt.PosOf,
      BlockStmt.EndOf, Stmt.Pos, Stmt.PosOf, Stmt.End, Stmt.EndOf, Decl.PosOf, Decl.EndOf,
      Spec.Pos, Spec.End, Decl.Pos, Decl.End, Ident.PosOf, Ident.EndOf, BasicLit.PosOf,
      BasicLit.EndOf, Ident.Pos, Ident.End, BasicLit.Pos, BasicLit.End, deref, Node.Pos,
      Node.End] at h)) <;>
    (try (simp [Expr.Pos, Expr.PosOf, Expr.End, Expr.EndOf, CallExpr.PosOf, CallExpr.EndOf,
      FuncType.PosOf, FuncType.EndOf, FieldList.PosOf, FieldList.EndOf, BlockStmt.PosOf,
      BlockStmt.EndOf, Stmt.Pos, Stmt.PosOf, Stmt.End, Stmt.EndOf, Decl.PosOf, Decl.EndOf,
      Spec.Pos, Spec.End, Decl.Pos, Decl.End, Ident.PosOf, Ident.EndOf, BasicLit.PosOf,
      BasicLit.EndOf, Ident.Pos, Ident.End, BasicLit.Pos, BasicLit.End, deref, h]))
  | ReturnStmt aReturn aResults =>
    (try (simp [Expr.layout, CallExpr.layout, FuncType.layout, Field.layout, BlockStmt.layout,
      Stmt.layout, Spec.layout, Decl.layout, Part.req, Part.opt, Part.many, Part.tokIf, Expr.node,
      Ident.node, BasicLit.node, FuncType.node, CallExpr.node, BlockStmt.node, FieldList.node,
      Field.node, Stmt.node, Decl.node, Spec.node, List.getLast?_cons] at h)) <;>
    (try (simp only [Part.span_tok_iff, Part.span_node_none, Part.span_node_some] at h)) <;>
    (try (simp [Expr.Pos, Expr.PosOf, Expr.End, Expr.EndOf, CallExpr.PosOf, CallExpr.EndOf,
      FuncType.PosOf, FuncType.EndOf, FieldList.PosOf, FieldList.EndOf, BlockStmt.PosOf,
      BlockStmt.EndOf, Stmt.Pos, Stmt.PosOf, Stmt.End, Stmt.EndOf, Decl.PosOf, Decl.EndOf,
      Spec.Pos, Spec.End, Decl.Pos, Decl.End, Ident.PosOf, Ident.EndOf, BasicLit.PosOf,
      BasicLit.EndOf, Ident.Pos, Ident.End, BasicLit.Pos, BasicLit.End, deref, Node.Pos,
      Node.End] at h)) <;>
    (try (simp [Expr.Pos, Expr.PosOf, Expr.End, Expr.EndOf, CallExpr.PosOf, CallExpr.EndOf,
      FuncType.PosOf, FuncType.EndOf, FieldList.PosOf, FieldList.EndOf, BlockStmt.PosOf,
      BlockStmt.EndOf, Stmt.Pos, Stmt.PosOf, Stmt.End, Stmt.EndOf, Decl.PosOf, Decl.EndOf,
      Spec.Pos, Spec.End, Decl.Pos, Decl.End, Ident.PosOf, Ident.EndOf, BasicLit.PosOf,
      BasicLit.EndOf, Ident.Pos, Ident.End, BasicLit.Pos, BasicLit.End, deref, h]))
  | BranchStmt aTokPos aTok aLabel =>
    cases aLabel <;>
    (try (simp [Expr.layout, CallExpr.layout, FuncType.layout, Field.layout, BlockStmt.layout,
      Stmt.layout, Spec.layout, Decl.layout, Part.req, Part.opt, Part.many, Part.tokIf, Expr.node,
      Ident.node, BasicLit.node, FuncType.node, CallExpr.node, BlockStmt.node, FieldList.node,
      Field.node, Stmt.node, Decl.node, Spec.node, List.getLast?_cons] at h)) <;>
    (try (simp only [Part.span_tok_iff, Part.span_node_none, Part.span_node_some] at h)) <;>
    (try (simp [Expr.Pos, Expr.PosOf, Expr.End, Expr.EndOf, CallExpr.PosOf, CallExpr.EndOf,
      FuncType.PosOf, FuncType.EndOf, FieldList.PosOf, FieldList.EndOf, BlockStmt.PosOf,
      BlockStmt.EndOf, Stmt.Pos, Stmt.PosOf, Stmt.End, Stmt.EndOf, Decl.PosOf, Decl.EndOf,
      Spec.Pos, Spec.End, Decl.Pos, Decl.End, Ident.PosOf, Ident.EndOf, BasicLit.PosOf,
      BasicLit.EndOf, Ident.Pos, Ident.End, BasicLit.Pos, BasicLit.End, deref, Node.Pos,
      Node.End] at h)) <;>
    (try (simp [Expr.Pos, Expr.PosOf, Expr.End, Expr.EndOf, CallExpr.PosOf, CallExpr.EndOf,
      FuncType.PosOf, FuncType.EndOf, FieldList.PosOf, FieldList.EndOf, BlockStmt.PosOf,
      BlockStmt.EndOf, Stmt.Pos, Stmt.PosOf, Stmt.End, Stmt.EndOf, Decl.PosOf, Decl.EndOf,
      Spec.Pos, Spec.End, Decl.Pos, Decl.End, Ident.PosOf, Ident.EndOf, BasicLit.PosOf,
      BasicLit.EndOf, Ident.Pos, Ident.End, BasicLit.Pos, BasicLit.End, deref, h]))
  | BlockStmt ablock =>
    exact BlockStmt_frame_head ablock s h
  | IfStmt aIf aInit aCond aBody aElse =>
    cases aInit <;> cases aCond <;> cases aBody <;> cases aElse <;>
    (try (simp [Expr.layout, CallExpr.layout, FuncType.layout, Field.layout, BlockStmt.layout,
      Stmt.layout, Spec.layout, Decl.layout, Part.req, Part.opt, Part.many, Part.tokIf, Expr.node,
      Ident.node, BasicLit.node, FuncType.node, CallExpr.node, BlockStmt.node, FieldList.node,
      Field.node, Stmt.node, Decl.node, Spec.node, List.getLast?_cons] at h)) <;>
    (try (simp only [Part.span_tok_iff, Part.span_node_none, Part.span_node_some] at h)) <;>
    (try (simp [Expr.Pos, Expr.PosOf, Expr.End, Expr.EndOf, CallExpr.PosOf, CallExpr.EndOf,
      FuncType.PosOf, FuncType.EndOf, FieldList.PosOf, FieldList.EndOf, BlockStmt.PosOf,
      BlockStmt.EndOf, Stmt.Pos, Stmt.PosOf, Stmt.End, Stmt.EndOf, Decl.PosOf, Decl.EndOf,
      Spec.Pos, Spec.End, Decl.Pos, Decl.End, Ident.PosOf, Ident.EndOf, BasicLit.PosOf,
      BasicLit.EndOf, Ident.Pos, Ident.End, BasicLit.Pos, BasicLit.End, deref, Node.Pos,
      Node.End] at h)) <;>
    (try (simp [Expr.Pos, Expr.PosOf, Expr.End, Expr.EndOf, CallExpr.PosOf, CallExpr.EndOf,
      FuncType.PosOf, FuncType.EndOf, FieldList.PosOf, FieldList.EndOf, BlockStmt.PosOf,
      BlockStmt.EndOf, Stmt.Pos, Stmt.PosOf, Stmt.End, Stmt.EndOf, Decl.PosOf, Decl.EndOf,
      Spec.Pos, Spec.End, Decl.Pos, Decl.End, Ident.PosOf, Ident.EndOf, BasicLit.PosOf,
      BasicLit.EndOf, Ident.Pos, Ident.End, BasicLit.Pos, BasicLit.End, deref, h]))
  | CaseClause aCase aLst aColon aBody =>
    (try (simp [Expr.layout, CallExpr.layout, FuncType.layout, Field.layout, BlockStmt.layout,
      Stmt.layout, Spec.layout, Decl.layout, Part.req, Part.opt, Part.many, Part.tokIf, Expr.node,
      Ident.node, BasicLit.node, FuncType.node, CallExpr.node, BlockStmt.node, FieldList.node,
      Field.node, Stmt.node, Decl.node, Spec.node, List.getLast?_cons] at h)) <;>
    (try (simp only [Part.span_tok_iff, Part.span_node_none, Part.span_node_some] at h)) <;>
    (try (simp [Expr.Pos, Expr.PosOf, Expr.End, Expr.EndOf, CallExpr.PosOf, CallExpr.EndOf,
      FuncType.PosOf, FuncType.EndOf, FieldList.PosOf, FieldList.EndOf, BlockStmt.PosOf,
      BlockStmt.EndOf, Stmt.Pos, Stmt.PosOf, Stmt.End, Stmt.EndOf, Decl.PosOf, Decl.EndOf,
      Spec.Pos, Spec.End, Decl.Pos, Decl.End, Ident.PosOf, Ident.EndOf, BasicLit.PosOf,
      BasicLit.EndOf, Ident.Pos, Ident.End, BasicLit.Pos, BasicLit.End, deref, Node.Pos,
      Node.End] at h)) <;>
    (try (simp [Expr.Pos, Expr.PosOf, Expr.End, Expr.EndOf, CallExpr.PosOf, CallExpr.EndOf,
      FuncType.PosOf, FuncType.EndOf, FieldList.PosOf, FieldList.EndOf, BlockStmt.PosOf,
      BlockStmt.EndOf, Stmt.Pos, Stmt.PosOf, Stmt.End, Stmt.EndOf, Decl.PosOf, Decl.EndOf,
      Spec.Pos, Spec.End, Decl.Pos, Decl.End, Ident.PosOf, Ident.EndOf, BasicLit.PosOf,
      BasicLit.EndOf, Ident.Pos, Ident.End, BasicLit.Pos, BasicLit.End, deref, h]))
  | SwitchStmt aSwitch aInit aTag aBody =>
    cases aInit <;> cases aTag <;> cases aBody <;>
    (try (simp [Expr.layout, CallExpr.layout, FuncType.layout, Field.layout, BlockStmt.layout,
      Stmt.layout, Spec.layout, Decl.layout, Part.req, Part.opt, Part.many, Part.tokIf, Expr.node,
      Ident.node, BasicLit.node, FuncType.node, CallExpr.node, BlockStmt.node, FieldList.node,
      Field.node, Stmt.node, Decl.node, Spec.node, List.getLast?_cons] at h)) <;>
    (try (simp only [Part.span_tok_iff, Part.span_node_none, Part.span_node_some] at h)) <;>
    (try (simp [Expr.Pos, Expr.PosOf, Expr.End, Expr.EndOf, CallExpr.PosOf, CallExpr.EndOf,
      FuncType.PosOf, FuncType.EndOf, FieldList.PosOf, FieldList.EndOf, BlockStmt.PosOf,
      BlockStmt.EndOf, Stmt.Pos, Stmt.PosOf, Stmt.End, Stmt.EndOf, Decl.PosOf, Decl.EndOf,
      Spec.Pos, Spec.End, Decl.Pos, Decl.End, Ident.PosOf, Ident.EndOf, BasicLit.PosOf,
      BasicLit.EndOf, Ident.Pos, Ident.End, BasicLit.Pos, BasicLit.End, deref, Node.Pos,
      Node.End] at h)) <;>
    (try (simp [Expr.Pos, Expr.PosOf, Expr.End, Expr.EndOf, CallExpr.PosOf, CallExpr.EndOf,
      FuncType.PosOf, FuncType.EndOf, FieldList.PosOf, FieldList.EndOf, BlockStmt.PosOf,
      BlockStmt.EndOf, Stmt.Pos, Stmt.PosOf, Stmt.End, Stmt.EndOf, Decl.PosOf, Decl.EndOf,
      Spec.Pos, Spec.End, Decl.Pos, Decl.End, Ident.PosOf, Ident.EndOf, BasicLit.PosOf,
      BasicLit.EndOf, Ident.Pos, Ident.End, BasicLit.Pos, BasicLit.End, deref, h]))
  | TypeSwitchStmt aSwitch aInit aAssign aBody =>
    cases aInit <;> cases aAssign <;> cases aBody <;>
    (try (simp [Expr.layout, CallExpr.layout, FuncType.layout, Field.layout, BlockStmt.layout,
      Stmt.layout, Spec.layout, Decl.layout, Part.req, Part.opt, Part.many, Part.tokIf, Expr.node,
      Ident.node, BasicLit.node, FuncType.node, CallExpr.node, BlockStmt.node, FieldList.node,
      Field.node, Stmt.node, Decl.node, Spec.node, List.getLast?_cons] at h)) <;>
    (try (simp only [Part.span_tok_iff, Part.span_node_none, Part.span_node_some] at h)) <;>
    (try (simp [Expr.Pos, Expr.PosOf, Expr.End, Expr.EndOf, CallExpr.PosOf, CallExpr.EndOf,
      FuncType.PosOf, FuncType.EndOf, FieldList.PosOf, FieldList.EndOf, BlockStmt.PosOf,
      BlockStmt.EndOf, Stmt.Pos, Stmt.PosOf, Stmt.End, Stmt.EndOf, Decl.PosOf, Decl.EndOf,
      Spec.Pos, Spec.End, Decl.Pos, Decl.End, Ident.PosOf, Ident.EndOf, BasicLit.PosOf,
      BasicLit.EndOf, Ident.Pos, Ident.End, BasicLit.Pos, BasicLit.End, deref, Node.Pos,
      Node.End] at h)) <;>
    (try (simp [Expr.Pos, Expr.PosOf, Expr.End, Expr.EndOf, CallExpr.PosOf, CallExpr.EndOf,
      FuncType.PosOf, FuncType.EndOf, FieldList.PosOf, FieldList.EndOf, BlockStmt.PosOf,
      BlockStmt.EndOf, Stmt.Pos, Stmt.PosOf, Stmt.End, Stmt.EndOf, Decl.PosOf, Decl.EndOf,
      Spec.Pos, Spec.End, Decl.Pos, Decl.End, Ident.PosOf, Ident.EndOf, BasicLit.PosOf,
      BasicLit.EndOf, Ident.Pos, Ident.End, BasicLit.Pos, BasicLit.End, deref, h]))
  | CommClause aCase aComm aColon aBody =>
    cases aComm <;>
    (try (simp [Expr.layout, CallExpr.layout, FuncType.layout, Field.layout, BlockStmt.layout,
      Stmt.layout, Spec.layout, Decl.layout, Part.req, Part.opt, Part.many, Part.tokIf, Expr.node,
      Ident.node, BasicLit.node, FuncType.node, CallExpr.node, BlockStmt.node, FieldList.node,
      Field.node, Stmt.node, Decl.node, Spec.node, List.getLast?_cons] at h)) <;>
    (try (simp only [Part.span_tok_iff, Part.span_node_none, Part.span_node_some] at h)) <;>
    (try (simp [Expr.Pos, Expr.PosOf, Expr.End, Expr.EndOf, CallExpr.PosOf, CallExpr.EndOf,
      FuncType.PosOf, FuncType.EndOf, FieldList.PosOf, FieldList.EndOf, BlockStmt.PosOf,
      BlockStmt.EndOf, Stmt.Pos, Stmt.PosOf, Stmt.End, Stmt.EndOf, Decl.PosOf, Decl.EndOf,
      Spec.Pos, Spec.End, Decl.Pos, Decl.End, Ident.PosOf, Ident.EndOf, BasicLit.PosOf,
      BasicLit.EndOf, Ident.Pos, Ident.End, BasicLit.Pos, BasicLit.End, deref, Node.Pos,
      Node.End] at h)) <;>
    (try (simp [Expr.Pos, Expr.PosOf, Expr.End, Expr.EndOf, CallExpr.PosOf, CallExpr.EndOf,
      FuncType.PosOf, FuncType.EndOf, FieldList.PosOf, FieldList.EndOf, BlockStmt.PosOf,
      BlockStmt.EndOf, Stmt.Pos, Stmt.PosOf, Stmt.End, Stmt.EndOf, Decl.PosOf, Decl.EndOf,
      Spec.Pos, Spec.End, Decl.Pos, Decl.End, Ident.PosOf, Ident.EndOf, BasicLit.PosOf,
      BasicLit.EndOf, Ident.Pos, Ident.End, BasicLit.Pos, BasicLit.End, deref, h]))
  | SelectStmt aSelect aBody =>
    cases aBody <;>
    (try (simp [Expr.layout, CallExpr.layout, FuncType.layout, Field.layout, BlockStmt.layout,
      Stmt.layout, Spec.layout, Decl.layout, Part.req, Part.opt, Part.many, Part.tokIf, Expr.node,
      Ident.node, BasicLit.node, FuncType.node, CallExpr.node, BlockStmt.node, FieldList.node,
      Field.node, Stmt.node, Decl.node, Spec.node, List.getLast?_cons] at h)) <;>
    (try (simp only [Part.span_tok_iff, Part.span_node_none, Part.span_node_some] at h)) <;>
    (try (simp [Expr.Pos, Expr.PosOf, Expr.End, Expr.EndOf, CallExpr.PosOf, CallExpr.EndOf,
      FuncType.PosOf, FuncType.EndOf, FieldList.PosOf, FieldList.EndOf, BlockStmt.PosOf,
      BlockStmt.EndOf, Stmt.Pos, Stmt.PosOf, Stmt.End, Stmt.EndOf, Decl.PosOf, Decl.EndOf,
      Spec.Pos, Spec.End, Decl.Pos, Decl.End, Ident.PosOf, Ident.EndOf, BasicLit.PosOf,
      BasicLit.EndOf, Ident.Pos, Ident.End, BasicLit.Pos, BasicLit.End, deref, Node.Pos,
      Node.End] at h)) <;>
    (try (simp [Expr.Pos, Expr.PosOf, Expr.End, Expr.EndOf, CallExpr.PosOf, CallExpr.EndOf,
      FuncType.PosOf, FuncType.EndOf, FieldList.PosOf, FieldList.EndOf, BlockStmt.PosOf,
      BlockStmt.EndOf, Stmt.Pos, Stmt.PosOf, Stmt.End, Stmt.EndOf, Decl.PosOf, Decl.EndOf,
      Spec.Pos, Spec.End, Decl.Pos, Decl.End, Ident.PosOf, Ident.EndOf, BasicLit.PosOf,
      BasicLit.EndOf, Ident.Pos, Ident.End, BasicLit.Pos, BasicLit.End, deref, h]))
  | ForStmt aFor aInit aCond aPost aBody =>
    cases aInit <;> cases aCond <;> cases aPost <;> cases aBody <;>
    (try (simp [Expr.layout, CallExpr.layout, FuncType.layout, Field.layout, BlockStmt.layout,
      Stmt.layout, Spec.layout, Decl.layout, Part.req, Part.opt, Part.many, Part.tokIf, Expr.node,
      Ident.node, BasicLit.node, FuncType.node, CallExpr.node, BlockStmt.node, FieldList.node,
      Field.node, Stmt.node, Decl.node, Spec.node, List.getLast?_cons] at h)) <;>
    (try (simp only [Part.span_tok_iff, Part.span_node_none, Part.span_node_some] at h)) <;>
    (try (simp [Expr.Pos, Expr.PosOf, Expr.End, Expr.EndOf, CallExpr.PosOf, CallExpr.EndOf,
      FuncType.PosOf, FuncType.EndOf, FieldList.PosOf, FieldList.EndOf, BlockStmt.PosOf,
      BlockStmt.EndOf, Stmt.Pos, Stmt.PosOf, Stmt.End, Stmt.EndOf, Decl.PosOf, Decl.EndOf,
      Spec.Pos, Spec.End, Decl.Pos, Decl.End, Ident.PosOf, Ident.EndOf, BasicLit.PosOf,
      BasicLit.EndOf, Ident.Pos, Ident.End, BasicLit.Pos, BasicLit.End, deref, Node.Pos,
      Node.End] at h)) <;>
    (try (simp [Expr.Pos, Expr.PosOf, Expr.End, Expr.EndOf, CallExpr.PosOf, CallExpr.EndOf,
      FuncType.PosOf, FuncType.EndOf, FieldList.PosOf, FieldList.EndOf, BlockStmt.PosOf,
      BlockStmt.EndOf, Stmt.Pos, Stmt.PosOf, Stmt.End, Stmt.EndOf, Decl.PosOf, Decl.EndOf,
      Spec.Pos, Spec.End, Decl.Pos, Decl.End, Ident.PosOf, Ident.EndOf, BasicLit.PosOf,
      BasicLit.EndOf, Ident.Pos, Ident.End, BasicLit.Pos, BasicLit.End, deref, h]))
  | RangeStmt aFor aKey aValue aTokPos aTok aX aBody =>
    cases aKey <;> cases aValue <;> cases aX <;> cases aBody <;>
    (try (simp [Expr.layout, CallExpr.layout, FuncType.layout, Field.layout, BlockStmt.layout,
      Stmt.layout, Spec.layout, Decl.layout, Part.req, Part.opt, Part.many, Part.tokIf, Expr.node,
      Ident.node, BasicLit.node, FuncType.node, CallExpr.node, BlockStmt.node, FieldList.node,
      Field.node, Stmt.node, Decl.node, Spec.node, List.getLast?_cons] at h)) <;>
    (try (simp only [Part.span_tok_iff, Part.span_node_none, Part.span_node_some] at h)) <;>
    (try (simp [Expr.Pos, Expr.PosOf, Expr.End, Expr.EndOf, CallExpr.PosOf, CallExpr.EndOf,
      FuncType.PosOf, FuncType.EndOf, FieldList.PosOf, FieldList.EndOf, BlockStmt.PosOf,
      BlockStmt.EndOf, Stmt.Pos, Stmt.PosOf, Stmt.End, Stmt.EndOf, Decl.PosOf, Decl.EndOf,
      Spec.Pos, Spec.End, Decl.Pos, Decl.End, Ident.PosOf, Ident.EndOf, BasicLit.PosOf,
      BasicLit.EndOf, Ident.Pos, Ident.End, BasicLit.Pos, BasicLit.End, deref, Node.Pos,
      Node.End] at h)) <;>
    (try (simp [Expr.Pos, Expr.PosOf, Expr.End, Expr.EndOf, CallExpr.PosOf, CallExpr.EndOf,
      FuncType.PosOf, FuncType.EndOf, FieldList.PosOf, FieldList.EndOf, BlockStmt.PosOf,
      BlockStmt.EndOf, Stmt.Pos, Stmt.PosOf, Stmt.End, Stmt.EndOf, Decl.PosOf, Decl.EndOf,
      Spec.Pos, Spec.End, Decl.Pos, Decl.End, Ident.PosOf, Ident.EndOf, BasicLit.PosOf,
      BasicLit.EndOf, Ident.Pos, Ident.End, BasicLit.Pos, BasicLit.End, deref, h]))

set_option linter.unusedTactic false in
set_option linter.unreachableTactic false in
set_option linter.unnecessarySeqFocus false in
set_option maxHeartbeats 4000000 in
theorem Stmt_frame_last (x : Stmt) (hr : (Node.Stmt x).requiredLists = true) (hf : x.endFits = true) (s : Span)
    (h : (x.layout.getLast?.bind Part.span) = some s) :
    ∃ e, Stmt.End x = .ok e ∧ s.2 ≤ e := by
  cases x with
  | BadStmt aFrom aTo =>
    (try (simp only [Expr.endFits, Stmt.endFits, Node.endFits] at hf)) <;>
    (try (simp [Expr.layout, CallExpr.layout, FuncType.layout, Field.layout, BlockStmt.layout,
      Stmt.layout, Spec.layout, Decl.layout, Part.req, Part.opt, Part.many, Part.tokIf, Expr.node,
      Ident.node, BasicLit.node, FuncType.node, CallExpr.node, BlockStmt.node, FieldList.node,
      Field.node, Stmt.node, Decl.node, Spec.node, List.getLast?_cons] at h)) <;>
    (try (simp only [Part.span_tok_iff, Part.span_node_none, Part.span_node_some] at h)) <;>
    (try (simp [Expr.Pos, Expr.PosOf, Expr.End, Expr.EndOf, CallExpr.PosOf, CallExpr.EndOf,
      FuncType.PosOf, FuncType.EndOf, FieldList.PosOf, FieldList.EndOf, BlockStmt.PosOf,
      BlockStmt.EndOf, Stmt.Pos, Stmt.PosOf, Stmt.End, Stmt.EndOf, Decl.PosOf, Decl.EndOf,
      Spec.Pos, Spec.End, Decl.Pos, Decl.End, Ident.PosOf, Ident.EndOf, BasicLit.PosOf,
      BasicLit.EndOf, Ident.Pos, Ident.End, BasicLit.Pos, BasicLit.End, deref, Node.Pos,
      Node.End] at h)) <;>
    (try (simp [Expr.Pos, Expr.PosOf, Expr.End, Expr.EndOf, CallExpr.PosOf, CallExpr.EndOf,
      FuncType.PosOf, FuncType.EndOf, FieldList.PosOf, FieldList.EndOf, BlockStmt.PosOf,
      BlockStmt.EndOf, Stmt.Pos, Stmt.PosOf, Stmt.End, Stmt.EndOf, Decl.PosOf, Decl.EndOf,
      Spec.Pos, Spec.End, Decl.Pos, Decl.End, Ident.PosOf, Ident.EndOf, BasicLit.PosOf,
      BasicLit.EndOf, Ident.Pos, Ident.End, BasicLit.Pos, BasicLit.End, deref, h])) <;>
    (try (first
      | exact int.le_add_ofNat _ _ hf
      | exact int.le_add_natCast _ _ hf
      | exact le_of_eq_of_le h.2 (int.le_add_ofNat _ _ hf)
      | exact le_of_eq_of_le h.2 (int.le_add_natCast _ _ hf)
      | exact le_of_eq_of_le h (int.le_add_ofNat _ _ hf)
      | rw [← h.1, h.2]))
  | DeclStmt aDecl =>
    cases aDecl <;>
    (try (simp only [Expr.endFits, Stmt.endFits, Node.endFits] at hf)) <;>
    (try (simp [Expr.layout, CallExpr.layout, FuncType.layout, Field.layout, BlockStmt.layout,
      Stmt.layout, Spec.layout, Decl.layout, Part.req, Part.opt, Part.many, Part.tokIf, Expr.node,
      Ident.node, BasicLit.node, FuncType.node, CallExpr.node, BlockStmt.node, FieldList.node,
      Field.node, Stmt.node, Decl.node, Spec.node, List.getLast?_cons] at h)) <;>
    (try (simp only [Part.span_tok_iff, Part.span_node_none, Part.span_node_some] at h)) <;>
    (try (simp [Expr.Pos, Expr.PosOf, Expr.End, Expr.EndOf, CallExpr.PosOf, CallExpr.EndOf,
      FuncType.PosOf, FuncType.EndOf, FieldList.PosOf, FieldList.EndOf, BlockStmt.PosOf,
      BlockStmt.EndOf, Stmt.Pos, Stmt.PosOf, Stmt.End, Stmt.EndOf, Decl.PosOf, Decl.EndOf,
      Spec.Pos, Spec.End, Decl.Pos, Decl.End, Ident.PosOf, Ident.EndOf, BasicLit.PosOf,
      BasicLit.EndOf, Ident.Pos, Ident.End, BasicLit.Pos, BasicLit.End, deref, Node.Pos,
      Node.End] at h)) <;>
    (try (simp [Expr.Pos, Expr.PosOf, Expr.End, Expr.EndOf, CallExpr.PosOf, CallExpr.EndOf,
      FuncType.PosOf, FuncType.EndOf, FieldList.PosOf, FieldList.EndOf, BlockStmt.PosOf,
      BlockStmt.EndOf, Stmt.Pos, Stmt.PosOf, Stmt.End, Stmt.EndOf, Decl.PosOf, Decl.EndOf,
      Spec.Pos, Spec.End, Decl.Pos, Decl.End, Ident.PosOf, Ident.EndOf, BasicLit.PosOf,
      BasicLit.EndOf, Ident.Pos, Ident.End, BasicLit.Pos, BasicLit.End, deref, h])) <;>
    (try (first
      | exact int.le_add_ofNat _ _ hf
      | exact int.le_add_natCast _ _ hf
      | exact le_of_eq_of_le h.2 (int.le_add_ofNat _ _ hf)
      | exact le_of_eq_of_le h.2 (int.le_add_natCast _ _ hf)
      | exact le_of_eq_of_le h (int.le_add_ofNat _ _ hf)
      | rw [← h.1, h.2]))
  | EmptyStmt aSemicolon =>
    (try (simp only [Expr.endFits, Stmt.endFits, Node.endFits] at hf)) <;>
    (try (simp [Expr.layout, CallExpr.layout, FuncType.layout, Field.layout, BlockStmt.layout,
      Stmt.layout, Spec.layout, Decl.layout, Part.req, Part.opt, Part.many, Part.tokIf, Expr.node,
      Ident.node, BasicLit.node, FuncType.node, CallExpr.node, BlockStmt.node, FieldList.node,
      Field.node, Stmt.node, Decl.node, Spec.node, List.getLast?_cons] at h)) <;>
    (try (simp only [Part.span_tok_iff, Part.span_node_none, Part.span_node_some] at h)) <;>
    (try (simp [Expr.Pos, Expr.PosOf, Expr.End, Expr.EndOf, CallExpr.PosOf, CallExpr.EndOf,
      FuncType.PosOf, FuncType.EndOf, FieldList.PosOf, FieldList.EndOf, BlockStmt.PosOf,
      BlockStmt.EndOf, Stmt.Pos, Stmt.PosOf, Stmt.End, Stmt.EndOf, Decl.PosOf, Decl.EndOf,
      Spec.Pos, Spec.End, Decl.Pos, Decl.End, Ident.PosOf, Ident.EndOf, BasicLit.PosOf,
      BasicLit.EndOf, Ident.Pos, Ident.End, BasicLit.Pos, BasicLit.End, deref, Node.Pos,
      Node.End] at h)) <;>
    (try (simp [Expr.Pos, Expr.PosOf, Expr.End, Expr.EndOf, CallExpr.PosOf, CallExpr.EndOf,
      FuncType.PosOf, FuncType.EndOf, FieldList.PosOf, FieldList.EndOf, BlockStmt.PosOf,
      BlockStmt.EndOf, Stmt.Pos, Stmt.PosOf, Stmt.End, Stmt.EndOf, Decl.PosOf, Decl.EndOf,
      Spec.Pos, Spec.End, Decl.Pos, Decl.End, Ident.PosOf, Ident.EndOf, BasicLit.PosOf,
      BasicLit.EndOf, Ident.Pos, Ident.End, BasicLit.Pos, BasicLit.End, deref, h])) <;>
    (try (first
      | exact int.le_add_ofNat _ _ hf
      | exact int.le_add_natCast _ _ hf
      | exact le_of_eq_of_le h.2 (int.le_add_ofNat _ _ hf)
      | exact le_of_eq_of_le h.2 (int.le_add_natCast _ _ hf)
      | exact le_of_eq_of_le h (int.le_add_ofNat _ _ hf)
      | rw [← h.1, h.2]))
  | LabeledStmt aLabel aColon aStmt =>
    cases aLabel <;> cases aStmt <;>
    (try (simp only [Expr.endFits, Stmt.endFits, Node.endFits] at hf)) <;>
    (try (simp [Expr.layout, CallExpr.layout, FuncType.layout, Field.layout, BlockStmt.layout,
      Stmt.layout, Spec.layout, Decl.layout, Part.req, Part.opt, Part.many, Part.tokIf, Expr.node,
      Ident.node, BasicLit.node, FuncType.node, CallExpr.node, BlockStmt.node, FieldList.node,
      Field.node, Stmt.node, Decl.node, Spec.node, List.getLast?_cons] at h)) <;>
    (try (simp only [Part.span_tok_iff, Part.span_node_none, Part.span_node_some] at h)) <;>
    (try (simp [Expr.Pos, Expr.PosOf, Expr.End, Expr.EndOf, CallExpr.PosOf, CallExpr.EndOf,
      FuncType.PosOf, FuncType.EndOf, FieldList.PosOf, FieldList.EndOf, BlockStmt.PosOf,
      BlockStmt.EndOf, Stmt.Pos, Stmt.PosOf, Stmt.End, Stmt.EndOf, Decl.PosOf, Decl.EndOf,
      Spec.Pos, Spec.End, Decl.Pos, Decl.End, Ident.PosOf, Ident.EndOf, BasicLit.PosOf,
      BasicLit.EndOf, Ident.Pos, Ident.End, BasicLit.Pos, BasicLit.End, deref, Node.Pos,
      Node.End] at h)) <;>
    (try (simp [Expr.Pos, Expr.PosOf, Expr.End, Expr.EndOf, CallExpr.PosOf, CallExpr.EndOf,
      FuncType.PosOf, FuncType.EndOf, FieldList.PosOf, FieldList.EndOf, BlockStmt.PosOf,
      BlockStmt.EndOf, Stmt.Pos, Stmt.PosOf, Stmt.End, Stmt.EndOf, Decl.PosOf, Decl.EndOf,
      Spec.Pos, Spec.End, Decl.Pos, Decl.End, Ident.PosOf, Ident.EndOf, BasicLit.PosOf,
      BasicLit.EndOf, Ident.Pos, Ident.End, BasicLit.Pos, BasicLit.End, deref, h])) <;>
    (try (first
      | exact int.le_add_ofNat _ _ hf
      | exact int.le_add_natCast _ _ hf
      | exact le_of_eq_of_le h.2 (int.le_add_ofNat _ _ hf)
      | exact le_of_eq_of_le h.2 (int.le_add_natCast _ _ hf)
      | exact le_of_eq_of_le h (int.le_add_ofNat _ _ hf)
      | rw [← h.1, h.2]))
  | ExprStmt aX =>
    cases aX <;>
    (try (simp only [Expr.endFits, Stmt.endFits, Node.endFits] at hf)) <;>
    (try (simp [Expr.layout, CallExpr.layout, FuncType.layout, Field.layout, BlockStmt.layout,
      Stmt.layout, Spec.layout, Decl.layout, Part.req, Part.opt, Part.many, Part.tokIf, Expr.node,
      Ident.node, BasicLit.node, FuncType.node, CallExpr.node, BlockStmt.node, FieldList.node,
      Field.node, Stmt.node, Decl.node, Spec.node, List.getLast?_cons] at h)) <;>
    (try (simp only [Part.span_tok_iff, Part.span_node_none, Part.span_node_some] at h)) <;>
    (try (simp [Expr.Pos, Expr.PosOf, Expr.End, Expr.EndOf, CallExpr.PosOf, CallExpr.EndOf,
      FuncType.PosOf, FuncType.EndOf, FieldList.PosOf, FieldList.EndOf, BlockStmt.PosOf,
      BlockStmt.EndOf, Stmt.Pos, Stmt.PosOf, Stmt.End, Stmt.EndOf, Decl.PosOf, Decl.EndOf,
      Spec.Pos, Spec.End, Decl.Pos, Decl.End, Ident.PosOf, Ident.EndOf, BasicLit.PosOf,
      BasicLit.EndOf, Ident.Pos, Ident.End, BasicLit.Pos, BasicLit.End, deref, Node.Pos,
      Node.End] at h)) <;>
    (try (simp [Expr.Pos, Expr.PosOf, Expr.End, Expr.EndOf, CallExpr.PosOf, CallExpr.EndOf,
      FuncType.PosOf, FuncType.EndOf, FieldList.PosOf, FieldList.EndOf, BlockStmt.PosOf,
      BlockStmt.EndOf, Stmt.Pos, Stmt.PosOf, Stmt.End, Stmt.EndOf, Decl.PosOf, Decl.EndOf,
      Spec.Pos, Spec.End, Decl.Pos, Decl.End, Ident.PosOf, Ident.EndOf, BasicLit.PosOf,
      BasicLit.EndOf, Ident.Pos, Ident.End, BasicLit.Pos, BasicLit.End, deref, h])) <;>
    (try (first
      | exact int.le_add_ofNat _ _ hf
      | exact int.le_add_natCast _ _ hf
      | exact le_of_eq_of_le h.2 (int.le_add_ofNat _ _ hf)
      | exact le_of_eq_of_le h.2 (int.le_add_natCast _ _ hf)
      | exact le_of_eq_of_le h (int.le_add_ofNat _ _ hf)
      | rw [← h.1, h.2]))
  | SendStmt aChan aArrow aValue =>
    cases aChan <;> cases aValue <;>
    (try (simp only [Expr.endFits, Stmt.endFits, Node.endFits] at hf)) <;>
    (try (simp [Expr.layout, CallExpr.layout, FuncType.layout, Field.layout, BlockStmt.layout,
      Stmt.layout, Spec.layout, Decl.layout, Part.req, Part.opt, Part.many, Part.tokIf, Expr.node,
      Ident.node, BasicLit.node, FuncType.node, CallExpr.node, BlockStmt.node, FieldList.node,
      Field.node, Stmt.node, Decl.node, Spec.node, List.getLast?_cons] at h)) <;>
    (try (simp only [Part.span_tok_iff, Part.span_node_none, Part.span_node_some] at h)) <;>
    (try (simp [Expr.Pos, Expr.PosOf, Expr.End, Expr.EndOf, CallExpr.PosOf, CallExpr.EndOf,
      FuncType.PosOf, FuncType.EndOf, FieldList.PosOf, FieldList.EndOf, BlockStmt.PosOf,
      BlockStmt.EndOf, Stmt.Pos, Stmt.PosOf, Stmt.End, Stmt.EndOf, Decl.PosOf, Decl.EndOf,
      Spec.Pos, Spec.End, Decl.Pos, Decl.End, Ident.PosOf, Ident.EndOf, BasicLit.PosOf,
      BasicLit.EndOf, Ident.Pos, Ident.End, BasicLit.Pos, BasicLit.End, deref, Node.Pos,
      Node.End] at h)) <;>
    (try (simp [Expr.Pos, Expr.PosOf, Expr.End, Expr.EndOf, CallExpr.PosOf, CallExpr.EndOf,
      FuncType.PosOf, FuncType.EndOf, FieldList.PosOf, FieldList.EndOf, BlockStmt.PosOf,
      BlockStmt.EndOf, Stmt.Pos, Stmt.PosOf, Stmt.End, Stmt.EndOf, Decl.PosOf, Decl.EndOf,
      Spec.Pos, Spec.End, Decl.Pos, Decl.End, Ident.PosOf, Ident.EndOf, BasicLit.PosOf,
      BasicLit.EndOf, Ident.Pos, Ident.End, BasicLit.Pos, BasicLit.End, deref, h])) <;>
    (try (first
      | exact int.le_add_ofNat _ _ hf
      | exact int.le_add_natCast _ _ hf
      | exact le_of_eq_of_le h.2 (int.le_add_ofNat _ _ hf)
      | exact le_of_eq_of_le h.2 (int.le_add_natCast _ _ hf)
      | exact le_of_eq_of_le h (int.le_add_ofNat _ _ hf)
      | rw [← h.1, h.2]))
  | IncDecStmt aX aTokPos aTok =>
    cases aX <;>
    (try (simp only [Expr.endFits, Stmt.endFits, Node.endFits] at hf)) <;>
    (try (simp [Expr.layout, CallExpr.layout, FuncType.layout, Field.layout, BlockStmt.layout,
      Stmt.layout, Spec.layout, Decl.layout, Part.req, Part.opt, Part.many, Part.tokIf, Expr.node,
      Ident.node, BasicLit.node, FuncType.node, CallExpr.node, BlockStmt.node, FieldList.node,
      Field.node, Stmt.node, Decl.node, Spec.node, List.getLast?_cons] at h)) <;>
    (try (simp only [Part.span_tok_iff, Part.span_node_none, Part.span_node_some] at h)) <;>
    (try (simp [Expr.Pos, Expr.PosOf, Expr.End, Expr.EndOf, CallExpr.PosOf, CallExpr.EndOf,
      FuncType.PosOf, FuncType.EndOf, FieldList.PosOf, FieldList.EndOf, BlockStmt.PosOf,
      BlockStmt.EndOf, Stmt.Pos, Stmt.PosOf, Stmt.End, Stmt.EndOf, Decl.PosOf, Decl.EndOf,
      Spec.Pos, Spec.End, Decl.Pos, Decl.End, Ident.PosOf, Ident.EndOf, BasicLit.PosOf,
      BasicLit.EndOf, Ident.Pos, Ident.End, BasicLit.Pos, BasicLit.End, deref, Node.Pos,
      Node.End] at h)) <;>
    (try (simp [Expr.Pos, Expr.PosOf, Expr.End, Expr.EndOf, CallExpr.PosOf, CallExpr.EndOf,
      FuncType.PosOf, FuncType.EndOf, FieldList.PosOf, FieldList.EndOf, BlockStmt.PosOf,
      BlockStmt.EndOf, Stmt.Pos, Stmt.PosOf, Stmt.End, Stmt.EndOf, Decl.PosOf, Decl.EndOf,
      Spec.Pos, Spec.End, Decl.Pos, Decl.End, Ident.PosOf, Ident.EndOf, BasicLit.PosOf,
      BasicLit.EndOf, Ident.Pos, Ident.End, BasicLit.Pos, BasicLit.End, deref, h])) <;>
    (try (first
      | exact int.le_add_ofNat _ _ hf
      | exact int.le_add_natCast _ _ hf
      | exact le_of_eq_of_le h.2 (int.le_add_ofNat _ _ hf)
      | exact le_of_eq_of_le h.2 (int.le_add_natCast _ _ hf)
      | exact le_of_eq_of_le h (int.le_add_ofNat _ _ hf)
      | rw [← h.1, h.2]))
  | AssignStmt aLhs aTokPos aTok aRhs =>
    exact Stmt_frame_last_AssignStmt aLhs aTokPos aTok aRhs hr s h
  | GoStmt aGo aCall =>
    cases aCall <;>
    (try (simp only [Expr.endFits, Stmt.endFits, Node.endFits] at hf)) <;>
    (try (simp [Expr.layout, CallExpr.layout, FuncType.layout, Field.layout, BlockStmt.layout,
      Stmt.layout, Spec.layout, Decl.layout, Part.req, Part.opt, Part.many, Part.tokIf, Expr.node,
      Ident.node, BasicLit.node, FuncType.node, CallExpr.node, BlockStmt.node, FieldList.node,
      Field.node, Stmt.node, Decl.node, Spec.node, List.getLast?_cons] at h)) <;>
    (try (simp only [Part.span_tok_iff, Part.span_node_none, Part.span_node_some] at h)) <;>
    (try (simp [Expr.Pos, Expr.PosOf, Expr.End, Expr.EndOf, CallExpr.PosOf, CallExpr.EndOf,
      FuncType.PosOf, FuncType.EndOf, FieldList.PosOf, FieldList.EndOf, BlockStmt.PosOf,
      BlockStmt.EndOf, Stmt.Pos, Stmt.PosOf, Stmt.End, Stmt.EndOf, Decl.PosOf, Decl.EndOf,
      Spec.Pos, Spec.End, Decl.Pos, Decl.End, Ident.PosOf, Ident.EndOf, BasicLit.PosOf,
      BasicLit.EndOf, Ident.Pos, Ident.End, BasicLit.Pos, BasicLit.End, deref, Node.Pos,
      Node.End] at h)) <;>
    (try (simp [Expr.Pos, Expr.PosOf, Expr.End, Expr.EndOf, CallExpr.PosOf, CallExpr.EndOf,
      FuncType.PosOf, FuncType.EndOf, FieldList.PosOf, FieldList.EndOf, BlockStmt.PosOf,
      BlockStmt.EndOf, Stmt.Pos, Stmt.PosOf, Stmt.End, Stmt.EndOf, Decl.PosOf, Decl.EndOf,
      Spec.Pos, Spec.End, Decl.Pos, Decl.End, Ident.PosOf, Ident.EndOf, BasicLit.PosOf,
      BasicLit.EndOf, Ident.Pos, Ident.End, BasicLit.Pos, BasicLit.End, deref, h])) <;>
    (try (first
      | exact int.le_add_ofNat _ _ hf
      | exact int.le_add_natCast _ _ hf
      | exact le_of_eq_of_le h.2 (int.le_add_ofNat _ _ hf)
      | exact le_of_eq_of_le h.2 (int.le_add_natCast _ _ hf)
      | exact le_of_eq_of_le h (int.le_add_ofNat _ _ hf)
      | rw [← h.1, h.2]))
  | DeferStmt aDefer aCall =>
    cases aCall <;>
    (try (simp only [Expr.endFits, Stmt.endFits, Node.endFits] at hf)) <;>
    (try (simp [Expr.layout, CallExpr.layout, FuncType.layout, Field.layout, BlockStmt.layout,
      Stmt.layout, Spec.layout, Decl.layout, Part.req, Part.opt, Part.many, Part.tokIf, Expr.node,
      Ident.node, BasicLit.node, FuncType.node, CallExpr.node, BlockStmt.node, FieldList.node,
      Field.node, Stmt.node, Decl.node, Spec.node, List.getLast?_cons] at h)) <;>
    (try (simp only [Part.span_tok_iff, Part.span_node_none, Part.span_node_some] at h)) <;>
    (try (simp [Expr.Pos, Expr.PosOf, Expr.End, Expr.EndOf, CallExpr.PosOf, CallExpr.EndOf,
      FuncType.PosOf, FuncType.EndOf, FieldList.PosOf, FieldList.EndOf, BlockStmt.PosOf,
      BlockStmt.EndOf, Stmt.Pos, Stmt.PosOf, Stmt.End, Stmt.EndOf, Decl.PosOf, Decl.EndOf,
      Spec.Pos, Spec.End, Decl.Pos, Decl.End, Ident.PosOf, Ident.EndOf, BasicLit.PosOf,
      BasicLit.EndOf, Ident.Pos, Ident.End, BasicLit.Pos, BasicLit.End, deref, Node.Pos,
      Node.End] at h)) <;>
    (try (simp [Expr.Pos, Expr.PosOf, Expr.End, Expr.EndOf, CallExpr.PosOf, CallExpr.EndOf,
      FuncType.PosOf, FuncType.EndOf, FieldList.PosOf, FieldList.EndOf, BlockStmt.PosOf,
      BlockStmt.EndOf, Stmt.Pos, Stmt.PosOf, Stmt.End, Stmt.EndOf, Decl.PosOf, Decl.EndOf,
      Spec.Pos, Spec.End, Decl.Pos, Decl.End, Ident.PosOf, Ident.EndOf, BasicLit.PosOf,
      BasicLit.EndOf, Ident.Pos, Ident.End, BasicLit.Pos, BasicLit.End, deref, h])) <;>
    (try (first
      | exact int.le_add_ofNat _ _ hf
      | exact int.le_add_natCast _ _ hf
      | exact le_of_eq_of_le h.2 (int.le_add_ofNat _ _ hf)
      | exact le_of_eq_of_le h.2 (int.le_add_natCast _ _ hf)
      | exact le_of_eq_of_le h (int.le_add_ofNat _ _ hf)
      | rw [← h.1, h.2]))
  | ReturnStmt aReturn aResults =>
    exact Stmt_frame_last_ReturnStmt aReturn aResults hf s h
  | BranchStmt aTokPos aTok aLabel =>
    cases aLabel <;>
    (try (simp only [Expr.endFits, Stmt.endFits, Node.endFits] at hf)) <;>
    (try (simp [Expr.layout, CallExpr.layout, FuncType.layout, Field.layout, BlockStmt.layout,
      Stmt.layout, Spec.layout, Decl.layout, Part.req, Part.opt, Part.many, Part.tokIf, Expr.node,
      Ident.node, BasicLit.node, FuncType.node, CallExpr.node, BlockStmt.node, FieldList.node,
      Field.node, Stmt.node, Decl.node, Spec.node, List.getLast?_cons] at h)) <;>
    (try (simp only [Part.span_tok_iff, Part.span_node_none, Part.span_node_some] at h)) <;>
    (try (simp [Expr.Pos, Expr.PosOf, Expr.End, Expr.EndOf, CallExpr.PosOf, CallExpr.EndOf,
      FuncType.PosOf, FuncType.EndOf, FieldList.PosOf, FieldList.EndOf, BlockStmt.PosOf,
      BlockStmt.EndOf, Stmt.Pos, Stmt.PosOf, Stmt.End, Stmt.EndOf, Decl.PosOf, Decl.EndOf,
      Spec.Pos, Spec.End, Decl.Pos, Decl.End, Ident.PosOf, Ident.EndOf, BasicLit.PosOf,
      BasicLit.EndOf, Ident.Pos, Ident.End, BasicLit.Pos, BasicLit.End, deref, Node.Pos,
      Node.End] at h)) <;>
    (try (simp [Expr.Pos, Expr.PosOf, Expr.End, Expr.EndOf, CallExpr.PosOf, CallExpr.EndOf,
      FuncType.PosOf, FuncType.EndOf, FieldList.PosOf, FieldList.EndOf, BlockStmt.PosOf,
      BlockStmt.EndOf, Stmt.Pos, Stmt.PosOf, Stmt.End, Stmt.EndOf, Decl.PosOf, Decl.EndOf,
      Spec.Pos, Spec.End, Decl.Pos, Decl.End, Ident.PosOf, Ident.EndOf, BasicLit.PosOf,
      BasicLit.EndOf, Ident.Pos, Ident.End, BasicLit.Pos, BasicLit.End, deref, h])) <;>
    (try (first
      | exact int.le_add_ofNat _ _ hf
      | exact int.le_add_natCast _ _ hf
      | exact le_of_eq_of_le h.2 (int.le_add_ofNat _ _ hf)
      | exact le_of_eq_of_le h.2 (int.le_add_natCast _ _ hf)
      | exact le_of_eq_of_le h (int.le_add_ofNat _ _ hf)
      | rw [← h.1, h.2]))
  | BlockStmt ablock =>
    exact BlockStmt_frame_last ablock hf s h
  | IfStmt aIf aInit aCond aBody aElse =>
    cases aInit <;> cases aCond <;> cases aBody <;> cases aElse <;>
    (try (simp only [Expr.endFits, Stmt.endFits, Node.endFits] at hf)) <;>
    (try (simp [Expr.layout, CallExpr.layout, FuncType.layout, Field.layout, BlockStmt.layout,
      Stmt.layout, Spec.layout, Decl.layout, Part.req, Part.opt, Part.many, Part.tokIf, Expr.node,
      Ident.node, BasicLit.node, FuncType.node, CallExpr.node, BlockStmt.node, FieldList.node,
      Field.node, Stmt.node, Decl.node, Spec.node, List.getLast?_cons] at h)) <;>
    (try (simp only [Part.span_tok_iff, Part.span_node_none, Part.span_node_some] at h)) <;>
    (try (simp [Expr.Pos, Expr.PosOf, Expr.End, Expr.EndOf, CallExpr.PosOf, CallExpr.EndOf,
      FuncType.PosOf, FuncType.EndOf, FieldList.PosOf, FieldList.EndOf, BlockStmt.PosOf,
      BlockStmt.EndOf, Stmt.Pos, Stmt.PosOf, Stmt.End, Stmt.EndOf, Decl.PosOf, Decl.EndOf,
      Spec.Pos, Spec.End, Decl.Pos, Decl.End, Ident.PosOf, Ident.EndOf, BasicLit.PosOf,
      BasicLit.EndOf, Ident.Pos, Ident.End, BasicLit.Pos, BasicLit.End, deref, Node.Pos,
      Node.End] at h)) <;>
    (try (simp [Expr.Pos, Expr.PosOf, Expr.End, Expr.EndOf, CallExpr.PosOf, CallExpr.EndOf,
      FuncType.PosOf, FuncType.EndOf, FieldList.PosOf, FieldList.EndOf, BlockStmt.PosOf,
      BlockStmt.EndOf, Stmt.Pos, Stmt.PosOf, Stmt.End, Stmt.EndOf, Decl.PosOf, Decl.EndOf,
      Spec.Pos, Spec.End, Decl.Pos, Decl.End, Ident.PosOf, Ident.EndOf, BasicLit.PosOf,
      BasicLit.EndOf, Ident.Pos, Ident.End, BasicLit.Pos, BasicLit.End, deref, h])) <;>
    (try (first
      | exact int.le_add_ofNat _ _ hf
      | exact int.le_add_natCast _ _ hf
      | exact le_of_eq_of_le h.2 (int.le_add_ofNat _ _ hf)
      | exact le_of_eq_of_le h.2 (int.le_add_natCast _ _ hf)
      | exact le_of_eq_of_le h (int.le_add_ofNat _ _ hf)
      | rw [← h.1, h.2]))
  | CaseClause aCase aLst aColon aBody =>
    exact Stmt_frame_last_CaseClause aCase aLst aColon aBody hf s h
  | SwitchStmt aSwitch aInit aTag aBody =>
    cases aInit <;> cases aTag <;> cases aBody <;>
    (try (simp only [Expr.endFits, Stmt.endFits, Node.endFits] at hf)) <;>
    (try (simp [Expr.layout, CallExpr.layout, FuncType.layout, Field.layout, BlockStmt.layout,
      Stmt.layout, Spec.layout, Decl.layout, Part.req, Part.opt, Part.many, Part.tokIf, Expr.node,
      Ident.node, BasicLit.node, FuncType.node, CallExpr.node, BlockStmt.node, FieldList.node,
      Field.node, Stmt.node, Decl.node, Spec.node, List.getLast?_cons] at h)) <;>
    (try (simp only [Part.span_tok_iff, Part.span_node_none, Part.span_node_some] at h)) <;>
    (try (simp [Expr.Pos, Expr.PosOf, Expr.End, Expr.EndOf, CallExpr.PosOf, CallExpr.EndOf,
      FuncType.PosOf, FuncType.EndOf, FieldList.PosOf, FieldList.EndOf, BlockStmt.PosOf,
      BlockStmt.EndOf, Stmt.Pos, Stmt.PosOf, Stmt.End, Stmt.EndOf, Decl.PosOf, Decl.EndOf,
      Spec.Pos, Spec.End, Decl.Pos, Decl.End, Ident.PosOf, Ident.EndOf, BasicLit.PosOf,
      BasicLit.EndOf, Ident.Pos, Ident.End, BasicLit.Pos, BasicLit.End, deref, Node.Pos,
      Node.End] at h)) <;>
    (try (simp [Expr.Pos, Expr.PosOf, Expr.End, Expr.EndOf, CallExpr.PosOf, CallExpr.EndOf,
      FuncType.PosOf, FuncType.EndOf, FieldList.PosOf, FieldList.EndOf, BlockStmt.PosOf,
      BlockStmt.EndOf, Stmt.Pos, Stmt.PosOf, Stmt.End, Stmt.EndOf, Decl.PosOf, Decl.EndOf,
      Spec.Pos, Spec.End, Decl.Pos, Decl.End, Ident.PosOf, Ident.EndOf, BasicLit.PosOf,
      BasicLit.EndOf, Ident.Pos, Ident.End, BasicLit.Pos, BasicLit.End, deref, h])) <;>
    (try (first
      | exact int.le_add_ofNat _ _ hf
      | exact int.le_add_natCast _ _ hf
      | exact le_of_eq_of_le h.2 (int.le_add_ofNat _ _ hf)
      | exact le_of_eq_of_le h.2 (int.le_add_natCast _ _ hf)
      | exact le_of_eq_of_le h (int.le_add_ofNat _ _ hf)
      | rw [← h.1, h.2]))
  | TypeSwitchStmt aSwitch aInit aAssign aBody =>
    cases aInit <;> cases aAssign <;> cases aBody <;>
    (try (simp only [Expr.endFits, Stmt.endFits, Node.endFits] at hf)) <;>
    (try (simp [Expr.layout, CallExpr.layout, FuncType.layout, Field.layout, BlockStmt.layout,
      Stmt.layout, Spec.layout, Decl.layout, Part.req, Part.opt, Part.many, Part.tokIf, Expr.node,
      Ident.node, BasicLit.node, FuncType.node, CallExpr.node, BlockStmt.node, FieldList.node,
      Field.node, Stmt.node, Decl.node, Spec.node, List.getLast?_cons] at h)) <;>
    (try (simp only [Part.span_tok_iff, Part.span_node_none, Part.span_node_some] at h)) <;>
    (try (simp [Expr.Pos, Expr.PosOf, Expr.End, Expr.EndOf, CallExpr.PosOf, CallExpr.EndOf,
      FuncType.PosOf, FuncType.EndOf, FieldList.PosOf, FieldList.EndOf, BlockStmt.PosOf,
      BlockStmt.EndOf, Stmt.Pos, Stmt.PosOf, Stmt.End, Stmt.EndOf, Decl.PosOf, Decl.EndOf,
      Spec.Pos, Spec.End, Decl.Pos, Decl.End, Ident.PosOf, Ident.EndOf, BasicLit.PosOf,
      BasicLit.EndOf, Ident.Pos, Ident.End, BasicLit.Pos, BasicLit.End, deref, Node.Pos,
      Node.End] at h)) <;>
    (try (simp [Expr.Pos, Expr.PosOf, Expr.End, Expr.EndOf, CallExpr.PosOf, CallExpr.EndOf,
      FuncType.PosOf, FuncType.EndOf, FieldList.PosOf, FieldList.EndOf, BlockStmt.PosOf,
      BlockStmt.EndOf, Stmt.Pos, Stmt.PosOf, Stmt.End, Stmt.EndOf, Decl.PosOf, Decl.EndOf,
      Spec.Pos, Spec.End, Decl.Pos, Decl.End, Ident.PosOf, Ident.EndOf, BasicLit.PosOf,
      BasicLit.EndOf, Ident.Pos, Ident.End, BasicLit.Pos, BasicLit.End, deref, h])) <;>
    (try (first
      | exact int.le_add_ofNat _ _ hf
      | exact int.le_add_natCast _ _ hf
      | exact le_of_eq_of_le h.2 (int.le_add_ofNat _ _ hf)
      | exact le_of_eq_of_le h.2 (int.le_add_natCast _ _ hf)
      | exact le_of_eq_of_le h (int.le_add_ofNat _ _ hf)
      | rw [← h.1, h.2]))
  | CommClause aCase aComm aColon aBody =>
    exact Stmt_frame_last_CommClause aCase aComm aColon aBody hf s h
  | SelectStmt aSelect aBody =>
    cases aBody <;>
    (try (simp only [Expr.endFits, Stmt.endFits, Node.endFits] at hf)) <;>
    (try (simp [Expr.layout, CallExpr.layout, FuncType.layout, Field.layout, BlockStmt.layout,
      Stmt.layout, Spec.layout, Decl.layout, Part.req, Part.opt, Part.many, Part.tokIf, Expr.node,
      Ident.node, BasicLit.node, FuncType.node, CallExpr.node, BlockStmt.node, FieldList.node,
      Field.node, Stmt.node, Decl.node, Spec.node, List.getLast?_cons] at h)) <;>
    (try (simp only [Part.span_tok_iff, Part.span_node_none, Part.span_node_some] at h)) <;>
    (try (simp [Expr.Pos, Expr.PosOf, Expr.End, Expr.EndOf, CallExpr.PosOf, CallExpr.EndOf,
      FuncType.PosOf, FuncType.EndOf, FieldList.PosOf, FieldList.EndOf, BlockStmt.PosOf,
      BlockStmt.EndOf, Stmt.Pos, Stmt.PosOf, Stmt.End, Stmt.EndOf, Decl.PosOf, Decl.EndOf,
      Spec.Pos, Spec.End, Decl.Pos, Decl.End, Ident.PosOf, Ident.EndOf, BasicLit.PosOf,
      BasicLit.EndOf, Ident.Pos, Ident.End, BasicLit.Pos, BasicLit.End, deref, Node.Pos,
      Node.End] at h)) <;>
    (try (simp [Expr.Pos, Expr.PosOf, Expr.End, Expr.EndOf, CallExpr.PosOf, CallExpr.EndOf,
      FuncType.PosOf, FuncType.EndOf, FieldList.PosOf, FieldList.EndOf, BlockStmt.PosOf,
      BlockStmt.EndOf, Stmt.Pos, Stmt.PosOf, Stmt.End, Stmt.EndOf, Decl.PosOf, Decl.EndOf,
      Spec.Pos, Spec.End, Decl.Pos, Decl.End, Ident.PosOf, Ident.EndOf, BasicLit.PosOf,
      BasicLit.EndOf, Ident.Pos, Ident.End, BasicLit.Pos, BasicLit.End, deref, h])) <;>
    (try (first
      | exact int.le_add_ofNat _ _ hf
      | exact int.le_add_natCast _ _ hf
      | exact le_of_eq_of_le h.2 (int.le_add_ofNat _ _ hf)
      | exact le_of_eq_of_le h.2 (int.le_add_natCast _ _ hf)
      | exact le_of_eq_of_le h (int.le_add_ofNat _ _ hf)
      | rw [← h.1, h.2]))
  | ForStmt aFor aInit aCond aPost aBody =>
    cases aInit <;> cases aCond <;> cases aPost <;> cases aBody <;>
    (try (simp only [Expr.endFits, Stmt.endFits, Node.endFits] at hf)) <;>
    (try (simp [Expr.layout, CallExpr.layout, FuncType.layout, Field.layout, BlockStmt.layout,
      Stmt.layout, Spec.layout, Decl.layout, Part.req, Part.opt, Part.many, Part.tokIf, Expr.node,
      Ident.node, BasicLit.node, FuncType.node, CallExpr.node, BlockStmt.node, FieldList.node,
      Field.node, Stmt.node, Decl.node, Spec.node, List.getLast?_cons] at h)) <;>
    (try (simp only [Part.span_tok_iff, Part.span_node_none, Part.span_node_some] at h)) <;>
    (try (simp [Expr.Pos, Expr.PosOf, Expr.End, Expr.EndOf, CallExpr.PosOf, CallExpr.EndOf,
      FuncType.PosOf, FuncType.EndOf, FieldList.PosOf, FieldList.EndOf, BlockStmt.PosOf,
      BlockStmt.EndOf, Stmt.Pos, Stmt.PosOf, Stmt.End, Stmt.EndOf, Decl.PosOf, Decl.EndOf,
      Spec.Pos, Spec.End, Decl.Pos, Decl.End, Ident.PosOf, Ident.EndOf, BasicLit.PosOf,
      BasicLit.EndOf, Ident.Pos, Ident.End, BasicLit.Pos, BasicLit.End, deref, Node.Pos,
      Node.End] at h)) <;>
    (try (simp [Expr.Pos, Expr.PosOf, Expr.End, Expr.EndOf, CallExpr.PosOf, CallExpr.EndOf,
      FuncType.PosOf, FuncType.EndOf, FieldList.PosOf, FieldList.EndOf, BlockStmt.PosOf,
      BlockStmt.EndOf, Stmt.Pos, Stmt.PosOf, Stmt.End, Stmt.EndOf, Decl.PosOf, Decl.EndOf,
      Spec.Pos, Spec.End, Decl.Pos, Decl.End, Ident.PosOf, Ident.EndOf, BasicLit.PosOf,
      BasicLit.EndOf, Ident.Pos, Ident.End, BasicLit.Pos, BasicLit.End, deref, h])) <;>
    (try (first
      | exact int.le_add_ofNat _ _ hf
      | exact int.le_add_natCast _ _ hf
      | exact le_of_eq_of_le h.2 (int.le_add_ofNat _ _ hf)
      | exact le_of_eq_of_le h.2 (int.le_add_natCast _ _ hf)
      | exact le_of_eq_of_le h (int.le_add_ofNat _ _ hf)
      | rw [← h.1, h.2]))
  | RangeStmt aFor aKey aValue aTokPos aTok aX aBody =>
    cases aKey <;> cases aValue <;> cases aX <;> cases aBody <;>
    (try (simp only [Expr.endFits, Stmt.endFits, Node.endFits] at hf)) <;>
    (try (simp [Expr.layout, CallExpr.layout, FuncType.layout, Field.layout, BlockStmt.layout,
      Stmt.layout, Spec.layout, Decl.layout, Part.req, Part.opt, Part.many, Part.tokIf, Expr.node,
      Ident.node, BasicLit.node, FuncType.node, CallExpr.node, BlockStmt.node, FieldList.node,
      Field.node, Stmt.node, Decl.node, Spec.node, List.getLast?_cons] at h)) <;>
    (try (simp only [Part.span_tok_iff, Part.span_node_none, Part.span_node_some] at h)) <;>
    (try (simp [Expr.Pos, Expr.PosOf, Expr.End, Expr.EndOf, CallExpr.PosOf, CallExpr.EndOf,
      FuncType.PosOf, FuncType.EndOf, FieldList.PosOf, FieldList.EndOf, BlockStmt.PosOf,
      BlockStmt.EndOf, Stmt.Pos, Stmt.PosOf, Stmt.End, Stmt.EndOf, Decl.PosOf, Decl.EndOf,
      Spec.Pos, Spec.End, Decl.Pos, Decl.End, Ident.PosOf, Ident.EndOf, BasicLit.PosOf,
      BasicLit.EndOf, Ident.Pos, Ident.End, BasicLit.Pos, BasicLit.End, deref, Node.Pos,
      Node.End] at h)) <;>
    (try (simp [Expr.Pos, Expr.PosOf, Expr.End, Expr.EndOf, CallExpr.PosOf, CallExpr.EndOf,
      FuncType.PosOf, FuncType.EndOf, FieldList.PosOf, FieldList.EndOf, BlockStmt.PosOf,
      BlockStmt.EndOf, Stmt.Pos, Stmt.PosOf, Stmt.End, Stmt.EndOf, Decl.PosOf, Decl.EndOf,
      Spec.Pos, Spec.End, Decl.Pos, Decl.End, Ident.PosOf, Ident.EndOf, BasicLit.PosOf,
      BasicLit.EndOf, Ident.Pos, Ident.End, BasicLit.Pos, BasicLit.End, deref, h])) <;>
    (try (first
      | exact int.le_add_ofNat _ _ hf
      | exact int.le_add_natCast _ _ hf
      | exact le_of_eq_of_le h.2 (int.le_add_ofNat _ _ hf)
      | exact le_of_eq_of_le h.2 (int.le_add_natCast _ _ hf)
      | exact le_of_eq_of_le h (int.le_add_ofNat _ _ hf)
      | rw [← h.1, h.2]))

set_option linter.unusedTactic false in
set_option linter.unreachableTactic false in
set_option linter.unnecessarySeqFocus false in
set_option maxHeartbeats 4000000 in
theorem Spec_frame_head (x : Spec) (hr : (Node.Spec x).requiredLists = true) (s : Span)
    (h : (x.layout.head?.bind Part.span) = some s) : Spec.Pos x = .ok s.1 := by
  cases x with
  | ImportSpec aDoc aName aPath aComment =>
    cases aDoc <;> cases aName <;> cases aPath <;> cases aComment <;>
    (try (simp [Expr.layout, CallExpr.layout, FuncType.layout, Field.layout, BlockStmt.layout,
      Stmt.layout, Spec.layout, Decl.layout, Part.req, Part.opt, Part.many, Part.tokIf, Expr.node,
      Ident.node, BasicLit.node, FuncType.node, CallExpr.node, BlockStmt.node, FieldList.node,
      Field.node, Stmt.node, Decl.node, Spec.node, List.getLast?_cons] at h)) <;>
    (try (simp only [Part.span_tok_iff, Part.span_node_none, Part.span_node_some] at h)) <;>
    (try (simp [Expr.Pos, Expr.PosOf, Expr.End, Expr.EndOf, CallExpr.PosOf, CallExpr.EndOf,
      FuncType.PosOf, FuncType.EndOf, FieldList.PosOf, FieldList.EndOf, BlockStmt.PosOf,
      BlockStmt.EndOf, Stmt.Pos, Stmt.PosOf, Stmt.End, Stmt.EndOf, Decl.PosOf, Decl.EndOf,
      Spec.Pos, Spec.End, Decl.Pos, Decl.End, Ident.PosOf, Ident.EndOf, BasicLit.PosOf,
      BasicLit.EndOf, Ident.Pos, Ident.End, BasicLit.Pos, BasicLit.End, deref, Node.Pos,
      Node.End] at h)) <;>
    (try (simp [Expr.Pos, Expr.PosOf, Expr.End, Expr.EndOf, CallExpr.PosOf, CallExpr.EndOf,
      FuncType.PosOf, FuncType.EndOf, FieldList.PosOf, FieldList.EndOf, BlockStmt.PosOf,
      BlockStmt.EndOf, Stmt.Pos, Stmt.PosOf, Stmt.End, Stmt.EndOf, Decl.PosOf, Decl.EndOf,
      Spec.Pos, Spec.End, Decl.Pos, Decl.End, Ident.PosOf, Ident.EndOf, BasicLit.PosOf,
      BasicLit.EndOf, Ident.Pos, Ident.End, BasicLit.Pos, BasicLit.End, deref, h]))
  | ValueSpec aDoc aNames aTyp aValues aComment =>
    exact Spec_frame_head_ValueSpec aDoc aNames aTyp aValues aComment hr s h
  | TypeSpec aDoc aName aAssign aTyp aComment =>
    cases aDoc <;> cases aName <;> cases aTyp <;> cases aComment <;>
    (try (simp [Expr.layout, CallExpr.layout, FuncType.layout, Field.layout, BlockStmt.layout,
      Stmt.layout, Spec.layout, Decl.layout, Part.req, Part.opt, Part.many, Part.tokIf, Expr.node,
      Ident.node, BasicLit.node, FuncType.node, CallExpr.node, BlockStmt.node, FieldList.node,
      Field.node, Stmt.node, Decl.node, Spec.node, List.getLast?_cons] at h)) <;>
    (try (simp only [Part.span_tok_iff, Part.span_node_none, Part.span_node_some] at h)) <;>
    (try (simp [Expr.Pos, Expr.PosOf, Expr.End, Expr.EndOf, CallExpr.PosOf, CallExpr.EndOf,
      FuncType.PosOf, FuncType.EndOf, FieldList.PosOf, FieldList.EndOf, BlockStmt.PosOf,
      BlockStmt.EndOf, Stmt.Pos, Stmt.PosOf, Stmt.End, Stmt.EndOf, Decl.PosOf, Decl.EndOf,
      Spec.Pos, Spec.End, Decl.Pos, Decl.End, Ident.PosOf, Ident.EndOf, BasicLit.PosOf,
      BasicLit.EndOf, Ident.Pos, Ident.End, BasicLit.Pos, BasicLit.End, deref, Node.Pos,
      Node.End] at h)) <;>
    (try (simp [Expr.Pos, Expr.PosOf, Expr.End, Expr.EndOf, CallExpr.PosOf, CallExpr.EndOf,
      FuncType.PosOf, FuncType.EndOf, FieldList.PosOf, FieldList.EndOf, BlockStmt.PosOf,
      BlockStmt.EndOf, Stmt.Pos, Stmt.PosOf, Stmt.End, Stmt.EndOf, Decl.PosOf, Decl.EndOf,
      Spec.Pos, Spec.End, Decl.Pos, Decl.End, Ident.PosOf, Ident.EndOf, BasicLit.PosOf,
      BasicLit.EndOf, Ident.Pos, Ident.End, BasicLit.Pos, BasicLit.End, deref, h]))

set_option linter.unusedTactic false in
set_option linter.unreachableTactic false in
set_option linter.unnecessarySeqFocus false in
set_option maxHeartbeats 4000000 in
theorem Spec_frame_last (x : Spec) (hr : (Node.Spec x).requiredLists = true) (s : Span)
    (h : (x.layout.getLast?.bind Part.span) = some s) :
    ∃ e, Spec.End x = .ok e ∧ s.2 ≤ e := by
  cases x with
  | ImportSpec aDoc aName aPath aComment =>
    cases aDoc <;> cases aName <;> cases aPath <;> cases aComment <;>
    (try (simp [Expr.layout, CallExpr.layout, FuncType.layout, Field.layout, BlockStmt.layout,
      Stmt.layout, Spec.layout, Decl.layout, Part.req, Part.opt, Part.many, Part.tokIf, Expr.node,
      Ident.node, BasicLit.node, FuncType.node, CallExpr.node, BlockStmt.node, FieldList.node,
      Field.node, Stmt.node, Decl.node, Spec.node, List.getLast?_cons] at h)) <;>
    (try (simp only [Part.span_tok_iff, Part.span_node_none, Part.span_node_some] at h)) <;>
    (try (simp [Expr.Pos, Expr.PosOf, Expr.End, Expr.EndOf, CallExpr.PosOf, CallExpr.EndOf,
      FuncType.PosOf, FuncType.EndOf, FieldList.PosOf, FieldList.EndOf, BlockStmt.PosOf,
      BlockStmt.EndOf, Stmt.Pos, Stmt.PosOf, Stmt.End, Stmt.EndOf, Decl.PosOf, Decl.EndOf,
      Spec.Pos, Spec.End, Decl.Pos, Decl.End, Ident.PosOf, Ident.EndOf, BasicLit.PosOf,
      BasicLit.EndOf, Ident.Pos, Ident.End, BasicLit.Pos, BasicLit.End, deref, Node.Pos,
      Node.End] at h)) <;>
    (try (simp [Expr.Pos, Expr.PosOf, Expr.End, Expr.EndOf, CallExpr.PosOf, CallExpr.EndOf,
      FuncType.PosOf, FuncType.EndOf, FieldList.PosOf, FieldList.EndOf, BlockStmt.PosOf,
      BlockStmt.EndOf, Stmt.Pos, Stmt.PosOf, Stmt.End, Stmt.EndOf, Decl.PosOf, Decl.EndOf,
      Spec.Pos, Spec.End, Decl.Pos, Decl.End, Ident.PosOf, Ident.EndOf, BasicLit.PosOf,
      BasicLit.EndOf, Ident.Pos, Ident.End, BasicLit.Pos, BasicLit.End, deref, h])) <;>
    (try (rw [← h.1, h.2]))
  | ValueSpec aDoc aNames aTyp aValues aComment =>
    exact Spec_frame_last_ValueSpec aDoc aNames aTyp aValues aComment hr s h
  | TypeSpec aDoc aName aAssign aTyp aComment =>
    cases aDoc <;> cases aName <;> cases aTyp <;> cases aComment <;>
    (try (simp [Expr.layout, CallExpr.layout, FuncType.layout, Field.layout, BlockStmt.layout,
      Stmt.layout, Spec.layout, Decl.layout, Part.req, Part.opt, Part.many, Part.tokIf, Expr.node,
      Ident.node, BasicLit.node, FuncType.node, CallExpr.node, BlockStmt.node, FieldList.node,
      Field.node, Stmt.node, Decl.node, Spec.node, List.getLast?_cons] at h)) <;>
    (try (simp only [Part.span_tok_iff, Part.span_node_none, Part.span_node_some] at h)) <;>
    (try (simp [Expr.Pos, Expr.PosOf, Expr.End, Expr.EndOf, CallExpr.PosOf, CallExpr.EndOf,
      FuncType.PosOf, FuncType.EndOf, FieldList.PosOf, FieldList.EndOf, BlockStmt.PosOf,
      BlockStmt.EndOf, Stmt.Pos, Stmt.PosOf, Stmt.End, Stmt.EndOf, Decl.PosOf, Decl.EndOf,
      Spec.Pos, Spec.End, Decl.Pos, Decl.End, Ident.PosOf, Ident.EndOf, BasicLit.PosOf,
      BasicLit.EndOf, Ident.Pos, Ident.End, BasicLit.Pos, BasicLit.End, deref, Node.Pos,
      Node.End] at h)) <;>
    (try (simp [Expr.Pos, Expr.PosOf, Expr.End, Expr.EndOf, CallExpr.PosOf, CallExpr.EndOf,
      FuncType.PosOf, FuncType.EndOf, FieldList.PosOf, FieldList.EndOf, BlockStmt.PosOf,
      BlockStmt.EndOf, Stmt.Pos, Stmt.PosOf, Stmt.End, Stmt.EndOf, Decl.PosOf, Decl.EndOf,
      Spec.Pos, Spec.End, Decl.Pos, Decl.End, Ident.PosOf, Ident.EndOf, BasicLit.PosOf,
      BasicLit.EndOf, Ident.Pos, Ident.End, BasicLit.Pos, BasicLit.End, deref, h])) <;>
    (try (rw [← h.1, h.2]))

set_option linter.unusedTactic false in
set_option linter.unreachableTactic false in
set_option linter.unnecessarySeqFocus false in
set_option maxHeartbeats 4000000 in
theorem Decl_frame_head (x : Decl) (hr : (Node.Decl x).requiredLists = true)
    (hsp : Part.spans x.layout ≠ none) (s : Span)
    (h : (x.layout.head?.bind Part.span) = some s) : Decl.Pos x = .ok s.1 := by
  cases x with
  | BadDecl aFrom aTo =>
    (try (simp [Expr.layout, CallExpr.layout, FuncType.layout, Field.layout, BlockStmt.layout,
      Stmt.layout, Spec.layout, Decl.layout, Part.req, Part.opt, Part.many, Part.tokIf, Expr.node,
      Ident.node, BasicLit.node, FuncType.node, CallExpr.node, BlockStmt.node, FieldList.node,
      Field.node, Stmt.node, Decl.node, Spec.node, List.getLast?_cons] at h)) <;>
    (try (simp only [Part.span_tok_iff, Part.span_node_none, Part.span_node_some] at h)) <;>
    (try (simp [Expr.Pos, Expr.PosOf, Expr.End, Expr.EndOf, CallExpr.PosOf, CallExpr.EndOf,
      FuncType.PosOf, FuncType.EndOf, FieldList.PosOf, FieldList.EndOf, BlockStmt.PosOf,
      BlockStmt.EndOf, Stmt.Pos, Stmt.PosOf, Stmt.End, Stmt.EndOf, Decl.PosOf, Decl.EndOf,
      Spec.Pos, Spec.End, Decl.Pos, Decl.End, Ident.PosOf, Ident.EndOf, BasicLit.PosOf,
      BasicLit.EndOf, Ident.Pos, Ident.End, BasicLit.Pos, BasicLit.End, deref, Node.Pos,
      Node.End] at h)) <;>
    (try (simp [Expr.Pos, Expr.PosOf, Expr.End, Expr.EndOf, CallExpr.PosOf, CallExpr.EndOf,
      FuncType.PosOf, FuncType.EndOf, FieldList.PosOf, FieldList.EndOf, BlockStmt.PosOf,
      BlockStmt.EndOf, Stmt.Pos, Stmt.PosOf, Stmt.End, Stmt.EndOf, Decl.PosOf, Decl.EndOf,
      Spec.Pos, Spec.End, Decl.Pos, Decl.End, Ident.PosOf, Ident.EndOf, BasicLit.PosOf,
      BasicLit.EndOf, Ident.Pos, Ident.End, BasicLit.Pos, BasicLit.End, deref, h]))
  | GenDecl aDoc aTokPos aTok aLparen aSpecs aRparen =>
    exact Decl_frame_head_GenDecl aDoc aTokPos aTok aLparen aSpecs aRparen s h
  | FuncDecl aDoc aRecv aName aTyp aBody =>
    exact Decl_frame_head_FuncDecl aDoc aRecv aName aTyp aBody hsp s h

set_option linter.unusedTactic false in
set_option linter.unreachableTactic false in
set_option linter.unnecessarySeqFocus false in
set_option maxHeartbeats 4000000 in
theorem Decl_frame_last (x : Decl) (hr : (Node.Decl x).requiredLists = true)
    (hsp : Part.spans x.layout ≠ none) (hf : (Node.Decl x).endFits = true) (s : Span)
    (h : (x.layout.getLast?.bind Part.span) = some s) :
    ∃ e, Decl.End x = .ok e ∧ s.2 ≤ e := by
  cases x with
  | BadDecl aFrom aTo =>
    (try (simp only [Expr.endFits, Stmt.endFits, Node.endFits] at hf)) <;>
    (try (simp [Expr.layout, CallExpr.layout, FuncType.layout, Field.layout, BlockStmt.layout,
      Stmt.layout, Spec.layout, Decl.layout, Part.req, Part.opt, Part.many, Part.tokIf, Expr.node,
      Ident.node, BasicLit.node, FuncType.node, CallExpr.node, BlockStmt.node, FieldList.node,
      Field.node, Stmt.node, Decl.node, Spec.node, List.getLast?_cons] at h)) <;>
    (try (simp only [Part.span_tok_iff, Part.span_node_none, Part.span_node_some] at h)) <;>
    (try (simp [Expr.Pos, Expr.PosOf, Expr.End, Expr.EndOf, CallExpr.PosOf, CallExpr.EndOf,
      FuncType.PosOf, FuncType.EndOf, FieldList.PosOf, FieldList.EndOf, BlockStmt.PosOf,
      BlockStmt.EndOf, Stmt.Pos, Stmt.PosOf, Stmt.End, Stmt.EndOf, Decl.PosOf, Decl.EndOf,
      Spec.Pos, Spec.End, Decl.Pos, Decl.End, Ident.PosOf, Ident.EndOf, BasicLit.PosOf,
      BasicLit.EndOf, Ident.Pos, Ident.End, BasicLit.Pos, BasicLit.End, deref, Node.Pos,
      Node.End] at h)) <;>
    (try (simp [Expr.Pos, Expr.PosOf, Expr.End, Expr.EndOf, CallExpr.PosOf, CallExpr.EndOf,
      FuncType.PosOf, FuncType.EndOf, FieldList.PosOf, FieldList.EndOf, BlockStmt.PosOf,
      BlockStmt.EndOf, Stmt.Pos, Stmt.PosOf, Stmt.End, Stmt.EndOf, Decl.PosOf, Decl.EndOf,
      Spec.Pos, Spec.End, Decl.Pos, Decl.End, Ident.PosOf, Ident.EndOf, BasicLit.PosOf,
      BasicLit.EndOf, Ident.Pos, Ident.End, BasicLit.Pos, BasicLit.End, deref, h])) <;>
    (try (first
      | exact int.le_add_ofNat _ _ hf
      | exact int.le_add_natCast _ _ hf
      | exact le_of_eq_of_le h.2 (int.le_add_ofNat _ _ hf)
      | exact le_of_eq_of_le h.2 (int.le_add_natCast _ _ hf)
      | exact le_of_eq_of_le h (int.le_add_ofNat _ _ hf)
      | rw [← h.1, h.2]))
  | GenDecl aDoc aTokPos aTok aLparen aSpecs aRparen =>
    exact Decl_frame_last_GenDecl aDoc aTokPos aTok aLparen aSpecs aRparen hr hf s h
  | FuncDecl aDoc aRecv aName aTyp aBody =>
    exact Decl_frame_last_FuncDecl aDoc aRecv aName aTyp aBody hsp s h

end GoDef

namespace GoDef

theorem token.Pos.eq_NoPos_of_not_valid (p : token.Pos) (h : ¬ p.IsValid = true) :
    p = token.NoPos := by
  simpa [token.Pos.IsValid] using h

theorem FieldList_frame_head (x : FieldList)
    (hp : (Node.FieldList x).delimitersPaired = true) (s : Span)
    (h : (x.layout.head?.bind Part.span) = some s) : FieldList.Pos x = .ok s.1 := by
  cases x with
  | mk Opening Lst Closing =>
    by_cases hv : Opening.IsValid = true
    · have h2 : s.1 = Opening ∧ s.2 = Opening := by
        apply (Part.span_tok_iff Opening s).1
        simpa [FieldList.layout, Part.tokIf, hv] using h
      simp [FieldList.Pos, hv, h2.1]
    · cases Lst with
      | nil =>
        have hc : Closing.IsValid = false := by
          simpa [Node.delimitersPaired, hv] using hp.symm
        simp [FieldList.layout, Part.tokIf, Part.many, hv, hc] at h
      | cons f fs =>
        have h2 : Part.span (.node (Field.node f)) = some s := by
          simpa [FieldList.layout, Part.tokIf, hv, Part.many] using h
        simpa [FieldList.Pos, hv] using (Field_span_node f s h2).1

theorem FieldList_frame_last (x : FieldList) (hf : (Node.FieldList x).endFits = true)
    (hp : (Node.FieldList x).delimitersPaired = true) (s : Span)
    (h : (x.layout.getLast?.bind Part.span) = some s) :
    ∃ e, FieldList.End x = .ok e ∧ s.2 ≤ e := by
  cases x with
  | mk Opening Lst Closing =>
    by_cases hv : Closing.IsValid = true
    · have h2 : s.1 = Closing ∧ s.2 = Closing := by
        apply (Part.span_tok_iff Closing s).1
        simpa [FieldList.layout, Part.tokIf, hv, List.getLast?_append, List.getLast?_cons]
          using h
      refine ⟨Closing + 1, by simp [FieldList.End, hv], ?_⟩
      rw [h2.2]
      exact int.le_add_ofNat Closing 1 (by simpa [Node.endFits, hv] using hf)
    · cases Lst with
      | nil =>
        have ho : Opening.IsValid = false := by
          simpa [Node.delimitersPaired, hv] using hp
        simp [FieldList.layout, Part.tokIf, Part.many, hv, ho] at h
      | cons f fs =>
        have h2 : ((Part.tokIf Opening ++
            Part.many ((f :: fs).map Field.node)).getLast?.bind Part.span) = some s := by
          simpa [FieldList.layout, Part.tokIf, hv] using h
        rw [Part.getLast_many Field.node _ (f :: fs) (List.cons_ne_nil f fs)] at h2
        refine ⟨s.2, ?_, le_refl _⟩
        rw [← (Field_span_node _ s h2).2]
        exact FieldList.End_eq_last Opening Closing (f :: fs) (by simpa using hv)
          (List.cons_ne_nil f fs)

theorem Field_frame_head (x : Field) (s : Span)
    (h : (x.layout.head?.bind Part.span) = some s) : Field.Pos x = .ok s.1 := by
  cases x with
  | mk Doc Names Typ Tag cmt =>
    cases Names with
    | nil => exact (Expr_span_node Typ s h).1
    | cons n ns => exact (Ident_span_node n s h).1

theorem Field_frame_last (x : Field) (s : Span)
    (h : (x.layout.getLast?.bind Part.span) = some s) :
    ∃ e, Field.End x = .ok e ∧ s.2 ≤ e := by
  cases x with
  | mk Doc Names Typ Tag cmt =>
    cases Tag with
    | some t =>
      have h2 : Part.span (.node (some (Node.Expr (.BasicLit t)))) = some s := by
        simpa [Field.layout, Part.opt, Part.req, BasicLit.node, List.getLast?_append,
          List.getLast?_cons] using h
      exact ⟨s.2, ((Part.span_node_some _ _).1 h2).2, le_refl _⟩
    | none =>
      have h2 : Part.span (.node (Expr.node Typ)) = some s := by
        simpa [Field.layout, Part.opt, Part.req, BasicLit.node, List.getLast?_append,
          List.getLast?_cons] using h
      exact ⟨s.2, (Expr_span_node _ s h2).2, le_refl _⟩

theorem commentGroup_frame_head (g : CommentGroup) (s : Span)
    (h : ((Node.CommentGroup g).layout.head?.bind Part.span) = some s) :
    CommentGroup.Pos g = .ok s.1 := by
  cases g with
  | mk Lst =>
    cases Lst with
    | nil => simp [Node.layout, Part.many] at h
    | cons c cs => exact (Comment_span_node c s h).1

theorem commentGroup_frame_last (g : CommentGroup) (s : Span)
    (h : ((Node.CommentGroup g).layout.getLast?.bind Part.span) = some s) :
    ∃ e, CommentGroup.End g = .ok e ∧ s.2 ≤ e := by
  cases g with
  | mk Lst =>
    cases Lst with
    | nil => simp [Node.layout, Part.many] at h
    | cons c cs =>
      have h2 : ((([] : List Part) ++
          Part.many ((c :: cs).map Comment.node)).getLast?.bind Part.span) = some s := h
      rw [Part.getLast_many Comment.node _ (c :: cs) (List.cons_ne_nil c cs)] at h2
      refine ⟨s.2, ?_, le_refl _⟩
      rw [← (Comment_span_node _ s h2).2]
      simp only [CommentGroup.End]
      rw [List.getLast?_eq_getLast _ (List.cons_ne_nil c cs)]

theorem File_frame_last (f : File) (s : Span)
    (h : ((Node.File f).layout.getLast?.bind Part.span) = some s) :
    ∃ e, File.End f = .ok e ∧ s.2 ≤ e := by
  cases f with
  | mk Doc Package Name Decls Comments =>
    cases Decls with
    | nil =>
      have h2 : Part.span (.node (Ident.node Name)) = some s := by
        simpa [Node.layout, Part.many, Part.req, List.getLast?_append, List.getLast?_cons]
          using h
      exact ⟨s.2, by simpa [File.End] using (Ident_span_node _ s h2).2, le_refl _⟩
    | cons d ds =>
      have h2 : (([Part.tok Package] ++ Part.req (Ident.node Name) ++
          Part.many ((d :: ds).map Decl.node)).getLast?.bind Part.span) = some s := h
      rw [Part.getLast_many Decl.node _ (d :: ds) (List.cons_ne_nil d ds)] at h2
      refine ⟨s.2, ?_, le_refl _⟩
      rw [← (Decl_span_node _ s h2).2]
      simp only [File.End]
      rw [lastElem_eq_getLast (d :: ds) (List.cons_ne_nil d ds)]
      rfl

theorem Node.localFit_iff (n : Node) :
    n.localFit = true ↔ n.endFits = true ∧ n.delimitersPaired = true := by
  simp [Node.localFit]

theorem Node_frame_head (n : Node) (hr : n.requiredLists = true)
    (hp : n.delimitersPaired = true) (hsp : Part.spans n.layout ≠ none) (s : Span)
    (h : (n.layout.head?.bind Part.span) = some s) : n.Pos = .ok s.1 := by
  cases n with
  | Comment c =>
    have h2 : s.1 = c.Slash ∧ s.2 = c.Slash := (Part.span_tok_iff _ s).1 h
    simp [Node.Pos, Comment.Pos, h2.1]
  | CommentGroup g => exact commentGroup_frame_head g s h
  | Field f => exact Field_frame_head f s h
  | FieldList l => exact FieldList_frame_head l hp s h
  | Expr e => exact Expr_frame_head e s h
  | Stmt x => exact Stmt_frame_head x hr s h
  | Spec x => exact Spec_frame_head x hr s h
  | Decl x => exact Decl_frame_head x hr hsp s h
  | File f =>
    have h2 : s.1 = f.Package ∧ s.2 = f.Package := (Part.span_tok_iff _ s).1 h
    simp [Node.Pos, File.Pos, h2.1]
  | Package p =>
    have h2 : s.1 = token.NoPos ∧ s.2 = token.NoPos := (Part.span_tok_iff _ s).1 h
    simp [Node.Pos, Package.Pos, h2.1]

theorem Node_frame_last (n : Node) (hr : n.requiredLists = true) (hf : n.endFits = true)
    (hp : n.delimitersPaired = true) (hsp : Part.spans n.layout ≠ none) (s : Span)
    (h : (n.layout.getLast?.bind Part.span) = some s) : ∃ e, n.End = .ok e ∧ s.2 ≤ e := by
  cases n with
  | Comment c =>
    have h2 : s.1 = c.Slash ∧ s.2 = c.Slash := (Part.span_tok_iff _ s).1 h
    refine ⟨c.End, rfl, ?_⟩
    rw [h2.2]
    exact int.le_add_natCast c.Slash c.Text.utf8ByteSize hf
  | CommentGroup g => exact commentGroup_frame_last g s h
  | Field f => exact Field_frame_last f s h
  | FieldList l => exact FieldList_frame_last l hf hp s h
  | Expr e => exact Expr_frame_last e hf s h
  | Stmt x => exact Stmt_frame_last x hr hf s h
  | Spec x => exact Spec_frame_last x hr s h
  | Decl x => exact Decl_frame_last x hr hsp hf s h
  | File f => exact File_frame_last f s h
  | Package p =>
    have h2 : s.1 = token.NoPos ∧ s.2 = token.NoPos := (Part.span_tok_iff _ s).1 h
    exact ⟨token.NoPos, rfl, by rw [h2.2]⟩

set_option maxHeartbeats 4000000 in
/-- Only a field list without delimiters and fields has an empty layout: its
`Pos` and `End` are the invalid sentinel. -/
theorem Node.layout_nil (n : Node) (hr : n.requiredLists = true) (h : n.layout = []) :
    n.Pos = .ok token.NoPos ∧ n.End = .ok token.NoPos ∧ n.inner = [] := by
  cases n with
  | Comment c => simp [Node.layout] at h
  | CommentGroup g =>
    cases g with
    | mk Lst => cases Lst <;> simp [Node.layout, Node.requiredLists, Part.many] at hr h
  | Field f =>
    cases f
    simp [Node.layout, Field.layout, Part.req] at h
  | FieldList l =>
    cases l with
    | mk Opening Lst Closing =>
      cases Lst with
      | cons f fs => simp [Node.layout, FieldList.layout, Part.many] at h
      | nil =>
        by_cases ho : Opening.IsValid = true
        · simp [Node.layout, FieldList.layout, Part.tokIf, ho] at h
        · by_cases hc : Closing.IsValid = true
          · simp [Node.layout, FieldList.layout, Part.tokIf, Part.many, ho, hc] at h
          · exact ⟨by simp [Node.Pos, FieldList.Pos, ho], by simp [Node.End, FieldList.End, hc],
              rfl⟩
  | Expr e =>
    cases e with
    | CallExpr c =>
      cases c
      simp [Node.layout, Expr.layout, CallExpr.layout, Part.req] at h
    | FuncType t =>
      cases t
      simp [Node.layout, Expr.layout, FuncType.layout, Part.req] at h
    | _ => simp [Node.layout, Expr.layout, Part.req] at h
  | Stmt x =>
    cases x with
    | BlockStmt b =>
      cases b
      simp [Node.layout, Stmt.layout, BlockStmt.layout] at h
    | _ => simp [Node.layout, Stmt.layout, Part.req] at h
  | Spec x =>
    cases x with
    | ImportSpec Doc Name Path cmt => simp [Node.layout, Spec.layout, Part.req] at h
    | ValueSpec Doc Names Typ Values cmt =>
      cases Names <;> simp [Node.layout, Node.requiredLists, Spec.layout, Part.many] at hr h
    | TypeSpec Doc Name Assign Typ cmt => simp [Node.layout, Spec.layout, Part.req] at h
  | Decl x =>
    cases x with
    | BadDecl From To => simp [Node.layout, Decl.layout] at h
    | GenDecl Doc TokPos Tok Lparen Specs Rparen =>
      by_cases hv : Rparen.IsValid = true <;> simp [Node.layout, Decl.layout, hv] at h
    | FuncDecl Doc Recv Name Typ Body =>
      rcases Typ with _ | ⟨⟨Func, Params, Results⟩⟩ <;>
        simp [Node.layout, Decl.layout, Part.req] at h
  | File f => simp [Node.layout] at h
  | Package p => simp [Node.layout] at h

end GoDef

namespace GoDef

/-! ## Well-formed trees: source order gives containment -/

theorem Part.spans_cons (p : Part) (ps : List Part) (ss : List Span)
    (h : Part.spans (p :: ps) = some ss) :
    ∃ s ss', p.span = some s ∧ Part.spans ps = some ss' ∧ ss = s :: ss' := by
  simp only [Part.spans] at h
  cases hp : p.span with
  | none => simp [hp] at h
  | some s =>
    cases hs : Part.spans ps with
    | none => simp [hp, hs] at h
    | some ss' =>
      simp [hp, hs] at h
      exact ⟨s, ss', rfl, rfl, h.symm⟩

theorem Part.spans_append (a b : List Part) (ss : List Span)
    (h : Part.spans (a ++ b) = some ss) :
    ∃ sa sb, Part.spans a = some sa ∧ Part.spans b = some sb ∧ ss = sa ++ sb := by
  induction a generalizing ss with
  | nil => exact ⟨[], ss, rfl, h, rfl⟩
  | cons p ps ih =>
    obtain ⟨s, ss', hp, hs, rfl⟩ := Part.spans_cons p (ps ++ b) ss h
    obtain ⟨sa, sb, h1, h2, rfl⟩ := ih ss' hs
    exact ⟨s :: sa, sb, by simp [Part.spans, hp, h1], h2, rfl⟩

theorem Part.spans_head (ps : List Part) (ss : List Span) (h : Part.spans ps = some ss) :
    ps.head?.bind Part.span = ss.head? := by
  cases ps with
  | nil =>
    simp [Part.spans] at h
    simp [h]
  | cons p ps =>
    obtain ⟨s, ss', hp, _, rfl⟩ := Part.spans_cons p ps ss h
    simp [hp]

theorem Part.spans_getLast (ps : List Part) (ss : List Span) (h : Part.spans ps = some ss) :
    ps.getLast?.bind Part.span = ss.getLast? := by
  induction ps generalizing ss with
  | nil =>
    simp [Part.spans] at h
    simp [h]
  | cons p ps ih =>
    obtain ⟨s, ss', hp, hs, rfl⟩ := Part.spans_cons p ps ss h
    cases ps with
    | nil =>
      simp [Part.spans] at hs
      simp [hs, hp]
    | cons q qs =>
      obtain ⟨t, ts, _, _, rfl⟩ := Part.spans_cons q qs ss' hs
      have := ih (t :: ts) hs
      simpa [List.getLast?_cons_cons] using this

theorem Part.spans_child (ps : List Part) (ss : List Span) (h : Part.spans ps = some ss)
    (c : Node) (hc : c ∈ ps.filterMap Part.child) :
    ∃ s ∈ ss, c.Pos = .ok s.1 ∧ c.End = .ok s.2 := by
  induction ps generalizing ss with
  | nil => simp at hc
  | cons p ps ih =>
    obtain ⟨s, ss', hp, hs, rfl⟩ := Part.spans_cons p ps ss h
    rw [List.filterMap_cons] at hc
    cases hpc : p.child with
    | none =>
      rw [hpc] at hc
      obtain ⟨t, ht, h1⟩ := ih ss' hs hc
      exact ⟨t, List.mem_cons_of_mem _ ht, h1⟩
    | some d =>
      rw [hpc] at hc
      rcases List.mem_cons.1 hc with rfl | hc
      · cases p with
        | tok q => simp [Part.child] at hpc
        | node x =>
          simp only [Part.child] at hpc
          subst hpc
          exact ⟨s, List.mem_cons_self _ _, (Part.span_node_some _ _).1 hp⟩
      · obtain ⟨t, ht, h1⟩ := ih ss' hs hc
        exact ⟨t, List.mem_cons_of_mem _ ht, h1⟩

theorem Part.spans_proper (ps : List Part) (ss : List Span) (h : Part.spans ps = some ss)
    (hp : ∀ c ∈ ps.filterMap Part.child, Node.Proper c) : ∀ s ∈ ss, s.1 ≤ s.2 := by
  induction ps generalizing ss with
  | nil =>
    simp [Part.spans] at h
    simp [h]
  | cons p ps ih =>
    obtain ⟨s, ss', hs, hss, rfl⟩ := Part.spans_cons p ps ss h
    intro t ht
    rcases List.mem_cons.1 ht with rfl | ht
    · cases p with
      | tok q =>
        obtain ⟨h1, h2⟩ := (Part.span_tok_iff q t).1 hs
        rw [h1, h2]
      | node x =>
        cases x with
        | none => simp [Part.span] at hs
        | some d =>
          obtain ⟨h1, h2⟩ := (Part.span_node_some d t).1 hs
          obtain ⟨p0, e0, hp0, he0, hle⟩ := hp d (by simp [Part.child])
          rw [h1] at hp0
          rw [h2] at he0
          cases hp0
          cases he0
          exact hle
    · refine ih ss' hss (fun c hc => hp c ?_) t ht
      rw [List.filterMap_cons]
      cases p.child with
      | none => exact hc
      | some d => exact List.mem_cons_of_mem _ hc

theorem Span.inOrder_cons_cons (a b : Span) (rest : List Span)
    (h : Span.inOrder (a :: b :: rest) = true) :
    a.2 ≤ b.1 ∧ Span.inOrder (b :: rest) = true := by
  simpa [Span.inOrder] using h

theorem Span.inOrder_tail (a : Span) (rest : List Span)
    (h : Span.inOrder (a :: rest) = true) : Span.inOrder rest = true := by
  cases rest with
  | nil => rfl
  | cons b rest => exact (Span.inOrder_cons_cons a b rest h).2

theorem Span.inOrder_append_right (sa sb : List Span)
    (h : Span.inOrder (sa ++ sb) = true) : Span.inOrder sb = true := by
  induction sa with
  | nil => exact h
  | cons a sa ih => exact ih (Span.inOrder_tail a _ h)

theorem Span.inOrder_append_left (sa sb : List Span)
    (h : Span.inOrder (sa ++ sb) = true) : Span.inOrder sa = true := by
  induction sa with
  | nil => rfl
  | cons a sa ih =>
    cases sa with
    | nil => rfl
    | cons b sa =>
      obtain ⟨h1, h2⟩ := Span.inOrder_cons_cons a b (sa ++ sb) h
      simp only [Span.inOrder, Bool.and_eq_true, decide_eq_true_eq]
      exact ⟨h1, ih h2⟩

theorem Span.inOrder_bounds (ss : List Span) (ho : Span.inOrder ss = true)
    (hp : ∀ s ∈ ss, s.1 ≤ s.2) (a l : Span) (ha : ss.head? = some a)
    (hl : ss.getLast? = some l) : ∀ s ∈ ss, a.1 ≤ s.1 ∧ s.2 ≤ l.2 := by
  induction ss generalizing a with
  | nil => simp at ha
  | cons x rest ih =>
    simp only [List.head?_cons, Option.some.injEq] at ha
    subst ha
    cases rest with
    | nil =>
      simp only [List.getLast?_singleton, Option.some.injEq] at hl
      subst hl
      intro s hs
      simp only [List.mem_singleton] at hs
      subst hs
      exact ⟨le_refl _, le_refl _⟩
    | cons y rest =>
      obtain ⟨h1, h2⟩ := Span.inOrder_cons_cons x y rest ho
      rw [List.getLast?_cons_cons] at hl
      have ih2 := ih h2 (fun s hs => hp s (List.mem_cons_of_mem _ hs)) y rfl hl
      have hx := hp x (List.mem_cons_self _ _)
      have hy := hp y (List.mem_cons_of_mem _ (List.mem_cons_self _ _))
      have hyl := (ih2 y (List.mem_cons_self _ _)).2
      intro s hs
      rcases List.mem_cons.1 hs with rfl | hs
      · exact ⟨le_refl _, le_trans h1 (le_trans hy hyl)⟩
      · exact ⟨le_trans hx (le_trans h1 (ih2 s hs).1), (ih2 s hs).2⟩

theorem Part.spans_nil_iff (ps : List Part) (h : Part.spans ps = some []) : ps = [] := by
  cases ps with
  | nil => rfl
  | cons p ps =>
    obtain ⟨s, ss', _, _, h3⟩ := Part.spans_cons p ps [] h
    cases h3

theorem Node.localWF_layout (n : Node) (h : n.localWF = true) :
    n.requiredLists = true ∧
      ∃ ls, Part.spans n.layout = some ls ∧ Span.inOrder ls = true := by
  unfold Node.localWF at h
  rw [Bool.and_eq_true] at h
  refine ⟨h.1, ?_⟩
  cases hs : Part.spans (n.before ++ n.layout ++ n.after) with
  | none =>
    have h2 := h.2
    rw [hs] at h2
    cases h2
  | some ss =>
    have ho : Span.inOrder ss = true := by
      have h2 := h.2
      rw [hs] at h2
      exact h2
    obtain ⟨sab, sc, h1, _, rfl⟩ := Part.spans_append _ _ ss hs
    obtain ⟨sa, sb, _, h3, rfl⟩ := Part.spans_append _ _ sab h1
    exact ⟨sb, h3, Span.inOrder_append_right sa sb (Span.inOrder_append_left _ sc ho)⟩

theorem Node.layout_frame (n : Node) (h : n.localWF = true) (hfit : n.localFit = true)
    (hc : ∀ c ∈ n.layout.filterMap Part.child, Node.Proper c) :
    ∃ p e, n.Pos = .ok p ∧ n.End = .ok e ∧ p ≤ e ∧
      ∀ c ∈ n.layout.filterMap Part.child,
        ∃ cp ce, c.Pos = .ok cp ∧ c.End = .ok ce ∧ p ≤ cp ∧ ce ≤ e := by
  obtain ⟨hr, ls, hs, ho⟩ := Node.localWF_layout n h
  obtain ⟨hf, hp⟩ := (Node.localFit_iff n).1 hfit
  have hsp : Part.spans n.layout ≠ none := by
    rw [hs]
    exact Option.some_ne_none ls
  cases ls with
  | nil =>
    have hnil := Part.spans_nil_iff _ hs
    obtain ⟨h1, h2, _⟩ := Node.layout_nil n hr hnil
    refine ⟨token.NoPos, token.NoPos, h1, h2, le_refl _, ?_⟩
    intro c hcm
    rw [hnil] at hcm
    cases hcm
  | cons a rest =>
    have hne : a :: rest ≠ [] := List.cons_ne_nil a rest
    have hl : (a :: rest).getLast? = some ((a :: rest).getLast hne) :=
      List.getLast?_eq_getLast _ hne
    have hpos := Node_frame_head n hr hp hsp a (by rw [Part.spans_head _ _ hs]; rfl)
    obtain ⟨e, hend, hle⟩ := Node_frame_last n hr hf hp hsp ((a :: rest).getLast hne)
      (by rw [Part.spans_getLast _ _ hs]; exact hl)
    have hb := Span.inOrder_bounds (a :: rest) ho (Part.spans_proper _ _ hs hc) a _ rfl hl
    have ha := Part.spans_proper _ _ hs hc a (List.mem_cons_self _ _)
    refine ⟨a.1, e, hpos, hend, ?_, ?_⟩
    · exact le_trans ha (le_trans (hb a (List.mem_cons_self _ _)).2 hle)
    · intro c hcm
      obtain ⟨s, hsm, h1, h2⟩ := Part.spans_child _ _ hs c hcm
      exact ⟨s.1, s.2, h1, h2, (hb s hsm).1, le_trans (hb s hsm).2 hle⟩

theorem Node.inner_contained (n : Node) (p e : token.Pos) (hp : n.Pos = .ok p)
    (hl : ∀ c ∈ n.layout.filterMap Part.child,
      ∃ cp ce, c.Pos = .ok cp ∧ c.End = .ok ce ∧ p ≤ cp ∧ ce ≤ e)
    (c : Node) (hc : c ∈ n.inner) (hcp : Node.Proper c) :
    ∃ cp ce, c.Pos = .ok cp ∧ c.End = .ok ce ∧ p ≤ cp ∧ ce ≤ e := by
  cases n with
  | Decl d =>
    cases d with
    | FuncDecl Doc Recv Name Typ Body =>
      rcases Typ with _ | ⟨⟨Func, Params, Results⟩⟩
      · simp [Node.inner] at hc
      · simp only [Node.inner, List.mem_singleton] at hc
        subst hc
        obtain ⟨cp, ce, hcpos, hcend, _⟩ := hcp
        have h1 : Except.ok cp = (Except.ok p : Except Failure token.Pos) := by
          rw [← hcpos, ← hp]
          rfl
        have h1b : cp = p := Except.ok.inj h1
        refine ⟨cp, ce, hcpos, hcend, le_of_eq h1b.symm, ?_⟩
        cases Results with
        | some r =>
          obtain ⟨rp, re, _, h3, _, h5⟩ := hl (Node.FieldList r)
            (by simp [Node.layout, Decl.layout, Part.opt, Part.req, FieldList.node, Part.child])
          have h6 : Except.ok ce = (Except.ok re : Except Failure token.Pos) := by
            rw [← hcend, ← h3]
            rfl
          exact le_trans (le_of_eq (Except.ok.inj h6)) h5
        | none =>
          cases Params with
          | none => cases hcend
          | some pr =>
            obtain ⟨rp, re, _, h3, _, h5⟩ := hl (Node.FieldList pr)
              (by simp [Node.layout, Decl.layout, Part.opt, Part.req, FieldList.node,
                Part.child])
            have h6 : Except.ok ce = (Except.ok re : Except Failure token.Pos) := by
              rw [← hcend, ← h3]
              rfl
            exact le_trans (le_of_eq (Except.ok.inj h6)) h5
    | BadDecl From To => simp [Node.inner] at hc
    | GenDecl Doc TokPos Tok Lparen Specs Rparen => simp [Node.inner] at hc
  | Comment x => simp [Node.inner] at hc
  | CommentGroup x => simp [Node.inner] at hc
  | Field x => simp [Node.inner] at hc
  | FieldList x => simp [Node.inner] at hc
  | Expr x => simp [Node.inner] at hc
  | Stmt x => simp [Node.inner] at hc
  | Spec x => simp [Node.inner] at hc
  | File x => simp [Node.inner] at hc
  | Package x => simp [Node.inner] at hc

theorem Node.mem_children_of_spanChildren (n c : Node) (h : c ∈ n.spanChildren) :
    c ∈ n.children := by
  unfold Node.children
  simp [h]

theorem Node.localWF_step (n : Node) (h : n.localWF = true) (hfit : n.localFit = true)
    (hc : ∀ c ∈ n.children, Node.Proper c) :
    Node.Proper n ∧ ∀ c ∈ n.spanChildren, Node.Contains n c := by
  have hc2 : ∀ c ∈ n.spanChildren, Node.Proper c := fun c hm =>
    hc c (Node.mem_children_of_spanChildren n c hm)
  obtain ⟨p, e, hp, he, hle, hl⟩ := Node.layout_frame n h hfit
    (fun c hm => hc2 c (by unfold Node.spanChildren; simp [hm]))
  refine ⟨⟨p, e, hp, he, hle⟩, ?_⟩
  intro c hm
  have hm2 := hm
  unfold Node.spanChildren at hm2
  rcases List.mem_append.1 hm2 with h1 | h1
  · obtain ⟨cp, ce, h2, h3, h4, h5⟩ := hl c h1
    exact ⟨p, e, cp, ce, hp, he, h2, h3, h4, h5⟩
  · obtain ⟨cp, ce, h2, h3, h4, h5⟩ := Node.inner_contained n p e hp hl c h1 (hc2 c hm)
    exact ⟨p, e, cp, ce, hp, he, h2, h3, h4, h5⟩

theorem Node.Every_children (P : Node → Bool) (n : Node) (h : Node.Every P n) :
    ∀ c ∈ n.children, Node.Every P c := by
  cases h with
  | intro _ _ hchildren => exact hchildren

theorem Node.Every_local (P : Node → Bool) (n : Node) (h : Node.Every P n) : P n = true := by
  cases h with
  | intro _ hlocal _ => exact hlocal

theorem Node.Every_within (P : Node → Bool) (n root : Node) (hw : Node.Within n root)
    (h : Node.Every P root) : Node.Every P n := by
  induction hw with
  | refl => exact h
  | step c r hc _ ih => exact ih (Node.Every_children P r h c hc)

theorem Node.WF_proper (n : Node) (h : Node.WF n) (hfit : Node.Fitting n) : Node.Proper n := by
  unfold Node.WF at h
  induction h with
  | intro n hlocal hch ih =>
    exact (Node.localWF_step n hlocal (Node.Every_local _ n hfit)
      (fun c hc => ih c hc (Node.Every_children _ n hfit c hc))).1

theorem Node.WF_contains (n : Node) (h : Node.WF n) (hfit : Node.Fitting n) :
    ∀ c ∈ n.spanChildren, Node.Contains n c :=
  (Node.localWF_step n (Node.Every_local _ n h) (Node.Every_local _ n hfit)
    (fun c hc => Node.WF_proper c (Node.Every_children _ n h c hc)
      (Node.Every_children _ n hfit c hc))).2

theorem Node.everyCheck_sound (P : Node → Bool) (fuel : Nat) (n : Node)
    (h : Node.everyCheck P fuel n = true) : Node.Every P n := by
  induction fuel generalizing n with
  | zero => simp [Node.everyCheck] at h
  | succ k ih =>
    simp only [Node.everyCheck, Bool.and_eq_true, List.all_eq_true] at h
    exact Node.Every.intro n h.1 (fun c hc => ih c (h.2 c hc))

theorem Node.within_trans (a b c : Node) (hab : Node.Within a b) (hbc : Node.Within b c) :
    Node.Within a c := by
  induction hbc with
  | refl => exact hab
  | step d r hd _ ih => exact Node.Within.step a d r hd ih

theorem Node.within_of_reached (d n : Node) (h : Node.Reached d n) : Node.Within d n := by
  induction h with
  | refl => exact Node.Within.refl d
  | step c r hc _ ih =>
    exact Node.Within.step d c r
      (Node.mem_children_of_spanChildren r c (Node.callArgs_spanChildren r c hc)) ih

theorem Node.InSpan_of_contains (n c : Node) (pos : token.Pos) (h : Node.Contains n c)
    (hc : c.InSpan pos) : n.InSpan pos := by
  obtain ⟨p, e, cp, ce, hp, he, hcp, hce, h1, h2⟩ := h
  obtain ⟨cp2, ce2, hcp2, hce2, h3, h4⟩ := hc
  rw [hcp] at hcp2
  rw [hce] at hce2
  cases hcp2
  cases hce2
  exact ⟨p, e, hp, he, le_trans h1 h3, lt_of_lt_of_le h4 h2⟩

theorem Node.reached_inSpan (d n : Node) (pos : token.Pos) (hr : Node.Reached d n)
    (h : Node.WF n) (hfit : Node.Fitting n) (hd : d.InSpan pos) : n.InSpan pos := by
  induction hr with
  | refl => exact hd
  | step c r hc _ ih =>
    have hcs := Node.callArgs_spanChildren r c hc
    have hcc := Node.mem_children_of_spanChildren r c hcs
    exact Node.InSpan_of_contains r c pos (Node.WF_contains r h hfit c hcs)
      (ih (Node.Every_children _ r h c hcc) (Node.Every_children _ r hfit c hcc))

end GoDef

namespace GoDef

/-! ## Spans in well-formed trees -/

theorem Node.not_proper_of (n : Node) (p e : token.Pos) (hp : n.Pos = .ok p)
    (he : n.End = .ok e) (h : e < p) : ¬ Node.Proper n := by
  rintro ⟨p2, e2, hp2, he2, hle⟩
  rw [hp] at hp2
  rw [he] at he2
  cases hp2
  cases he2
  exact absurd hle (not_le.mpr h)

theorem Node.not_contains_of_pos (n c : Node) (p cp : token.Pos) (hp : n.Pos = .ok p)
    (hcp : c.Pos = .ok cp) (h : cp < p) : ¬ Node.Contains n c := by
  rintro ⟨p2, e2, cp2, ce2, hp2, _, hcp2, _, hle, _⟩
  rw [hp] at hp2
  rw [hcp] at hcp2
  cases hp2
  cases hcp2
  exact absurd hle (not_le.mpr h)

theorem Node.not_contains_of_end (n c : Node) (e ce : token.Pos) (he : n.End = .ok e)
    (hce : c.End = .ok ce) (h : e < ce) : ¬ Node.Contains n c := by
  rintro ⟨p2, e2, cp2, ce2, _, he2, _, hce2, _, hle⟩
  rw [he] at he2
  rw [hce] at hce2
  cases he2
  cases hce2
  exact absurd hle (not_le.mpr h)

/-- C23, as stated, fails.  The field list with an opening parenthesis at 3, no
field and no closing parenthesis is a well-formed tree: its one stored token
is in source order and it has no required child or list; its `Pos` is 3 and its
`End` is `NoPos`, which is 0.  The identifier `x` at the greatest `int` is a
well-formed tree of one node; its `Pos` is the greatest `int` and its `End`,
the sum of `NamePos` and 1 on `int`, is the least `int`. -/
theorem wellFormed_pos_after_end :
    Node.WF (.FieldList fieldListOpenOnly) ∧
    (Node.FieldList fieldListOpenOnly).Pos = .ok 3 ∧
    (Node.FieldList fieldListOpenOnly).End = .ok token.NoPos ∧
    ¬ Node.Proper (.FieldList fieldListOpenOnly) ∧
    Node.WF (.Expr (.Ident ⟨MaxInt, "x"⟩)) ∧
    (Node.Expr (.Ident ⟨MaxInt, "x"⟩)).Pos = .ok MaxInt ∧
    (Node.Expr (.Ident ⟨MaxInt, "x"⟩)).End = .ok MinInt ∧
    ¬ Node.Proper (.Expr (.Ident ⟨MaxInt, "x"⟩)) :=
  ⟨Node.everyCheck_sound _ 2 _ rfl, rfl, rfl,
    Node.not_proper_of _ 3 token.NoPos rfl rfl (by decide),
    Node.everyCheck_sound _ 2 _ rfl, rfl, rfl,
    Node.not_proper_of _ MaxInt MinInt rfl rfl (by decide)⟩

/-- C23, amended: for every node `n` of a well-formed tree in which no `End`
derivation wraps around (every position to which a length or 1 is added is far
enough below the greatest `int`) and every field list without fields has both
of its delimiters or none, the derived span satisfies `Pos(n) ≤ End(n)`: both
derivations return a position, and the start is not after the end.  A tree is
well formed when, at every node, the stored token positions and the spans of
the children occur in source order, the required children are present and the
required lists are not empty. -/
theorem wellFormed_Pos_le_End (root n : Node) (hwf : Node.WF root)
    (hfit : Node.Fitting root) (hn : Node.Within n root) :
    ∃ p e, n.Pos = .ok p ∧ n.End = .ok e ∧ p ≤ e :=
  Node.WF_proper n (Node.Every_within _ n root hn hwf) (Node.Every_within _ n root hn hfit)

/-- C23 (witness): the file `package q; func g(a int) { a }` is well formed
and no end of a span wraps around in it, the function declaration is a node of
it, and its span is `[11, 30)`. -/
theorem wellFormed_Pos_le_End_witness :
    Node.WF (.File fileFuncG) ∧ Node.Fitting (.File fileFuncG) ∧
      Node.Within (.Decl funcDeclG) (.File fileFuncG) ∧
      (Node.Decl funcDeclG).Pos = .ok 11 ∧ (Node.Decl funcDeclG).End = .ok 30 ∧
      ∃ p e, (Node.Decl funcDeclG).Pos = .ok p ∧ (Node.Decl funcDeclG).End = .ok e ∧ p ≤ e :=
  ⟨Node.everyCheck_sound _ 8 _ rfl, Node.everyCheck_sound _ 8 _ rfl,
    Node.Within.step _ _ _ (List.Mem.tail _ (List.Mem.head _)) (Node.Within.refl _),
    rfl, rfl,
    wellFormed_Pos_le_End (.File fileFuncG) (.Decl funcDeclG) (Node.everyCheck_sound _ 8 _ rfl)
      (Node.everyCheck_sound _ 8 _ rfl)
      (Node.Within.step _ _ _ (List.Mem.tail _ (List.Mem.head _)) (Node.Within.refl _))⟩

/-- C24, as stated, fails, in six ways.  The trees are well formed.

The field `x int` at `[6, 11)` has the documentation `// d` at `[1, 5)` and the
line comment `// c` at `[13, 17)` as direct children: neither span is contained
in the span of the field.  The file `// c`, newline, `package p` spans
`[6, 15)` from its `package` keyword, and its comment at `[1, 5)` is a direct
child.  The package of the file `package q; var x int` has the span
`[NoPos, NoPos)`, and the file spans `[1, 20)`.  The declaration
`var x int, y int` without parentheses ends where its first spec ends, at 10,
and its second spec spans `[12, 17)`.

In the expression `(x)` with `)` at the greatest `int` the end of the
expression, the position of `)` plus 1 on `int`, is the least `int`: the
operand `x` at `[2, 3)` is not contained in the span of the expression, and the
search on the expression at position 2 returns no match although the operand
contains 2 and the search on the operand returns it.

In the function declaration with `func` at 4, the name at 5, a parameter list
that is an opening parenthesis at 6 with no field and no closing parenthesis,
and the body `{ a }` at `[1, 4)`, no end of a span wraps around; the parameter
list ends at `NoPos`, so that the body follows it in source order, and the
declaration starts at 4: the body is not contained in its span, and the search
on the declaration at position 2 returns no match although it would reach `a`,
which contains 2. -/
theorem child_not_contained :
    (Node.WF (.Field fieldDocX) ∧ Node.Fitting (.Field fieldDocX) ∧
      Node.CommentGroup docD ∈ (Node.Field fieldDocX).children ∧
      Node.CommentGroup commentC ∈ (Node.Field fieldDocX).children ∧
      (Node.Field fieldDocX).Pos = .ok 6 ∧ (Node.Field fieldDocX).End = .ok 11 ∧
      (Node.CommentGroup docD).Pos = .ok 1 ∧ (Node.CommentGroup docD).End = .ok 5 ∧
      (Node.CommentGroup commentC).Pos = .ok 13 ∧
      (Node.CommentGroup commentC).End = .ok 17 ∧
      ¬ Node.Contains (.Field fieldDocX) (.CommentGroup docD) ∧
      ¬ Node.Contains (.Field fieldDocX) (.CommentGroup commentC)) ∧
    (Node.WF (.File fileCommentFirst) ∧ Node.Fitting (.File fileCommentFirst) ∧
      Node.CommentGroup commentAt1 ∈ (Node.File fileCommentFirst).children ∧
      (Node.File fileCommentFirst).Pos = .ok 6 ∧ (Node.File fileCommentFirst).End = .ok 15 ∧
      (Node.CommentGroup commentAt1).Pos = .ok 1 ∧
      (Node.CommentGroup commentAt1).End = .ok 5 ∧
      ¬ Node.Contains (.File fileCommentFirst) (.CommentGroup commentAt1)) ∧
    (Node.WF (.Package packageVarX) ∧ Node.Fitting (.Package packageVarX) ∧
      Node.File fileVarX ∈ (Node.Package packageVarX).children ∧
      (Node.Package packageVarX).Pos = .ok token.NoPos ∧
      (Node.Package packageVarX).End = .ok token.NoPos ∧
      (Node.File fileVarX).Pos = .ok 1 ∧ (Node.File fileVarX).End = .ok 20 ∧
      ¬ Node.Contains (.Package packageVarX) (.File fileVarX)) ∧
    (Node.WF (.Decl genDeclTwoSpecs) ∧ Node.Fitting (.Decl genDeclTwoSpecs) ∧
      Node.Spec (.ValueSpec none [some ⟨12, "y"⟩] (some (.Ident ⟨14, "int"⟩)) [] none) ∈
        (Node.Decl genDeclTwoSpecs).children ∧
      (Node.Decl genDeclTwoSpecs).Pos = .ok 1 ∧ (Node.Decl genDeclTwoSpecs).End = .ok 10 ∧
      (Node.Spec (.ValueSpec none [some ⟨12, "y"⟩] (some (.Ident ⟨14, "int"⟩)) [] none)).Pos =
        .ok 12 ∧
      (Node.Spec (.ValueSpec none [some ⟨12, "y"⟩] (some (.Ident ⟨14, "int"⟩)) [] none)).End =
        .ok 17 ∧
      ¬ Node.Contains (.Decl genDeclTwoSpecs)
        (.Spec (.ValueSpec none [some ⟨12, "y"⟩] (some (.Ident ⟨14, "int"⟩)) [] none))) ∧
    (Node.WF (.Expr parenAtMaxInt) ∧
      Node.Expr (.Ident ⟨2, "x"⟩) ∈ (Node.Expr parenAtMaxInt).children ∧
      some (Node.Expr (.Ident ⟨2, "x"⟩)) ∈ (Node.Expr parenAtMaxInt).callArgs ∧
      (Node.Expr parenAtMaxInt).Pos = .ok 1 ∧ (Node.Expr parenAtMaxInt).End = .ok MinInt ∧
      (Node.Expr (.Ident ⟨2, "x"⟩)).Pos = .ok 2 ∧ (Node.Expr (.Ident ⟨2, "x"⟩)).End = .ok 3 ∧
      ¬ Node.Contains (.Expr parenAtMaxInt) (.Expr (.Ident ⟨2, "x"⟩)) ∧
      findNodeHelper (some (.Expr (.Ident ⟨2, "x"⟩))) 2 = .ok (some (.Expr (.Ident ⟨2, "x"⟩))) ∧
      findNodeHelper (some (.Expr parenAtMaxInt)) 2 = .ok none) ∧
    (Node.WF (.Decl funcDeclOpenOnly) ∧ Node.Every Node.endFits (.Decl funcDeclOpenOnly) ∧
      Node.Stmt (.BlockStmt blockA) ∈ (Node.Decl funcDeclOpenOnly).children ∧
      some (Node.Stmt (.BlockStmt blockA)) ∈ (Node.Decl funcDeclOpenOnly).callArgs ∧
      (Node.Decl funcDeclOpenOnly).Pos = .ok 4 ∧ (Node.Decl funcDeclOpenOnly).End = .ok 4 ∧
      (Node.Stmt (.BlockStmt blockA)).Pos = .ok 1 ∧
      (Node.Stmt (.BlockStmt blockA)).End = .ok 4 ∧
      ¬ Node.Contains (.Decl funcDeclOpenOnly) (.Stmt (.BlockStmt blockA)) ∧
      Node.Reached (.Expr (.Ident ⟨2, "a"⟩)) (.Decl funcDeclOpenOnly) ∧
      findNodeHelper (some (.Expr (.Ident ⟨2, "a"⟩))) 2 = .ok (some (.Expr (.Ident ⟨2, "a"⟩))) ∧
      findNodeHelper (some (.Decl funcDeclOpenOnly)) 2 = .ok none) := by
  refine ⟨⟨Node.everyCheck_sound _ 4 _ rfl, Node.everyCheck_sound _ 4 _ rfl, List.Mem.head _,
      List.Mem.tail _ (List.Mem.tail _ (List.Mem.tail _ (List.Mem.head _))),
      rfl, rfl, rfl, rfl, rfl, rfl,
      Node.not_contains_of_pos _ _ 6 1 rfl rfl (by decide),
      Node.not_contains_of_end _ _ 11 17 rfl rfl (by decide)⟩,
    ⟨Node.everyCheck_sound _ 4 _ rfl, Node.everyCheck_sound _ 4 _ rfl, ?_, rfl, rfl, rfl, rfl,
      Node.not_contains_of_pos _ _ 6 1 rfl rfl (by decide)⟩,
    ⟨Node.everyCheck_sound _ 6 _ rfl, Node.everyCheck_sound _ 6 _ rfl, ?_, rfl, rfl, rfl, rfl,
      Node.not_contains_of_end _ _ token.NoPos 20 rfl rfl (by decide)⟩,
    ⟨Node.everyCheck_sound _ 4 _ rfl, Node.everyCheck_sound _ 4 _ rfl, ?_, rfl, rfl, rfl, rfl,
      Node.not_contains_of_end _ _ 10 17 rfl rfl (by decide)⟩,
    ⟨Node.everyCheck_sound _ 3 _ rfl, ?_, ?_, rfl, rfl, rfl, rfl,
      Node.not_contains_of_end _ _ MinInt 3 rfl rfl (by decide), rfl, rfl⟩,
    ⟨Node.everyCheck_sound _ 5 _ rfl, Node.everyCheck_sound _ 5 _ rfl, ?_, ?_, rfl, rfl, rfl, rfl,
      Node.not_contains_of_pos _ _ 4 1 rfl rfl (by decide), ?_, rfl, rfl⟩⟩
  · repeat (first | exact List.Mem.head _ | apply List.Mem.tail)
  · repeat (first | exact List.Mem.head _ | apply List.Mem.tail)
  · repeat (first | exact List.Mem.head _ | apply List.Mem.tail)
  · repeat (first | exact List.Mem.head _ | apply List.Mem.tail)
  · exact List.Mem.head _
  · repeat (first | exact List.Mem.head _ | apply List.Mem.tail)
  · exact List.Mem.tail _ (List.Mem.tail _ (List.Mem.head _))
  · exact Node.Reached.step _ (.Stmt (.BlockStmt blockA)) _
      (List.Mem.tail _ (List.Mem.tail _ (List.Mem.head _)))
      (Node.Reached.step _ (.Stmt (.ExprStmt (some (.Ident ⟨2, "a"⟩)))) _ (List.Mem.head _)
        (Node.Reached.step _ (.Expr (.Ident ⟨2, "a"⟩)) _ (List.Mem.head _)
          (Node.Reached.refl _)))

/-- C24, amended: for every node `n` of a well-formed tree in which no `End`
derivation wraps around and every field list without fields has both of its
delimiters or none, and every child `c` that the span of `n` is derived to
cover (the children of its layout: names, types, operands, receiver,
parameters, results, bodies, tags, the elements of its lists, and the type of a
function declaration), the span of the child is contained in the span of the
parent: `Pos(n) ≤ Pos(c)` and `End(c) ≤ End(n)`.  Every child on which the
search calls itself is such a child, so that pruning a subtree on the span of
its root never hides a node the search could reach below it: when the span of
a node `d` reached from `n` through these calls contains `pos`, the span of `n`
contains `pos`. -/
theorem wellFormed_child_contained (root n : Node) (hwf : Node.WF root)
    (hfit : Node.Fitting root) (hn : Node.Within n root) :
    (∀ c ∈ n.spanChildren,
      ∃ p e cp ce, n.Pos = .ok p ∧ n.End = .ok e ∧ c.Pos = .ok cp ∧ c.End = .ok ce ∧
        p ≤ cp ∧ ce ≤ e) ∧
    (∀ a, some a ∈ n.callArgs → a ∈ n.spanChildren) ∧
    (∀ d pos, Node.Reached d n → d.InSpan pos → n.InSpan pos) :=
  ⟨Node.WF_contains n (Node.Every_within _ n root hn hwf) (Node.Every_within _ n root hn hfit),
    fun a ha => Node.callArgs_spanChildren n a ha,
    fun d pos hr hd => Node.reached_inSpan d n pos hr (Node.Every_within _ n root hn hwf)
      (Node.Every_within _ n root hn hfit) hd⟩

/-- C24 (witness): in the well-formed file `package q; func g(a int) { a }`
the body `{ a }` is a child of the function declaration, and its span
`[25, 30)` is contained in the span `[11, 30)` of the declaration; the
identifier `a` at 27 is reached from the declaration through the body and the
expression statement, and 27 lies in the span of the declaration. -/
theorem wellFormed_child_contained_witness :
    Node.WF (.File fileFuncG) ∧ Node.Fitting (.File fileFuncG) ∧
      Node.Within (.Decl funcDeclG) (.File fileFuncG) ∧
      Node.Stmt (.BlockStmt (.mk 25 [some (.ExprStmt (some (.Ident ⟨27, "a"⟩)))] 29)) ∈
        (Node.Decl funcDeclG).spanChildren ∧
      Node.Reached (.Expr (.Ident ⟨27, "a"⟩)) (.Decl funcDeclG) ∧
      (Node.Expr (.Ident ⟨27, "a"⟩)).InSpan 27 ∧
      (Node.Decl funcDeclG).InSpan 27 ∧
      ∃ p e cp ce, (Node.Decl funcDeclG).Pos = .ok p ∧ (Node.Decl funcDeclG).End = .ok e ∧
        (Node.Stmt (.BlockStmt (.mk 25 [some (.ExprStmt (some (.Ident ⟨27, "a"⟩)))] 29))).Pos =
          .ok cp ∧
        (Node.Stmt (.BlockStmt (.mk 25 [some (.ExprStmt (some (.Ident ⟨27, "a"⟩)))] 29))).End =
          .ok ce ∧
        p ≤ cp ∧ ce ≤ e := by
  have hwf : Node.WF (.File fileFuncG) := Node.everyCheck_sound _ 8 _ rfl
  have hfit : Node.Fitting (.File fileFuncG) := Node.everyCheck_sound _ 8 _ rfl
  have hn : Node.Within (.Decl funcDeclG) (.File fileFuncG) :=
    Node.Within.step _ _ _ (List.Mem.tail _ (List.Mem.head _)) (Node.Within.refl _)
  have hc : Node.Stmt (.BlockStmt (.mk 25 [some (.ExprStmt (some (.Ident ⟨27, "a"⟩)))] 29)) ∈
      (Node.Decl funcDeclG).spanChildren :=
    List.Mem.tail _ (List.Mem.tail _ (List.Mem.head _))
  have hr : Node.Reached (.Expr (.Ident ⟨27, "a"⟩)) (.Decl funcDeclG) :=
    Node.Reached.step _
      (.Stmt (.BlockStmt (.mk 25 [some (.ExprStmt (some (.Ident ⟨27, "a"⟩)))] 29))) _
      (List.Mem.tail _ (List.Mem.tail _ (List.Mem.head _)))
      (Node.Reached.step _ (.Stmt (.ExprStmt (some (.Ident ⟨27, "a"⟩)))) _ (List.Mem.head _)
        (Node.Reached.step _ (.Expr (.Ident ⟨27, "a"⟩)) _ (List.Mem.head _)
          (Node.Reached.refl _)))
  have hd : (Node.Expr (.Ident ⟨27, "a"⟩)).InSpan 27 :=
    ⟨27, 28, rfl, rfl, by decide, by decide⟩
  have h := wellFormed_child_contained (.File fileFuncG) (.Decl funcDeclG) hwf hfit hn
  exact ⟨hwf, hfit, hn, hc, hr, hd, h.2.2 _ 27 hr hd, h.1 _ hc⟩

/-! ## Termination of the search -/

/-- C30, as stated, fails by one: on the statement `break` without label, a
tree of nesting depth 1, the search at position 1 calls `findNodeHelper` on the
nil label from the call on the statement: two calls are active at the same
time, so that the run does not return within a depth of 1 and returns, with no
match, within a depth of 2. -/
theorem findNodeHelper_depth_exceeds_nesting :
    Node.nesting (some (.Stmt breakStmt)) = 1 ∧
    (Node.Stmt breakStmt).children = [] ∧
    (Node.Stmt breakStmt).callArgs = [none] ∧
    findNodeHelper (some (.Stmt breakStmt)) 1 = .ok none ∧
    findNodeHelperFuel 1 (some (.Stmt breakStmt)) 1 = none ∧
    findNodeHelperFuel 2 (some (.Stmt breakStmt)) 1 = some (.ok none) :=
  ⟨rfl, rfl, rfl, rfl, rfl, rfl⟩

/-- C30, amended: `findNodeHelper` is total on finite trees.  Every recursive
call is made on a direct child of the current node or on a nil child field: the
case of a node is its span test followed by the calls on its call arguments,
one after the other, and each call argument that is a node is a direct child.
So for every tree and every `pos` the search returns, with a recursion depth of
at most the nesting depth of the tree plus one: run with a bound on the number
of calls active at the same time, the search returns its result as soon as the
bound is the nesting depth plus one, or more. -/
theorem findNodeHelper_total (n : Node) (pos : token.Pos) (k : Nat) :
    (∀ c ∈ n.callArgs, c = none ∨ ∃ a, c = some a ∧ a ∈ n.children) ∧
    findNodeHelper (some n) pos =
      spanGuard n.Pos n.End pos
        (callChain (fun c => findNodeHelper c pos) n.callArgs (n.baseCase pos)) ∧
    maxNesting n.callArgs + 1 = Node.nesting (some n) ∧
    findNodeHelperFuel (Node.nesting (some n) + 1 + k) (some n) pos =
      some (findNodeHelper (some n) pos) := by
  refine ⟨?_, ?_, ?_, findNodeHelperFuel_enough _ (some n) pos (by omega)⟩
  · intro c hc
    cases c with
    | none => exact Or.inl rfl
    | some a =>
      exact Or.inr ⟨a, rfl,
        Node.mem_children_of_spanChildren n a (Node.callArgs_spanChildren n a hc)⟩
  · show spanGuard n.Pos n.End pos (n.findCase pos) = _
    rw [Node.findCase_eq_calls]
  · rw [Node.maxNesting_callArgs]
    rfl

/-- C30 (witness): the file `package q; func g(a int) { a }` has nesting depth
6; with at most 7 calls active at the same time the search at position 27
returns the identifier `a`. -/
theorem findNodeHelper_total_witness :
    Node.nesting (some (.File fileFuncG)) = 6 ∧
    findNodeHelperFuel 7 (some (.File fileFuncG)) 27 =
      some (findNodeHelper (some (.File fileFuncG)) 27) ∧
    findNodeHelper (some (.File fileFuncG)) 27 = .ok (some (.Expr (.Ident ⟨27, "a"⟩))) :=
  ⟨rfl, (findNodeHelper_total (.File fileFuncG) 27 0).2.2.2, rfl⟩

end GoDef
